import Mathlib

set_option autoImplicit false

/-!
# BAP orchestration engine (profiles/audio/bap.c)

A shallow embedding of the endpoint / setup registry, the configuration
request parser, the CIG/BIG group scheduler and the broadcast PA request
queue of `profiles/audio/bap.c`.

Memory model.  C objects that are reached through pointers (`struct
bap_setup`, `struct bap_ep`, `struct bap_data`, `struct bap_adapter`) live in
a `World`: every object carries its address in the field `ptr`, a queue of
pointers is a `List Nat` of addresses, and dereferencing a pointer is a
lookup by address.  `new0` hands out addresses from a counter and never
reuses one.  Calls into collaborators that are not part of this file (the
BAP transport `bt_bap_*`, `bt_io_*`, GLib sources, D-Bus) are recorded in the
`log` of the world, and what such a call returns is read from an `Env`.
-/

namespace Bap

/-! ## Constants -/

/-- Value of `BT_ISO_QOS_CIG_UNSET` (lib/bluetooth/iso.h). -/
def BT_ISO_QOS_CIG_UNSET : Nat := 0xff
/-- Value of `BT_ISO_QOS_CIS_UNSET` (lib/bluetooth/iso.h). -/
def BT_ISO_QOS_CIS_UNSET : Nat := 0xff
/-- Value of `BT_ISO_QOS_BIG_UNSET` (lib/bluetooth/iso.h). -/
def BT_ISO_QOS_BIG_UNSET : Nat := 0xff
/-- Value of `BT_ISO_QOS_BIS_UNSET` (lib/bluetooth/iso.h). -/
def BT_ISO_QOS_BIS_UNSET : Nat := 0xff
/-- Value of `BT_ISO_SYNC_TIMEOUT` (lib/bluetooth/iso.h). -/
def BT_ISO_SYNC_TIMEOUT : Nat := 0x07d0
/-- Value of `EINVAL`. -/
def EINVAL : Int := 22

/-- Stream states `BT_BAP_STREAM_STATE_*` (src/shared/bap.h). -/
def BT_BAP_STREAM_STATE_IDLE : Nat := 0
def BT_BAP_STREAM_STATE_CONFIG : Nat := 1
def BT_BAP_STREAM_STATE_QOS : Nat := 2
def BT_BAP_STREAM_STATE_ENABLING : Nat := 3
def BT_BAP_STREAM_STATE_STREAMING : Nat := 4
def BT_BAP_STREAM_STATE_DISABLING : Nat := 5
def BT_BAP_STREAM_STATE_RELEASING : Nat := 6

/-- PAC / stream directions `BT_BAP_SINK`, `BT_BAP_SOURCE`,
`BT_BAP_BCAST_SOURCE`, `BT_BAP_BCAST_SINK`; `other` is any further value. -/
inductive pac_type where
  | BT_BAP_SINK
  | BT_BAP_SOURCE
  | BT_BAP_BCAST_SOURCE
  | BT_BAP_BCAST_SINK
  | other
  deriving DecidableEq, Repr

/-- Stream kinds `BT_BAP_STREAM_TYPE_UCAST` / `BT_BAP_STREAM_TYPE_BCAST`;
`other` is any further value of the `uint8_t`. -/
inductive stream_type where
  | BT_BAP_STREAM_TYPE_UCAST
  | BT_BAP_STREAM_TYPE_BCAST
  | other
  deriving DecidableEq, Repr

/-! ## D-Bus values of a `SetConfiguration` call -/

/-- The argument types `DBUS_TYPE_*` that the parsers compare against. -/
inductive dbus_type where
  | DBUS_TYPE_BYTE
  | DBUS_TYPE_UINT16
  | DBUS_TYPE_UINT32
  | DBUS_TYPE_ARRAY
  | DBUS_TYPE_OTHER
  deriving DecidableEq, Repr

/-- The value of one entry of the `QoS` dictionary (the content of its
variant): a byte, a 16 or 32 bit unsigned integer, a fixed array of bytes, or
a value of any other D-Bus type. -/
inductive qos_value where
  | byte (v : Nat)
  | uint16 (v : Nat)
  | uint32 (v : Nat)
  | array (bytes : List Nat)
  | other
  deriving DecidableEq, Repr

/-- What `dbus_message_iter_get_arg_type` returns on an entry value. -/
def qos_value.arg_type : qos_value → dbus_type
  | .byte _ => .DBUS_TYPE_BYTE
  | .uint16 _ => .DBUS_TYPE_UINT16
  | .uint32 _ => .DBUS_TYPE_UINT32
  | .array _ => .DBUS_TYPE_ARRAY
  | .other => .DBUS_TYPE_OTHER

/-- What `dbus_message_iter_get_basic` stores for a basic value. -/
def qos_value.get_basic : qos_value → Nat
  | .byte v => v
  | .uint16 v => v
  | .uint32 v => v
  | _ => 0

/-- The value of one entry of the `properties` dictionary of
`SetConfiguration`: a fixed array of bytes, an array of dictionary entries
(`a{sv}`), or a value of any other D-Bus type. -/
inductive prop_value where
  | array (bytes : List Nat)
  | dict (entries : List (String × qos_value))
  | other
  deriving DecidableEq, Repr

/-- What `dbus_message_iter_get_arg_type` returns on a property value: both a
byte array and an array of dictionary entries are `DBUS_TYPE_ARRAY`. -/
def prop_value.arg_type : prop_value → dbus_type
  | .array _ => .DBUS_TYPE_ARRAY
  | .dict _ => .DBUS_TYPE_ARRAY
  | .other => .DBUS_TYPE_OTHER

/-- The method call `SetConfiguration(endpoint, properties)`: the message
object, its object path argument and the entries of its dictionary. -/
structure DBusMessage where
  ptr : Nat
  path : String
  props : List (String × prop_value)
  deriving DecidableEq, Repr

/-- The replies the engine builds: `dbus_message_new_method_return` /
`g_dbus_create_reply`, `btd_error_invalid_args`, `btd_error_failed`. -/
inductive Reply where
  | method_return
  | invalid_args
  | failed (reason : String)
  deriving DecidableEq, Repr

/-- C `strcasecmp`, as the truth value of its result: `false` (zero) when the
two strings are equal up to the case of ASCII letters. -/
def strcasecmp (a b : String) : Bool :=
  a.data.map Char.toLower != b.data.map Char.toLower

/-! ## QoS records -/

/-- `struct bt_bap_io_qos`. -/
structure bt_bap_io_qos where
  interval : Nat := 0
  latency : Nat := 0
  sdu : Nat := 0
  phy : Nat := 0
  rtn : Nat := 0
  deriving DecidableEq, Repr

/-- `struct bt_bap_ucast_qos`. -/
structure bt_bap_ucast_qos where
  cig_id : Nat := 0
  cis_id : Nat := 0
  framing : Nat := 0
  delay : Nat := 0
  target_latency : Nat := 0
  io_qos : bt_bap_io_qos := {}
  deriving DecidableEq, Repr

/-- `struct bt_bap_bcast_qos`; `bcode` is the `struct iovec *`. -/
structure bt_bap_bcast_qos where
  big : Nat := 0
  bis : Nat := 0
  sync_factor : Nat := 0
  packing : Nat := 0
  framing : Nat := 0
  encryption : Nat := 0
  bcode : Option (List Nat) := none
  options : Nat := 0
  skip : Nat := 0
  sync_timeout : Nat := 0
  sync_cte_type : Nat := 0
  mse : Nat := 0
  timeout : Nat := 0
  io_qos : bt_bap_io_qos := {}
  delay : Nat := 0
  deriving DecidableEq, Repr

/-- `struct bt_bap_qos`.  The two views `ucast` and `bcast` of the C union are
kept as two records; a setup is read and written through the view that
`setup_new` selected for it. -/
structure bt_bap_qos where
  ucast : bt_bap_ucast_qos := {}
  bcast : bt_bap_bcast_qos := {}
  deriving DecidableEq, Repr

/-- `struct bt_iso_io_qos` (lib/bluetooth/bluetooth.h). -/
structure bt_iso_io_qos where
  interval : Nat := 0
  latency : Nat := 0
  sdu : Nat := 0
  phy : Nat := 0
  rtn : Nat := 0
  deriving DecidableEq, Repr

/-- `struct bt_iso_ucast_qos`; `in_qos` and `out_qos` are the members `in`
and `out`. -/
structure bt_iso_ucast_qos where
  cig : Nat := 0
  cis : Nat := 0
  in_qos : bt_iso_io_qos := {}
  out_qos : bt_iso_io_qos := {}
  deriving DecidableEq, Repr

/-- `struct bt_iso_bcast_qos`; `bcode` is the 16 byte array, `in_qos` and
`out_qos` are the members `in` and `out`. -/
structure bt_iso_bcast_qos where
  big : Nat := 0
  bis : Nat := 0
  sync_factor : Nat := 0
  packing : Nat := 0
  framing : Nat := 0
  in_qos : bt_iso_io_qos := {}
  out_qos : bt_iso_io_qos := {}
  encryption : Nat := 0
  bcode : List Nat := []
  options : Nat := 0
  skip : Nat := 0
  sync_timeout : Nat := 0
  sync_cte_type : Nat := 0
  mse : Nat := 0
  timeout : Nat := 0
  deriving DecidableEq, Repr

/-- `struct bt_iso_qos`, the two views of the union kept as two records. -/
structure bt_iso_qos where
  ucast : bt_iso_ucast_qos := {}
  bcast : bt_iso_bcast_qos := {}
  deriving DecidableEq, Repr

/-- The two functions the parser pointer of a setup can hold. -/
inductive qos_parser_kind where
  | setup_parse_ucast_qos
  | setup_parse_bcast_qos
  deriving DecidableEq, Repr

/-- `struct bap_setup`.  `ptr` is the address of the object, `ep` and `stream`
are pointers, `io` is the `GIOChannel` (named by its file descriptor), `msg`
the referenced `SetConfiguration` message, `destroy` tells whether the
destroy hook is `setup_bcast_destroy` (or `NULL`). -/
structure bap_setup where
  ptr : Nat
  ep : Option Nat := none
  stream : Option Nat := none
  qos : bt_bap_qos := {}
  qos_parser_fn : qos_parser_kind := .setup_parse_ucast_qos
  io : Option Nat := none
  io_id : Nat := 0
  recreate : Bool := false
  cig_active : Bool := false
  caps : Option (List Nat) := none
  metadata : Option (List Nat) := none
  id : Nat := 0
  base : Option (List Nat) := none
  msg : Option Nat := none
  destroy : Bool := false
  deriving DecidableEq, Repr

/-! ## Parsing the configuration dictionary -/

/-- `parse_io_qos`: the five I/O keys; a key that is none of them is left
alone and the result is 0. -/
def parse_io_qos (key : String) (var : dbus_type) (iter : qos_value)
    (qos : bt_bap_io_qos) : Int × bt_bap_io_qos :=
  if !strcasecmp key "Interval" then
    if var ≠ .DBUS_TYPE_UINT32 then (-EINVAL, qos)
    else (0, { qos with interval := iter.get_basic })
  else if !strcasecmp key "PHY" then
    if var ≠ .DBUS_TYPE_BYTE then (-EINVAL, qos)
    else (0, { qos with phy := iter.get_basic })
  else if !strcasecmp key "SDU" then
    if var ≠ .DBUS_TYPE_UINT16 then (-EINVAL, qos)
    else (0, { qos with sdu := iter.get_basic })
  else if !strcasecmp key "Retransmissions" then
    if var ≠ .DBUS_TYPE_BYTE then (-EINVAL, qos)
    else (0, { qos with rtn := iter.get_basic })
  else if !strcasecmp key "Latency" then
    if var ≠ .DBUS_TYPE_UINT16 then (-EINVAL, qos)
    else (0, { qos with latency := iter.get_basic })
  else (0, qos)

/-- `parse_array` on a local `struct iovec`: the bytes of a fixed array. -/
def parse_array : qos_value → List Nat
  | .array bytes => bytes
  | _ => []

/-- `setup_parse_ucast_qos`; `qos` is `&setup->qos`, of which only the
`ucast` view is written. -/
def setup_parse_ucast_qos (setup : bap_setup) (key : String) (var : dbus_type)
    (iter : qos_value) : Int × bap_setup :=
  let qos := setup.qos.ucast
  let r : Int × bt_bap_ucast_qos :=
    if !strcasecmp key "CIG" then
      if var ≠ .DBUS_TYPE_BYTE then (-EINVAL, qos)
      else (0, { qos with cig_id := iter.get_basic })
    else if !strcasecmp key "CIS" then
      if var ≠ .DBUS_TYPE_BYTE then (-EINVAL, qos)
      else (0, { qos with cis_id := iter.get_basic })
    else if !strcasecmp key "Framing" then
      if var ≠ .DBUS_TYPE_BYTE then (-EINVAL, qos)
      else (0, { qos with framing := iter.get_basic })
    else if !strcasecmp key "PresentationDelay" then
      if var ≠ .DBUS_TYPE_UINT32 then (-EINVAL, qos)
      else (0, { qos with delay := iter.get_basic })
    else if !strcasecmp key "TargetLatency" then
      if var ≠ .DBUS_TYPE_BYTE then (-EINVAL, qos)
      else (0, { qos with target_latency := iter.get_basic })
    else
      let err := parse_io_qos key var iter qos.io_qos
      if err.1 ≠ 0 then (err.1, qos)
      else (0, { qos with io_qos := err.2 })
  (r.1, { setup with qos := { setup.qos with ucast := r.2 } })

/-- `setup_parse_bcast_qos`; `qos` is `&setup->qos`, of which only the
`bcast` view is written. -/
def setup_parse_bcast_qos (setup : bap_setup) (key : String) (var : dbus_type)
    (iter : qos_value) : Int × bap_setup :=
  let qos := setup.qos.bcast
  let r : Int × bt_bap_bcast_qos :=
    if !strcasecmp key "Encryption" then
      if var ≠ .DBUS_TYPE_BYTE then (-EINVAL, qos)
      else (0, { qos with encryption := iter.get_basic })
    else if !strcasecmp key "BIG" then
      if var ≠ .DBUS_TYPE_BYTE then (-EINVAL, qos)
      else (0, { qos with big := iter.get_basic })
    else if !strcasecmp key "Options" then
      if var ≠ .DBUS_TYPE_BYTE then (-EINVAL, qos)
      else (0, { qos with options := iter.get_basic })
    else if !strcasecmp key "Skip" then
      if var ≠ .DBUS_TYPE_UINT16 then (-EINVAL, qos)
      else (0, { qos with skip := iter.get_basic })
    else if !strcasecmp key "SyncTimeout" then
      if var ≠ .DBUS_TYPE_UINT16 then (-EINVAL, qos)
      else (0, { qos with sync_timeout := iter.get_basic })
    else if !strcasecmp key "SyncType" then
      if var ≠ .DBUS_TYPE_BYTE then (-EINVAL, qos)
      else (0, { qos with sync_cte_type := iter.get_basic })
    else if !strcasecmp key "SyncFactor" then
      if var ≠ .DBUS_TYPE_BYTE then (-EINVAL, qos)
      else (0, { qos with sync_factor := iter.get_basic })
    else if !strcasecmp key "MSE" then
      if var ≠ .DBUS_TYPE_BYTE then (-EINVAL, qos)
      else (0, { qos with mse := iter.get_basic })
    else if !strcasecmp key "Timeout" then
      if var ≠ .DBUS_TYPE_UINT16 then (-EINVAL, qos)
      else (0, { qos with timeout := iter.get_basic })
    else if !strcasecmp key "PresentationDelay" then
      if var ≠ .DBUS_TYPE_UINT32 then (-EINVAL, qos)
      else (0, { qos with delay := iter.get_basic })
    else if !strcasecmp key "BCode" then
      if var ≠ .DBUS_TYPE_ARRAY then (-EINVAL, qos)
      else
        let iov := parse_array iter
        if iov.length ≠ 16 then (-EINVAL, qos)
        else (0, { qos with bcode := some iov })
    else
      let err := parse_io_qos key var iter qos.io_qos
      if err.1 ≠ 0 then (err.1, qos)
      else (0, { qos with io_qos := err.2 })
  (r.1, { setup with qos := { setup.qos with bcast := r.2 } })

/-- The call `setup->qos_parser_fn(setup, key, var, &value)` (the C field is named qos-parser, written here with the suffix fn). -/
def qos_parser_kind.call : qos_parser_kind → bap_setup → String → dbus_type →
    qos_value → Int × bap_setup
  | .setup_parse_ucast_qos => Bap.setup_parse_ucast_qos
  | .setup_parse_bcast_qos => Bap.setup_parse_bcast_qos

/-- `setup_parse_qos`: the loop over the entries of the `QoS` dictionary,
stopping at the first entry the parser rejects. -/
def setup_parse_qos (setup : bap_setup) : List (String × qos_value) → Int × bap_setup
  | [] => (0, setup)
  | (key, value) :: rest =>
    let r := setup.qos_parser_fn.call setup key value.arg_type value
    if r.1 ≠ 0 then (r.1, r.2)
    else setup_parse_qos r.2 rest

/-- The entries that `setup_parse_qos` walks after
`dbus_message_iter_recurse`: those of a dictionary; a byte array has no
element of type `DBUS_TYPE_DICT_ENTRY`, so the loop does not run. -/
def prop_value.dict_entries : prop_value → List (String × qos_value)
  | .dict entries => entries
  | _ => []

/-- The bytes `parse_array` reads from a property value into `iov`; for an
array that is not a fixed array `dbus_message_iter_get_fixed_array` stores
nothing and `iov` keeps the value `prev` it had. -/
def prop_value.fixed_array (prev : List Nat) : prop_value → List Nat
  | .array bytes => bytes
  | _ => prev

/-- The loop of `setup_parse_configuration`; `iov` is the local `struct iovec`
shared by the iterations. -/
def setup_parse_configuration_loop (setup : bap_setup) (iov : List Nat) :
    List (String × prop_value) → Int × bap_setup
  | [] => (0, setup)
  | (key, value) :: rest =>
    let var := value.arg_type
    if !strcasecmp key "Capabilities" then
      if var ≠ .DBUS_TYPE_ARRAY then (-EINVAL, setup)
      else
        let iov' := value.fixed_array iov
        setup_parse_configuration_loop { setup with caps := some iov' } iov' rest
    else if !strcasecmp key "Metadata" then
      if var ≠ .DBUS_TYPE_ARRAY then (-EINVAL, setup)
      else
        let iov' := value.fixed_array iov
        setup_parse_configuration_loop { setup with metadata := some iov' } iov' rest
    else if !strcasecmp key "QoS" then
      if var ≠ .DBUS_TYPE_ARRAY then (-EINVAL, setup)
      else
        let r := setup_parse_qos setup value.dict_entries
        if r.1 ≠ 0 then (-EINVAL, r.2)
        else setup_parse_configuration_loop r.2 iov rest
    else setup_parse_configuration_loop setup iov rest

/-- `setup_parse_configuration`. -/
def setup_parse_configuration (setup : bap_setup) (props : List (String × prop_value)) :
    Int × bap_setup :=
  setup_parse_configuration_loop setup [] props

/-! ## The world: engine objects, collaborators, effects -/

/-- `struct bap_ep`.  `setups` is the queue of setup pointers; a `NULL` queue
and an empty queue are both `[]` (every queue function treats them alike,
and `setup_new` creates the queue before it pushes). -/
structure bap_ep where
  ptr : Nat
  path : String := ""
  data : Nat := 0
  lpac : Nat := 0
  rpac : Option Nat := none
  locations : Nat := 0
  supported_context : Nat := 0
  context : Nat := 0
  setups : List Nat := []
  deriving DecidableEq, Repr

/-- `struct bap_bcast_pa_req`; `data` is the union of the service and the
setup pointer, `type` is `BAP_PA_SHORT_REQ` (0) or `BAP_PA_BIG_SYNC_REQ` (1). -/
structure bap_bcast_pa_req where
  ptr : Nat
  type : Nat := 0
  in_progress : Bool := false
  data : Nat := 0
  deriving DecidableEq, Repr

def BAP_PA_SHORT_REQ : Nat := 0
def BAP_PA_BIG_SYNC_REQ : Nat := 1

/-- `struct bap_adapter`; the requests of `bcast_pa_requests` are owned by the
queue and are kept in it by value. -/
structure bap_adapter where
  ptr : Nat
  adapter : Nat := 0
  pa_timer_id : Nat := 0
  bcast_pa_requests : List bap_bcast_pa_req := []
  deriving DecidableEq, Repr

/-- `struct bap_data` (one session).  `srcs`, `snks`, `bcast` are queues of
endpoint pointers; `bcast_snks` is `none` while the queue is `NULL` (it is
only created by `bap_bcast_probe`) and otherwise a queue of setup pointers;
`streams` is a queue of stream pointers (`NULL` and empty alike `[]`). -/
structure bap_data where
  ptr : Nat
  device : Option Nat := none
  adapter : Option Nat := none
  service : Option Nat := none
  bap : Nat := 0
  srcs : List Nat := []
  snks : List Nat := []
  bcast : List Nat := []
  bcast_snks : Option (List Nat) := none
  streams : List Nat := []
  listen_io : Option Nat := none
  selecting : Int := 0
  user_data : Option Nat := none
  deriving DecidableEq, Repr

/-- Calls into collaborators, in the order they are made. -/
inductive Event where
  | g_source_remove (id : Nat)
  | close (fd : Int)
  | bt_bap_stream_io_connecting (stream : Option Nat) (fd : Int)
  | bt_bap_stream_cancel (stream : Nat) (id : Nat)
  | g_dbus_send_message (msg : Nat) (reply : Reply)
  | bt_bap_stream_metadata (stream : Option Nat) (meta : Option (List Nat))
  | bt_bap_stream_config (stream : Option Nat) (caps : Option (List Nat))
  | bt_bap_stream_set_user_data (stream : Option Nat) (path : String)
  | bt_bap_stream_qos (stream : Nat)
  | bt_bap_stream_release (stream : Nat)
  | service_set_connecting (service : Nat)
  | bt_io_connect (setup : Nat) (broadcast : Bool) (qos : bt_iso_qos) (defer : Bool) (ok : Bool)
  | bt_io_listen (data : Nat) (qos : bt_iso_qos) (ok : Bool)
  | g_io_channel_unref (io : Nat)
  | g_dbus_register_interface (path : String) (ok : Bool)
  | g_dbus_unregister_interface (path : String)
  | g_dbus_emit_property_changed (path : String) (name : String)
  | bt_bap_cancel_select (ep : Nat) (type : pac_type)
  | bt_bap_stream_new (stream : Option Nat)
  | bt_bap_pac_set_user_data (pac : Nat) (path : String)
  | free (ptr : Nat)
  | g_io_channel_shutdown (io : Nat)
  | btd_service_connecting_complete (service : Option Nat)
  | bt_bap_stream_set_io (stream : Option Nat) (fd : Int) (ok : Bool)
  | bt_bap_stream_start (stream : Option Nat)
  | bt_bap_unref (bap : Nat)
  deriving DecidableEq, Repr

/-- What the engine can observe of a `struct bt_bap_stream` of the transport:
`bt_bap_stream_get_state`, `bt_bap_stream_get_qos`, whether
`bt_bap_stream_get_io` is non-`NULL`, the descriptor reported by
`bt_bap_stream_io_is_connecting` (if it answers true),
`bt_bap_stream_get_type` and `bt_bap_stream_get_dir`. -/
structure bt_bap_stream where
  state : Nat := 0
  qos : bt_bap_qos := {}
  io : Bool := false
  connecting : Option Int := none
  type : stream_type := .BT_BAP_STREAM_TYPE_UCAST
  dir : pac_type := .BT_BAP_SINK
  deriving DecidableEq, Repr

/-- The state of the engine: the allocated setups and endpoints, the global
queue `sessions` (holding the `bap_data` objects), the global queue
`adapters`, the object paths on which `MEDIA_ENDPOINT_INTERFACE` is
registered, the address `next` that `new0` returns for the next allocation
and the calls made so far.  An allocation advances `next` by one; what is
proved for every behaviour of the allocator is stated for every value of
`next`. -/
structure World where
  setups : List bap_setup := []
  eps : List bap_ep := []
  sessions : List bap_data := []
  adapters : List bap_adapter := []
  interfaces : List String := []
  next : Nat := 1
  log : List Event := []
  deriving DecidableEq, Repr

/-- Dereference a setup pointer. -/
def World.setup (w : World) (p : Nat) : Option bap_setup :=
  w.setups.find? (fun s => s.ptr == p)

/-- Store through a setup pointer. -/
def World.put_setup (w : World) (s : bap_setup) : World :=
  { w with setups := w.setups.map (fun x => if x.ptr = s.ptr then s else x) }

/-- Dereference an endpoint pointer. -/
def World.ep (w : World) (p : Nat) : Option bap_ep :=
  w.eps.find? (fun e => e.ptr == p)

/-- Store through an endpoint pointer. -/
def World.put_ep (w : World) (e : bap_ep) : World :=
  { w with eps := w.eps.map (fun x => if x.ptr = e.ptr then e else x) }

/-- Dereference a session pointer. -/
def World.data (w : World) (p : Nat) : Option bap_data :=
  w.sessions.find? (fun d => d.ptr == p)

/-- Store through a session pointer. -/
def World.put_data (w : World) (d : bap_data) : World :=
  { w with sessions := w.sessions.map (fun x => if x.ptr = d.ptr then d else x) }

/-- Record calls into collaborators. -/
def World.emit (w : World) (es : List Event) : World :=
  { w with log := w.log ++ es }

/-- Run a function that works on one setup object at the object a pointer
refers to. -/
def World.with_setup (w : World) (p : Nat) (f : bap_setup → bap_setup × List Event) :
    World :=
  match w.setup p with
  | none => w
  | some s => ((w.put_setup (f s).1).emit (f s).2)

/-- `setup_io_close`, on the setup object. -/
def setup_io_close (setup : bap_setup) : bap_setup × List Event :=
  let ev1 := if setup.io_id ≠ 0 then [Event.g_source_remove setup.io_id] else []
  let setup := { setup with io_id := 0 }
  match setup.io with
  | none => (setup, ev1)
  | some fd =>
    ({ setup with io := none, cig_active := false },
      ev1 ++ [Event.close (Int.ofNat fd), Event.bt_bap_stream_io_connecting setup.stream (-1)])

/-- `ep_close`: `queue_foreach(ep->setups, setup_io_close, NULL)`. -/
def ep_close (w : World) (ep : Option Nat) : World :=
  match ep with
  | none => w
  | some p =>
    match w.ep p with
    | none => w
    | some e => e.setups.foldl (fun w s => w.with_setup s setup_io_close) w

/-- The test `queue_find(ep->data->bcast, NULL, ep)` of `setup_new`. -/
def ep_in_bcast (w : World) (p : Nat) : Bool :=
  match w.ep p with
  | none => false
  | some e =>
    match w.data e.data with
    | none => false
    | some d => d.bcast.contains p

/-- The first half of `setup_new`: the object obtained from `new0` at the
address `next`, with `ep` stored and the QoS view, parser and destroy hook
chosen by the kind of endpoint. -/
def setup_new_init (w : World) (ep : Option Nat) : bap_setup :=
  let setup : bap_setup := { ptr := w.next, ep := ep }
  let bcast : Bool := match ep with
    | none => true
    | some p => ep_in_bcast w p
  if bcast then
    { setup with
      qos := { setup.qos with bcast := { setup.qos.bcast with
        big := BT_ISO_QOS_BIG_UNSET, bis := BT_ISO_QOS_BIS_UNSET,
        sync_factor := 0x01, sync_timeout := BT_ISO_SYNC_TIMEOUT,
        timeout := BT_ISO_SYNC_TIMEOUT } }
      qos_parser_fn := .setup_parse_bcast_qos
      destroy := true }
  else
    { setup with
      qos := { setup.qos with ucast := { setup.qos.ucast with
        cig_id := BT_ISO_QOS_CIG_UNSET, cis_id := BT_ISO_QOS_CIS_UNSET } }
      qos_parser_fn := .setup_parse_ucast_qos }

/-- `setup_new`: allocates the object of `setup_new_init` and, when `ep` is
not `NULL`, pushes it to the tail of `ep->setups`.  Returns the new setup
object (its address is `ptr`, the value of `next` before the call; the code
does not fix which address `new0` returns, so a statement about every
allocation is one about every value of `next`). -/
def setup_new (w : World) (ep : Option Nat) : bap_setup × World :=
  let setup := setup_new_init w ep
  let w1 : World := { w with next := w.next + 1, setups := w.setups ++ [setup] }
  let w2 : World := match ep with
    | none => w1
    | some p =>
      match w1.ep p with
      | none => w1
      | some e => w1.put_ep { e with setups := e.setups ++ [setup.ptr] }
  (setup, w2)

/-- The calls `setup_free` makes for a setup object, in order: the transport
cancel of a pending operation, the failed reply `Canceled` to a pending
message, the calls of `setup_io_close`, and `free`. -/
def setup_free_events (setup : bap_setup) : List Event :=
  let ev1 : List Event := match setup.stream with
    | some st => if setup.id ≠ 0 then [Event.bt_bap_stream_cancel st setup.id] else []
    | none => []
  let ev2 : List Event := match setup.msg with
    | some m => [Event.g_dbus_send_message m (Reply.failed "Canceled")]
    | none => []
  ev1 ++ ev2 ++ (setup_io_close setup).2 ++ [Event.free setup.ptr]

/-- The step `if (setup->ep) queue_remove(setup->ep->setups, setup)` of
`setup_free`, for the setup at address `p` with parent `ep`. -/
def setup_unlink (w : World) (ep : Option Nat) (p : Nat) : World :=
  match ep with
  | none => w
  | some ep =>
    match w.ep ep with
    | none => w
    | some e => w.put_ep { e with setups := e.setups.erase p }

/-- `setup_free`. -/
def setup_free (w : World) (p : Nat) : World :=
  match w.setup p with
  | none => w
  | some setup =>
    let w := setup_unlink w setup.ep p
    { w with setups := w.setups.filter (fun s => s.ptr != p),
             log := w.log ++ setup_free_events setup }

/-- `struct iovec`: `iov_base` is `none` while the pointer is `NULL`. -/
structure iovec where
  iov_base : Option (List Nat) := none
  iov_len : Nat := 0
  deriving DecidableEq, Repr

/-- The bytes an iovec refers to (none behind a `NULL` base). -/
def iovec.bytes (iov : iovec) : List Nat := iov.iov_base.getD []

/-- What the collaborators answer.  `bt_bap_pac_get_type` of a PAC pointer;
the observable attributes of a stream pointer; the stream returned by
`bt_bap_stream_new` for a local PAC, a remote PAC and a setup (`none` is
`NULL`); the
operation ids returned by `bt_bap_stream_config` and `bt_bap_stream_qos` (0
is failure); the two QoS links of `bt_bap_stream_io_get_qos` (`none` when it
fails); `device_get_adapter` (of `NULL` and of a device); the channel
returned by `bt_io_connect` for a setup, a QoS and a defer flag, and by
`bt_io_listen` for a session (`none` is `NULL`); the source ids returned by
`g_io_add_watch`, `g_idle_add` and `g_timeout_add_seconds`; and, for a file
descriptor, the `BT_DEFER_SETUP` option read by `getsockopt` (`none` when it
fails), whether `poll` reports `POLLOUT` (`none` when it fails) and whether
`read` succeeds.  For the broadcast sink: the local PAC and the merged
capabilities that `bt_bap_verify_bis` stores for a session handle, a BIS
index, a codec and the level 2 and level 3 capabilities (`none` is `NULL`),
and `device_get_path`; `btd_service_get_device`; whether the adapter has the
ISO socket feature; the handle returned by `bt_bap_new` for the database of
an adapter (`none` is `NULL`); whether `bt_bap_attach` succeeds;
`bt_bap_stream_get_session` and `bt_bap_get_user_data` (of `NULL` and of a
handle); the BASE and the QoS read by `bt_io_get` from a channel (`none`
when it fails); `g_io_channel_unix_get_fd`; whether `bt_bap_stream_set_io`
succeeds; and, for the endpoint properties, `bt_bap_pac_get_locations`,
`bt_bap_pac_get_supported_context` and `bt_bap_pac_get_context` of a PAC,
`adapter_get_path`, whether `g_dbus_register_interface` succeeds for a
path, given the paths on which the interface is registered, and the BASE
generated by `bt_bap_stream_get_base` (`none` is `NULL`). -/
structure Env where
  bt_bap_pac_get_type : Nat → pac_type
  stream : Nat → bt_bap_stream
  bt_bap_stream_new : Nat → Option Nat → bap_setup → Option Nat
  bt_bap_stream_config : Nat → bap_setup → Nat
  bt_bap_stream_qos : Nat → bap_setup → Nat
  bt_bap_stream_io_get_qos : Nat → Option (Option bt_bap_qos × Option bt_bap_qos)
  device_get_adapter : Option Nat → Option Nat
  bt_io_connect : bap_setup → bt_iso_qos → Bool → Option Nat
  bt_io_listen : Nat → bt_iso_qos → Option Nat
  g_io_add_watch : Nat → Nat
  g_idle_add : Nat → Nat
  g_timeout_add_seconds : Nat → Nat
  getsockopt_defer : Int → Option Bool
  poll_out : Int → Option Bool
  read_ok : Int → Bool
  bt_bap_verify_bis : Nat → Nat → List Nat → iovec → iovec → Option Nat × Option (List Nat) :=
    fun _ _ _ _ _ => (none, none)
  device_get_path : Option Nat → String := fun _ => ""
  btd_service_get_device : Nat → Option Nat := fun _ => none
  btd_adapter_has_exp_feature : Option Nat → Bool := fun _ => true
  bt_bap_new : Option Nat → Option Nat := fun _ => some 0
  bt_bap_attach : Nat → Bool := fun _ => true
  bt_bap_stream_get_session : Option Nat → Option Nat := fun _ => none
  bt_bap_get_user_data : Option Nat → Option Nat := fun _ => none
  bt_io_get : Nat → Option (List Nat × bt_iso_qos) := fun _ => none
  g_io_channel_unix_get_fd : Nat → Int := fun io => Int.ofNat io
  bt_bap_stream_set_io : Option Nat → Int → Bool := fun _ _ => true
  bt_bap_pac_get_locations : Nat → Nat := fun _ => 0
  bt_bap_pac_get_supported_context : Nat → Nat := fun _ => 0
  bt_bap_pac_get_context : Nat → Nat := fun _ => 0
  adapter_get_path : Option Nat → String := fun _ => ""
  g_dbus_register_interface : List String → String → Bool := fun l path => !l.contains path
  bt_bap_stream_get_base : Option Nat → Option (List Nat) := fun _ => none

/-- The second half of `set_configuration`, after the configuration has been
parsed into `setup`: the stream is created and configured, and the reply
depends on the kind of stream. -/
def set_configuration_stream (env : Env) (w : World) (e : bap_ep) (msg : DBusMessage)
    (setup : bap_setup) : Option Reply × World :=
  let stream := env.bt_bap_stream_new e.lpac e.rpac setup
  let setup := { setup with stream := stream }
  let id := match stream with
    | none => 0
    | some st => env.bt_bap_stream_config st setup
  let w := w.emit [Event.bt_bap_stream_new stream,
    Event.bt_bap_stream_set_user_data stream e.path,
    Event.bt_bap_stream_config stream setup.caps]
  let setup := { setup with id := id }
  let w := w.put_setup setup
  if id = 0 then (some Reply.invalid_args, setup_free w setup.ptr)
  else
    let has_meta : Bool := match setup.metadata with
      | some m => m.length ≠ 0
      | none => false
    let w := if has_meta then
        w.emit [Event.bt_bap_stream_metadata stream setup.metadata] else w
    match stream.map (fun st => (env.stream st).type) with
    | some .BT_BAP_STREAM_TYPE_UCAST =>
      (none, w.put_setup { setup with msg := some msg.ptr })
    | some .BT_BAP_STREAM_TYPE_BCAST =>
      let w := w.put_setup { setup with id := 0 }
      let w := match (w.data e.data).bind (fun d => d.service) with
        | some service => w.emit [Event.service_set_connecting service]
        | none => w
      (some Reply.method_return, w)
    | _ => (none, w)

/-- `set_configuration`, the handler of `SetConfiguration` on the endpoint
`ep`.  The result is the reply returned to the bus (`none` when the handler
returns `NULL` and the reply is sent later). -/
def set_configuration (env : Env) (w : World) (ep : Nat) (msg : DBusMessage) :
    Option Reply × World :=
  match w.ep ep with
  | none => (none, w)
  | some e =>
    if msg.props = [] then (some Reply.invalid_args, w)
    else
      let w := if env.bt_bap_pac_get_type e.lpac ≠ .BT_BAP_BCAST_SOURCE then
          ep_close w (some ep) else w
      let r := setup_new w (some ep)
      let w := r.2
      let parsed := setup_parse_configuration r.1 msg.props
      let setup := parsed.2
      let w := w.put_setup setup
      if parsed.1 < 0 then (some Reply.invalid_args, setup_free w setup.ptr)
      else set_configuration_stream env w e msg setup

/-! ## Endpoint teardown and selection -/

/-- `ep_cancel_select`: the two `bt_bap_foreach_pac(bap, type,
pac_cancel_select, ep)` calls. -/
def ep_cancel_select (w : World) (ep : Nat) : World :=
  w.emit [Event.bt_bap_cancel_select ep .BT_BAP_SOURCE,
          Event.bt_bap_cancel_select ep .BT_BAP_SINK]

/-- `ep_free`: `ep->setups` is set to `NULL` and the old queue is destroyed
with `setup_free` on every entry; then the endpoint is freed. -/
def ep_free (w : World) (ep : Nat) : World :=
  match w.ep ep with
  | none => w
  | some e =>
    let setups := e.setups
    let w := ep_cancel_select w ep
    let w := w.put_ep { e with setups := [] }
    let w := setups.foldl setup_free w
    { w with eps := w.eps.filter (fun x => x.ptr != ep), log := w.log ++ [Event.free ep] }

/-- `setup_config`. -/
def setup_config (env : Env) (w : World) (p : Nat) : World :=
  match w.setup p with
  | none => w
  | some setup =>
    match setup.ep.bind w.ep with
    | none => w
    | some ep =>
      let created : Bool := setup.stream.isNone
      let stream := match setup.stream with
        | some st => some st
        | none => env.bt_bap_stream_new ep.lpac ep.rpac setup
      let setup := { setup with stream := stream }
      let id := match stream with
        | none => 0
        | some st => env.bt_bap_stream_config st setup
      let w := w.emit ((if created then [Event.bt_bap_stream_new stream] else []) ++
        [Event.bt_bap_stream_config stream setup.caps])
      let w := w.put_setup { setup with id := id }
      if id = 0 then setup_free w p
      else w.emit [Event.bt_bap_stream_set_user_data stream ep.path]

/-- `bap_config`: `queue_foreach(ep->setups, setup_config, NULL)`. -/
def bap_config (env : Env) (w : World) (ep : Nat) : World :=
  match w.ep ep with
  | none => w
  | some e => e.setups.foldl (setup_config env) w

/-- `select_cb`; `ep` is the `user_data`. -/
def select_cb (env : Env) (w : World) (err : Int) (caps metadata : Option (List Nat))
    (qos : bt_bap_qos) (ep : Nat) : World :=
  match w.ep ep with
  | none => w
  | some e =>
    let w : World :=
      if err ≠ 0 then w
      else
        let r := setup_new w (some ep)
        r.2.put_setup { r.1 with caps := caps, metadata := metadata, qos := qos }
    match w.data e.data with
    | none => w
    | some d =>
      let w := w.put_data { d with selecting := d.selecting - 1 }
      if d.selecting - 1 ≠ 0 then w
      else
        let w := d.srcs.foldl (bap_config env) w
        let w := d.snks.foldl (bap_config env) w
        d.bcast.foldl (bap_config env) w

/-- `create_stream_for_bis`: the new setup without endpoint gets the QoS of
the PA sync and is pushed to the tail of `bap_data->bcast_snks` (nothing is
pushed to a `NULL` queue); then the stream is created and configured.  The
`util_iov_append` on the `NULL` broadcast code of the new setup stores
nothing. -/
def create_stream_for_bis (env : Env) (w : World) (bap_data : Nat) (lpac : Nat)
    (qos : bt_iso_qos) (caps : List Nat) (meta : List Nat) (path : String) : World :=
  let r := setup_new w none
  let b := r.1.qos.bcast
  let q := qos.bcast
  let setup : bap_setup := { r.1 with qos := { r.1.qos with bcast := { b with
    big := q.big, bis := q.bis, sync_factor := q.sync_factor, packing := q.packing,
    framing := q.framing, encryption := q.encryption, options := q.options, skip := q.skip,
    sync_timeout := q.sync_timeout, sync_cte_type := q.sync_cte_type, mse := q.mse,
    timeout := q.timeout,
    io_qos := { interval := q.in_qos.interval, latency := q.in_qos.latency,
                phy := q.in_qos.phy, rtn := q.in_qos.rtn, sdu := q.in_qos.sdu } } } }
  let w := r.2.put_setup setup
  let w := match w.data bap_data with
    | none => w
    | some d => w.put_data { d with bcast_snks := d.bcast_snks.map (fun l => l ++ [setup.ptr]) }
  let stream := env.bt_bap_stream_new lpac none setup
  let w := w.put_setup { setup with stream := stream }
  w.emit [Event.bt_bap_stream_new stream,
          Event.bt_bap_stream_set_user_data stream path,
          Event.bt_bap_stream_config stream (some caps),
          Event.bt_bap_stream_metadata stream (some meta)]

/-! ## Group scheduler -/

/-- `struct cig_busy_data`. -/
structure cig_busy_data where
  adapter : Option Nat
  cig : Nat
  deriving DecidableEq, Repr

/-- `match_cig_active`. -/
def match_cig_active (setup : bap_setup) (info : cig_busy_data) : Bool :=
  (setup.qos.ucast.cig_id == info.cig) && setup.cig_active

/-- `cig_busy_ep`: `queue_find(ep->setups, match_cig_active, info)` found a
setup. -/
def cig_busy_ep (w : World) (ep : bap_ep) (info : cig_busy_data) : Bool :=
  ep.setups.any (fun p =>
    match w.setup p with
    | some setup => match_cig_active setup info
    | none => false)

/-- `cig_busy_session`. -/
def cig_busy_session (env : Env) (w : World) (session : bap_data) (info : cig_busy_data) :
    Bool :=
  if env.device_get_adapter session.device ≠ info.adapter then false
  else
    session.snks.any (fun p =>
      match w.ep p with
      | some ep => cig_busy_ep w ep info
      | none => false) ||
    session.srcs.any (fun p =>
      match w.ep p with
      | some ep => cig_busy_ep w ep info
      | none => false)

/-- `is_cig_busy`. -/
def is_cig_busy (env : Env) (w : World) (data : bap_data) (cig : Nat) : Bool :=
  if cig = BT_ISO_QOS_CIG_UNSET then false
  else
    let info : cig_busy_data := { adapter := env.device_get_adapter data.device, cig := cig }
    w.sessions.any (fun session => cig_busy_session env w session info)

/-- `setup_accept_io`. -/
def setup_accept_io (env : Env) (w : World) (setup : Nat) (fd : Int) (defer : Bool) : World :=
  if fd < 0 || defer then w
  else
    match env.getsockopt_defer fd with
    | none => w
    | some defer' =>
      if !defer' then w
      else
        match env.poll_out fd with
        | none => w.emit [Event.close fd]
        | some pollout =>
          if !pollout && !env.read_ok fd then w.emit [Event.close fd]
          else w.with_setup setup (fun s => ({ s with cig_active := true }, []))

/-- `setup_connect_io`. -/
def setup_connect_io (env : Env) (w : World) (data : bap_data) (setup : Nat) (stream : Nat)
    (qos : bt_iso_qos) (defer : Bool) : World :=
  match w.setup setup with
  | none => w
  | some s =>
    if (env.stream stream).io then w
    else
      match (env.stream stream).connecting with
      | some fd => setup_accept_io env w setup fd defer
      | none =>
        if s.io.isSome || is_cig_busy env w data s.qos.ucast.cig_id then
          w.put_setup { s with recreate := true }
        else
          let ev1 := if s.io_id ≠ 0 then [Event.g_source_remove s.io_id] else []
          let s := { s with io_id := 0 }
          match env.bt_io_connect s qos defer with
          | none =>
            (w.put_setup s).emit (ev1 ++ [Event.bt_io_connect setup false qos defer false])
          | some io =>
            (w.put_setup { s with io_id := env.g_io_add_watch io, io := some io,
                                  cig_active := !defer }).emit
              (ev1 ++ [Event.bt_io_connect setup false qos defer true,
                       Event.bt_bap_stream_io_connecting (some stream) (Int.ofNat io)])

/-- `setup_connect_io_broadcast`.  The C code reads `setup->base->iov_len`
without a test; for a setup without base the model makes no call. -/
def setup_connect_io_broadcast (env : Env) (w : World) (setup : Nat) (stream : Nat)
    (qos : bt_iso_qos) (defer : Bool) : World :=
  match w.setup setup with
  | none => w
  | some s =>
    if (env.stream stream).io then w
    else
      let ev1 := if s.io_id ≠ 0 then [Event.g_source_remove s.io_id] else []
      let s := { s with io_id := 0 }
      match s.base with
      | none => (w.put_setup s).emit ev1
      | some _ =>
        match env.bt_io_connect s qos defer with
        | none =>
          (w.put_setup s).emit (ev1 ++ [Event.bt_io_connect setup true qos defer false])
        | some io =>
          (w.put_setup { s with io_id := env.g_io_add_watch io, io := some io }).emit
            (ev1 ++ [Event.bt_io_connect setup true qos defer true,
                     Event.bt_bap_stream_io_connecting (some stream) (Int.ofNat io)])

/-- `setup_listen_io`. -/
def setup_listen_io (env : Env) (w : World) (data : Nat) (stream : Nat) (qos : bt_iso_qos) :
    World :=
  match w.data data with
  | none => w
  | some d =>
    if (env.stream stream).io || d.listen_io.isSome then w
    else
      match env.bt_io_listen data qos with
      | none => w.emit [Event.bt_io_listen data qos false]
      | some io => (w.put_data { d with listen_io := some io }).emit
          [Event.bt_io_listen data qos true]

/-- Dereference an adapter pointer of the queue `adapters`. -/
def World.adapter (w : World) (p : Nat) : Option bap_adapter :=
  w.adapters.find? (fun a => a.ptr == p)

/-- Store through an adapter pointer. -/
def World.put_adapter (w : World) (a : bap_adapter) : World :=
  { w with adapters := w.adapters.map (fun x => if x.ptr = a.ptr then a else x) }

/-- `setup_accept_io_broadcast`: starts the PA timer when it is stopped and
pushes a `BAP_PA_BIG_SYNC_REQ` request for the setup to the tail of the queue
of the adapter of the session. -/
def setup_accept_io_broadcast (env : Env) (w : World) (data : Nat) (setup : Nat) : World :=
  let req : bap_bcast_pa_req :=
    { ptr := w.next, type := BAP_PA_BIG_SYNC_REQ, in_progress := false, data := setup }
  let w : World := { w with next := w.next + 1 }
  match (w.data data).bind (fun d => d.adapter) with
  | none => w
  | some a =>
    match w.adapter a with
    | none => w
    | some adapter =>
      let adapter := if adapter.pa_timer_id = 0 then
          { adapter with pa_timer_id := env.g_timeout_add_seconds adapter.ptr } else adapter
      w.put_adapter { adapter with bcast_pa_requests := adapter.bcast_pa_requests ++ [req] }

/-- `bap_iso_qos`. -/
def bap_iso_qos (qos : Option bt_bap_qos) (io : bt_iso_io_qos) : bt_iso_io_qos :=
  match qos with
  | none => io
  | some q =>
    { interval := q.ucast.io_qos.interval, latency := q.ucast.io_qos.latency,
      sdu := q.ucast.io_qos.sdu, phy := q.ucast.io_qos.phy, rtn := q.ucast.io_qos.rtn }

/-- `setup_create_ucast_io`; `setup` is `none` for a `NULL` setup. -/
def setup_create_ucast_io (env : Env) (w : World) (data : Nat) (setup : Option Nat)
    (stream : Nat) (defer : Bool) : World :=
  match env.bt_bap_stream_io_get_qos stream with
  | none => w
  | some (qos0, qos1) =>
    let link : bt_bap_qos := match qos0 with
      | some q => q
      | none => qos1.getD {}
    let iso_qos : bt_iso_qos :=
      { ucast := { cig := link.ucast.cig_id, cis := link.ucast.cis_id,
                   in_qos := bap_iso_qos qos0 {}, out_qos := bap_iso_qos qos1 {} } }
    match setup with
    | some p =>
      match w.data data with
      | none => w
      | some d => setup_connect_io env w d p stream iso_qos defer
    | none => setup_listen_io env w data stream iso_qos

/-- `setup_create_bcast_io`. -/
def setup_create_bcast_io (env : Env) (w : World) (data : Nat) (setup : Nat) (stream : Nat)
    (defer : Bool) : World :=
  match w.setup setup with
  | none => w
  | some s =>
    let b := s.qos.bcast
    let iso_qos : bt_iso_qos :=
      { bcast := { big := b.big, bis := b.bis, sync_factor := b.sync_factor,
                   packing := b.packing, framing := b.framing, encryption := b.encryption,
                   bcode := b.bcode.getD [], options := b.options, skip := b.skip,
                   sync_timeout := b.sync_timeout, sync_cte_type := b.sync_cte_type,
                   mse := b.mse, timeout := b.timeout,
                   out_qos := { interval := b.io_qos.interval, latency := b.io_qos.latency,
                                sdu := b.io_qos.sdu, phy := b.io_qos.phy,
                                rtn := b.io_qos.rtn } } }
    if (env.stream stream).dir = .BT_BAP_BCAST_SINK then
      setup_connect_io_broadcast env w setup stream iso_qos defer
    else setup_accept_io_broadcast env w data setup

/-- `setup_create_io`; `setup` is `none` for a `NULL` setup (which the
broadcast branch dereferences: the model makes no call then). -/
def setup_create_io (env : Env) (w : World) (data : Nat) (setup : Option Nat) (stream : Nat)
    (defer : Bool) : World :=
  let w : World := match w.data data with
    | none => w
    | some d =>
      if d.streams.contains stream then w
      else w.put_data { d with streams := d.streams ++ [stream] }
  match (env.stream stream).type with
  | .BT_BAP_STREAM_TYPE_UCAST => setup_create_ucast_io env w data setup stream defer
  | .BT_BAP_STREAM_TYPE_BCAST =>
    match setup with
    | some p => setup_create_bcast_io env w data p stream defer
    | none => w
  | .other => w

/-- The BIG of the stream of a setup, `bt_bap_stream_get_qos(setup->stream)
->bcast.big` (`none` when the setup has no stream, which C dereferences). -/
def stream_big (env : Env) (s : bap_setup) : Option Nat :=
  s.stream.map (fun st => (env.stream st).qos.bcast.big)

/-- The first loop of `create_io_bises` over the entries of
`setup->ep->setups`; `big` is the BIG of the stream of `setup`,
`active_bis_cnt` the `uint8_t` counter.  The result is `false` when the loop
leaves through `goto fail`. -/
def create_io_bises_loop (env : Env) (data : Nat) (big : Option Nat) (nb_bises : Nat) :
    World → Nat → Bool → List Nat → Bool × World
  | w, _, _, [] => (true, w)
  | w, active_bis_cnt, defer, p :: rest =>
    match w.setup p with
    | none => (false, w)
    | some ent_setup =>
      match ent_setup.stream with
      | none => (false, w)
      | some stream =>
        if stream_big env ent_setup ≠ big then
          create_io_bises_loop env data big nb_bises w active_bis_cnt defer rest
        else
          let defer := if active_bis_cnt = nb_bises then false else defer
          let w := setup_create_io env w data (some p) stream defer
          match (w.setup p).bind (fun s => s.io) with
          | none => (false, w)
          | some _ =>
            create_io_bises_loop env data big nb_bises w ((active_bis_cnt + 1) % 256)
              defer rest

/-- The loop after the label `fail` of `create_io_bises`: for every entry of
the BIG, `g_io_channel_unref(setup->io)` when the channel of `setup` (not of
the entry) is set. -/
def create_io_bises_fail (env : Env) (w : World) (setup : bap_setup) (big : Option Nat) :
    List Nat → World
  | [] => w
  | p :: rest =>
    match w.setup p with
    | none => w
    | some ent_setup =>
      if stream_big env ent_setup ≠ big then create_io_bises_fail env w setup big rest
      else
        match setup.io with
        | some io => create_io_bises_fail env (w.emit [Event.g_io_channel_unref io]) setup big rest
        | none => create_io_bises_fail env w setup big rest

/-- `create_io_bises`. -/
def create_io_bises (env : Env) (w : World) (setup : Nat) (nb_bises : Nat) (data : Nat) :
    Bool × World :=
  match w.setup setup with
  | none => (false, w)
  | some s =>
    let entries : List Nat := match s.ep.bind w.ep with
      | some e => e.setups
      | none => []
    let r := create_io_bises_loop env data (stream_big env s) nb_bises w 1 true entries
    if r.1 then (true, r.2)
    else
      match r.2.setup setup with
      | none => (false, r.2)
      | some s' => (false, create_io_bises_fail env r.2 s' (stream_big env s) entries)

/-- The socket creations recorded in a log: for every `bt_io_connect`, the
setup it was made for and its defer flag. -/
def io_connect_requests : List Event → List (Nat × Bool)
  | [] => []
  | Event.bt_io_connect setup _ _ defer _ :: rest => (setup, defer) :: io_connect_requests rest
  | _ :: rest => io_connect_requests rest

/-- The replies recorded in a log: for every `g_dbus_send_message`, the
message that is answered and the reply. -/
def replies : List Event → List (Nat × Reply)
  | [] => []
  | Event.g_dbus_send_message msg reply :: rest => (msg, reply) :: replies rest
  | _ :: rest => replies rest

/-! ## Ownership of setups -/

/-- How often the setup pointer `p` occurs in the `setups` queues of the
allocated endpoints. -/
def in_eps (w : World) (p : Nat) : Nat :=
  (w.eps.map (fun e => e.setups.count p)).sum

/-- How often the setup pointer `p` occurs in the `bcast_snks` queues of the
sessions. -/
def in_bcast_snks (w : World) (p : Nat) : Nat :=
  (w.sessions.map (fun d => (d.bcast_snks.getD []).count p)).sum

/-- The setup at address `p` with parent `ep` is owned: with a parent
endpoint it is contained once in the queue of that endpoint, in the queue of
no other endpoint and in no `bcast_snks` queue; without one it is contained
once in the `bcast_snks` queues and in the queue of no endpoint. -/
def owned_at (w : World) (p : Nat) (ep : Option Nat) : Prop :=
  match ep with
  | some ep =>
    (w.ep ep).map (fun e => e.setups.count p) = some 1 ∧ in_eps w p = 1 ∧
      in_bcast_snks w p = 0
  | none => in_eps w p = 0 ∧ in_bcast_snks w p = 1

instance (w : World) (p : Nat) (ep : Option Nat) : Decidable (owned_at w p ep) := by
  unfold owned_at
  cases ep <;> exact inferInstance

/-- Setup ownership: every live (allocated) setup is owned. -/
def setup_ownership (w : World) : Prop :=
  ∀ s ∈ w.setups, owned_at w s.ptr s.ep

instance (w : World) : Decidable (setup_ownership w) := by
  unfold setup_ownership
  exact inferInstance

/-- The heap is well formed: no two allocated objects of a kind share an
address. -/
def World.wf (w : World) : Prop :=
  (w.setups.map (fun s => s.ptr)).Nodup ∧ (w.eps.map (fun e => e.ptr)).Nodup ∧
  (w.sessions.map (fun d => d.ptr)).Nodup

instance (w : World) : Decidable w.wf := by
  unfold World.wf
  exact inferInstance

/-- The address `next`, which `new0` returns for the next allocation, is
free: it is not the address of a live setup, which the allocator guarantees,
and no queue of setup pointers holds it.  The allocator may return any such
address, also one that was in use before. -/
def World.fresh (w : World) : Prop :=
  (∀ s ∈ w.setups, s.ptr ≠ w.next) ∧ (∀ e ∈ w.eps, w.next ∉ e.setups) ∧
  (∀ d ∈ w.sessions, w.next ∉ d.bcast_snks.getD [])

instance (w : World) : Decidable w.fresh := by
  unfold World.fresh
  exact inferInstance

/-- The registry invariant: the heap is well formed and every live setup is
owned. -/
def World.inv (w : World) : Prop := w.wf ∧ setup_ownership w

instance (w : World) : Decidable w.inv := by
  unfold World.inv
  exact inferInstance

/-! ## BASE parsing -/

/-- Modelled from the spec: `util_iov_pull_u8` of `src/shared/util.c` is not
among the sources; it reads the "1-byte" field at the cursor and advances the
cursor by one, and fails, leaving the cursor where it is, when no byte is
left.  The cursor is the list of the bytes not yet consumed. -/
def util_iov_pull_u8 (iov : List Nat) : Option (Nat × List Nat) :=
  match iov with
  | [] => none
  | b :: rest => some (b, rest)

/-- Modelled from the spec: `util_iov_pull_le24` of `src/shared/util.c` is
not among the sources; it reads the "3-byte presentation delay (LE)" at the
cursor and advances the cursor by three, and fails, leaving the cursor where
it is, when fewer than three bytes are left. -/
def util_iov_pull_le24 (iov : List Nat) : Option (Nat × List Nat) :=
  match iov with
  | a :: b :: c :: rest => some (a + b * 256 + c * 65536, rest)
  | _ => none

/-- Modelled from the spec: `util_iov_pull_mem` of `src/shared/util.c` is not
among the sources; it returns the address of the cursor, here the `len` bytes
found there ("length + bytes"), and advances the cursor by `len`; on a length
overrun it returns `NULL` and leaves the cursor where it is. -/
def util_iov_pull_mem (iov : List Nat) (len : Nat) : Option (List Nat × List Nat) :=
  if iov.length < len then none else some (iov.take len, iov.drop len)

/-- Modelled from the spec: `util_iov_memcpy` of `src/shared/util.c` is not
among the sources; it stores a copy of the `len` bytes at `src` in the iovec,
and does nothing when `src` is `NULL` or `len` is 0. -/
def util_iov_memcpy (iov : iovec) (src : Option (List Nat)) (len : Nat) : iovec :=
  match src with
  | none => iov
  | some bytes => if len = 0 then iov else { iov_base := some (bytes.take len), iov_len := len }

/-- The "1-byte length + bytes" field read by `util_iov_pull_u8` into the
`iov_len` of a fresh iovec followed by
`util_iov_memcpy(caps, util_iov_pull_mem(&iov, caps->iov_len), caps->iov_len)`;
`none` when the length byte is missing. -/
def pull_lv (iov : List Nat) : Option (iovec × List Nat) :=
  match util_iov_pull_u8 iov with
  | none => none
  | some (len, iov) =>
    let src := util_iov_pull_mem iov len
    some (util_iov_memcpy { iov_base := none, iov_len := len } (src.map Prod.fst) len,
          (src.map Prod.snd).getD iov)

/-- The level 3 loop of `parse_base`, `for (; num_bis; num_bis--)`, over the
BISes of one subgroup.  The result is `ret`, the cursor and the world.  The
path is `"%s/bis%d"` of the device path and the BIS index (`asprintf` is
taken to succeed); an iovec is handed to `create_stream_for_bis` as its
bytes. -/
def parse_base_bises (env : Env) (data : bap_data) (qos : bt_iso_qos) (codec : List Nat)
    (l2_caps meta : iovec) : Nat → List Nat → World → Bool × List Nat × World
  | 0, iov, w => (true, iov, w)
  | num_bis + 1, iov, w =>
    match util_iov_pull_u8 iov with
    | none => (false, iov, w)
    | some (bis_index, iov) =>
      let path := env.device_get_path data.device ++ "/bis" ++ toString bis_index
      match pull_lv iov with
      | none => (false, iov, w)
      | some (l3_caps, iov) =>
        match env.bt_bap_verify_bis data.bap bis_index codec l2_caps l3_caps with
        | (some matched_lpac, some merged_caps) =>
          parse_base_bises env data qos codec l2_caps meta num_bis iov
            (create_stream_for_bis env w data.ptr matched_lpac qos merged_caps meta.bytes path)
        | _ => parse_base_bises env data qos codec l2_caps meta num_bis iov w

/-- The subgroup loop of `parse_base`, `for (idx = 0; idx < num_subgroups;
idx++)`, with the number of subgroups still to read.  The result is `none`
when `memcpy` is called on the `NULL` returned by `util_iov_pull_mem` for the
codec (5 bytes, `sizeof(struct bt_bap_codec)`), and otherwise `ret` and the
world. -/
def parse_base_subgroups (env : Env) (data : bap_data) (qos : bt_iso_qos) :
    Nat → List Nat → World → Option (Bool × World)
  | 0, _, w => some (true, w)
  | n + 1, iov, w =>
    match util_iov_pull_u8 iov with
    | none => some (false, w)
    | some (num_bis, iov) =>
      match util_iov_pull_mem iov 5 with
      | none => none
      | some (codec, iov) =>
        match pull_lv iov with
        | none => some (false, w)
        | some (l2_caps, iov) =>
          match pull_lv iov with
          | none => some (false, w)
          | some (meta, iov) =>
            let r := parse_base_bises env data qos codec l2_caps meta num_bis iov w
            if r.1 then parse_base_subgroups env data qos n r.2.1 r.2.2
            else some (false, r.2.2)

/-- `parse_base` on the bytes `base->base[0 .. base_len)`; `none` when the
session pointer is dangling or the codec is copied from `NULL`. -/
def parse_base (env : Env) (w : World) (bap_data : Nat) (base : List Nat) (qos : bt_iso_qos) :
    Option (Bool × World) :=
  match w.data bap_data with
  | none => none
  | some data =>
    match util_iov_pull_le24 base with
    | none => some (false, w)
    | some (_, iov) =>
      match util_iov_pull_u8 iov with
      | none => some (false, w)
      | some (num_subgroups, iov) => parse_base_subgroups env data qos num_subgroups iov w


/-! ## The BASE structure of the specification -/

/-- One BIS of a BASE: "1-byte BIS index; 1-byte level-3 capabilities length
+ bytes". -/
structure spec_bis where
  index : Nat
  caps : List Nat
  deriving DecidableEq, Repr

/-- One subgroup of a BASE: "1-byte BIS count; 5-byte codec descriptor;
1-byte level-2 capabilities length + bytes; 1-byte metadata length +
bytes", followed by its BISes. -/
structure spec_subgroup where
  codec : List Nat
  caps : List Nat
  meta : List Nat
  bises : List spec_bis
  deriving DecidableEq, Repr

/-- A BASE: "3-byte presentation delay (LE), 1-byte subgroup count" and the
subgroups. -/
structure spec_base where
  pres_delay : Nat
  subgroups : List spec_subgroup
  deriving DecidableEq, Repr

/-- Every field fits its width. -/
def spec_bis.valid (b : spec_bis) : Prop :=
  b.index < 256 ∧ b.caps.length < 256

instance (b : spec_bis) : Decidable b.valid := by
  unfold spec_bis.valid
  exact inferInstance

/-- Every field fits its width and the codec descriptor has 5 bytes. -/
def spec_subgroup.valid (s : spec_subgroup) : Prop :=
  s.codec.length = 5 ∧ s.caps.length < 256 ∧ s.meta.length < 256 ∧ s.bises.length < 256 ∧
  ∀ b ∈ s.bises, b.valid

instance (s : spec_subgroup) : Decidable s.valid := by
  unfold spec_subgroup.valid
  exact inferInstance

/-- Every field fits its width. -/
def spec_base.valid (b : spec_base) : Prop :=
  b.pres_delay < 2 ^ 24 ∧ b.subgroups.length < 256 ∧ ∀ s ∈ b.subgroups, s.valid

instance (b : spec_base) : Decidable b.valid := by
  unfold spec_base.valid
  exact inferInstance

/-- The bytes of a BIS. -/
def spec_bis.encode (b : spec_bis) : List Nat :=
  b.index :: b.caps.length :: b.caps

/-- The bytes of a subgroup. -/
def spec_subgroup.encode (s : spec_subgroup) : List Nat :=
  s.bises.length :: (s.codec ++ (s.caps.length :: s.caps) ++ (s.meta.length :: s.meta) ++
    s.bises.flatMap spec_bis.encode)

/-- The syntactically valid BASE blob of a BASE. -/
def spec_base.encode (b : spec_base) : List Nat :=
  b.pres_delay % 256 :: b.pres_delay / 256 % 256 :: b.pres_delay / 65536 % 256 ::
    b.subgroups.length :: b.subgroups.flatMap spec_subgroup.encode

/-- The iovec `parse_base` builds for a length-prefixed byte string. -/
def lv_iovec (bytes : List Nat) : iovec :=
  if bytes.length = 0 then { iov_base := none, iov_len := 0 }
  else { iov_base := some bytes, iov_len := bytes.length }

/-- A BIS matched by `bt_bap_verify_bis`, with what it matched. -/
structure matched_bis where
  lpac : Nat
  caps : List Nat
  meta : List Nat
  index : Nat
  deriving DecidableEq, Repr

/-- The BISes of a list matched by `bt_bap_verify_bis` for a codec, level 2
capabilities and metadata, in the order of the list. -/
def matched_bises (env : Env) (bap : Nat) (codec caps meta : List Nat) (bs : List spec_bis) :
    List matched_bis :=
  bs.filterMap (fun b =>
    match env.bt_bap_verify_bis bap b.index codec (lv_iovec caps) (lv_iovec b.caps) with
    | (some lpac, some merged) => some { lpac := lpac, caps := merged, meta := meta,
                                         index := b.index }
    | _ => none)

/-- The BISes of a subgroup matched by `bt_bap_verify_bis`, in the order of
the blob. -/
def spec_subgroup.matched (env : Env) (bap : Nat) (s : spec_subgroup) : List matched_bis :=
  matched_bises env bap s.codec s.caps s.meta s.bises

/-- The BISes of a BASE matched by `bt_bap_verify_bis`, in the order of the
blob. -/
def spec_base.matched (env : Env) (bap : Nat) (b : spec_base) : List matched_bis :=
  b.subgroups.flatMap (spec_subgroup.matched env bap)

/-- The identifier `"<peer-path>/bis<index>"`. -/
def bis_path (env : Env) (data : bap_data) (index : Nat) : String :=
  env.device_get_path data.device ++ "/bis" ++ toString index

/-- One `create_stream_for_bis` per matched BIS, in the order of the list. -/
def create_streams (env : Env) (data : bap_data) (qos : bt_iso_qos) (ms : List matched_bis)
    (w : World) : World :=
  ms.foldl (fun w m => create_stream_for_bis env w data.ptr m.lpac qos m.caps m.meta
    (bis_path env data m.index)) w

/-- What a stream is told: its user data, its configuration, its metadata. -/
inductive stream_call where
  | user_data (path : String)
  | config (caps : Option (List Nat))
  | metadata (meta : Option (List Nat))
  deriving DecidableEq, Repr

/-- The calls that give streams their user data, configuration and metadata,
in the order they are made. -/
def stream_calls (log : List Event) : List stream_call :=
  log.filterMap (fun e =>
    match e with
    | .bt_bap_stream_set_user_data _ path => some (.user_data path)
    | .bt_bap_stream_config _ caps => some (.config caps)
    | .bt_bap_stream_metadata _ meta => some (.metadata meta)
    | _ => none)

/-- The identifiers given to streams, in the order they are given. -/
def bis_paths (log : List Event) : List String :=
  log.filterMap (fun e =>
    match e with
    | .bt_bap_stream_set_user_data _ path => some path
    | _ => none)

/-- The calls that open a channel. -/
def io_calls (log : List Event) : List Event :=
  log.filter (fun e =>
    match e with
    | .bt_io_connect _ _ _ _ _ => true
    | .bt_io_listen _ _ _ => true
    | _ => false)

/-- The identifiers the specification expects: those of the matched BISes "in
ascending BIS index order". -/
def spec_parse_base_paths (env : Env) (data : bap_data) (b : spec_base) : List String :=
  (((b.matched env data.bap).map (fun m => m.index)).insertionSort (fun x y => x ≤ y)).map
    (bis_path env data)

/-! ## Broadcast PA / BIG request queue -/

/-- `ENOTSUP` (errno). -/
def ENOTSUP : Int := 95

/-- `bap_sink_pa_qos`, the parameters for the periodic advertising sync. -/
def bap_sink_pa_qos : bt_iso_qos :=
  { bcast := { options := 0x00, skip := 0x0000, sync_timeout := BT_ISO_SYNC_TIMEOUT,
               sync_cte_type := 0x00, big := BT_ISO_QOS_BIG_UNSET, bis := BT_ISO_QOS_BIS_UNSET,
               encryption := 0x00, bcode := List.replicate 16 0x00, mse := 0x00,
               timeout := BT_ISO_SYNC_TIMEOUT, sync_factor := 0x07, packing := 0x00,
               framing := 0x00,
               in_qos := { interval := 10000, latency := 10, sdu := 40, phy := 0x02, rtn := 2 },
               out_qos := { interval := 10000, latency := 10, sdu := 40, phy := 0x02, rtn := 2 } } }

/-- `btd_service_get_user_data`: the session that `bap_data_add` stored for
the service; it is reset when the session is freed. -/
def World.service_data (w : World) (service : Nat) : Option bap_data :=
  w.sessions.find? (fun d => d.service == some service)

/-- `short_lived_pa_sync` on the request object `req` points to; the result
is the return value, the request object and the world, and `none` when a
`NULL` session or adapter is dereferenced. -/
def short_lived_pa_sync (env : Env) (w : World) (req : bap_bcast_pa_req) :
    Option (Int × bap_bcast_pa_req × World) :=
  match w.service_data req.data with
  | none => none
  | some data =>
    if data.listen_io.isSome then some (-1, req, w)
    else
      let req := { req with in_progress := true }
      if data.adapter.isNone then none
      else
        match env.bt_io_listen data.ptr bap_sink_pa_qos with
        | none => some (0, req, w.emit [Event.bt_io_listen data.ptr bap_sink_pa_qos false])
        | some io =>
          some (0, req, (w.put_data { data with listen_io := some io }).emit
            [Event.bt_io_listen data.ptr bap_sink_pa_qos true])

/-- `pa_and_big_sync` on the request object `req` points to; `none` when a
`NULL` or dangling pointer is dereferenced. -/
def pa_and_big_sync (env : Env) (w : World) (req : bap_bcast_pa_req) :
    Option (bap_bcast_pa_req × World) :=
  match w.setup req.data with
  | none => none
  | some setup =>
    match (env.bt_bap_get_user_data (env.bt_bap_stream_get_session setup.stream)).bind
        w.service_data with
    | none => none
    | some bap_data =>
      let req := { req with in_progress := true }
      if bap_data.adapter.isNone then none
      else
        match env.bt_io_listen bap_data.ptr bap_sink_pa_qos with
        | none =>
          some (req, (w.put_setup { setup with io := none }).emit
            [Event.bt_io_listen bap_data.ptr bap_sink_pa_qos false])
        | some io =>
          some (req, (w.put_setup { setup with io := some io }).emit
            [Event.bt_io_listen bap_data.ptr bap_sink_pa_qos true])

/-- `pa_idle_timer` for the adapter at address `adapter`; the result is the
return value (`TRUE` keeps the timer) and the world.  The request written
through `req` is the head of the queue. -/
def pa_idle_timer (env : Env) (w : World) (adapter : Nat) : Option (Bool × World) :=
  match w.adapter adapter with
  | none => none
  | some a =>
    if a.bcast_pa_requests.any (fun r => r.in_progress) then some (true, w)
    else
      match a.bcast_pa_requests with
      | [] => some (false, w.put_adapter { a with pa_timer_id := 0 })
      | req :: rest =>
        if req.type = BAP_PA_SHORT_REQ then
          (short_lived_pa_sync env w req).map (fun r =>
            (true, r.2.2.put_adapter { a with bcast_pa_requests := r.2.1 :: rest }))
        else if req.type = BAP_PA_BIG_SYNC_REQ then
          (pa_and_big_sync env w req).map (fun r =>
            (true, r.2.put_adapter { a with bcast_pa_requests := r.1 :: rest }))
        else some (true, w)

/-- `queue_remove(adapter->bcast_pa_requests, req)` followed by `free(req)`;
`none` when the adapter pointer is `NULL` or dangling. -/
def remove_pa_req (w : World) (adapter : Option Nat) (req : Nat) : Option World :=
  match adapter.bind w.adapter with
  | none => none
  | some a =>
    let queue := a.bcast_pa_requests.eraseP (fun r => r.ptr == req)
    some ((w.put_adapter { a with bcast_pa_requests := queue }).emit [Event.free req])

/-- `iso_pa_sync_confirm_cb` with the request object `user_data` points to. -/
def iso_pa_sync_confirm_cb (env : Env) (w : World) (io : Nat) (req : bap_bcast_pa_req) :
    Option World :=
  match env.bt_io_get io with
  | none => some (w.emit [Event.g_io_channel_shutdown io])
  | some (base, qos) =>
    match w.service_data req.data with
    | none => none
    | some data =>
      let ev : List Event := match data.listen_io with
        | some l => [Event.g_io_channel_shutdown l, Event.g_io_channel_unref l]
        | none => []
      let w := (w.put_data { data with listen_io := none }).emit
        (ev ++ [Event.g_io_channel_shutdown io])
      match parse_base env w data.ptr base qos with
      | none => none
      | some (_, w) =>
        remove_pa_req (w.emit [Event.service_set_connecting req.data]) data.adapter req.ptr

/-- `iso_bcast_confirm_cb` with the request object `user_data` points to. -/
def iso_bcast_confirm_cb (env : Env) (w : World) (io : Nat) (req : bap_bcast_pa_req) :
    Option World :=
  match w.setup req.data with
  | none => none
  | some setup =>
    match (env.bt_bap_get_user_data (env.bt_bap_stream_get_session setup.stream)).bind
        w.service_data with
    | none => none
    | some bap_data =>
      let ev : List Event := match setup.io with
        | some i => [Event.g_io_channel_unref i, Event.g_io_channel_shutdown i]
        | none => []
      let w := (w.put_setup { setup with io := none }).emit
        (ev ++ [Event.btd_service_connecting_complete bap_data.service])
      let fd := env.g_io_channel_unix_get_fd io
      match remove_pa_req w bap_data.adapter req.ptr with
      | none => none
      | some w =>
        if env.bt_bap_stream_set_io setup.stream fd then
          some (w.emit [Event.bt_bap_stream_set_io setup.stream fd true,
                        Event.bt_bap_stream_start setup.stream])
        else some (w.emit [Event.bt_bap_stream_set_io setup.stream fd false])

/-- `bap_data_add`: the session is pushed to `sessions` unless it is there. -/
def bap_data_add (w : World) (data : bap_data) : World :=
  if w.sessions.any (fun d => d.ptr == data.ptr) then w
  else { w with sessions := w.sessions ++ [data] }

/-- `bap_bcast_probe`; the result is the return value and the world, and
`none` when the `NULL` adapter of the session is dereferenced.  The
registrations of the ready, state and PAC callbacks are not recorded. -/
def bap_bcast_probe (env : Env) (w : World) (service : Nat) : Option (Int × World) :=
  let device := env.btd_service_get_device service
  let adapter := env.device_get_adapter device
  if !env.btd_adapter_has_exp_feature adapter then some (-ENOTSUP, w)
  else
    let data : bap_data :=
      { ptr := w.next, device := device, service := some service,
        adapter := (w.adapters.find? (fun a => some a.adapter == adapter)).map (fun a => a.ptr) }
    let w : World := { w with next := w.next + 1 }
    match env.bt_bap_new adapter with
    | none => some (-EINVAL, w.emit [Event.free data.ptr])
    | some bap =>
      let data := { data with bap := bap, bcast_snks := some [] }
      if !env.bt_bap_attach bap then some (-EINVAL, w)
      else
        let w := bap_data_add w data
        match data.adapter.bind w.adapter with
        | none => none
        | some a =>
          let a := if a.pa_timer_id = 0 then
              { a with pa_timer_id := env.g_timeout_add_seconds a.ptr } else a
          let req : bap_bcast_pa_req :=
            { ptr := w.next, type := BAP_PA_SHORT_REQ, in_progress := false, data := service }
          let w : World := { w with next := w.next + 1 }
          some (0, w.put_adapter { a with bcast_pa_requests := a.bcast_pa_requests ++ [req] })

/-- `ep_unregister`: `g_dbus_unregister_interface` runs the destroy function
of a registered interface, which is `ep_free`. -/
def ep_unregister (w : World) (ep : Nat) : World :=
  match w.ep ep with
  | none => w
  | some e =>
    let w := w.emit [Event.g_dbus_unregister_interface e.path]
    if e.path ∈ w.interfaces then
      ep_free { w with interfaces := w.interfaces.erase e.path } ep
    else w

/-- `bap_data_free` of a session object that has left `sessions`. -/
def bap_data_free (w : World) (data : bap_data) : World :=
  let w := match data.listen_io with
    | some io => w.emit [Event.g_io_channel_shutdown io, Event.g_io_channel_unref io]
    | none => w
  let w := data.snks.foldl ep_unregister w
  let w := data.srcs.foldl ep_unregister w
  let w := data.bcast.foldl ep_unregister w
  let w := (data.bcast_snks.getD []).foldl setup_free w
  w.emit [Event.bt_bap_unref data.bap, Event.free data.ptr]

/-- `bap_data_remove`. -/
def bap_data_remove (w : World) (data : bap_data) : World :=
  if w.sessions.any (fun d => d.ptr == data.ptr) then
    bap_data_free { w with sessions := w.sessions.eraseP (fun d => d.ptr == data.ptr) } data
  else w

/-- `bap_bcast_remove`; `none` when the `NULL` adapter of the session is
dereferenced. -/
def bap_bcast_remove (w : World) (service : Nat) : Option World :=
  match w.service_data service with
  | none => some w
  | some data =>
    match data.adapter.bind w.adapter with
    | none => none
    | some a =>
      let ev : List Event := match a.bcast_pa_requests.find? (fun r => r.data == service) with
        | some r => [Event.free r.ptr]
        | none => []
      let queue := a.bcast_pa_requests.eraseP (fun r => r.data == service)
      let w := (w.put_adapter { a with bcast_pa_requests := queue }).emit ev
      some (bap_data_remove w data)

/-- One event of the request queue: a probe, a broadcast accept, a timer
tick, a confirm callback or a service removal. -/
inductive pa_step (env : Env) : World → World → Prop where
  | probe (w : World) (service : Nat) (r : Int) (w' : World) :
      bap_bcast_probe env w service = some (r, w') → pa_step env w w'
  | accept (w : World) (data setup : Nat) :
      pa_step env w (setup_accept_io_broadcast env w data setup)
  | tick (w : World) (adapter : Nat) (r : Bool) (w' : World) :
      pa_idle_timer env w adapter = some (r, w') → pa_step env w w'
  | pa_confirm (w : World) (io : Nat) (req : bap_bcast_pa_req) (w' : World) :
      iso_pa_sync_confirm_cb env w io req = some w' → pa_step env w w'
  | bcast_confirm (w : World) (io : Nat) (req : bap_bcast_pa_req) (w' : World) :
      iso_bcast_confirm_cb env w io req = some w' → pa_step env w w'
  | remove (w : World) (service : Nat) (w' : World) :
      bap_bcast_remove w service = some w' → pa_step env w w'

/-- The states reachable from `w0` by events of the request queue. -/
inductive pa_reachable (env : Env) (w0 : World) : World → Prop where
  | start : pa_reachable env w0 w0
  | step (w w' : World) : pa_reachable env w0 w → pa_step env w w' → pa_reachable env w0 w'

/-- The number of requests in progress in the queue of an adapter. -/
def in_progress_count (a : bap_adapter) : Nat :=
  (a.bcast_pa_requests.filter (fun r => r.in_progress)).length

/-- At most one request is in progress in the queue of every adapter. -/
def pa_exclusive (w : World) : Prop :=
  ∀ a ∈ w.adapters, in_progress_count a ≤ 1

instance (w : World) : Decidable (pa_exclusive w) := by
  unfold pa_exclusive
  exact inferInstance

/-! ## Endpoint registration -/

/-- `match_ep`. -/
def match_ep (ep : bap_ep) (lpac : Nat) (rpac : Option Nat) : Bool :=
  if ep.lpac ≠ lpac then false else ep.rpac == rpac

/-- `queue_find(queue, match_ep, &match)` on a queue of endpoint pointers. -/
def find_ep (w : World) (queue : List Nat) (lpac : Nat) (rpac : Option Nat) : Option bap_ep :=
  queue.findSome? (fun p => (w.ep p).filter (fun e => match_ep e lpac rpac))

/-- `ep_update_properties`. -/
def ep_update_properties (env : Env) (w : World) (ep : bap_ep) : World :=
  match ep.rpac with
  | none => w
  | some rpac =>
    let w := if ep.locations ≠ env.bt_bap_pac_get_locations rpac then
        w.emit [Event.g_dbus_emit_property_changed ep.path "Locations"] else w
    let w := if ep.supported_context ≠ env.bt_bap_pac_get_supported_context rpac then
        w.emit [Event.g_dbus_emit_property_changed ep.path "SupportedContext"] else w
    if ep.context ≠ env.bt_bap_pac_get_context rpac then
      w.emit [Event.g_dbus_emit_property_changed ep.path "Context"] else w

/-- The call `g_dbus_register_interface(conn, path, MEDIA_ENDPOINT_INTERFACE,
..., ep, ep_free)`: on success the path joins the registered paths. -/
def g_dbus_register_interface (env : Env) (w : World) (path : String) : Bool × World :=
  if env.g_dbus_register_interface w.interfaces path then
    (true, { w with interfaces := w.interfaces ++ [path],
                    log := w.log ++ [Event.g_dbus_register_interface path true] })
  else (false, w.emit [Event.g_dbus_register_interface path false])

/-- `ep_register`; the result is the endpoint pointer (`none` is `NULL`) and
the world, and `none` when the `NULL` session of the service is
dereferenced.  `asprintf` is taken to succeed. -/
def ep_register (env : Env) (w : World) (service : Nat) (lpac rpac : Nat) :
    Option (Option Nat × World) :=
  let device := env.btd_service_get_device service
  let suffix : Option String := match env.bt_bap_pac_get_type rpac with
    | .BT_BAP_SINK => some "sink"
    | .BT_BAP_SOURCE => some "source"
    | _ => none
  match suffix with
  | none => some (none, w)
  | some suffix =>
    match w.service_data service with
    | none => none
    | some data =>
      let queue := if suffix = "sink" then data.snks else data.srcs
      let i := queue.length
      match find_ep w queue lpac (some rpac) with
      | some ep => some (some ep.ptr, ep_update_properties env w ep)
      | none =>
        let ep : bap_ep :=
          { ptr := w.next, data := data.ptr, lpac := lpac, rpac := some rpac,
            path := env.device_get_path device ++ "/pac_" ++ suffix ++ toString i }
        let w : World := { w with next := w.next + 1, eps := w.eps ++ [ep] }
        let r := g_dbus_register_interface env w ep.path
        if !r.1 then some (none, ep_free r.2 ep.ptr)
        else
          let w := r.2.emit [Event.bt_bap_pac_set_user_data rpac ep.path]
          let data := if suffix = "sink" then { data with snks := data.snks ++ [ep.ptr] }
            else { data with srcs := data.srcs ++ [ep.ptr] }
          some (some ep.ptr, w.put_data data)

/-- `ep_register_bcast`; the result is the endpoint pointer (`none` is
`NULL`) and the world, and `none` when a `NULL` or dangling session or
adapter pointer is dereferenced.  `asprintf` is taken to succeed. -/
def ep_register_bcast (env : Env) (w : World) (data : Nat) (lpac : Nat) (rpac : Option Nat) :
    Option (Option Nat × World) :=
  match w.data data with
  | none => none
  | some d =>
    match d.adapter.bind w.adapter with
    | none => none
    | some a =>
      let adapter := a.adapter
      let device := d.device
      let type := env.bt_bap_pac_get_type lpac
      if type ≠ .BT_BAP_BCAST_SOURCE ∧ type ≠ .BT_BAP_BCAST_SINK then some (none, w)
      else
        let i := d.bcast.length
        match find_ep w d.bcast lpac rpac with
        | some ep => some (some ep.ptr, w)
        | none =>
          let path := if type = .BT_BAP_BCAST_SOURCE then
              env.adapter_get_path (some adapter) ++ "/pac_" ++ "bcast" ++ toString i
            else env.device_get_path device ++ "/pac_" ++ "bcast" ++ toString i
          let ep : bap_ep :=
            { ptr := w.next, data := d.ptr, lpac := lpac, rpac := rpac, path := path }
          let w : World := { w with next := w.next + 1, eps := w.eps ++ [ep] }
          let r := g_dbus_register_interface env w ep.path
          if !r.1 then some (none, ep_free r.2 ep.ptr)
          else
            let w := match rpac with
              | some rp => r.2.emit [Event.bt_bap_pac_set_user_data rp ep.path]
              | none => r.2
            some (some ep.ptr, w.put_data { d with bcast := d.bcast ++ [ep.ptr] })

/-- The calls of `g_dbus_register_interface` in a log. -/
def registrations (log : List Event) : List Event :=
  log.filter (fun e =>
    match e with
    | .g_dbus_register_interface _ _ => true
    | _ => false)

/-! ## Stream state handlers -/

/-- `match_setup_stream`. -/
def match_setup_stream (setup : bap_setup) (stream : Nat) : Bool :=
  setup.stream == some stream

/-- `queue_find(queue, match_setup_stream, stream)` on a queue of setup
pointers; an entry whose object is gone is passed over. -/
def find_setup_stream (w : World) (queue : List Nat) (stream : Nat) : Option bap_setup :=
  queue.findSome? (fun p => (w.setup p).filter (fun s => match_setup_stream s stream))

/-- `match_ep_stream`. -/
def match_ep_stream (w : World) (ep : bap_ep) (stream : Nat) : Bool :=
  (find_setup_stream w ep.setups stream).isSome

/-- `queue_find(queue, match_ep_stream, stream)` on a queue of endpoint
pointers. -/
def find_ep_stream (w : World) (queue : List Nat) (stream : Nat) : Option bap_ep :=
  queue.findSome? (fun p => (w.ep p).filter (fun e => match_ep_stream w e stream))

/-- `bap_find_setup_by_stream`; the result is the setup pointer (`none` is
`NULL`). -/
def bap_find_setup_by_stream (env : Env) (w : World) (data : bap_data) (stream : Nat) :
    Option Nat :=
  let ep : Option bap_ep := match (env.stream stream).type with
    | .BT_BAP_STREAM_TYPE_UCAST =>
      (find_ep_stream w data.snks stream).or (find_ep_stream w data.srcs stream)
    | .BT_BAP_STREAM_TYPE_BCAST => find_ep_stream w data.bcast stream
    | .other => none
  let queue : List Nat := match ep with
    | some e => e.setups
    | none => data.bcast_snks.getD []
  (find_setup_stream w queue stream).map (fun s => s.ptr)

/-- The case `BT_BAP_STREAM_STATE_IDLE` of the three state handlers: the
setup is freed, or without a setup the stream leaves `data->streams`. -/
def release_idle_stream (w : World) (data : bap_data) (setup : Option Nat) (stream : Nat) :
    World :=
  match setup with
  | some p => setup_free w p
  | none => w.put_data { data with streams := data.streams.erase stream }

/-- The statement `bt_bap_stream_release(stream, NULL, NULL)` guarded by
`old_state != BT_BAP_STREAM_STATE_RELEASING`. -/
def release_unless_releasing (w : World) (stream : Nat) (old_state : Nat) : World :=
  if old_state ≠ BT_BAP_STREAM_STATE_RELEASING then w.emit [Event.bt_bap_stream_release stream]
  else w

/-- `bap_state`, the state callback of a unicast session. -/
def bap_state (env : Env) (w : World) (stream : Nat) (old_state new_state : Nat) (data : Nat) :
    World :=
  if new_state = old_state ∧ new_state ≠ BT_BAP_STREAM_STATE_CONFIG then w
  else
    match w.data data with
    | none => w
    | some d =>
      let setup := bap_find_setup_by_stream env w d stream
      if new_state = BT_BAP_STREAM_STATE_IDLE then release_idle_stream w d setup stream
      else if new_state = BT_BAP_STREAM_STATE_CONFIG then
        match setup.bind w.setup with
        | none => w
        | some s =>
          if s.id ≠ 0 then w
          else
            let w := setup_create_io env w data (some s.ptr) stream true
            match w.setup s.ptr with
            | none => w
            | some s =>
              if s.io.isNone then release_unless_releasing w stream old_state
              else
                let id := env.bt_bap_stream_qos stream s
                let w := (w.put_setup { s with id := id }).emit [Event.bt_bap_stream_qos stream]
                if id = 0 then w.emit [Event.bt_bap_stream_release stream] else w
      else if new_state = BT_BAP_STREAM_STATE_QOS then
        setup_create_io env w data setup stream true
      else if new_state = BT_BAP_STREAM_STATE_ENABLING then
        match setup with
        | some p => setup_create_io env w data (some p) stream false
        | none => w
      else w

/-- `iterate_setup_update_base` on the setup object. -/
def iterate_setup_update_base (setup data_setup : bap_setup) : bap_setup :=
  if setup.stream ≠ data_setup.stream ∧ setup.qos.bcast.big = data_setup.qos.bcast.big then
    { setup with base := data_setup.base }
  else setup

/-- The loop of `get_streams_nb_by_state` over the entries of
`setup->ep->setups` with the `uint8_t` counter `stream_cnt`; `none` when an
entry is gone or a stream is `NULL`, which C dereferences. -/
def get_streams_nb_loop (env : Env) (w : World) (setup : bap_setup) :
    List Nat → Nat → Option Nat
  | [], stream_cnt => some stream_cnt
  | p :: rest, stream_cnt =>
    if p = setup.ptr then get_streams_nb_loop env w setup rest ((stream_cnt + 1) % 256)
    else
      match w.setup p with
      | none => none
      | some ent_setup =>
        match ent_setup.stream, setup.stream with
        | some ent_stream, some stream =>
          if (env.stream ent_stream).qos.bcast.big ≠ (env.stream stream).qos.bcast.big then
            get_streams_nb_loop env w setup rest stream_cnt
          else if (env.stream ent_stream).state = BT_BAP_STREAM_STATE_STREAMING then some 1
          else if (env.stream ent_stream).state ≠ BT_BAP_STREAM_STATE_CONFIG then some 0
          else get_streams_nb_loop env w setup rest ((stream_cnt + 1) % 256)
        | _, _ => none

/-- `get_streams_nb_by_state`. -/
def get_streams_nb_by_state (env : Env) (w : World) (setup : bap_setup) : Option Nat :=
  if setup.qos.bcast.big = BT_ISO_QOS_BIG_UNSET then some 1
  else
    match setup.ep.bind w.ep with
    | none => none
    | some e => get_streams_nb_loop env w setup e.setups 0

/-- The BASE generation of `bap_state_bcast_src`: `setup->base` is set from
`bt_bap_stream_get_base` and copied to the other setups of the BIG in
`setup->ep->setups`. -/
def generate_base (env : Env) (w : World) (s : bap_setup) : World :=
  let s := { s with base := env.bt_bap_stream_get_base s.stream }
  let w := w.put_setup s
  match s.ep.bind w.ep with
  | none => w
  | some e =>
    e.setups.foldl (fun w p => w.with_setup p (fun x => (iterate_setup_update_base x s, []))) w

/-- `bap_state_bcast_src`, the state callback of a broadcast source
session. -/
def bap_state_bcast_src (env : Env) (w : World) (stream : Nat) (old_state new_state : Nat)
    (data : Nat) : World :=
  if new_state = old_state then w
  else
    match w.data data with
    | none => w
    | some d =>
      let setup := bap_find_setup_by_stream env w d stream
      if new_state = BT_BAP_STREAM_STATE_IDLE then release_idle_stream w d setup stream
      else if new_state = BT_BAP_STREAM_STATE_CONFIG then
        match setup.bind w.setup with
        | none => w
        | some s =>
          if s.id ≠ 0 then w
          else
            let w := if s.base.isNone then generate_base env w s else w
            match (w.setup s.ptr).bind (get_streams_nb_by_state env w) with
            | none => w
            | some nb_bises =>
              if nb_bises = 1 then
                let w := setup_create_io env w data (some s.ptr) stream false
                match (w.setup s.ptr).bind (fun x => x.io) with
                | none => release_unless_releasing w stream old_state
                | some _ => w
              else if nb_bises = 0 then w
              else
                let r := create_io_bises env w s.ptr nb_bises data
                if !r.1 then release_unless_releasing r.2 stream old_state else r.2
      else w

/-- `bap_state_bcast_sink`, the state callback of a broadcast sink
session. -/
def bap_state_bcast_sink (env : Env) (w : World) (stream : Nat) (old_state new_state : Nat)
    (data : Nat) : World :=
  if new_state = old_state ∧ new_state ≠ BT_BAP_STREAM_STATE_CONFIG then w
  else
    match w.data data with
    | none => w
    | some d =>
      let setup := bap_find_setup_by_stream env w d stream
      if new_state = BT_BAP_STREAM_STATE_IDLE then release_idle_stream w d setup stream
      else if new_state = BT_BAP_STREAM_STATE_CONFIG then
        match setup with
        | none => w
        | some p =>
          let w := if old_state = BT_BAP_STREAM_STATE_CONFIG then
              setup_create_io env w data (some p) stream false else w
          if old_state = BT_BAP_STREAM_STATE_STREAMING then w.with_setup p setup_io_close
          else w
      else w

/-- The calls of `bt_bap_stream_qos` in a log. -/
def qos_requests (log : List Event) : List Nat :=
  log.filterMap (fun e =>
    match e with
    | .bt_bap_stream_qos stream => some stream
    | _ => none)

/-! ## Recreate sweep -/

/-- `setup_recreate` on the setup object; `g_idle_add(setup_io_recreate,
setup)` answers with a source id. -/
def setup_recreate (env : Env) (info : cig_busy_data) (setup : bap_setup) :
    bap_setup × List Event :=
  if setup.qos.ucast.cig_id ≠ info.cig ∨ setup.recreate = false ∨ setup.io_id ≠ 0 then
    (setup, [])
  else ({ setup with recreate := false, io_id := env.g_idle_add setup.ptr }, [])

/-- `recreate_cig_ep`: `queue_foreach(ep->setups, setup_recreate,
match_data)`. -/
def recreate_cig_ep (env : Env) (w : World) (ep : Nat) (info : cig_busy_data) : World :=
  match w.ep ep with
  | none => w
  | some e => e.setups.foldl (fun w p => w.with_setup p (setup_recreate env info)) w

/-- `recreate_cig_session`. -/
def recreate_cig_session (env : Env) (w : World) (session : bap_data) (info : cig_busy_data) :
    World :=
  if env.device_get_adapter session.device ≠ info.adapter then w
  else
    let w := session.snks.foldl (fun w ep => recreate_cig_ep env w ep info) w
    session.srcs.foldl (fun w ep => recreate_cig_ep env w ep info) w

/-- `recreate_cig` for the setup object `setup`, whose endpoint belongs to
the session `data`. -/
def recreate_cig (env : Env) (w : World) (setup : bap_setup) (data : bap_data) : World :=
  let info : cig_busy_data :=
    { adapter := env.device_get_adapter data.device, cig := setup.qos.ucast.cig_id }
  if setup.qos.ucast.cig_id = BT_ISO_QOS_CIG_UNSET then
    match setup.ep with
    | some ep => recreate_cig_ep env w ep info
    | none => w
  else w.sessions.foldl (fun w session => recreate_cig_session env w session info) w

/-- The first two statements of `setup_io_disconnected`: `setup->io_id = 0`
and `setup_io_close(setup, NULL)`. -/
def setup_io_disconnected_close (w : World) (p : Nat) : World :=
  w.with_setup p (fun s => setup_io_close { s with io_id := 0 })

/-- `setup_io_disconnected`, the watch callback of the channel of the setup at
address `p`. -/
def setup_io_disconnected (env : Env) (w : World) (p : Nat) : World :=
  let w := setup_io_disconnected_close w p
  match w.setup p with
  | none => w
  | some s =>
    match (s.ep.bind w.ep).bind (fun e => w.data e.data) with
    | none => w
    | some data =>
      if !is_cig_busy env w data s.qos.ucast.cig_id then recreate_cig env w s data else w

/-- The setup pointers in the queue of an endpoint. -/
def swept_ep (w : World) (ep : Nat) : List Nat :=
  match w.ep ep with
  | none => []
  | some e => e.setups

/-- The setup pointers in the queues of the sink and source endpoints of a
session, when the session is on the adapter of `info`. -/
def swept_session (env : Env) (w : World) (info : cig_busy_data) (session : bap_data) :
    List Nat :=
  if env.device_get_adapter session.device ≠ info.adapter then []
  else session.snks.flatMap (swept_ep w) ++ session.srcs.flatMap (swept_ep w)

/-- The setup pointers the sweep for the closed setup `setup` of the session
`data` visits: the queue of its endpoint when its CIG id is unset, and
otherwise the queues of the sink and source endpoints of the sessions on its
adapter. -/
def swept (env : Env) (w : World) (setup : bap_setup) (data : bap_data) : List Nat :=
  if setup.qos.ucast.cig_id = BT_ISO_QOS_CIG_UNSET then
    match setup.ep with
    | some ep => swept_ep w ep
    | none => []
  else
    w.sessions.flatMap (swept_session env w
      { adapter := env.device_get_adapter data.device, cig := setup.qos.ucast.cig_id })

/-- Apply `f` to the setups whose address is in `ps`. -/
def World.sweep (w : World) (f : bap_setup → bap_setup) (ps : List Nat) : World :=
  { w with setups := w.setups.map (fun x => if x.ptr ∈ ps then f x else x) }

/-- The setups the sweep for the closed setup `setup` reschedules: those it
visits that have the CIG id of `setup`, wait to be recreated and have no
pending source. -/
def sweep_target (env : Env) (w : World) (setup : bap_setup) (data : bap_data)
    (x : bap_setup) : Prop :=
  x.ptr ∈ swept env w setup data ∧ x.qos.ucast.cig_id = setup.qos.ucast.cig_id ∧
  x.recreate = true ∧ x.io_id = 0

instance (env : Env) (w : World) (setup : bap_setup) (data : bap_data) (x : bap_setup) :
    Decidable (sweep_target env w setup data x) := by
  unfold sweep_target
  exact inferInstance

end Bap

namespace Blacklist

/-! # obexd: blacklist based file access control (jolla-blacklist.c)

A C string is the list of its characters before the terminating NUL; `none`
is the `NULL` pointer. -/

/-- `G_DIR_SEPARATOR`. -/
def G_DIR_SEPARATOR : Char := '/'

/-- `memrchr(s, c, n)`: the index of the last `c` among the first `n`
characters of `s` (`none` is `NULL`). -/
def memrchr (s : List Char) (c : Char) : Nat → Option Nat
  | 0 => none
  | i + 1 => if s.get? i = some c then some i else memrchr s c i

/-- The `while (1)` loop of `normalized_path`.  `out` is `result[0 .. r)`,
the part of the buffer written so far, and `p` the string at the read pointer
`p`; the writes, made in place in the C code, never reach the read pointer
("No modification lengthens the result").  Every round but the last consumes
a character, so a budget above the length of `p` is never used up. -/
def normalized_path_loop : Nat → List Char → List Char → List Char
  | 0, out, _ => out
  | fuel + 1, out, p =>
    let p := p.dropWhile (fun c => c == G_DIR_SEPARATOR)
    let comp := p.takeWhile (fun c => c != G_DIR_SEPARATOR)
    let q := p.dropWhile (fun c => c != G_DIR_SEPARATOR)
    if comp = [] then out
    else
      let out :=
        if comp = ['.'] then out
        else if comp = ['.', '.'] then
          match memrchr out G_DIR_SEPARATOR out.length with
          | some s => if s > 0 then out.take s else []
          | none => []
        else out ++ G_DIR_SEPARATOR :: comp
      match q with
      | [] => out
      | _ :: rest => normalized_path_loop fuel out rest

/-- `normalized_path`. -/
def normalized_path (path : Option (List Char)) : Option (List Char) :=
  match path with
  | none => none
  | some p =>
    if p.head? ≠ some G_DIR_SEPARATOR then none
    else
      let out := normalized_path_loop (p.length + 1) [] p
      some (if out = [] then [G_DIR_SEPARATOR] else out)

/-- The '/'-separated components of a string, empty ones included. -/
def spec_split : List Char → List (List Char)
  | [] => [[]]
  | c :: cs =>
    if c = '/' then [] :: spec_split cs
    else
      match spec_split cs with
      | [] => [[c]]
      | h :: t => (c :: h) :: t

/-- One step of the scan "from left to right, dropping empty and "."
components and letting each ".." remove the most recently kept component
(doing nothing at the root)". -/
def spec_scan_step (kept : List (List Char)) (c : List Char) : List (List Char) :=
  if c = [] ∨ c = ['.'] then kept
  else if c = ['.', '.'] then kept.dropLast
  else kept ++ [c]

/-- The components kept by the scan of the components of a path. -/
def spec_components (p : List Char) : List (List Char) :=
  (spec_split p).foldl spec_scan_step []

/-- The path the specification expects: "'/' followed by the '/'-joined list
of components". -/
def spec_normalized_path (p : List Char) : List Char :=
  '/' :: List.intercalate ['/'] (spec_components p)


/-- The buffer written for a list of kept components: every component
preceded by a separator. -/
def render (kept : List (List Char)) : List Char :=
  kept.flatMap (fun c => '/' :: c)

/-- A kept component: not empty, not "." and not "..", and without
separator. -/
def kept_component (c : List Char) : Prop :=
  c ≠ [] ∧ c ≠ ['.'] ∧ c ≠ ['.', '.'] ∧ '/' ∉ c

instance (c : List Char) : Decidable (kept_component c) := by
  unfold kept_component
  exact inferInstance

/-- `struct blacklist_data`: `path` is the result of `normalized_path` on the
storage path (`NULL` for a relative storage path) and `elem` the array of
blacklisted names. -/
structure blacklist_data where
  path : Option (List Char)
  elem : List (List Char)
  deriving DecidableEq, Repr

/-- The test `path[len] == '\0' || path[len] == G_DIR_SEPARATOR` on a string
of which the first `len` characters were matched: the character at the end
of the string is the terminating NUL. -/
def ends_or_separator (path : List Char) (len : Nat) : Bool :=
  match path.get? len with
  | none => true
  | some c => c == G_DIR_SEPARATOR

/-- `blacklist_match_under`; `g_str_has_prefix(path, check)` is
`check.isPrefixOf path`. -/
def blacklist_match_under (path : List Char) (data : blacklist_data) : Bool :=
  data.elem.any (fun check => check.isPrefixOf path && ends_or_separator path check.length)

/-- The loop of `blacklist_match` over the list `blacklists` for the
normalised path; `none` when `strlen` is called on a `NULL` root. -/
def blacklist_match_loop : List blacklist_data → List Char → Option Bool
  | [], _ => some false
  | data :: rest, path =>
    match data.path with
    | none => none
    | some root =>
      if root.isPrefixOf path && (path.get? root.length == some G_DIR_SEPARATOR) then
        if blacklist_match_under (path.drop (root.length + 1)) data then some true
        else blacklist_match_loop rest path
      else blacklist_match_loop rest path

/-- `blacklist_match` on the global list `blacklists`. -/
def blacklist_match (blacklists : List blacklist_data) (raw_path : Option (List Char)) :
    Option Bool :=
  match normalized_path raw_path with
  | none => some false
  | some path => blacklist_match_loop blacklists path

/-- The name `s` below a storage root is covered by the element `e`: "s
equals e or s starts with e + "/"". -/
def spec_covered (e s : List Char) : Prop :=
  s = e ∨ (e ++ ['/']) <+: s

instance (e s : List Char) : Decidable (spec_covered e s) := by
  unfold spec_covered
  exact inferInstance

/-- The normalised path `n` is blacklisted by the blacklist `b`: "n = r + "/"
+ s where, for some e in E, s equals e or s starts with e + "/"". -/
def spec_blacklisted (b : blacklist_data) (n : List Char) : Prop :=
  ∃ r s, b.path = some r ∧ n = r ++ '/' :: s ∧ ∃ e ∈ b.elem, spec_covered e s

/-- The specification of `blacklist_match`: "p is an absolute path and, with
n = normalized_path(p), some registered blacklist" blacklists `n`. -/
def spec_match (blacklists : List blacklist_data) (p : Option (List Char)) : Prop :=
  ∃ q, p = some q ∧ q.head? = some '/' ∧ ∃ b ∈ blacklists, spec_blacklisted b (spec_normalized_path q)

/-- The registry of the unit test `test_blacklist_matching`. -/
def test_blacklists : List blacklist_data :=
  [ blacklist_data.mk (some "/home/nemo".toList)
      [".ssh".toList, ".invisible_file".toList, "Music/DRM".toList],
    blacklist_data.mk (some "/home/nemo/Documents".toList)
      ["Mailbox".toList, "Work/Restricted".toList],
    blacklist_data.mk (some "/media/sdcard".toList) ["Music/DRM".toList] ]

/-! ## Loading blacklists and the configuration reader -/

/-- `EIO`. -/
def EIO : Int := 5

/-- `EINVAL`. -/
def EINVAL : Int := 22

/-- `g_ascii_isspace`. -/
def g_ascii_isspace (c : Char) : Bool :=
  c == ' ' || c == '\t' || c == '\n' || c == '\r' || c == '\x0b' || c == '\x0c'

/-- `trimmed_string`: the string without leading and trailing white space,
`NULL` when nothing is left. -/
def trimmed_string (string : List Char) : Option (List Char) :=
  let s := string.dropWhile g_ascii_isspace
  let t := (s.reverse.dropWhile g_ascii_isspace).reverse
  if t ≠ [] then some t else none

/-- `strcasecmp(a, b) == 0`. -/
def strcasecmp_eq (a b : List Char) : Bool :=
  a.map Char.toLower == b.map Char.toLower

/-- The status returned by one call of `g_io_channel_read_line`, with the
line it stores for `G_IO_STATUS_NORMAL`. -/
inductive GIOStatus where
  | G_IO_STATUS_ERROR
  | G_IO_STATUS_NORMAL (line : Option (List Char))
  | G_IO_STATUS_EOF
  | G_IO_STATUS_AGAIN
  deriving DecidableEq, Repr

/-- A callback made by the GMarkup reader. -/
inductive markup_event where
  | start_element (element_name : List Char) (attrs : List (List Char × List Char))
  | end_element (element_name : List Char)
  | text (text : List Char)
  | passthrough (text : List Char)
  deriving DecidableEq, Repr

/-- The file system and the GLib readers.  `g_io_channel_new_file` gives the
results of the successive `g_io_channel_read_line` calls on the opened file
(`none`: the file cannot be opened; a channel whose results are used up is at
its end).  `g_markup` gives, for a buffer, the callbacks the reader makes in
order and whether the document is well formed up to its end.
`g_file_test_is_dir` is `g_file_test(path, G_FILE_TEST_IS_DIR)` and
`g_dir_read` gives the names `g_dir_read_name` returns for a directory that
`g_dir_open` can open. -/
structure Files where
  g_io_channel_new_file : List Char → Option (List GIOStatus)
  g_file_get_contents : List Char → Option (List Char)
  g_markup : List Char → List markup_event × Bool
  g_markup_parse_context_new : Bool := true
  g_file_test_is_dir : List Char → Bool := fun _ => false
  g_dir_read : List Char → Option (List (List Char)) := fun _ => none

/-- The `while (!done)` loop of `blacklist_add`: `none` is the `goto out`
with `-EIO`, `some elem` the array at `G_IO_STATUS_EOF`. -/
def blacklist_add_loop : List GIOStatus → List (List Char) → Option (List (List Char))
  | [], elem => some elem
  | GIOStatus.G_IO_STATUS_AGAIN :: rest, elem => blacklist_add_loop rest elem
  | GIOStatus.G_IO_STATUS_NORMAL none :: _, _ => none
  | GIOStatus.G_IO_STATUS_NORMAL (some line) :: rest, elem =>
    if line.head? ≠ some '#' then
      match trimmed_string line with
      | some trim => blacklist_add_loop rest (elem ++ [trim])
      | none => blacklist_add_loop rest elem
    else blacklist_add_loop rest elem
  | GIOStatus.G_IO_STATUS_EOF :: _, elem => some elem
  | GIOStatus.G_IO_STATUS_ERROR :: _, _ => none

/-- `blacklist_add`: the result and the global list `blacklists` after the
call. -/
def blacklist_add (fs : Files) (blacklists : List blacklist_data)
    (storage_path blacklist_file : Option (List Char)) : Int × List blacklist_data :=
  match storage_path, blacklist_file with
  | some sp, some bf =>
    match fs.g_io_channel_new_file bf with
    | none => (- EIO, blacklists)
    | some chan =>
      match blacklist_add_loop chan [] with
      | none => (- EIO, blacklists)
      | some elem => (0, blacklists ++ [blacklist_data.mk (normalized_path (some sp)) elem])
  | _, _ => (-EINVAL, blacklists)

/-- `PARSER_STACK_MAX`. -/
def PARSER_STACK_MAX : Nat := 4

/-- `enum config_elem`. -/
inductive config_elem where
  | CONFIG_ELEM_ROOT
  | CONFIG_ELEM_STORAGE
  | CONFIG_ELEM_BLACKLIST
  deriving DecidableEq, Repr

/-- `struct blacklist_config`. -/
structure blacklist_config where
  storage_path : Option (List Char)
  blacklist_file : Option (List Char)
  deriving DecidableEq, Repr

/-- `struct parser_state`; `stack` holds `stack[0 .. pos)`, the top last. -/
structure parser_state where
  stack : List config_elem
  storage_path : Option (List Char)
  blacklist_file : Option (List Char)
  configs : List blacklist_config
  deriving DecidableEq, Repr

/-- The outcome of a reader callback: the state, `*error` set, or a call
through the `NULL` entry of `end_transition`. -/
inductive parse_result where
  | ok (state : parser_state)
  | error
  | fault
  deriving DecidableEq, Repr

/-- `start_storage`, over the attributes in order. -/
def start_storage (state : parser_state) :
    List (List Char × List Char) → parse_result
  | [] => parse_result.ok state
  | (attr_name, attr_value) :: rest =>
    if strcasecmp_eq attr_name "path".toList then
      if state.storage_path.isSome then parse_result.error
      else if attr_value.head? ≠ some G_DIR_SEPARATOR then parse_result.error
      else start_storage { state with storage_path := trimmed_string attr_value } rest
    else if strcasecmp_eq attr_name "name".toList then start_storage state rest
    else if strcasecmp_eq attr_name "description".toList then start_storage state rest
    else if strcasecmp_eq attr_name "blockdev".toList then start_storage state rest
    else if strcasecmp_eq attr_name "removable".toList then start_storage state rest
    else parse_result.error

/-- `end_storage`. -/
def end_storage (state : parser_state) : parse_result :=
  parse_result.ok { state with storage_path := none }

/-- `start_blacklist`. -/
def start_blacklist (state : parser_state) (attrs : List (List Char × List Char)) :
    parse_result :=
  if attrs ≠ [] then parse_result.error
  else if state.storage_path.isNone then parse_result.error
  else parse_result.ok state

/-- `end_blacklist`. -/
def end_blacklist (state : parser_state) : parse_result :=
  match state.blacklist_file with
  | none => parse_result.error
  | some file =>
    let config := blacklist_config.mk state.storage_path (trimmed_string file)
    parse_result.ok { state with blacklist_file := none, configs := state.configs ++ [config] }

/-- The table `start_transition[from][to]`; `none` is a `NULL` entry. -/
def start_transition (src dst : config_elem) :
    Option (parser_state → List (List Char × List Char) → parse_result) :=
  match src, dst with
  | config_elem.CONFIG_ELEM_ROOT, config_elem.CONFIG_ELEM_STORAGE => some start_storage
  | config_elem.CONFIG_ELEM_STORAGE, config_elem.CONFIG_ELEM_BLACKLIST => some start_blacklist
  | _, _ => none

/-- The table `end_transition[elem]`; `none` is the `NULL` entry. -/
def end_transition : config_elem → Option (parser_state → parse_result)
  | config_elem.CONFIG_ELEM_ROOT => none
  | config_elem.CONFIG_ELEM_STORAGE => some end_storage
  | config_elem.CONFIG_ELEM_BLACKLIST => some end_blacklist

/-- The lookup of the element name in `config_elem_name`, from
`CONFIG_ELEM_STORAGE` on. -/
def lookup_elem (element_name : List Char) : Option config_elem :=
  if strcasecmp_eq element_name "storage".toList then some config_elem.CONFIG_ELEM_STORAGE
  else if strcasecmp_eq element_name "blacklist".toList then
    some config_elem.CONFIG_ELEM_BLACKLIST
  else none

/-- `xml_start_element`. -/
def xml_start_element (state : parser_state) (element_name : List Char)
    (attrs : List (List Char × List Char)) : parse_result :=
  if state.stack.length = PARSER_STACK_MAX then parse_result.error
  else
    match state.stack.getLast? with
    | none => parse_result.error
    | some src =>
      match lookup_elem element_name with
      | none => parse_result.error
      | some dst =>
        match start_transition src dst with
        | none => parse_result.error
        | some start => start { state with stack := state.stack ++ [dst] } attrs

/-- `xml_end_element`. -/
def xml_end_element (state : parser_state) : parse_result :=
  match state.stack.getLast? with
  | none => parse_result.error
  | some top =>
    match end_transition top with
    | none => parse_result.fault
    | some finish => finish { state with stack := state.stack.dropLast }

/-- `xml_text`. -/
def xml_text (state : parser_state) (text : List Char) : parse_result :=
  if state.stack.getLast? = some config_elem.CONFIG_ELEM_BLACKLIST then
    parse_result.ok { state with blacklist_file := some (state.blacklist_file.getD [] ++ text) }
  else if text.all g_ascii_isspace then parse_result.ok state
  else parse_result.error

/-- `xml_passthru`. -/
def xml_passthru (state : parser_state) : parse_result :=
  match state.stack.getLast? with
  | none => parse_result.ok state
  | some top =>
    if top ≠ config_elem.CONFIG_ELEM_ROOT then parse_result.error else parse_result.ok state

/-- The callbacks of `g_markup_parse_context_parse` in order; the reader
stops at the first callback that sets `*error`. -/
def run_callbacks : List markup_event → parser_state → parse_result
  | [], state => parse_result.ok state
  | ev :: rest, state =>
    let r :=
      match ev with
      | markup_event.start_element element_name attrs =>
        xml_start_element state element_name attrs
      | markup_event.end_element _ => xml_end_element state
      | markup_event.text text => xml_text state text
      | markup_event.passthrough _ => xml_passthru state
    match r with
    | parse_result.ok state => run_callbacks rest state
    | r => r

/-- The loop of `append_config` over `state.configs`. -/
def add_configs (fs : Files) :
    List blacklist_data → List blacklist_config → Int × List blacklist_data
  | blacklists, [] => (0, blacklists)
  | blacklists, config :: rest =>
    let (r, blacklists) := blacklist_add fs blacklists config.storage_path config.blacklist_file
    if r < 0 then (r, blacklists) else add_configs fs blacklists rest

/-- `append_config`: the result and the global list `blacklists` after the
call; `none` when a callback calls through a `NULL` table entry. -/
def append_config (fs : Files) (blacklists : List blacklist_data) (config_file : List Char) :
    Option (Int × List blacklist_data) :=
  match fs.g_file_get_contents config_file with
  | none => some (- EIO, blacklists)
  | some buf =>
    if !fs.g_markup_parse_context_new then some (-EINVAL, blacklists)
    else
      match run_callbacks (fs.g_markup buf).1
          (parser_state.mk [config_elem.CONFIG_ELEM_ROOT] none none []) with
      | parse_result.fault => none
      | parse_result.error => some (-EINVAL, blacklists)
      | parse_result.ok state =>
        if !(fs.g_markup buf).2 then some (-EINVAL, blacklists)
        else some (add_configs fs blacklists state.configs)

/-- The blacklist configurations of a configuration file that can be read
and parsed. -/
def parsed_configs (fs : Files) (config_file : List Char) : Option (List blacklist_config) :=
  match fs.g_file_get_contents config_file with
  | none => none
  | some buf =>
    if !fs.g_markup_parse_context_new then none
    else
      match run_callbacks (fs.g_markup buf).1
          (parser_state.mk [config_elem.CONFIG_ELEM_ROOT] none none []) with
      | parse_result.ok state => if !(fs.g_markup buf).2 then none else some state.configs
      | _ => none

/-- A file system with the blacklist file "/etc/root.conf", holding the
lines ".ssh" and "Music/DRM", and the configuration file "/etc/two.xml",
a storage "/home/nemo" with the blacklist files "/etc/root.conf" and
"/etc/missing.conf". -/
def test_files : Files where
  g_io_channel_new_file := fun f =>
    if f = "/etc/root.conf".toList then
      some [GIOStatus.G_IO_STATUS_NORMAL (some ".ssh\n".toList),
        GIOStatus.G_IO_STATUS_NORMAL (some "Music/DRM\n".toList),
        GIOStatus.G_IO_STATUS_EOF]
    else none
  g_file_get_contents := fun f => if f = "/etc/two.xml".toList then some "two".toList else none
  g_markup := fun _ =>
    ([markup_event.start_element "storage".toList [("path".toList, "/home/nemo".toList)],
      markup_event.text "\n  ".toList,
      markup_event.start_element "blacklist".toList [],
      markup_event.text "/etc/root.conf".toList,
      markup_event.end_element "blacklist".toList,
      markup_event.text "\n  ".toList,
      markup_event.start_element "blacklist".toList [],
      markup_event.text "/etc/missing.conf".toList,
      markup_event.end_element "blacklist".toList,
      markup_event.text "\n".toList,
      markup_event.end_element "storage".toList], true)

/-- The blacklist that `blacklist_add` appends for a configuration; `none`
when it fails. -/
def loaded (fs : Files) (c : blacklist_config) : Option blacklist_data :=
  (blacklist_add fs [] c.storage_path c.blacklist_file).2.head?

end Blacklist

namespace Access

/-! # obexd: the access plugin registry (access.c) -/

/-- `EINVAL`. -/
def EINVAL : Int := 22

/-- `EALREADY`. -/
def EALREADY : Int := 114

/-- `ENOENT`. -/
def ENOENT : Int := 2

/-- `struct access_plugin`: the two function pointers, `none` for `NULL`. -/
structure access_plugin where
  check : Option Nat
  check_at : Option Nat
  deriving DecidableEq, Repr

/-- The static variables `plugin_name`, `plugin_ptr` and `plugin_data` of
access.c; `plugin_ptr` is given by the structure it points to. -/
structure Registry where
  plugin_name : Option (List Char)
  plugin_ptr : Option access_plugin
  plugin_data : Option Nat
  deriving DecidableEq, Repr

/-- The registry at program start. -/
def Registry.empty : Registry := Registry.mk none none none

/-- `access_plugin_register`: the result and the registry after the call. -/
def access_plugin_register (reg : Registry) (name : Option (List Char))
    (plugin : Option access_plugin) (user_data : Option Nat) : Int × Registry :=
  match name, plugin with
  | some n, some p =>
    if p.check.isNone || p.check_at.isNone then (-EINVAL, reg)
    else if reg.plugin_name.isSome then (-EALREADY, reg)
    else (0, Registry.mk (some n) (some p) user_data)
  | _, _ => (-EINVAL, reg)

/-- `access_plugin_unregister`: the result and the registry after the call. -/
def access_plugin_unregister (reg : Registry) (name : Option (List Char)) : Int × Registry :=
  match name, reg.plugin_name with
  | some n, some registered =>
    if n ≠ registered then (-ENOENT, reg)
    else (0, Registry.mk none none none)
  | _, _ => (-ENOENT, reg)

/-- A plugin is registered: `plugin_name` is set. -/
def Registry.registered (reg : Registry) : Prop := reg.plugin_name ≠ none

/-- The registry states reached from the start by calls of the two
functions. -/
inductive Registry.reachable : Registry → Prop where
  | start : Registry.reachable Registry.empty
  | register (reg : Registry) (name : Option (List Char)) (plugin : Option access_plugin)
      (user_data : Option Nat) :
      Registry.reachable reg →
      Registry.reachable (access_plugin_register reg name plugin user_data).2
  | unregister (reg : Registry) (name : Option (List Char)) :
      Registry.reachable reg → Registry.reachable (access_plugin_unregister reg name).2

end Access

namespace Exclude

/-! # bluetoothd: mutually exclusive services (plugins/sailfish-exclude.c)

Devices and services are given by their addresses; a string pointer is
`none` when it is `NULL`. -/

/-- `struct mutually_exclusive`. -/
structure mutually_exclusive where
  uuid : Option String
  exclude : Option String
  deriving DecidableEq, Repr

/-- `struct device_exclude`. -/
structure device_exclude where
  device : Nat
  priority : Option Nat
  exclude : Option Nat
  deriving DecidableEq, Repr

/-- The daemon as seen by the plugin: the remote UUID of the profile of a
service and whether the state of a service is
`BTD_SERVICE_STATE_UNAVAILABLE`. -/
structure Env where
  remote_uuid : Nat → Option String
  unavailable : Nat → Bool

/-- The calls made into the daemon. -/
inductive Event where
  | device_remove_profile (device : Nat) (service : Nat)
  | btd_service_unref (service : Nat)
  deriving DecidableEq, Repr

/-- `g_strcmp0(a, b) == 0`: two `NULL` pointers compare equal. -/
def g_strcmp0_eq (a b : Option String) : Bool := a == b

/-- The loop of `device_exclude_get` over `exclusives`: the first rule
whose `uuid` or `exclude` is the remote UUID of the profile decides. -/
def mark_service (remote_uuid : Option String) (service : Nat) (devex : device_exclude) :
    List mutually_exclusive → device_exclude
  | [] => devex
  | ex :: rest =>
    if g_strcmp0_eq ex.uuid remote_uuid then { devex with priority := some service }
    else if g_strcmp0_eq ex.exclude remote_uuid then { devex with exclude := some service }
    else mark_service remote_uuid service devex rest

/-- Store through the pointer to the first entry of `device_excludes` for
the device. -/
def put_devex (devex : device_exclude) : List device_exclude → List device_exclude
  | [] => []
  | d :: rest => if d.device = devex.device then devex :: rest else d :: put_devex devex rest

/-- `device_exclude_get`: the entry of the device, created when there is
none, after the rules were applied to the service, and the list
`device_excludes` after the call. -/
def device_exclude_get (env : Env) (exclusives : List mutually_exclusive)
    (device_excludes : List device_exclude) (device service : Nat) :
    device_exclude × List device_exclude :=
  let found := device_excludes.find? (fun d => d.device == device)
  let device_excludes :=
    if found.isNone then device_excludes ++ [device_exclude.mk device none none]
    else device_excludes
  let devex := found.getD (device_exclude.mk device none none)
  let devex := mark_service (env.remote_uuid service) service devex exclusives
  (devex, put_devex devex device_excludes)

/-- The loop of `filter_cb` over the services passed in. -/
def filter_cb_loop (env : Env) (exclusives : List mutually_exclusive) (device : Nat) :
    List Nat → List device_exclude → List Nat → List Event →
      List Nat × List device_exclude × List Event
  | [], device_excludes, new_list, log => (new_list, device_excludes, log)
  | service :: rest, device_excludes, new_list, log =>
    let (devex, device_excludes) :=
      device_exclude_get env exclusives device_excludes device service
    match devex.priority, devex.exclude with
    | some _, some remove =>
      let device_excludes := put_devex { devex with exclude := none } device_excludes
      let ev :=
        if !env.unavailable remove then Event.device_remove_profile devex.device remove
        else Event.btd_service_unref remove
      filter_cb_loop env exclusives device rest device_excludes (new_list.erase remove)
        (log ++ [ev])
    | _, _ => filter_cb_loop env exclusives device rest device_excludes new_list log

/-- `filter_cb`: the list stored in `*services`, the list `device_excludes`
and the calls made. -/
def filter_cb (env : Env) (exclusives : List mutually_exclusive)
    (device_excludes : List device_exclude) (device : Nat) (services : List Nat) :
    List Nat × List device_exclude × List Event :=
  filter_cb_loop env exclusives device services device_excludes services []

/-- The list the specification expects: the input "minus exactly those
services whose profile remote UUID is the exclude value of a rule whose uuid
value is the remote UUID of another service in the list". -/
def spec_filter (env : Env) (exclusives : List mutually_exclusive) (services : List Nat) :
    List Nat :=
  services.filter (fun s =>
    !(exclusives.any (fun ex =>
      g_strcmp0_eq ex.exclude (env.remote_uuid s) &&
      services.any (fun t => t != s && g_strcmp0_eq ex.uuid (env.remote_uuid t)))))

/-- Two rules, "with A exclude B" and "with C exclude D". -/
def test_exclusives : List mutually_exclusive :=
  [mutually_exclusive.mk (some "A") (some "B"), mutually_exclusive.mk (some "C") (some "D")]

/-- Service 1 has remote UUID "A", service 2 "D", service 3 "B" and service
4 "C"; every service is available. -/
def test_env : Env where
  remote_uuid := fun s =>
    if s = 1 then some "A" else if s = 2 then some "D" else if s = 3 then some "B"
    else if s = 4 then some "C" else none
  unavailable := fun _ => false

end Exclude

namespace Blacklist

/-! ## Plugin initialisation (jolla_blacklist_init) -/

/-- `CONFIG_DIR`. -/
def CONFIG_DIR : List Char := "/etc/fsstorage.d".toList

/-- `CONFIG_SUFFIX`. -/
def CONFIG_SUFFIX : List Char := ".xml".toList

/-- `CONFIG_SUFFIX_LEN`. -/
def CONFIG_SUFFIX_LEN : Nat := 4

/-- `g_build_filename(path, name, NULL)` for a directory path without
trailing separator and a file name. -/
def g_build_filename (path name : List Char) : List Char :=
  path ++ G_DIR_SEPARATOR :: name

/-- `blacklist_clear`: the global list `blacklists` after the call. -/
def blacklist_clear : List blacklist_data := []

/-- The structure `jolla_blacklist_plugin`, with the addresses of
`jolla_blacklist_check` and `jolla_blacklist_check_at`. -/
def jolla_blacklist_plugin : Access.access_plugin :=
  Access.access_plugin.mk (some 1) (some 2)

/-- The loop of `jolla_blacklist_init` over the names of the directory: the
negative `r` with which it leaves through `goto out` (`none` when it runs to
the end) and the list `blacklists`; `none` when `append_config` does not
return. -/
def init_loop (fs : Files) (path : List Char) :
    List (List Char) → List blacklist_data → Option (Option Int × List blacklist_data)
  | [], blacklists => some (none, blacklists)
  | name :: rest, blacklists =>
    if name.length > CONFIG_SUFFIX_LEN ∧
        strcasecmp_eq (name.drop (name.length - CONFIG_SUFFIX_LEN)) CONFIG_SUFFIX then
      match append_config fs blacklists (g_build_filename path name) with
      | none => none
      | some (r, blacklists) =>
        if r < 0 then some (some r, blacklists) else init_loop fs path rest blacklists
    else init_loop fs path rest blacklists

/-- `jolla_blacklist_init` with the static variable `config_dir`: the result,
the global list `blacklists` and the access plugin registry after the call. -/
def jolla_blacklist_init (fs : Files) (config_dir : Option (List Char))
    (blacklists : List blacklist_data) (reg : Access.Registry) :
    Option (Int × List blacklist_data × Access.Registry) :=
  let path := config_dir.getD CONFIG_DIR
  if !fs.g_file_test_is_dir path then some (- EIO, blacklist_clear, reg)
  else
    match fs.g_dir_read path with
    | none => some (- EIO, blacklist_clear, reg)
    | some names =>
      match init_loop fs path names blacklists with
      | none => none
      | some (some r, _) => some (r, blacklist_clear, reg)
      | some (none, blacklists) =>
        let x := Access.access_plugin_register reg (some "jolla_blacklist".toList)
          (some jolla_blacklist_plugin) none
        if x.1 < 0 then some (x.1, blacklist_clear, x.2) else some (0, blacklists, x.2)

/-- `jolla_blacklist_check`: `-EPERM` (-1) when the object is blacklisted. -/
def jolla_blacklist_check (blacklists : List blacklist_data) (object : Option (List Char)) :
    Option Int :=
  (blacklist_match blacklists object).map (fun m => if m then -1 else 0)

/-- The configuration directory "/etc/fsstorage.d" with the file "one.xml",
a storage "/home/nemo" with the blacklist file "/etc/root.conf", which holds
the lines ".ssh" and "Music/DRM". -/
def test_files_init : Files where
  g_io_channel_new_file := fun f =>
    if f = "/etc/root.conf".toList then
      some [GIOStatus.G_IO_STATUS_NORMAL (some ".ssh\n".toList),
        GIOStatus.G_IO_STATUS_NORMAL (some "Music/DRM\n".toList),
        GIOStatus.G_IO_STATUS_EOF]
    else none
  g_file_get_contents := fun f =>
    if f = "/etc/fsstorage.d/one.xml".toList then some "one".toList else none
  g_markup := fun _ =>
    ([markup_event.start_element "storage".toList [("path".toList, "/home/nemo".toList)],
      markup_event.start_element "blacklist".toList [],
      markup_event.text "/etc/root.conf".toList,
      markup_event.end_element "blacklist".toList,
      markup_event.end_element "storage".toList], true)
  g_file_test_is_dir := fun p => p = "/etc/fsstorage.d".toList
  g_dir_read := fun p =>
    if p = "/etc/fsstorage.d".toList then some ["one.xml".toList, "README".toList] else none

/-- The blacklist loaded from `test_files_init`. -/
def nemo_blacklist : blacklist_data :=
  blacklist_data.mk (some "/home/nemo".toList) [".ssh".toList, "Music/DRM".toList]

/-- The registry after the plugin has registered itself. -/
def jolla_registry : Access.Registry :=
  Access.Registry.mk (some "jolla_blacklist".toList) (some jolla_blacklist_plugin) none

end Blacklist

namespace Bap

/-! ## The setups of a BIG seen from one of them -/

/-- The state of the stream of the setup at `p`,
`bt_bap_stream_get_state(setup->stream)`. -/
def setup_state (env : Env) (w : World) (p : Nat) : Option Nat :=
  ((w.setup p).bind (fun s => s.stream)).map (fun st => (env.stream st).state)

/-- The other setups of the BIG of `setup` in a queue of setup pointers: the
entries other than `setup` whose stream has the BIG of the stream of
`setup`. -/
def big_others (env : Env) (w : World) (setup : bap_setup) (entries : List Nat) : List Nat :=
  entries.filter (fun p =>
    decide (p ≠ setup.ptr) &&
    match w.setup p with
    | some sp => decide (stream_big env sp = stream_big env setup)
    | none => false)

/-- A setup without its BASE. -/
def bap_setup.without_base (s : bap_setup) : bap_setup := { s with base := none }

/-! ## Completion callbacks of configure and QoS -/

/-- `qos_cb`, on the setup object given as `user_data`: the setup after the
call and the calls made. -/
def qos_cb (code : Nat) (setup : bap_setup) : bap_setup × List Event :=
  let setup := { setup with id := 0 }
  match setup.msg with
  | none => (setup, [])
  | some msg =>
    let reply := if code = 0 then Reply.method_return else Reply.failed "Unable to configure"
    ({ setup with msg := none }, [Event.g_dbus_send_message msg reply])

/-- `config_cb`, on the setup object given as `user_data`: the setup after
the call and the calls made. -/
def config_cb (env : Env) (stream : Nat) (code : Nat) (setup : bap_setup) :
    bap_setup × List Event :=
  let setup := { setup with id := 0 }
  if code = 0 then
    if (env.stream stream).state = BT_BAP_STREAM_STATE_CONFIG then
      let id := env.bt_bap_stream_qos stream setup
      ({ setup with id := id },
        Event.bt_bap_stream_qos stream ::
          (if id = 0 then [Event.bt_bap_stream_release stream] else []))
    else (setup, [])
  else
    match setup.msg with
    | none => (setup, [])
    | some msg =>
      ({ setup with msg := none },
        [Event.g_dbus_send_message msg (Reply.failed "Unable to configure")])

/-- The calls of `bt_bap_stream_release` in a log. -/
def releases (log : List Event) : List Nat :=
  log.filterMap (fun e =>
    match e with
    | .bt_bap_stream_release stream => some stream
    | _ => none)

/-- The guard "Already probed" of `short_lived_pa_sync`: the request is a
short-sync request and the session of its service has a listen channel. -/
def already_probed (w : World) (req : bap_bcast_pa_req) : Prop :=
  req.type = BAP_PA_SHORT_REQ ∧
  ((w.service_data req.data).bind (fun d => d.listen_io)).isSome = true

instance (w : World) (req : bap_bcast_pa_req) : Decidable (already_probed w req) := by
  unfold already_probed
  exact inferInstance

/-- Where a BASE blob ends inside a subgroup, for the ends at which the
parser expects a one-byte field: the BIS count of the subgroup; after the BIS
count and the codec, the length of the level 2 capabilities; after these
capabilities, the length of the metadata; after all of the subgroup `s` whose
BIS count announces `missing` more BISes, the index of the next BIS; or,
after the index of that BIS, the length of its capabilities. -/
inductive subgroup_cut where
  | count
  | caps_length (num_bis : Nat) (codec : List Nat)
  | meta_length (num_bis : Nat) (codec caps : List Nat)
  | bis_index (s : spec_subgroup) (missing : Nat)
  | bis_caps_length (s : spec_subgroup) (missing : Nat) (index : Nat)
  deriving DecidableEq, Repr

/-- The fields that are present fit their width, the codec descriptor has 5
bytes and a BIS count that runs past the end announces at least one BIS more
than are present. -/
def subgroup_cut.valid : subgroup_cut → Prop
  | .count => True
  | .caps_length _ codec => codec.length = 5
  | .meta_length _ codec caps => codec.length = 5 ∧ caps.length < 256
  | .bis_index s missing => s.valid ∧ 0 < missing
  | .bis_caps_length s missing _ => s.valid ∧ 0 < missing

instance (c : subgroup_cut) : Decidable c.valid := by
  cases c <;> unfold subgroup_cut.valid <;> exact inferInstance

/-- The bytes of the subgroup up to the end of the blob. -/
def subgroup_cut.encode : subgroup_cut → List Nat
  | .count => []
  | .caps_length num_bis codec => num_bis :: codec
  | .meta_length num_bis codec caps => num_bis :: (codec ++ (caps.length :: caps))
  | .bis_index s missing =>
    (s.bises.length + missing) :: (s.codec ++ (s.caps.length :: s.caps) ++
      (s.meta.length :: s.meta) ++ s.bises.flatMap spec_bis.encode)
  | .bis_caps_length s missing index =>
    (s.bises.length + missing) :: (s.codec ++ (s.caps.length :: s.caps) ++
      (s.meta.length :: s.meta) ++ s.bises.flatMap spec_bis.encode ++ [index])

/-- The part of the subgroup that precedes the fault, as a subgroup of its
own: the subgroup with the BISes that are complete in the blob, when the blob
reaches the BIS list. -/
def subgroup_cut.present : subgroup_cut → List spec_subgroup
  | .bis_index s _ => [s]
  | .bis_caps_length s _ _ => [s]
  | _ => []

/-- The BASE blob of the subgroups of `b` followed by a subgroup in which a
length or count field runs past the end of the blob: the blob ends at `c`.
The subgroup count announces this subgroup and `more` subgroups after it. -/
def spec_base.encode_cut_at (b : spec_base) (more : Nat) (c : subgroup_cut) : List Nat :=
  b.pres_delay % 256 :: b.pres_delay / 256 % 256 :: b.pres_delay / 65536 % 256 ::
    (b.subgroups.length + (more + 1)) :: (b.subgroups.flatMap spec_subgroup.encode ++ c.encode)

/-! ## The BIS index in the identifier of a stream -/

/-- `strstr(haystack, needle)` of the C library: the part of `haystack` that
starts at the first occurrence of `needle`; `none` is `NULL`. -/
def strstr : List Char → List Char → Option (List Char)
  | [], needle => if needle = [] then some [] else none
  | c :: cs, needle =>
    if needle.isPrefixOf (c :: cs) then some (c :: cs) else strstr cs needle

/-- `isspace` of the C library in the "C" locale. -/
def isspace (c : Char) : Bool :=
  c == ' ' || c == '\t' || c == '\n' || c == '\x0b' || c == '\x0c' || c == '\r'

/-- The value of a decimal digit. -/
def digit_value (c : Char) : Option Nat :=
  if '0' ≤ c ∧ c ≤ '9' then some (c.toNat - '0'.toNat) else none

/-- The value of the longest run of decimal digits at the start of a string,
added to `acc` times the power of ten. -/
def scan_digits : List Char → Nat → Nat
  | [], acc => acc
  | c :: cs, acc =>
    match digit_value c with
    | some d => scan_digits cs (acc * 10 + d)
    | none => acc

/-- The outcome of a `sscanf` call with one conversion: the input ended
before the conversion (`sscanf` returns `EOF`, -1), the input did not match
(it returns 0 and stores nothing), or a value was stored (it returns 1). -/
inductive scan_result where
  | eof
  | mismatch
  | value (v : Int)
  deriving DecidableEq, Repr

/-- The conversion `%d` of `sscanf` of the C library: white space is skipped,
then an optional sign and a run of decimal digits are read.  Values outside
the range of `int` are not modelled. -/
def scan_int (s : List Char) : scan_result :=
  match s.dropWhile isspace with
  | [] => scan_result.eof
  | c :: cs =>
    let digits := if c = '-' ∨ c = '+' then cs else c :: cs
    match digits.head?.bind digit_value with
    | none => scan_result.mismatch
    | some _ =>
      if c = '-' then scan_result.value (-(Int.ofNat (scan_digits digits 0)))
      else scan_result.value (Int.ofNat (scan_digits digits 0))

/-- The call `sscanf(strbis, "/bis%d", &bis_index)`. -/
def sscanf_bis (strbis : List Char) : scan_result :=
  if "/bis".toList.isPrefixOf strbis then scan_int (strbis.drop 4)
  else if strbis.isPrefixOf "/bis".toList then scan_result.eof
  else scan_result.mismatch

/-- The BIS index `iso_do_big_sync` takes from the identifier
`bt_bap_stream_get_user_data(setup->stream)`: `bis_index` is 1 at first,
`strstr(path, "/bis")` and `sscanf` are applied, and the function returns
(`none`) when `strstr` gives `NULL` or `sscanf` gives -1. -/
def iso_do_big_sync_bis_index (path : String) : Option Int :=
  match strstr path.toList "/bis".toList with
  | none => none
  | some strbis =>
    match sscanf_bis strbis with
    | scan_result.eof => none
    | scan_result.mismatch => some 1
    | scan_result.value v => some v

/-! ## Removal of a PAC -/

/-- `ep_match_pac`. -/
def ep_match_pac (ep : bap_ep) (pac : Nat) : Bool :=
  ep.rpac == some pac || ep.lpac == pac

/-- `pac_removed`; `connected` is `btd_service_get_state(service) ==
BTD_SERVICE_STATE_CONNECTED`.  The result is `none` when the `NULL` session
of the service is dereferenced. -/
def pac_removed (env : Env) (w : World) (service pac : Nat) (connected : Bool) :
    Option World :=
  if !connected then some w
  else
    match w.service_data service with
    | none => none
    | some data =>
      let use_srcs : Option Bool := match env.bt_bap_pac_get_type pac with
        | .BT_BAP_SINK => some true
        | .BT_BAP_SOURCE => some false
        | _ => none
      match use_srcs with
      | none => some w
      | some use_srcs =>
        let queue := if use_srcs then data.srcs else data.snks
        match queue.find? (fun p => ((w.ep p).map (fun e => ep_match_pac e pac)).getD false) with
        | none => some w
        | some ep =>
          let data := if use_srcs then { data with srcs := queue.erase ep }
            else { data with snks := queue.erase ep }
          some (ep_unregister (w.put_data data) ep)

/-- The paths of the endpoints in a queue of endpoint pointers. -/
def ep_paths (w : World) (queue : List Nat) : List String :=
  queue.filterMap (fun p => (w.ep p).map (fun e => e.path))

/-! ## Concrete worlds used to instantiate the theorems -/

/-- A collaborator environment: PAC 10 is a broadcast sink PAC, PAC 11 a
broadcast source PAC, PAC 12 a sink and PAC 13 a source PAC; streams are
unicast except streams 101 and 103, which are broadcast streams of BIG 1 in
the CONFIG state; every transport call succeeds. -/
def env0 : Env where
  bt_bap_pac_get_type := fun p =>
    if p = 10 then .BT_BAP_BCAST_SINK else if p = 11 then .BT_BAP_BCAST_SOURCE
    else if p = 12 then .BT_BAP_SINK else if p = 13 then .BT_BAP_SOURCE else .other
  stream := fun st =>
    if st = 101 ∨ st = 103 then
      { type := .BT_BAP_STREAM_TYPE_BCAST, dir := .BT_BAP_BCAST_SINK,
        state := BT_BAP_STREAM_STATE_CONFIG, qos := { bcast := { big := 1 } } }
    else {}
  bt_bap_stream_new := fun lpac _ _ => if lpac = 11 then some 101 else some 100
  bt_bap_stream_config := fun _ _ => 1
  bt_bap_stream_qos := fun _ _ => 2
  bt_bap_stream_io_get_qos := fun _ => some (some {}, none)
  device_get_adapter := fun d => d.map (fun _ => 1)
  bt_io_connect := fun s _ _ => some (1000 + s.ptr)
  bt_io_listen := fun d _ => some (2000 + d)
  g_io_add_watch := fun io => io + 1
  g_idle_add := fun p => 5000 + p
  g_timeout_add_seconds := fun a => 6000 + a
  getsockopt_defer := fun _ => some true
  poll_out := fun _ => some true
  read_ok := fun _ => true

/-- The broadcast endpoint 2 (in the `bcast` queue of session 1) with one
setup, at address 3, that has an open channel. -/
def world_bcast : World where
  sessions := [{ ptr := 1, device := some 7, bcast := [2], bcast_snks := some [] }]
  eps := [{ ptr := 2, data := 1, lpac := 10, rpac := some 20,
            path := "/org/bluez/hci0/dev_00/pac_bcast0", setups := [3] }]
  setups := [{ ptr := 3, ep := some 2, io := some 5, io_id := 4,
               qos_parser_fn := .setup_parse_bcast_qos, destroy := true }]
  next := 4

/-- The world reached from `world_bcast` by `setup_free` of the setup at
address 3: the setup is gone from the queue of endpoint 2 and its address is
free again. -/
def world_freed : World := setup_free world_bcast 3

/-- The world reached from `world_bcast` by `create_stream_for_bis`, which
allocates a broadcast-sink setup at address 4, followed by `setup_free` of
that setup. -/
def world_sink_freed : World :=
  setup_free (create_stream_for_bis env0 world_bcast 1 10 {} [] []
    "/org/bluez/hci0/dev_00/bis1") 4

/-- A `SetConfiguration` whose `QoS` dictionary carries a `BCode` of 8 bytes. -/
def msg_bcode8 : DBusMessage where
  ptr := 50
  path := "/org/bluez/hci0/dev_00/pac_bcast0"
  props := [("QoS", .dict [("BCode", .array [1, 2, 3, 4, 5, 6, 7, 8])])]

/-- The recognized keys of the `QoS` dictionary as the specification lists
them, per role: the unicast shape and the broadcast shape. -/
def spec_recognized_keys : qos_parser_kind → List String
  | .setup_parse_ucast_qos =>
    ["CIG", "CIS", "Framing", "PresentationDelay", "TargetLatency",
     "Interval", "PHY", "SDU", "Retransmissions", "Latency"]
  | .setup_parse_bcast_qos =>
    ["Encryption", "BIG", "Options", "Skip", "SyncTimeout", "SyncType", "SyncFactor",
     "MSE", "Timeout", "PresentationDelay", "BCode",
     "Interval", "PHY", "SDU", "Retransmissions", "Latency"]

/-- The role of an endpoint as `setup_new` determines it: broadcast for an
endpoint of the `bcast` queue of its session, unicast otherwise. -/
def ep_role (w : World) (ep : Nat) : qos_parser_kind :=
  if ep_in_bcast w ep then .setup_parse_bcast_qos else .setup_parse_ucast_qos

/-- The unicast sink endpoint 2 (in the `snks` queue of session 1), without
setups. -/
def world_ucast : World where
  sessions := [{ ptr := 1, device := some 7, snks := [2] }]
  eps := [{ ptr := 2, data := 1, lpac := 13, rpac := some 12,
            path := "/org/bluez/hci0/dev_00/pac_sink0", setups := [] }]
  setups := []
  next := 3

/-- A `SetConfiguration` whose `QoS` dictionary carries the key `Foo`. -/
def msg_unknown_key : DBusMessage where
  ptr := 51
  path := "/org/bluez/hci0/dev_00/pac_sink0"
  props := [("QoS", .dict [("Foo", .byte 1)])]

/-- Two unicast sink endpoints 2 and 4 of session 1 (device 7): setup 3 of
endpoint 2 has CIG 3 with an open, active channel, setup 5 of endpoint 4 has
CIG 3 and no channel. -/
def world_cig : World where
  sessions := [{ ptr := 1, device := some 7, snks := [2, 4] }]
  eps := [{ ptr := 2, data := 1, lpac := 13, rpac := some 12, setups := [3] },
          { ptr := 4, data := 1, lpac := 13, rpac := some 14, setups := [5] }]
  setups := [{ ptr := 3, ep := some 2, stream := some 100, io := some 9, io_id := 8,
               cig_active := true,
               qos := { ucast := { cig_id := 3, cis_id := 1 } } },
             { ptr := 5, ep := some 4, stream := some 102,
               qos := { ucast := { cig_id := 3, cis_id := 2 } } }]
  next := 6

/-- A setup of the broadcast source endpoint 2, of BIG 1, with the BASE
generated for the BIG. -/
def big_setup (ptr stream : Nat) : bap_setup :=
  { ptr := ptr, ep := some 2, stream := some stream, base := some [0, 0, 0, 1],
    qos_parser_fn := .setup_parse_bcast_qos, destroy := true,
    qos := { bcast := { big := 1, bis := 0xff } } }

/-- The broadcast source endpoint 2 (in the `bcast` queue of session 1) with
the two setups 3 and 4 of BIG 1, whose streams 101 and 103 are in the CONFIG
state. -/
def world_big : World where
  sessions := [{ ptr := 1, bcast := [2], user_data := some 1 }]
  eps := [{ ptr := 2, data := 1, lpac := 11, path := "/org/bluez/hci0/pac_bcast0",
            setups := [3, 4] }]
  setups := [big_setup 3 101, big_setup 4 103]
  next := 5

/-- The unicast sink endpoint 2 with two setups that both wait for the answer
to their `SetConfiguration` (messages 60 and 61): setup 3 has the pending
operation 9 and an open channel, setup 4 has no pending operation. -/
def world_pending : World where
  sessions := [{ ptr := 1, device := some 7, snks := [2] }]
  eps := [{ ptr := 2, data := 1, lpac := 13, rpac := some 12,
            path := "/org/bluez/hci0/dev_00/pac_sink0", setups := [3, 4] }]
  setups := [{ ptr := 3, ep := some 2, stream := some 100, id := 9, msg := some 60,
               io := some 15, io_id := 16 },
             { ptr := 4, ep := some 2, stream := some 102, msg := some 61 }]
  next := 5

/-- Every BIS is matched by PAC 10, with the level 2 capabilities followed by
the level 3 capabilities; the peer 7 has the path `/dev_7`. -/
def env_sink : Env :=
  { env0 with
    bt_bap_verify_bis := fun _ _ _ l2 l3 => (some 10, some (l2.bytes ++ l3.bytes)),
    device_get_path := fun _ => "/dev_7" }

/-- A broadcast sink session, at address 1, of the peer 7 with an empty
`bcast_snks` queue. -/
def world_sink : World where
  sessions := [{ ptr := 1, device := some 7, bap := 9, bcast_snks := some [] }]
  next := 2

/-- A BASE with one subgroup that lists BIS 2 before BIS 1. -/
def base_21 : spec_base where
  pres_delay := 40000
  subgroups := [{ codec := [6, 0, 0, 0, 0], caps := [2, 1, 3], meta := [3, 2, 4, 0],
                  bises := [{ index := 2, caps := [] }, { index := 1, caps := [2, 3, 1] }] }]

/-- Every service belongs to the device 7 (whose adapter is 1, as in
`env0`). -/
def env_pa : Env := { env0 with btd_service_get_device := fun _ => some 7 }

/-- One adapter object, at address 40, for the adapter 1, with an empty
request queue and a stopped timer. -/
def world_pa : World where
  adapters := [{ ptr := 40, adapter := 1 }]
  next := 41

/-- The world after `bap_bcast_probe` of the service 30 in `world_pa`. -/
def world_pa_probed : World :=
  match bap_bcast_probe env_pa world_pa 30 with
  | some r => r.2
  | none => world_pa

/-- The world after a tick of the timer of the adapter 40 in
`world_pa_probed`. -/
def world_pa_ticked : World :=
  match pa_idle_timer env_pa world_pa_probed 40 with
  | some r => r.2
  | none => world_pa_probed

/-- The environment `env_sink` in which every service belongs to the
device 7. -/
def env_reg : Env := { env_sink with btd_service_get_device := fun _ => some 7 }

/-- One session, at address 1, of the service 30 and the device 7 on the
adapter object 40, with no endpoint yet. -/
def world_reg : World where
  sessions := [{ ptr := 1, device := some 7, service := some 30, adapter := some 40 }]
  adapters := [{ ptr := 40, adapter := 1 }]
  next := 41

/-- The world after `ep_register` of the local PAC 9 and the remote sink
PAC 12 for the service 30 in `world_reg`. -/
def world_reg_sink : World :=
  match ep_register env_reg world_reg 30 9 12 with
  | some r => r.2
  | none => world_reg

/-- The world after `ep_register_bcast` of the local broadcast source PAC 11
on the session 1 in `world_reg`. -/
def world_reg_bcast : World :=
  match ep_register_bcast env_reg world_reg 1 11 none with
  | some r => r.2
  | none => world_reg

/-- Two unicast sink endpoints 2 and 4 of session 1 (device 7), all setups in
CIG 3: setup 3 of endpoint 2 has an open channel that is about to close;
setup 5 of endpoint 4 waits to be recreated and has no pending source;
setup 6 of endpoint 4 waits to be recreated and has an open channel with its
watch 12. -/
def world_recreate : World where
  sessions := [{ ptr := 1, device := some 7, snks := [2, 4] }]
  eps := [{ ptr := 2, data := 1, lpac := 13, rpac := some 12, setups := [3] },
          { ptr := 4, data := 1, lpac := 13, rpac := some 14, setups := [5, 6] }]
  setups := [{ ptr := 3, ep := some 2, stream := some 100, io := some 9, io_id := 8,
               qos := { ucast := { cig_id := 3, cis_id := 1 } } },
             { ptr := 5, ep := some 4, stream := some 102, recreate := true,
               qos := { ucast := { cig_id := 3, cis_id := 2 } } },
             { ptr := 6, ep := some 4, stream := some 104, recreate := true, io := some 11,
               io_id := 12, qos := { ucast := { cig_id := 3, cis_id := 3 } } }]
  next := 7

/-- The streams 101, 103, 105 and 107 are broadcast streams of BIG 1: 101
and 107 are in the CONFIG state, 103 is RELEASING and 105 is STREAMING. -/
def env_states : Env :=
  { env0 with
    stream := fun st =>
      if st = 101 ∨ st = 107 then
        { type := .BT_BAP_STREAM_TYPE_BCAST, dir := .BT_BAP_BCAST_SINK,
          state := BT_BAP_STREAM_STATE_CONFIG, qos := { bcast := { big := 1 } } }
      else if st = 103 then
        { type := .BT_BAP_STREAM_TYPE_BCAST, dir := .BT_BAP_BCAST_SINK,
          state := BT_BAP_STREAM_STATE_RELEASING, qos := { bcast := { big := 1 } } }
      else if st = 105 then
        { type := .BT_BAP_STREAM_TYPE_BCAST, dir := .BT_BAP_BCAST_SINK,
          state := BT_BAP_STREAM_STATE_STREAMING, qos := { bcast := { big := 1 } } }
      else {} }

/-- A setup of the broadcast source endpoint 2, of BIG 1, without BASE. -/
def new_big_setup (ptr stream : Nat) : bap_setup :=
  { ptr := ptr, ep := some 2, stream := some stream,
    qos_parser_fn := .setup_parse_bcast_qos, destroy := true,
    qos := { bcast := { big := 1, bis := 0xff } } }

/-- The broadcast source endpoint 2 with the setups 3 (stream 103, which is
RELEASING under `env_states`) and 5 (stream 101, in CONFIG) of BIG 1. -/
def world_wait : World where
  sessions := [{ ptr := 1, bcast := [2], user_data := some 1 }]
  eps := [{ ptr := 2, data := 1, lpac := 11, path := "/org/bluez/hci0/pac_bcast0",
            setups := [3, 5] }]
  setups := [big_setup 3 103, new_big_setup 5 101]
  next := 6

/-- The broadcast source endpoint 2 with the setups 3 (stream 103,
RELEASING), 4 (stream 105, STREAMING) and 5 (stream 101, CONFIG) of BIG 1, in
this order in the queue of the endpoint. -/
def world_streaming : World where
  sessions := [{ ptr := 1, bcast := [2], user_data := some 1 }]
  eps := [{ ptr := 2, data := 1, lpac := 11, path := "/org/bluez/hci0/pac_bcast0",
            setups := [3, 4, 5] }]
  setups := [big_setup 3 103, big_setup 4 105, big_setup 5 101]
  next := 6

/-- The world `world_streaming` with the streaming setup 4 first in the queue
of the endpoint. -/
def world_streaming_first : World where
  sessions := [{ ptr := 1, bcast := [2], user_data := some 1 }]
  eps := [{ ptr := 2, data := 1, lpac := 11, path := "/org/bluez/hci0/pac_bcast0",
            setups := [4, 3, 5] }]
  setups := [big_setup 3 103, big_setup 4 105, big_setup 5 101]
  next := 6

/-- The session 1 of the service 30 on the adapter object 40 has a listen
channel already, and the queue of the adapter holds one short-sync request,
at address 50, for the service 30. -/
def world_pa_listening : World where
  sessions := [{ ptr := 1, device := some 7, service := some 30, adapter := some 40,
                 listen_io := some 77 }]
  adapters := [{ ptr := 40, adapter := 1, pa_timer_id := 6040,
                 bcast_pa_requests := [{ ptr := 50, type := BAP_PA_SHORT_REQ, data := 30 }] }]
  next := 51

/-- The environment `env_pa` in which `bt_io_get` succeeds and reports a BASE
without subgroups. -/
def env_pa_base : Env := { env_pa with bt_io_get := fun _ => some ([0, 0, 0, 0], {}) }

/-- A subgroup with the one BIS 1. -/
def subgroup_1 : spec_subgroup where
  codec := [6, 0, 0, 0, 0]
  caps := [2, 1, 3]
  meta := [3, 2, 4, 0]
  bises := [{ index := 1, caps := [2, 3, 1] }]

/-- The environment `env_sink` in which every stream is a broadcast stream. -/
def env_bsink : Env :=
  { env_sink with
    stream := fun _ => { type := .BT_BAP_STREAM_TYPE_BCAST, dir := .BT_BAP_BCAST_SOURCE,
                         state := BT_BAP_STREAM_STATE_CONFIG } }

/-- The broadcast sink session of `world_sink` after `parse_base` has read a
BASE with the one subgroup `subgroup_1`: the setup of BIS 1, at address 2,
has the stream 100 and is in `bcast_snks`. -/
def world_sink_parsed : World :=
  match parse_base env_bsink world_sink 1 (spec_base.mk 40000 [subgroup_1]).encode {} with
  | some r => r.2
  | none => world_sink

/-- The environment `env_reg` with the remote sink PACs 12, 14 and 16 and the
local source PACs 13 and 15. -/
def env_pacs : Env :=
  { env_reg with
    bt_bap_pac_get_type := fun p =>
      if p = 12 ∨ p = 14 ∨ p = 16 then .BT_BAP_SINK
      else if p = 13 ∨ p = 15 then .BT_BAP_SOURCE else .other }

/-- The world after `ep_register` for the remote sink PACs 12 (with the local
PAC 13) and 14 (with the local PAC 15) in `world_reg`. -/
def world_two_sinks : World :=
  match ep_register env_pacs world_reg 30 13 12 with
  | some r =>
    match ep_register env_pacs r.2 30 15 14 with
    | some r => r.2
    | none => world_reg
  | none => world_reg

/-- The world after `pac_removed` for the local PAC 13 in
`world_two_sinks`. -/
def world_one_sink : World :=
  match pac_removed env_pacs world_two_sinks 30 13 true with
  | some w => w
  | none => world_two_sinks

end Bap

/-! # Theorems -/

namespace Bap

/-! ## Comparison of keys -/

theorem strcasecmp_trans_ne {k a b : String} (h : strcasecmp k a = false)
    (hab : strcasecmp a b = true) : strcasecmp k b = true := by
  unfold strcasecmp at *
  simp only [bne_eq_false_iff_eq, bne_iff_ne, ne_eq] at *
  rw [h]; exact hab

/-! ## The QoS parsers keep the parser and the bookkeeping fields -/

theorem setup_parse_bcast_qos_bcode {setup : bap_setup} {key : String} {bytes : List Nat}
    (hk : strcasecmp key "BCode" = false) (hlen : bytes.length ≠ 16) :
    (setup_parse_bcast_qos setup key .DBUS_TYPE_ARRAY (.array bytes)).1 = -EINVAL := by
  have h1 := strcasecmp_trans_ne (b := "Encryption") hk (by decide)
  have h2 := strcasecmp_trans_ne (b := "BIG") hk (by decide)
  have h3 := strcasecmp_trans_ne (b := "Options") hk (by decide)
  have h4 := strcasecmp_trans_ne (b := "Skip") hk (by decide)
  have h5 := strcasecmp_trans_ne (b := "SyncTimeout") hk (by decide)
  have h6 := strcasecmp_trans_ne (b := "SyncType") hk (by decide)
  have h7 := strcasecmp_trans_ne (b := "SyncFactor") hk (by decide)
  have h8 := strcasecmp_trans_ne (b := "MSE") hk (by decide)
  have h9 := strcasecmp_trans_ne (b := "Timeout") hk (by decide)
  have h10 := strcasecmp_trans_ne (b := "PresentationDelay") hk (by decide)
  simp [setup_parse_bcast_qos, h1, h2, h3, h4, h5, h6, h7, h8, h9, h10, hk, parse_array, hlen]

theorem setup_parse_ucast_qos_fields (setup : bap_setup) (key : String) (var : dbus_type)
    (iter : qos_value) :
    ∃ q, (setup_parse_ucast_qos setup key var iter).2 = { setup with qos := q } :=
  ⟨_, rfl⟩

theorem setup_parse_bcast_qos_fields (setup : bap_setup) (key : String) (var : dbus_type)
    (iter : qos_value) :
    ∃ q, (setup_parse_bcast_qos setup key var iter).2 = { setup with qos := q } :=
  ⟨_, rfl⟩

theorem qos_parser_call_fields (f : qos_parser_kind) (setup : bap_setup) (key : String)
    (var : dbus_type) (iter : qos_value) :
    ∃ q, (f.call setup key var iter).2 = { setup with qos := q } := by
  cases f
  · exact setup_parse_ucast_qos_fields setup key var iter
  · exact setup_parse_bcast_qos_fields setup key var iter

theorem setup_parse_qos_fields (es : List (String × qos_value)) (setup : bap_setup) :
    ∃ q, (setup_parse_qos setup es).2 = { setup with qos := q } := by
  induction es generalizing setup with
  | nil => exact ⟨setup.qos, rfl⟩
  | cons kv rest ih =>
    obtain ⟨key, value⟩ := kv
    obtain ⟨q, hq⟩ := qos_parser_call_fields setup.qos_parser_fn setup key value.arg_type value
    unfold setup_parse_qos
    simp only []
    split_ifs
    · exact ⟨q, hq⟩
    · obtain ⟨q', hq'⟩ := ih (setup.qos_parser_fn.call setup key value.arg_type value).2
      refine ⟨q', ?_⟩
      rw [hq', hq]

theorem setup_parse_configuration_loop_fields (props : List (String × prop_value))
    (setup : bap_setup) (iov : List Nat) :
    ∃ q c m, (setup_parse_configuration_loop setup iov props).2 =
      { setup with qos := q, caps := c, metadata := m } := by
  induction props generalizing setup iov with
  | nil => exact ⟨setup.qos, setup.caps, setup.metadata, rfl⟩
  | cons kv rest ih =>
    obtain ⟨key, value⟩ := kv
    unfold setup_parse_configuration_loop
    simp only []
    split_ifs
    · exact ⟨setup.qos, setup.caps, setup.metadata, rfl⟩
    · obtain ⟨q, c, m, h⟩ := ih { setup with caps := some (value.fixed_array iov) }
        (value.fixed_array iov)
      exact ⟨q, c, m, by rw [h]⟩
    · exact ⟨setup.qos, setup.caps, setup.metadata, rfl⟩
    · obtain ⟨q, c, m, h⟩ := ih { setup with metadata := some (value.fixed_array iov) }
        (value.fixed_array iov)
      exact ⟨q, c, m, by rw [h]⟩
    · exact ⟨setup.qos, setup.caps, setup.metadata, rfl⟩
    · obtain ⟨q, hq⟩ := setup_parse_qos_fields value.dict_entries setup
      exact ⟨q, setup.caps, setup.metadata, by rw [hq]⟩
    · obtain ⟨q, hq⟩ := setup_parse_qos_fields value.dict_entries setup
      obtain ⟨q', c, m, h⟩ := ih (setup_parse_qos setup value.dict_entries).2 iov
      exact ⟨q', c, m, by rw [h, hq]⟩
    · exact ih setup iov

/-! ## A broadcast code of the wrong length is rejected -/

theorem setup_parse_qos_bcode (es : List (String × qos_value)) (setup : bap_setup)
    (hp : setup.qos_parser_fn = .setup_parse_bcast_qos)
    (hbad : ∃ key bytes, (key, qos_value.array bytes) ∈ es ∧
      strcasecmp key "BCode" = false ∧ bytes.length ≠ 16) :
    (setup_parse_qos setup es).1 ≠ 0 := by
  induction es generalizing setup with
  | nil => obtain ⟨_, _, h, _⟩ := hbad; simp at h
  | cons kv rest ih =>
    obtain ⟨key, value⟩ := kv
    unfold setup_parse_qos
    simp only []
    split_ifs with h
    · exact h
    · obtain ⟨k, bytes, hmem, hk, hlen⟩ := hbad
      rcases List.mem_cons.mp hmem with heq | hrest
      · exfalso
        apply h
        injection heq with h1 h2
        subst h1; subst h2
        rw [hp]
        show (setup_parse_bcast_qos setup k .DBUS_TYPE_ARRAY (.array bytes)).1 ≠ 0
        rw [setup_parse_bcast_qos_bcode hk hlen]
        decide
      · obtain ⟨q, hq⟩ := qos_parser_call_fields setup.qos_parser_fn setup key value.arg_type value
        apply ih
        · rw [hq]; exact hp
        · exact ⟨k, bytes, hrest, hk, hlen⟩

theorem setup_parse_configuration_loop_bcode (props : List (String × prop_value))
    (setup : bap_setup) (iov : List Nat)
    (hp : setup.qos_parser_fn = .setup_parse_bcast_qos)
    (hbad : ∃ k es, (k, prop_value.dict es) ∈ props ∧ strcasecmp k "QoS" = false ∧
      ∃ key bytes, (key, qos_value.array bytes) ∈ es ∧
        strcasecmp key "BCode" = false ∧ bytes.length ≠ 16) :
    (setup_parse_configuration_loop setup iov props).1 = -EINVAL := by
  induction props generalizing setup iov with
  | nil => obtain ⟨_, _, h, _⟩ := hbad; simp at h
  | cons kv rest ih =>
    obtain ⟨key, value⟩ := kv
    obtain ⟨k, es, hmem, hk, hes⟩ := hbad
    rcases List.mem_cons.mp hmem with heq | hrest
    · injection heq with h1 h2
      subst h1; subst h2
      have hc := strcasecmp_trans_ne (b := "Capabilities") hk (by decide)
      have hm := strcasecmp_trans_ne (b := "Metadata") hk (by decide)
      have hq := setup_parse_qos_bcode es setup hp hes
      unfold setup_parse_configuration_loop
      simp [hc, hm, hk, prop_value.arg_type, prop_value.dict_entries, hq]
    · have hbad' : ∃ k es, (k, prop_value.dict es) ∈ rest ∧ strcasecmp k "QoS" = false ∧
          ∃ key bytes, (key, qos_value.array bytes) ∈ es ∧
            strcasecmp key "BCode" = false ∧ bytes.length ≠ 16 := ⟨k, es, hrest, hk, hes⟩
      unfold setup_parse_configuration_loop
      simp only []
      split_ifs
      · rfl
      · exact ih _ _ hp hbad'
      · rfl
      · exact ih _ _ hp hbad'
      · rfl
      · rfl
      · obtain ⟨q, hq⟩ := setup_parse_qos_fields value.dict_entries setup
        exact ih _ _ (by rw [hq]; exact hp) hbad'
      · exact ih _ _ hp hbad'

/-! ## Pointer lookups in the world -/

theorem find_ptr_eq {α : Type} (key : α → Nat) (l : List α) (p : Nat) (a : α)
    (h : l.find? (fun x => key x == p) = some a) : key a = p := by
  have := List.find?_some h
  simpa using this

theorem find_map_put {α : Type} (key : α → Nat) (l : List α) (p : Nat) (a a' : α)
    (h : l.find? (fun x => key x == p) = some a) (hk : key a' = p) :
    (l.map (fun x => if key x = key a' then a' else x)).find? (fun x => key x == p)
      = some a' := by
  subst hk
  induction l with
  | nil => simp at h
  | cons x xs ih =>
    by_cases hx : key x = key a'
    · simp [List.find?, hx]
    · have hx' : (key x == key a') = false := by simpa using hx
      rw [List.find?_cons, hx'] at h
      simp only [List.map_cons, hx, if_false, List.find?_cons, hx']
      exact ih h

theorem find_map_put_ne {α : Type} (key : α → Nat) (l : List α) (p : Nat) (a' : α)
    (hk : key a' ≠ p) :
    (l.map (fun x => if key x = key a' then a' else x)).find? (fun x => key x == p)
      = l.find? (fun x => key x == p) := by
  induction l with
  | nil => rfl
  | cons x xs ih =>
    by_cases hx : key x = key a'
    · have h1 : (key a' == p) = false := by simpa using hk
      have h2 : (key x == p) = false := by rw [hx]; exact h1
      simp only [List.map_cons, hx, if_true, List.find?_cons, h1, h2]
      simpa [hx] using ih
    · simp only [List.map_cons, hx, if_false, List.find?_cons]
      cases key x == p
      · simpa using ih
      · rfl

theorem map_put_keys {α : Type} (key : α → Nat) (l : List α) (a' : α) :
    (l.map (fun x => if key x = key a' then a' else x)).map key = l.map key := by
  induction l with
  | nil => rfl
  | cons x xs ih =>
    by_cases hx : key x = key a'
    · simp [hx, ih]
    · simp [hx, ih]

/-! ## Frame properties of the setup operations -/

theorem with_setup_eps (w : World) (p : Nat) (f : bap_setup → bap_setup × List Event) :
    (w.with_setup p f).eps = w.eps ∧ (w.with_setup p f).sessions = w.sessions ∧
    (w.with_setup p f).next = w.next ∧
    (w.with_setup p f).setups.map (fun s => s.ptr) = w.setups.map (fun s => s.ptr) := by
  unfold World.with_setup
  cases h : w.setup p with
  | none => simp
  | some s =>
    refine ⟨rfl, rfl, rfl, ?_⟩
    exact map_put_keys (fun s => s.ptr) w.setups _

theorem ep_close_frame (w : World) (ep : Option Nat) :
    (ep_close w ep).eps = w.eps ∧ (ep_close w ep).sessions = w.sessions ∧
    (ep_close w ep).next = w.next ∧
    (ep_close w ep).setups.map (fun s => s.ptr) = w.setups.map (fun s => s.ptr) := by
  unfold ep_close
  cases ep with
  | none => simp
  | some p =>
    simp only []
    cases w.ep p with
    | none => simp
    | some e =>
      simp only []
      generalize e.setups = l
      induction l generalizing w with
      | nil => simp
      | cons x xs ih =>
        simp only [List.foldl_cons]
        obtain ⟨h1, h2, h3, h4⟩ := ih (w.with_setup x setup_io_close)
        obtain ⟨g1, g2, g3, g4⟩ := with_setup_eps w x setup_io_close
        exact ⟨h1.trans g1, h2.trans g2, h3.trans g3, h4.trans g4⟩



theorem put_setup_frame (w : World) (s : bap_setup) :
    (w.put_setup s).eps = w.eps ∧ (w.put_setup s).sessions = w.sessions ∧
    (w.put_setup s).next = w.next ∧ (w.put_setup s).log = w.log ∧
    (w.put_setup s).setups.map (fun s => s.ptr) = w.setups.map (fun s => s.ptr) :=
  ⟨rfl, rfl, rfl, rfl, map_put_keys (fun s => s.ptr) w.setups s⟩

theorem erase_append_fresh (l : List Nat) (p : Nat) (h : ∀ q ∈ l, q < p) :
    (l ++ [p]).erase p = l := by
  induction l with
  | nil => simp
  | cons x xs ih =>
    have hx : x ≠ p := by
      have := h x (List.mem_cons_self _ _)
      omega
    rw [List.cons_append, List.erase_cons_tail (by simpa using hx)]
    rw [ih (fun q hq => h q (List.mem_cons_of_mem _ hq))]

theorem setup_new_init_fields (w : World) (ep : Option Nat) :
    (setup_new_init w ep).ptr = w.next ∧ (setup_new_init w ep).ep = ep ∧
    (setup_new_init w ep).stream = none ∧ (setup_new_init w ep).msg = none ∧
    (setup_new_init w ep).io = none ∧ (setup_new_init w ep).io_id = 0 ∧
    (setup_new_init w ep).id = 0 := by
  unfold setup_new_init
  simp only []
  split_ifs <;> exact ⟨rfl, rfl, rfl, rfl, rfl, rfl, rfl⟩

theorem setup_new_some (w : World) (ep : Nat) (e : bap_ep) (h : w.ep ep = some e) :
    setup_new w (some ep) = (setup_new_init w (some ep),
      World.put_ep { w with next := w.next + 1,
                            setups := w.setups ++ [setup_new_init w (some ep)] }
        { e with setups := e.setups ++ [w.next] }) := by
  have h' : World.ep { w with next := w.next + 1,
                              setups := w.setups ++ [setup_new_init w (some ep)] } ep
      = some e := h
  simp only [setup_new, h', (setup_new_init_fields w (some ep)).1]

theorem find_append_fresh (l : List bap_setup) (n : bap_setup)
    (h : ∀ s ∈ l, s.ptr < n.ptr) :
    (l ++ [n]).find? (fun s => s.ptr == n.ptr) = some n := by
  induction l with
  | nil => simp
  | cons x xs ih =>
    have hx : (x.ptr == n.ptr) = false := by
      have := h x (List.mem_cons_self _ _)
      simp; omega
    rw [List.cons_append, List.find?_cons, hx]
    exact ih (fun s hs => h s (List.mem_cons_of_mem _ hs))

theorem filter_append_fresh (l : List bap_setup) (n : bap_setup) (p : Nat)
    (hn : n.ptr = p) (h : ∀ s ∈ l, s.ptr < p) :
    (l ++ [n]).filter (fun s => s.ptr != p) = l := by
  rw [List.filter_append]
  have h1 : l.filter (fun s => s.ptr != p) = l := by
    apply List.filter_eq_self.mpr
    intro s hs
    have := h s hs
    simp; omega
  rw [h1]
  simp [hn]

theorem set_configuration_invalid_of_parse (env : Env) (w : World) (ep : Nat) (e : bap_ep)
    (msg : DBusMessage)
    (hep : w.ep ep = some e)
    (hq : ∀ q ∈ e.setups, q < w.next) (hheap : ∀ s ∈ w.setups, s.ptr < w.next)
    (hne : msg.props ≠ [])
    (hparse : ∀ w1 : World, w1.eps = w.eps → w1.sessions = w.sessions → w1.next = w.next →
      (setup_parse_configuration (setup_new w1 (some ep)).1 msg.props).1 < 0) :
    (set_configuration env w ep msg).1 = some Reply.invalid_args ∧
    ((set_configuration env w ep msg).2.ep ep).map (fun x => x.setups) = some e.setups ∧
    (set_configuration env w ep msg).2.setups.map (fun s => s.ptr)
      = w.setups.map (fun s => s.ptr) := by
  unfold set_configuration
  simp only [hep, hne, if_false]
  generalize hw1 : (if env.bt_bap_pac_get_type e.lpac ≠ pac_type.BT_BAP_BCAST_SOURCE then
      ep_close w (some ep) else w) = w1
  have hf : w1.eps = w.eps ∧ w1.sessions = w.sessions ∧ w1.next = w.next ∧
      w1.setups.map (fun s => s.ptr) = w.setups.map (fun s => s.ptr) := by
    rw [← hw1]
    split_ifs
    · exact ep_close_frame w (some ep)
    · exact ⟨rfl, rfl, rfl, rfl⟩
  obtain ⟨f1, f2, f3, f4⟩ := hf
  have hp := hparse w1 f1 f2 f3
  simp only [hp, if_true]
  have hw1ep : w1.ep ep = some e := by
    unfold World.ep; rw [f1]; exact hep
  rw [setup_new_some w1 ep e hw1ep] at hp ⊢
  simp only [] at hp ⊢
  obtain ⟨i1, i2, i3, i4, i5, i6, i7⟩ := setup_new_init_fields w1 (some ep)
  obtain ⟨q, c, m, hpf⟩ := setup_parse_configuration_loop_fields msg.props
    (setup_new_init w1 (some ep)) []
  generalize hn : setup_new_init w1 (some ep) = n at *
  change (setup_parse_configuration n msg.props).2 = _ at hpf
  generalize hpd : (setup_parse_configuration n msg.props).2 = parsed at *
  have hptr : parsed.ptr = w1.next := by rw [hpf]; exact i1
  have hheap1 : ∀ s ∈ w1.setups, s.ptr < w1.next := by
    intro s hs
    have : s.ptr ∈ w1.setups.map (fun s => s.ptr) := List.mem_map_of_mem _ hs
    rw [f4] at this
    obtain ⟨s', hs', hs''⟩ := List.mem_map.mp this
    rw [f3, ← hs'']
    exact hheap s' hs'
  have hsetup : World.setup (World.put_setup (World.put_ep
      { w1 with next := w1.next + 1, setups := w1.setups ++ [n] }
      { e with setups := e.setups ++ [w1.next] }) parsed) parsed.ptr = some parsed := by
    unfold World.setup World.put_setup World.put_ep
    simp only []
    apply find_map_put (fun s : bap_setup => s.ptr) _ _ n
    · rw [hptr, ← i1]
      exact find_append_fresh w1.setups n (by rw [i1]; exact hheap1)
    · rfl
  have hepptr : e.ptr = ep := find_ptr_eq (fun x : bap_ep => x.ptr) _ _ _ hep
  have hep2 : World.ep (World.put_setup (World.put_ep
      { w1 with next := w1.next + 1, setups := w1.setups ++ [n] }
      { e with setups := e.setups ++ [w1.next] }) parsed) ep
      = some { e with setups := e.setups ++ [w1.next] } := by
    unfold World.ep World.put_setup World.put_ep
    simp only []
    exact find_map_put (fun x : bap_ep => x.ptr) w1.eps ep e
      { e with setups := e.setups ++ [w1.next] } hw1ep hepptr
  have hpep : parsed.ep = some ep := by rw [hpf]; exact i2
  have hpst : parsed.stream = none := by rw [hpf]; exact i3
  have hpmsg : parsed.msg = none := by rw [hpf]; exact i4
  have hq1 : ∀ q ∈ e.setups, q < w1.next := by rw [f3]; exact hq
  generalize hW : World.put_setup (World.put_ep
      { w1 with next := w1.next + 1, setups := w1.setups ++ [n] }
      { e with setups := e.setups ++ [w1.next] }) parsed = W at *
  have hWsetups : W.setups.filter (fun s => s.ptr != parsed.ptr) = w1.setups.map
      (fun x => if x.ptr = parsed.ptr then parsed else x) := by
    rw [← hW]
    unfold World.put_setup World.put_ep
    simp only [List.map_append, List.map_cons, List.map_nil]
    apply filter_append_fresh
    · simp [i1, hptr]
    · intro s hs
      obtain ⟨s', hs', rfl⟩ := List.mem_map.mp hs
      have := hheap1 s' hs'
      split_ifs with hc
      · omega
      · rw [hptr]; exact this
  unfold setup_free setup_unlink
  simp only [hsetup, hpep, hep2, hpst, hpmsg]
  refine ⟨trivial, ?_, ?_⟩
  · have : World.ep (World.put_ep W { e with setups := (e.setups ++ [w1.next]).erase parsed.ptr })
        ep = some { e with setups := (e.setups ++ [w1.next]).erase parsed.ptr } :=
      find_map_put (fun x : bap_ep => x.ptr) W.eps ep _
        { e with setups := (e.setups ++ [w1.next]).erase parsed.ptr } hep2 hepptr
    unfold World.ep at this ⊢
    simp only [] at this ⊢
    rw [this, hptr, erase_append_fresh e.setups w1.next hq1]
    rfl
  · show List.map (fun s => s.ptr) (List.filter (fun s => s.ptr != parsed.ptr) W.setups) = _
    rw [hWsetups, map_put_keys (fun s : bap_setup => s.ptr) w1.setups parsed, f4]


theorem ep_in_bcast_congr (w w1 : World) (p : Nat) (h1 : w1.eps = w.eps)
    (h2 : w1.sessions = w.sessions) : ep_in_bcast w1 p = ep_in_bcast w p := by
  unfold ep_in_bcast World.ep World.data
  rw [h1, h2]

theorem setup_new_init_parser_bcast (w : World) (ep : Nat) (h : ep_in_bcast w ep = true) :
    (setup_new_init w (some ep)).qos_parser_fn = .setup_parse_bcast_qos := by
  unfold setup_new_init
  simp [h]

/-- C1: on a broadcast endpoint (one that is in the `bcast` queue of its
session), a `SetConfiguration` whose `QoS` dictionary holds a `BCode` byte
array of a length other than 16 is answered with `invalid-args`, and no setup
is created: the queue `ep->setups` after the call is the queue before the
call, and so are the addresses of the allocated setups. -/
theorem set_configuration_bcode_invalid_args (env : Env) (w : World) (ep : Nat)
    (e : bap_ep) (msg : DBusMessage)
    (hep : w.ep ep = some e)
    (hbcast : ep_in_bcast w ep = true)
    (hq : ∀ q ∈ e.setups, q < w.next) (hheap : ∀ s ∈ w.setups, s.ptr < w.next)
    (hbad : ∃ k es, (k, prop_value.dict es) ∈ msg.props ∧ strcasecmp k "QoS" = false ∧
      ∃ key bytes, (key, qos_value.array bytes) ∈ es ∧
        strcasecmp key "BCode" = false ∧ bytes.length ≠ 16) :
    (set_configuration env w ep msg).1 = some Reply.invalid_args ∧
    ((set_configuration env w ep msg).2.ep ep).map (fun x => x.setups) = some e.setups ∧
    (set_configuration env w ep msg).2.setups.map (fun s => s.ptr)
      = w.setups.map (fun s => s.ptr) := by
  apply set_configuration_invalid_of_parse env w ep e msg hep hq hheap
  · intro h
    obtain ⟨_, _, hmem, _⟩ := hbad
    rw [h] at hmem
    simp at hmem
  · intro w1 h1 h2 _
    have hb : ep_in_bcast w1 ep = true := by rw [ep_in_bcast_congr w w1 ep h1 h2]; exact hbcast
    have := setup_parse_configuration_loop_bcode msg.props (setup_new_init w1 (some ep)) []
      (setup_new_init_parser_bcast w1 ep hb) hbad
    show (setup_parse_configuration_loop (setup_new_init w1 (some ep)) [] msg.props).1 < 0
    rw [this]
    decide

theorem set_configuration_bcode_invalid_args_witness :
    (set_configuration env0 world_bcast 2 msg_bcode8).1 = some Reply.invalid_args ∧
    ((set_configuration env0 world_bcast 2 msg_bcode8).2.ep 2).map (fun x => x.setups)
      = some [3] ∧
    (set_configuration env0 world_bcast 2 msg_bcode8).2.setups.map (fun s => s.ptr) = [3] :=
  set_configuration_bcode_invalid_args env0 world_bcast 2
    { ptr := 2, data := 1, lpac := 10, rpac := some 20,
      path := "/org/bluez/hci0/dev_00/pac_bcast0", setups := [3] } msg_bcode8
    (by decide) (by decide) (by decide) (by decide)
    ⟨"QoS", [("BCode", .array [1, 2, 3, 4, 5, 6, 7, 8])], by decide, by decide,
      "BCode", [1, 2, 3, 4, 5, 6, 7, 8], by decide, by decide, by decide⟩

/-! ## Keys of the QoS dictionary that are not recognized -/

/-- C10 as stated fails: on the unicast endpoint 2 the key `Foo` is none of
the recognized unicast keys, yet `SetConfiguration` is not answered with
`invalid-args` and the endpoint, which had no setup, has the new setup 3. -/
theorem set_configuration_unknown_key_not_rejected :
    (∀ name ∈ spec_recognized_keys (ep_role world_ucast 2), strcasecmp "Foo" name = true) ∧
    (set_configuration env0 world_ucast 2 msg_unknown_key).1 ≠ some Reply.invalid_args ∧
    (world_ucast.ep 2).map (fun e => e.setups) = some [] ∧
    ((set_configuration env0 world_ucast 2 msg_unknown_key).2.ep 2).map (fun e => e.setups)
      = some [3] := by
  decide

theorem qos_parser_call_unknown (kind : qos_parser_kind) (setup : bap_setup) (k : String)
    (var : dbus_type) (v : qos_value)
    (hun : ∀ name ∈ spec_recognized_keys kind, strcasecmp k name = true) :
    kind.call setup k var v = (0, setup) := by
  cases kind with
  | setup_parse_ucast_qos =>
    simp only [spec_recognized_keys, List.mem_cons, List.mem_singleton, forall_eq_or_imp,
      forall_eq, List.mem_nil_iff, false_imp_iff, implies_true, and_true] at hun
    obtain ⟨h1, h2, h3, h4, h5, h6, h7, h8, h9, h10⟩ := hun
    simp [qos_parser_kind.call, setup_parse_ucast_qos, parse_io_qos, h1, h2, h3, h4, h5, h6,
      h7, h8, h9, h10]
  | setup_parse_bcast_qos =>
    simp only [spec_recognized_keys, List.mem_cons, List.mem_singleton, forall_eq_or_imp,
      forall_eq, List.mem_nil_iff, false_imp_iff, implies_true, and_true] at hun
    obtain ⟨h1, h2, h3, h4, h5, h6, h7, h8, h9, h10, h11, h12, h13, h14, h15, h16⟩ := hun
    simp [qos_parser_kind.call, setup_parse_bcast_qos, parse_io_qos, h1, h2, h3, h4, h5, h6,
      h7, h8, h9, h10, h11, h12, h13, h14, h15, h16]



theorem setup_parse_qos_unknown (es1 es2 : List (String × qos_value)) (setup : bap_setup)
    (k : String) (v : qos_value)
    (hun : ∀ name ∈ spec_recognized_keys setup.qos_parser_fn, strcasecmp k name = true) :
    setup_parse_qos setup (es1 ++ (k, v) :: es2) = setup_parse_qos setup (es1 ++ es2) := by
  induction es1 generalizing setup with
  | nil =>
    show setup_parse_qos setup ((k, v) :: es2) = setup_parse_qos setup es2
    rw [setup_parse_qos, qos_parser_call_unknown setup.qos_parser_fn setup k v.arg_type v hun]
    rfl
  | cons kv rest ih =>
    obtain ⟨key, value⟩ := kv
    obtain ⟨q, hq⟩ := qos_parser_call_fields setup.qos_parser_fn setup key value.arg_type value
    simp only [List.cons_append]
    rw [setup_parse_qos, setup_parse_qos]
    split_ifs
    · rfl
    · apply ih
      rw [hq]
      exact hun

theorem setup_parse_configuration_loop_unknown (ps1 ps2 : List (String × prop_value))
    (kq : String) (es1 es2 : List (String × qos_value)) (setup : bap_setup) (iov : List Nat)
    (k : String) (v : qos_value)
    (hun : ∀ name ∈ spec_recognized_keys setup.qos_parser_fn, strcasecmp k name = true) :
    setup_parse_configuration_loop setup iov
        (ps1 ++ (kq, prop_value.dict (es1 ++ (k, v) :: es2)) :: ps2)
      = setup_parse_configuration_loop setup iov
        (ps1 ++ (kq, prop_value.dict (es1 ++ es2)) :: ps2) := by
  induction ps1 generalizing setup iov with
  | nil =>
    show setup_parse_configuration_loop setup iov
        ((kq, prop_value.dict (es1 ++ (k, v) :: es2)) :: ps2)
      = setup_parse_configuration_loop setup iov ((kq, prop_value.dict (es1 ++ es2)) :: ps2)
    rw [setup_parse_configuration_loop, setup_parse_configuration_loop]
    simp only [prop_value.arg_type, prop_value.fixed_array, prop_value.dict_entries,
      setup_parse_qos_unknown es1 es2 setup k v hun]
  | cons kv rest ih =>
    obtain ⟨key, value⟩ := kv
    simp only [List.cons_append]
    rw [setup_parse_configuration_loop, setup_parse_configuration_loop]
    simp only []
    split_ifs
    · rfl
    · exact ih _ _ hun
    · rfl
    · exact ih _ _ hun
    · rfl
    · rfl
    · obtain ⟨q, hq⟩ := setup_parse_qos_fields value.dict_entries setup
      exact ih _ _ (by rw [hq]; exact hun)
    · exact ih _ _ hun

theorem setup_new_init_parser_kind (w : World) (ep : Nat) :
    (setup_new_init w (some ep)).qos_parser_fn = ep_role w ep := by
  unfold setup_new_init ep_role
  simp only []
  split_ifs <;> rfl

/-- C10 (amended): a key of the `QoS` dictionary that is not one of the
recognized keys of the endpoint's role is ignored, not rejected:
`SetConfiguration` gives the same reply and leaves the same state as the same
call with that entry taken out of the dictionary. -/
theorem set_configuration_unknown_key_ignored (env : Env) (w : World) (ep : Nat)
    (msg : DBusMessage) (ps1 ps2 : List (String × prop_value)) (kq : String)
    (es1 es2 : List (String × qos_value)) (k : String) (v : qos_value)
    (hprops : msg.props = ps1 ++ (kq, prop_value.dict (es1 ++ (k, v) :: es2)) :: ps2)
    (hun : ∀ name ∈ spec_recognized_keys (ep_role w ep), strcasecmp k name = true) :
    set_configuration env w ep msg =
      set_configuration env w ep
        { msg with props := ps1 ++ (kq, prop_value.dict (es1 ++ es2)) :: ps2 } := by
  unfold set_configuration
  cases hep : w.ep ep with
  | none => rfl
  | some e =>
    have hne : ps1 ++ (kq, prop_value.dict (es1 ++ (k, v) :: es2)) :: ps2 ≠ [] := by simp
    have hne' : ps1 ++ (kq, prop_value.dict (es1 ++ es2)) :: ps2 ≠ [] := by simp
    simp only [hprops, hne, hne', if_false]
    generalize hw1 : (if env.bt_bap_pac_get_type e.lpac ≠ pac_type.BT_BAP_BCAST_SOURCE then
        ep_close w (some ep) else w) = w1
    have hf : w1.eps = w.eps ∧ w1.sessions = w.sessions := by
      rw [← hw1]
      split_ifs
      · exact ⟨(ep_close_frame w (some ep)).1, (ep_close_frame w (some ep)).2.1⟩
      · exact ⟨rfl, rfl⟩
    have key : setup_parse_configuration (setup_new w1 (some ep)).1
          (ps1 ++ (kq, prop_value.dict (es1 ++ (k, v) :: es2)) :: ps2)
        = setup_parse_configuration (setup_new w1 (some ep)).1
          (ps1 ++ (kq, prop_value.dict (es1 ++ es2)) :: ps2) := by
      apply setup_parse_configuration_loop_unknown
      show ∀ name ∈ spec_recognized_keys (setup_new_init w1 (some ep)).qos_parser_fn, _
      rw [setup_new_init_parser_kind, ep_role, ep_in_bcast_congr w w1 ep hf.1 hf.2]
      exact hun
    rw [key]
    rfl


theorem set_configuration_unknown_key_ignored_witness :
    (∀ name ∈ spec_recognized_keys (ep_role world_ucast 2), strcasecmp "Foo" name = true) ∧
    set_configuration env0 world_ucast 2 msg_unknown_key =
      set_configuration env0 world_ucast 2
        { msg_unknown_key with props := [("QoS", prop_value.dict [])] } :=
  ⟨by decide,
   set_configuration_unknown_key_ignored env0 world_ucast 2 msg_unknown_key [] [] "QoS"
     [] [] "Foo" (.byte 1) rfl (by decide)⟩

/-! ## The CIG busy test -/

/-- C2: `is_cig_busy(data, cig)` is true exactly when `cig` is not the unset
CIG id and some setup in a sink or source endpoint of some session whose
device is on the adapter of the device of `data` has `ucast.cig_id = cig` and
`cig_active = true`; for the unset CIG id it is false whatever the setups
are. -/
theorem is_cig_busy_iff (env : Env) (w : World) (data : bap_data) (cig : Nat) :
    (is_cig_busy env w data cig = true ↔
      cig ≠ BT_ISO_QOS_CIG_UNSET ∧
      ∃ session ∈ w.sessions,
        env.device_get_adapter session.device = env.device_get_adapter data.device ∧
        ∃ p ∈ session.snks ++ session.srcs, ∃ ep, w.ep p = some ep ∧
          ∃ q ∈ ep.setups, ∃ setup, w.setup q = some setup ∧
            setup.qos.ucast.cig_id = cig ∧ setup.cig_active = true) ∧
    is_cig_busy env w data BT_ISO_QOS_CIG_UNSET = false := by
  have hep : ∀ (ep : bap_ep) (info : cig_busy_data), cig_busy_ep w ep info = true ↔
      ∃ q ∈ ep.setups, ∃ setup, w.setup q = some setup ∧
        setup.qos.ucast.cig_id = info.cig ∧ setup.cig_active = true := by
    intro ep info
    unfold cig_busy_ep
    rw [List.any_eq_true]
    constructor
    · rintro ⟨q, hq, h⟩
      cases hs : w.setup q with
      | none => rw [hs] at h; simp at h
      | some setup =>
        rw [hs] at h
        simp only [match_cig_active, Bool.and_eq_true, beq_iff_eq] at h
        exact ⟨q, hq, setup, hs, h.1, h.2⟩
    · rintro ⟨q, hq, setup, hs, h1, h2⟩
      refine ⟨q, hq, ?_⟩
      rw [hs]
      simp [match_cig_active, h1, h2]
  have hq : ∀ (l : List Nat) (info : cig_busy_data),
      l.any (fun p => match w.ep p with
        | some ep => cig_busy_ep w ep info
        | none => false) = true ↔
      ∃ p ∈ l, ∃ ep, w.ep p = some ep ∧ ∃ q ∈ ep.setups, ∃ setup, w.setup q = some setup ∧
        setup.qos.ucast.cig_id = info.cig ∧ setup.cig_active = true := by
    intro l info
    rw [List.any_eq_true]
    constructor
    · rintro ⟨p, hp, h⟩
      cases he : w.ep p with
      | none => rw [he] at h; simp at h
      | some ep =>
        rw [he] at h
        exact ⟨p, hp, ep, he, (hep ep info).mp h⟩
    · rintro ⟨p, hp, ep, he, h⟩
      refine ⟨p, hp, ?_⟩
      rw [he]
      exact (hep ep info).mpr h
  constructor
  · unfold is_cig_busy
    by_cases hc : cig = BT_ISO_QOS_CIG_UNSET
    · simp [hc]
    · simp only [hc, if_false, ne_eq, not_false_eq_true, true_and]
      rw [List.any_eq_true]
      constructor
      · rintro ⟨session, hs, h⟩
        unfold cig_busy_session at h
        split_ifs at h with ha
        simp only [ne_eq, not_not] at ha
        refine ⟨session, hs, ha, ?_⟩
        rw [Bool.or_eq_true, hq, hq] at h
        rcases h with ⟨p, hp, h⟩ | ⟨p, hp, h⟩
        · exact ⟨p, List.mem_append_left _ hp, h⟩
        · exact ⟨p, List.mem_append_right _ hp, h⟩
      · rintro ⟨session, hs, ha, p, hp, h⟩
        refine ⟨session, hs, ?_⟩
        unfold cig_busy_session
        simp only [ne_eq, ha, not_true_eq_false, if_false]
        rw [Bool.or_eq_true, hq, hq]
        rcases List.mem_append.mp hp with hp | hp
        · exact Or.inl ⟨p, hp, h⟩
        · exact Or.inr ⟨p, hp, h⟩
  · simp [is_cig_busy]


/-! ## Socket creation while the CIG is busy -/

/-- C3: for a setup whose stream has no I/O attached and is not connecting,
when the CIG of the setup is busy `setup_connect_io` makes no call to a
collaborator (it opens no socket): the world it returns is the given world
with `recreate = true` stored in the setup, so the channel `io` of the setup
is what it was (absent stays absent), `cig_active` and every other field are
unchanged, and no other setup changes. -/
theorem setup_connect_io_busy (env : Env) (w : World) (data : bap_data) (setup : Nat)
    (s : bap_setup) (stream : Nat) (qos : bt_iso_qos) (defer : Bool)
    (hs : w.setup setup = some s)
    (hio : (env.stream stream).io = false)
    (hconn : (env.stream stream).connecting = none)
    (hbusy : is_cig_busy env w data s.qos.ucast.cig_id = true) :
    setup_connect_io env w data setup stream qos defer
      = w.put_setup { s with recreate := true } ∧
    (setup_connect_io env w data setup stream qos defer).log = w.log ∧
    (setup_connect_io env w data setup stream qos defer).setup setup
      = some { s with recreate := true } ∧
    (∀ q, q ≠ setup →
      (setup_connect_io env w data setup stream qos defer).setup q = w.setup q) ∧
    (s.io = none →
      ((setup_connect_io env w data setup stream qos defer).setup setup).bind
        (fun x => x.io) = none) := by
  have hptr : s.ptr = setup := find_ptr_eq (fun x : bap_setup => x.ptr) _ _ _ hs
  have h0 : setup_connect_io env w data setup stream qos defer
      = w.put_setup { s with recreate := true } := by
    unfold setup_connect_io
    simp [hs, hio, hconn, hbusy]
  have h1 : (w.put_setup { s with recreate := true }).setup setup
      = some { s with recreate := true } := by
    unfold World.setup World.put_setup
    exact find_map_put (fun x : bap_setup => x.ptr) w.setups setup s
      { s with recreate := true } hs hptr
  rw [h0]
  refine ⟨rfl, rfl, h1, ?_, ?_⟩
  · intro q hq
    unfold World.setup World.put_setup
    exact find_map_put_ne (fun x : bap_setup => x.ptr) w.setups q { s with recreate := true }
      (by show s.ptr ≠ q; rw [hptr]; exact fun h => hq h.symm)
  · intro hnone
    rw [h1]
    exact hnone

theorem setup_connect_io_busy_witness :
    is_cig_busy env0 world_cig { ptr := 1, device := some 7, snks := [2, 4] } 3 = true ∧
    (setup_connect_io env0 world_cig { ptr := 1, device := some 7, snks := [2, 4] } 5 102 {}
        true).log = [] ∧
    (setup_connect_io env0 world_cig { ptr := 1, device := some 7, snks := [2, 4] } 5 102 {}
        true).setup 5
      = some { ptr := 5, ep := some 4, stream := some 102, recreate := true,
               qos := { ucast := { cig_id := 3, cis_id := 2 } } } :=
  have h := setup_connect_io_busy env0 world_cig { ptr := 1, device := some 7, snks := [2, 4] }
    5 { ptr := 5, ep := some 4, stream := some 102,
        qos := { ucast := { cig_id := 3, cis_id := 2 } } } 102 {} true
    (by decide) (by decide) (by decide) (by decide)
  ⟨by decide, h.2.1, h.2.2.1⟩


/-! ## Socket creation for the BISes of a BIG -/

theorem replies_append (l1 l2 : List Event) :
    replies (l1 ++ l2) = replies l1 ++ replies l2 := by
  induction l1 with
  | nil => rfl
  | cons e rest ih => cases e <;> simp [replies, ih]

theorem find_filter_ne (l : List bap_setup) (p q : Nat) (h : q ≠ p) :
    (l.filter (fun s => s.ptr != p)).find? (fun s => s.ptr == q)
      = l.find? (fun s => s.ptr == q) := by
  induction l with
  | nil => rfl
  | cons x xs ih =>
    by_cases hx : x.ptr = p
    · have h1 : (x.ptr != p) = false := by simp [hx]
      have h2 : (x.ptr == q) = false := by simp [hx]; exact fun h' => h h'.symm
      rw [List.filter_cons, h1, List.find?_cons, h2]
      simpa using ih
    · have h1 : (x.ptr != p) = true := by simp [hx]
      rw [List.filter_cons, h1]
      simp only [if_true, List.find?_cons]
      cases x.ptr == q
      · simpa using ih
      · rfl

theorem find_filter_self (l : List bap_setup) (p : Nat) :
    (l.filter (fun s => s.ptr != p)).find? (fun s => s.ptr == p) = none := by
  rw [List.find?_eq_none]
  intro x hx
  have := (List.mem_filter.mp hx).2
  simpa using this

theorem setup_free_unlink_frame (w : World) (p : Nat) (ep : Option Nat) :
    (setup_unlink w ep p).log = w.log ∧ (setup_unlink w ep p).setups = w.setups ∧
    (setup_unlink w ep p).sessions = w.sessions ∧ (setup_unlink w ep p).next = w.next := by
  unfold setup_unlink
  cases ep with
  | none => exact ⟨rfl, rfl, rfl, rfl⟩
  | some ep =>
    cases h : w.ep ep with
    | none => simp [h]
    | some e => simp [h, World.put_ep]

theorem setup_free_frame (w : World) (p : Nat) (s : bap_setup) (hs : w.setup p = some s) :
    (setup_free w p).log = w.log ++ setup_free_events s ∧
    (setup_free w p).setup p = none ∧
    (∀ q, q ≠ p → (setup_free w p).setup q = w.setup q) := by
  obtain ⟨h1, h2, _⟩ := setup_free_unlink_frame w p s.ep
  unfold setup_free
  simp only [hs]
  unfold World.setup
  simp only [h1, h2]
  exact ⟨trivial, find_filter_self _ p, fun q hq => find_filter_ne _ p q hq⟩

theorem foldl_setup_free (ps : List Nat) (ss : List bap_setup) (w : World)
    (hnodup : ps.Nodup) (hss : ps.map w.setup = ss.map some) :
    (ps.foldl setup_free w).log = w.log ++ (ss.map setup_free_events).flatten ∧
    (∀ p ∈ ps, (ps.foldl setup_free w).setup p = none) ∧
    (∀ q, q ∉ ps → (ps.foldl setup_free w).setup q = w.setup q) := by
  induction ps generalizing ss w with
  | nil =>
    cases ss with
    | nil => simp
    | cons _ _ => simp at hss
  | cons p ps ih =>
    cases ss with
    | nil => simp at hss
    | cons s ss =>
      simp only [List.map_cons, List.cons.injEq] at hss
      obtain ⟨hs, hrest⟩ := hss
      obtain ⟨f1, f2, f3⟩ := setup_free_frame w p s hs
      have hp : p ∉ ps := (List.nodup_cons.mp hnodup).1
      have hrest' : ps.map (setup_free w p).setup = ss.map some := by
        rw [← hrest]
        apply List.map_congr_left
        intro q hq
        exact f3 q (fun h => hp (h ▸ hq))
      obtain ⟨g1, g2, g3⟩ := ih ss (setup_free w p) (List.nodup_cons.mp hnodup).2 hrest'
      simp only [List.foldl_cons]
      refine ⟨?_, ?_, ?_⟩
      · rw [g1, f1]; simp
      · intro q hq
        rcases List.mem_cons.mp hq with rfl | hq'
        · rw [g3 q hp]; exact f2
        · exact g2 q hq'
      · intro q hq
        have hq1 : q ≠ p := fun h => hq (h ▸ List.mem_cons_self _ _)
        have hq2 : q ∉ ps := fun h => hq (List.mem_cons_of_mem _ h)
        rw [g3 q hq2, f3 q hq1]

theorem find_filter_self_ep (l : List bap_ep) (p : Nat) :
    (l.filter (fun s => s.ptr != p)).find? (fun s => s.ptr == p) = none := by
  rw [List.find?_eq_none]
  intro x hx
  have := (List.mem_filter.mp hx).2
  simpa using this

theorem replies_setup_free_events (s : bap_setup) :
    replies (setup_free_events s) =
      match s.msg with
      | some m => [(m, Reply.failed "Canceled")]
      | none => [] := by
  unfold setup_free_events setup_io_close
  cases s.stream <;> cases s.msg <;> cases s.io <;>
    simp only [] <;> split_ifs <;> simp [replies]

theorem replies_blocks (ss : List bap_setup) (ms : List Nat)
    (hms : ss.map (fun s => s.msg) = ms.map some) :
    replies (ss.map setup_free_events).flatten
      = ms.map (fun m => (m, Reply.failed "Canceled")) := by
  induction ss generalizing ms with
  | nil =>
    cases ms with
    | nil => rfl
    | cons _ _ => simp at hms
  | cons s ss ih =>
    cases ms with
    | nil => simp at hms
    | cons m ms =>
      simp only [List.map_cons, List.cons.injEq] at hms
      obtain ⟨h1, h2⟩ := hms
      simp only [List.map_cons, List.flatten_cons, replies_append, replies_setup_free_events,
        h1, ih ms h2]
      rfl

theorem setup_free_events_cancel (s : bap_setup) (st : Nat) (hst : s.stream = some st)
    (hid : s.id ≠ 0) :
    ∃ l2, setup_free_events s = [Event.bt_bap_stream_cancel st s.id] ++ l2 ++
      [Event.free s.ptr] := by
  unfold setup_free_events
  simp only [hst, hid, ne_eq, not_false_eq_true, if_true]
  exact ⟨(match s.msg with
      | some m => [Event.g_dbus_send_message m (Reply.failed "Canceled")]
      | none => []) ++ (setup_io_close s).2, by simp⟩

theorem setup_free_events_close (s : bap_setup) (fd : Nat) (hio : s.io = some fd) :
    Event.close (Int.ofNat fd) ∈ setup_free_events s := by
  unfold setup_free_events setup_io_close
  simp [hio]

/-- C9: tearing down an endpoint whose `K` setups each hold a pending
`SetConfiguration` message (`ms` are the `K` messages, in queue order) sends
exactly `K` replies, one failed reply `Canceled` per message in that order;
for every setup with a non-zero pending operation id the transport cancel of
that operation is made before the setup is freed; every channel a setup had
open is closed; afterwards none of the setups and not the endpoint is
allocated any more. -/
theorem ep_free_pending (w : World) (ep : Nat) (e : bap_ep) (ss : List bap_setup)
    (ms : List Nat)
    (he : w.ep ep = some e) (hnodup : e.setups.Nodup)
    (hss : e.setups.map w.setup = ss.map some)
    (hms : ss.map (fun s => s.msg) = ms.map some)
    (hid : ∀ s ∈ ss, s.id ≠ 0 → s.stream ≠ none) :
    replies (ep_free w ep).log
      = replies w.log ++ ms.map (fun m => (m, Reply.failed "Canceled")) ∧
    (∀ s ∈ ss, s.id ≠ 0 → ∃ st l1 l2 l3, s.stream = some st ∧
      (ep_free w ep).log = l1 ++ [Event.bt_bap_stream_cancel st s.id] ++ l2 ++
        [Event.free s.ptr] ++ l3) ∧
    (∀ s ∈ ss, ∀ fd, s.io = some fd → Event.close (Int.ofNat fd) ∈ (ep_free w ep).log) ∧
    (∀ p ∈ e.setups, (ep_free w ep).setup p = none) ∧
    (ep_free w ep).ep ep = none := by
  have hss1 : e.setups.map
      (World.setup (World.put_ep (ep_cancel_select w ep) { e with setups := [] }))
      = ss.map some := hss
  obtain ⟨g1, g2, _⟩ := foldl_setup_free e.setups ss
    (World.put_ep (ep_cancel_select w ep) { e with setups := [] }) hnodup hss1
  have hlog : (ep_free w ep).log = w.log ++
      [Event.bt_bap_cancel_select ep .BT_BAP_SOURCE, Event.bt_bap_cancel_select ep .BT_BAP_SINK]
      ++ (ss.map setup_free_events).flatten ++ [Event.free ep] := by
    unfold ep_free
    simp only [he]
    rw [g1]
    rfl
  refine ⟨?_, ?_, ?_, ?_, ?_⟩
  · rw [hlog]
    simp only [replies_append, replies_blocks ss ms hms]
    simp [replies]
  · intro s hs hsid
    obtain ⟨st, hst⟩ := Option.ne_none_iff_exists'.mp (hid s hs hsid)
    obtain ⟨l2, hl2⟩ := setup_free_events_cancel s st hst hsid
    obtain ⟨ss1, ss2, rfl⟩ := List.append_of_mem hs
    refine ⟨st, w.log ++ [Event.bt_bap_cancel_select ep .BT_BAP_SOURCE,
      Event.bt_bap_cancel_select ep .BT_BAP_SINK] ++ (ss1.map setup_free_events).flatten, l2,
      (ss2.map setup_free_events).flatten ++ [Event.free ep], hst, ?_⟩
    rw [hlog]
    simp only [List.map_append, List.map_cons, List.flatten_append, List.flatten_cons, hl2]
    simp
  · intro s hs fd hio
    rw [hlog]
    have h1 := setup_free_events_close s fd hio
    have h2 : Event.close (Int.ofNat fd) ∈ (ss.map setup_free_events).flatten :=
      List.mem_flatten.mpr ⟨_, List.mem_map_of_mem _ hs, h1⟩
    exact List.mem_append_left _ (List.mem_append_right _ h2)
  · intro p hp
    have := g2 p hp
    unfold ep_free
    simp only [he]
    exact this
  · unfold ep_free
    simp only [he]
    exact find_filter_self_ep _ ep

theorem ep_free_pending_witness :
    replies (ep_free world_pending 2).log
      = [(60, Reply.failed "Canceled"), (61, Reply.failed "Canceled")] ∧
    (ep_free world_pending 2).setup 3 = none ∧ (ep_free world_pending 2).setup 4 = none ∧
    Event.close 15 ∈ (ep_free world_pending 2).log :=
  have h := ep_free_pending world_pending 2
    { ptr := 2, data := 1, lpac := 13, rpac := some 12,
      path := "/org/bluez/hci0/dev_00/pac_sink0", setups := [3, 4] }
    [{ ptr := 3, ep := some 2, stream := some 100, id := 9, msg := some 60,
       io := some 15, io_id := 16 },
     { ptr := 4, ep := some 2, stream := some 102, msg := some 61 }]
    [60, 61] (by decide) (by decide) (by decide) (by decide) (by decide)
  ⟨h.1, h.2.2.2.1 3 (by decide), h.2.2.2.1 4 (by decide),
   h.2.2.1 _ (List.mem_cons_self _ _) 15 rfl⟩


/-! ## Setup ownership -/

/-- C5 as stated fails in two ways.  (1) `setup_new`: in a well formed world
in which every live setup is owned, `setup_new(NULL)` returns a live setup
(address 4) that is in the queue of no endpoint and in no `bcast_snks` queue.
(2) Reuse of a freed address: in `world_sink_freed`, reached from
`world_bcast` by `create_stream_for_bis` and `setup_free` of the setup created
(address 4), the invariant holds, the `bcast_snks` queue of session 1 still
holds address 4, and when `new0` returns address 4 again
`create_stream_for_bis` leaves the new live setup twice in that queue. -/
theorem setup_new_null_not_owned :
    (world_bcast.wf ∧ setup_ownership world_bcast ∧
     (setup_new world_bcast none).1 ∈ (setup_new world_bcast none).2.setups ∧
     in_eps (setup_new world_bcast none).2 (setup_new world_bcast none).1.ptr = 0 ∧
     in_bcast_snks (setup_new world_bcast none).2 (setup_new world_bcast none).1.ptr = 0 ∧
     ¬ setup_ownership (setup_new world_bcast none).2) ∧
    (world_sink_freed.inv ∧ world_sink_freed.setup 4 = none ∧
     world_sink_freed.sessions.map (fun d => d.bcast_snks) = [some [4]] ∧
     ¬ ({ world_sink_freed with next := 4 } : World).fresh ∧
     (create_stream_for_bis env0 { world_sink_freed with next := 4 } 1 10 {} [] []
        "/org/bluez/hci0/dev_00/bis1").sessions.map (fun d => d.bcast_snks)
       = [some [4, 4]] ∧
     ((create_stream_for_bis env0 { world_sink_freed with next := 4 } 1 10 {} [] []
        "/org/bluez/hci0/dev_00/bis1").setup 4).isSome = true ∧
     ¬ setup_ownership (create_stream_for_bis env0 { world_sink_freed with next := 4 } 1 10
        {} [] [] "/org/bluez/hci0/dev_00/bis1")) := by
  decide


theorem eq_of_find_nodup {α : Type} (key : α → Nat) (l : List α) (a x : α)
    (hn : (l.map key).Nodup) (h : l.find? (fun y => key y == key x) = some a)
    (hx : x ∈ l) : x = a := by
  induction l with
  | nil => simp at hx
  | cons y ys ih =>
    simp only [List.map_cons, List.nodup_cons] at hn
    rcases List.mem_cons.mp hx with rfl | hx'
    · simp [List.find?_cons] at h
      exact h
    · have hne : key y ≠ key x := by
        intro heq
        exact hn.1 (heq ▸ List.mem_map_of_mem key hx')
      have hne' : (key y == key x) = false := by simpa using hne
      rw [List.find?_cons, hne'] at h
      exact ih hn.2 h hx'

theorem find_map_put_none {α : Type} (key : α → Nat) (l : List α) (p : Nat) (a' : α)
    (h : l.find? (fun x => key x == p) = none) :
    (l.map (fun x => if key x = key a' then a' else x)).find? (fun x => key x == p) = none := by
  by_cases hk : key a' = p
  · rw [List.find?_eq_none] at h ⊢
    intro x hx
    obtain ⟨y, hy, rfl⟩ := List.mem_map.mp hx
    have hy' := h y hy
    split_ifs with hc
    · rw [hc, hk] at hy'; simp at hy'
    · exact hy'
  · rw [find_map_put_ne key l p a' hk]; exact h

theorem sum_map_put {α : Type} (key : α → Nat) (f : α → Nat) (l : List α) (a a' : α)
    (hn : (l.map key).Nodup) (h : l.find? (fun y => key y == key a') = some a)
    (hf : f a' = f a) :
    ((l.map (fun x => if key x = key a' then a' else x)).map f).sum = (l.map f).sum := by
  congr 1
  rw [List.map_map]
  apply List.map_congr_left
  intro x hx
  simp only [Function.comp]
  split_ifs with hc
  · have hfind : l.find? (fun y => key y == key x) = some a := by rw [hc]; exact h
    rw [eq_of_find_nodup key l a x hn hfind hx]
    exact hf
  · rfl

theorem in_eps_put_ep (w : World) (e e' : bap_ep) (p : Nat)
    (hn : (w.eps.map (fun e => e.ptr)).Nodup) (he : w.ep e'.ptr = some e)
    (hc : e'.setups.count p = e.setups.count p) :
    in_eps (w.put_ep e') p = in_eps w p :=
  sum_map_put (fun e : bap_ep => e.ptr) (fun e => e.setups.count p) w.eps e e' hn he hc

theorem in_bcast_snks_put_data (w : World) (d d' : bap_data) (p : Nat)
    (hn : (w.sessions.map (fun d => d.ptr)).Nodup) (hd : w.data d'.ptr = some d)
    (hc : (d'.bcast_snks.getD []).count p = (d.bcast_snks.getD []).count p) :
    in_bcast_snks (w.put_data d') p = in_bcast_snks w p :=
  sum_map_put (fun d : bap_data => d.ptr) (fun d => (d.bcast_snks.getD []).count p)
    w.sessions d d' hn hd hc

theorem ep_put_ep (w : World) (e e' : bap_ep) (q : Nat) (he : w.ep e'.ptr = some e) :
    (w.put_ep e').ep q = if q = e'.ptr then some e' else w.ep q := by
  unfold World.ep World.put_ep
  split_ifs with h
  · subst h
    exact find_map_put (fun x : bap_ep => x.ptr) w.eps _ e e' he rfl
  · exact find_map_put_ne (fun x : bap_ep => x.ptr) w.eps q e' (fun h' => h h'.symm)

theorem owned_at_congr (w w' : World) (p : Nat) (par : Option Nat)
    (h1 : w'.eps = w.eps) (h2 : w'.sessions = w.sessions) :
    owned_at w' p par ↔ owned_at w p par := by
  unfold owned_at in_eps in_bcast_snks World.ep
  rw [h1, h2]

theorem owned_at_put_ep (w : World) (e e' : bap_ep) (p : Nat) (par : Option Nat)
    (hn : (w.eps.map (fun e => e.ptr)).Nodup) (he : w.ep e'.ptr = some e)
    (hc : e'.setups.count p = e.setups.count p) (h : owned_at w p par) :
    owned_at (w.put_ep e') p par := by
  have hs : in_bcast_snks (w.put_ep e') p = in_bcast_snks w p := rfl
  unfold owned_at at h ⊢
  cases par with
  | none =>
    simp only [] at h ⊢
    rw [in_eps_put_ep w e e' p hn he hc, hs]
    exact h
  | some ep =>
    simp only [] at h ⊢
    rw [in_eps_put_ep w e e' p hn he hc, hs, ep_put_ep w e e' ep he]
    refine ⟨?_, h.2⟩
    split_ifs with hq
    · have := h.1
      rw [hq, he] at this
      simpa [hc] using this
    · exact h.1


theorem inv_of_same_queues (w w' : World) (h1 : w'.eps = w.eps)
    (h2 : w'.sessions = w.sessions)
    (h4 : (w'.setups.map (fun s => s.ptr)).Nodup)
    (h5 : ∀ x ∈ w'.setups, ∃ y ∈ w.setups, y.ptr = x.ptr ∧ y.ep = x.ep)
    (h : w.inv) : w'.inv := by
  obtain ⟨⟨_, n2, n3⟩, hown⟩ := h
  refine ⟨⟨h4, by rw [h1]; exact n2, by rw [h2]; exact n3⟩, ?_⟩
  · intro x hx
    obtain ⟨y, hy, hp, he⟩ := h5 x hx
    rw [owned_at_congr w w' _ _ h1 h2, ← hp, ← he]
    exact hown y hy

theorem inv_emit (w : World) (es : List Event) (h : w.inv) : (w.emit es).inv :=
  inv_of_same_queues w _ rfl rfl h.1.1 (fun x hx => ⟨x, hx, rfl, rfl⟩) h

theorem inv_with_next (w : World) (a : Nat) (h : w.inv) : ({ w with next := a } : World).inv :=
  inv_of_same_queues w _ rfl rfl h.1.1 (fun x hx => ⟨x, hx, rfl, rfl⟩) h

theorem inv_put_setup (w : World) (s' : bap_setup)
    (hs : ∀ y ∈ w.setups, y.ptr = s'.ptr → y.ep = s'.ep) (h : w.inv) :
    (w.put_setup s').inv := by
  refine inv_of_same_queues w _ rfl rfl ?_ ?_ h
  · show ((w.setups.map _).map _).Nodup
    rw [map_put_keys (fun s : bap_setup => s.ptr) w.setups s']
    exact h.1.1
  · intro x hx
    obtain ⟨y, hy, rfl⟩ := List.mem_map.mp hx
    refine ⟨y, hy, ?_⟩
    split_ifs with hc
    · exact ⟨hc, hs y hy hc⟩
    · exact ⟨rfl, rfl⟩

theorem mem_of_setup (w : World) (p : Nat) (s : bap_setup) (h : w.setup p = some s) :
    s ∈ w.setups ∧ s.ptr = p :=
  ⟨List.mem_of_find?_eq_some h, find_ptr_eq (fun x : bap_setup => x.ptr) _ _ _ h⟩

theorem inv_put_setup_of (w : World) (p : Nat) (s s' : bap_setup) (hs : w.setup p = some s)
    (hp : s'.ptr = p) (he : s'.ep = s.ep) (h : w.inv) : (w.put_setup s').inv := by
  refine inv_put_setup w s' ?_ h
  intro y hy hyp
  have hfind : w.setups.find? (fun z => z.ptr == y.ptr) = some s := by
    rw [hyp, hp]; exact hs
  rw [eq_of_find_nodup (fun z : bap_setup => z.ptr) w.setups s y h.1.1 hfind hy]
  exact he.symm

theorem inv_with_setup (w : World) (p : Nat) (f : bap_setup → bap_setup × List Event)
    (hf : ∀ s, (f s).1.ptr = s.ptr ∧ (f s).1.ep = s.ep) (h : w.inv) :
    (w.with_setup p f).inv := by
  unfold World.with_setup
  cases hs : w.setup p with
  | none => exact h
  | some s =>
    simp only []
    apply inv_emit
    exact inv_put_setup_of w p s (f s).1 hs
      (by rw [(hf s).1]; exact (mem_of_setup w p s hs).2) (hf s).2 h

theorem inv_foldl {α : Type} (f : World → α → World) (hf : ∀ w a, w.inv → (f w a).inv)
    (l : List α) (w : World) (h : w.inv) : (l.foldl f w).inv := by
  induction l generalizing w with
  | nil => exact h
  | cons a l ih => exact ih _ (hf w a h)

theorem setup_io_close_keys (s : bap_setup) :
    (setup_io_close s).1.ptr = s.ptr ∧ (setup_io_close s).1.ep = s.ep := by
  unfold setup_io_close
  cases s.io <;> exact ⟨rfl, rfl⟩

theorem inv_ep_close (w : World) (ep : Option Nat) (h : w.inv) : (ep_close w ep).inv := by
  unfold ep_close
  cases ep with
  | none => exact h
  | some p =>
    simp only []
    cases w.ep p with
    | none => exact h
    | some e =>
      exact inv_foldl _ (fun w a hw => inv_with_setup w a _ setup_io_close_keys hw) _ w h


theorem sum_map_put_add {α : Type} (key : α → Nat) (f : α → Nat) (l : List α) (a a' : α)
    (hn : (l.map key).Nodup) (h : l.find? (fun y => key y == key a') = some a) :
    ((l.map (fun x => if key x = key a' then a' else x)).map f).sum + f a
      = (l.map f).sum + f a' := by
  induction l with
  | nil => simp at h
  | cons y ys ih =>
    simp only [List.map_cons, List.nodup_cons] at hn
    by_cases hy : key y = key a'
    · have hya : y = a := by simpa [List.find?_cons, hy] using h
      subst hya
      have hrest : ys.map (fun x => if key x = key a' then a' else x) = ys := by
        conv_rhs => rw [← List.map_id ys]
        apply List.map_congr_left
        intro x hx
        have : key x ≠ key a' := by
          intro hxa
          exact hn.1 (hy ▸ hxa ▸ List.mem_map_of_mem key hx)
        simp [this]
      simp only [List.map_cons, hy, if_true, List.sum_cons, hrest]
      omega
    · have hy' : (key y == key a') = false := by simpa using hy
      rw [List.find?_cons, hy'] at h
      have := ih hn.2 h
      simp only [List.map_cons, hy, if_false, List.sum_cons]
      omega

theorem sum_count_fresh {α : Type} (q : α → List Nat) (l : List α) (n : Nat)
    (h : ∀ a ∈ l, n ∉ q a) : (l.map (fun a => (q a).count n)).sum = 0 := by
  apply List.sum_eq_zero
  intro x hx
  obtain ⟨a, ha, rfl⟩ := List.mem_map.mp hx
  exact List.count_eq_zero.mpr (h a ha)

theorem find_append_new (l : List bap_setup) (n : bap_setup)
    (h : ∀ s ∈ l, s.ptr ≠ n.ptr) :
    (l ++ [n]).find? (fun s => s.ptr == n.ptr) = some n := by
  induction l with
  | nil => simp
  | cons x xs ih =>
    have hx : (x.ptr == n.ptr) = false := by
      simpa using h x (List.mem_cons_self _ _)
    rw [List.cons_append, List.find?_cons, hx]
    exact ih (fun s hs => h s (List.mem_cons_of_mem _ hs))

theorem setup_unlink_inv (w : World) (p : Nat) (ep : Option Nat) (h : w.wf) :
    ((setup_unlink w ep p).eps.map (fun e => e.ptr)).Nodup ∧
    (∀ x par, x ≠ p → owned_at w x par → owned_at (setup_unlink w ep p) x par) := by
  obtain ⟨_, n2, _⟩ := h
  unfold setup_unlink
  cases ep with
  | none => exact ⟨n2, fun _ _ _ h => h⟩
  | some ep =>
    simp only []
    cases he : w.ep ep with
    | none => exact ⟨n2, fun _ _ _ h => h⟩
    | some e =>
      have hptr : e.ptr = ep := find_ptr_eq (fun x : bap_ep => x.ptr) _ _ _ he
      simp only []
      refine ⟨?_, ?_⟩
      · show ((w.eps.map _).map _).Nodup
        rw [map_put_keys (fun e : bap_ep => e.ptr) w.eps _]
        exact n2
      · intro x par hx hown
        refine owned_at_put_ep w e _ x par n2 (by rw [← hptr] at he; exact he) ?_ hown
        exact List.count_erase_of_ne hx e.setups

theorem setup_free_owned (w : World) (p : Nat) (h : w.wf) :
    (setup_free w p).wf ∧ (setup_free w p).next = w.next ∧
    (setup_free w p).sessions = w.sessions ∧
    ∀ s ∈ (setup_free w p).setups, s ∈ w.setups ∧
      (owned_at w s.ptr s.ep → owned_at (setup_free w p) s.ptr s.ep) := by
  unfold setup_free
  cases hs : w.setup p with
  | none => exact ⟨h, rfl, rfl, fun s hs => ⟨hs, fun h => h⟩⟩
  | some s =>
    simp only []
    obtain ⟨_, u2, u3, hnext⟩ := setup_free_unlink_frame w p s.ep
    obtain ⟨v1, v3⟩ := setup_unlink_inv w p s.ep h
    generalize setup_unlink w s.ep p = u at *
    obtain ⟨n1, _, n3⟩ := h
    refine ⟨⟨?_, v1, by rw [u3]; exact n3⟩, hnext, u3, ?_⟩
    · show ((u.setups.filter _).map _).Nodup
      rw [u2]
      exact n1.sublist ((List.filter_sublist _).map _)
    · intro x hx
      have hx' := List.mem_filter.mp hx
      rw [u2] at hx'
      have hne : x.ptr ≠ p := by simpa using hx'.2
      refine ⟨hx'.1, fun hown => ?_⟩
      have := v3 x.ptr x.ep hne hown
      exact (owned_at_congr u _ _ _ rfl rfl).mpr this

theorem inv_setup_free (w : World) (p : Nat) (h : w.inv) : (setup_free w p).inv := by
  obtain ⟨h1, _, _, h2⟩ := setup_free_owned w p h.1
  exact ⟨h1, fun s hs => (h2 s hs).2 (h.2 s (h2 s hs).1)⟩

theorem foldl_setup_free_owned (ps : List Nat) (w : World) (h : w.wf) :
    (ps.foldl setup_free w).wf ∧ (ps.foldl setup_free w).next = w.next ∧
    (ps.foldl setup_free w).sessions = w.sessions ∧
    ∀ s ∈ (ps.foldl setup_free w).setups, s ∈ w.setups ∧
      (owned_at w s.ptr s.ep → owned_at (ps.foldl setup_free w) s.ptr s.ep) := by
  induction ps generalizing w with
  | nil => exact ⟨h, rfl, rfl, fun s hs => ⟨hs, fun h => h⟩⟩
  | cons p ps ih =>
    obtain ⟨a1, a2, a3, a4⟩ := setup_free_owned w p h
    obtain ⟨b1, b2, b3, b4⟩ := ih (setup_free w p) a1
    simp only [List.foldl_cons]
    refine ⟨b1, b2.trans a2, b3.trans a3, fun s hs => ?_⟩
    obtain ⟨c1, c2⟩ := b4 s hs
    obtain ⟨d1, d2⟩ := a4 s c1
    exact ⟨d1, fun h => c2 (d2 h)⟩


theorem inv_setup_new_some (w : World) (ep : Nat) (e : bap_ep) (he : w.ep ep = some e)
    (hf : w.fresh) (h : w.inv) :
    (setup_new w (some ep)).2.inv ∧
    (setup_new w (some ep)).2.setup (setup_new w (some ep)).1.ptr
      = some (setup_new w (some ep)).1 ∧
    (setup_new w (some ep)).2.sessions = w.sessions ∧
    (setup_new w (some ep)).2.ep ep = some { e with setups := e.setups ++ [w.next] } := by
  rw [setup_new_some w ep e he]
  obtain ⟨i1, i2, _⟩ := setup_new_init_fields w (some ep)
  generalize setup_new_init w (some ep) = n at *
  obtain ⟨⟨n1, n2, n3⟩, hown⟩ := h
  obtain ⟨f1, f2, f3⟩ := hf
  have hptr : e.ptr = ep := find_ptr_eq (fun x : bap_ep => x.ptr) _ _ _ he
  have he1 : World.ep { w with next := w.next + 1, setups := w.setups ++ [n] }
      ({ e with setups := e.setups ++ [w.next] } : bap_ep).ptr = some e := by
    show w.ep e.ptr = some e
    rw [hptr]; exact he
  have hemem : e ∈ w.eps := List.mem_of_find?_eq_some he
  simp only []
  refine ⟨⟨⟨?_, ?_, n3⟩, ?_⟩, ?_, rfl, ?_⟩
  · show ((w.setups ++ [n]).map _).Nodup
    rw [List.map_append, List.nodup_append]
    refine ⟨n1, by simp, ?_⟩
    intro a ha hb
    simp only [List.map_cons, List.map_nil, List.mem_singleton] at hb
    obtain ⟨s, hs, rfl⟩ := List.mem_map.mp ha
    exact f1 s hs (by rw [hb, i1])
  · show ((w.eps.map _).map _).Nodup
    rw [map_put_keys (fun e : bap_ep => e.ptr) w.eps _]
    exact n2
  · intro s hs
    rcases List.mem_append.mp hs with hs | hs
    · have hne : s.ptr ≠ w.next := f1 s hs
      have h0 : owned_at { w with next := w.next + 1, setups := w.setups ++ [n] } s.ptr s.ep :=
        (owned_at_congr w _ _ _ rfl rfl).mpr (hown s hs)
      refine owned_at_put_ep _ e _ s.ptr s.ep n2 he1 ?_ h0
      show List.count s.ptr (e.setups ++ [w.next]) = _
      rw [List.count_append]
      simp [hne]
    · simp only [List.mem_singleton] at hs
      subst hs
      rw [i1, i2]
      have hc0 : e.setups.count w.next = 0 := List.count_eq_zero.mpr (f2 e hemem)
      have hsum := sum_map_put_add (fun e : bap_ep => e.ptr)
        (fun e => e.setups.count w.next) w.eps e { e with setups := e.setups ++ [w.next] }
        n2 (by rw [← hptr] at he; exact he)
      have hfresh : (w.eps.map (fun e => e.setups.count w.next)).sum = 0 :=
        sum_count_fresh (fun e : bap_ep => e.setups) w.eps w.next f2
      have hfresh2 : in_bcast_snks w w.next = 0 :=
        sum_count_fresh (fun d : bap_data => d.bcast_snks.getD []) w.sessions w.next f3
      simp only [List.count_append, hc0, hfresh] at hsum
      refine ⟨?_, ?_, hfresh2⟩
      · rw [ep_put_ep _ e _ ep he1]
        simp [hptr, List.count_append, hc0]
      · show ((w.eps.map _).map _).sum = 1
        simpa using hsum
  · exact find_append_new w.setups n (by rw [i1]; exact f1)
  · rw [ep_put_ep _ e _ ep he1]
    simp [hptr]


theorem put_setup_ok (w : World) (p : Nat) (s s' : bap_setup) (hs : w.setup p = some s)
    (hp : s'.ptr = p) (he : s'.ep = s.ep) (h : w.inv) :
    (w.put_setup s').inv ∧ (w.put_setup s').setup p = some s' :=
  ⟨inv_put_setup_of w p s s' hs hp he h,
   find_map_put (fun x : bap_setup => x.ptr) w.setups p s s' hs hp⟩

theorem inv_put_data (w : World) (d d' : bap_data) (hd : w.data d'.ptr = some d)
    (hq : d'.bcast_snks = d.bcast_snks) (h : w.inv) : (w.put_data d').inv := by
  obtain ⟨⟨n1, n2, n3⟩, hown⟩ := h
  refine ⟨⟨n1, n2, ?_⟩, ?_⟩
  · show ((w.sessions.map _).map _).Nodup
    rw [map_put_keys (fun d : bap_data => d.ptr) w.sessions d']
    exact n3
  · intro s hs
    have h0 := hown s hs
    have hin : in_bcast_snks (w.put_data d') s.ptr = in_bcast_snks w s.ptr :=
      in_bcast_snks_put_data w d d' s.ptr n3 hd (by rw [hq])
    unfold owned_at at h0 ⊢
    cases hpar : s.ep with
    | none =>
      rw [hpar] at h0
      simp only [] at h0 ⊢
      rw [hin]
      exact h0
    | some ep =>
      rw [hpar] at h0
      simp only [] at h0 ⊢
      rw [hin]
      exact h0

theorem data_ptr (w : World) (p : Nat) (d : bap_data) (h : w.data p = some d) : d.ptr = p :=
  find_ptr_eq (fun x : bap_data => x.ptr) _ _ _ h

theorem inv_set_configuration_stream (env : Env) (w : World) (e : bap_ep) (msg : DBusMessage)
    (setup : bap_setup) (hs : w.setup setup.ptr = some setup) (h : w.inv) :
    (set_configuration_stream env w e msg setup).2.inv := by
  unfold set_configuration_stream
  simp only []
  generalize hst : env.bt_bap_stream_new e.lpac e.rpac setup = stream
  generalize hid : (match stream with
    | none => 0
    | some st => env.bt_bap_stream_config st { setup with stream := stream }) = id
  have k0 := inv_emit w [Event.bt_bap_stream_new stream,
    Event.bt_bap_stream_set_user_data stream e.path,
    Event.bt_bap_stream_config stream setup.caps] h
  obtain ⟨k1, k2⟩ := put_setup_ok (World.emit w [Event.bt_bap_stream_new stream,
    Event.bt_bap_stream_set_user_data stream e.path,
    Event.bt_bap_stream_config stream setup.caps]) setup.ptr setup
    { setup with stream := stream, id := id } hs rfl rfl k0
  generalize hw3 : World.put_setup (World.emit w [Event.bt_bap_stream_new stream,
    Event.bt_bap_stream_set_user_data stream e.path,
    Event.bt_bap_stream_config stream setup.caps])
    { setup with stream := stream, id := id } = w3 at *
  by_cases hz : id = 0
  · simp only [hz, if_true]
    exact inv_setup_free _ _ k1
  · simp only [hz, if_false]
    generalize hw5 : (if (match setup.metadata with
        | some m => decide (m.length ≠ 0)
        | none => false) = true then
          World.emit w3 [Event.bt_bap_stream_metadata stream setup.metadata]
        else w3) = w5
    have k5 : w5.inv ∧ w5.setup setup.ptr
        = some { setup with stream := stream, id := id } := by
      rw [← hw5]
      split_ifs
      · exact ⟨inv_emit _ _ k1, k2⟩
      · exact ⟨k1, k2⟩
    cases hty : Option.map (fun st => (env.stream st).type) stream with
    | none => exact k5.1
    | some ty =>
      cases ty with
      | BT_BAP_STREAM_TYPE_UCAST =>
        exact (put_setup_ok w5 setup.ptr _
          { setup with stream := stream, id := id, msg := some msg.ptr } k5.2 rfl rfl k5.1).1
      | BT_BAP_STREAM_TYPE_BCAST =>
        simp only []
        have k6 := (put_setup_ok w5 setup.ptr _
          { setup with stream := stream, id := 0 } k5.2 rfl rfl k5.1).1
        split
        · exact inv_emit _ _ k6
        · exact k6
      | other => exact k5.1

theorem fresh_ep_close (w : World) (ep : Option Nat) (hf : w.fresh) : (ep_close w ep).fresh := by
  obtain ⟨c1, c2, c3, c4⟩ := ep_close_frame w ep
  obtain ⟨f1, f2, f3⟩ := hf
  refine ⟨?_, by rw [c1, c3]; exact f2, by rw [c2, c3]; exact f3⟩
  intro s hs hc
  have hm : s.ptr ∈ (ep_close w ep).setups.map (fun s => s.ptr) :=
    List.mem_map_of_mem (fun s : bap_setup => s.ptr) hs
  rw [c4] at hm
  obtain ⟨y, hy, hyp⟩ := List.mem_map.mp hm
  exact f1 y hy (by rw [hyp, hc, c3])

theorem inv_set_configuration (env : Env) (w : World) (ep : Nat) (msg : DBusMessage)
    (hf : w.fresh) (h : w.inv) : (set_configuration env w ep msg).2.inv := by
  unfold set_configuration
  cases hep : w.ep ep with
  | none => exact h
  | some e =>
    simp only []
    by_cases hprops : msg.props = []
    · simp only [hprops, if_true]; exact h
    · simp only [hprops, if_false]
      generalize hw1 : (if env.bt_bap_pac_get_type e.lpac ≠ pac_type.BT_BAP_BCAST_SOURCE then
          ep_close w (some ep) else w) = w1
      have h1 : w1.inv ∧ w1.eps = w.eps ∧ w1.fresh := by
        rw [← hw1]
        split_ifs
        · exact ⟨inv_ep_close w _ h, (ep_close_frame w (some ep)).1, fresh_ep_close w _ hf⟩
        · exact ⟨h, rfl, hf⟩
      have hep1 : w1.ep ep = some e := by unfold World.ep; rw [h1.2.1]; exact hep
      obtain ⟨i1, i2, _, _⟩ := inv_setup_new_some w1 ep e hep1 h1.2.2 h1.1
      obtain ⟨q, c, m, hpf⟩ := setup_parse_configuration_loop_fields msg.props
        (setup_new w1 (some ep)).1 []
      change (setup_parse_configuration (setup_new w1 (some ep)).1 msg.props).2 = _ at hpf
      generalize (setup_new w1 (some ep)).2 = w2 at *
      generalize (setup_new w1 (some ep)).1 = n at *
      generalize hparsed : setup_parse_configuration n msg.props = parsed at *
      have hp1 : parsed.2.ptr = n.ptr := by rw [hpf]
      have hp2 : parsed.2.ep = n.ep := by rw [hpf]
      obtain ⟨j1, j2⟩ := put_setup_ok w2 n.ptr n parsed.2 i2 hp1 hp2 i1
      split_ifs
      · exact inv_setup_free _ _ j1
      · exact inv_set_configuration_stream env _ e msg parsed.2 (by rw [hp1]; exact j2) j1

theorem inv_setup_config (env : Env) (w : World) (p : Nat) (h : w.inv) :
    (setup_config env w p).inv := by
  unfold setup_config
  cases hs : w.setup p with
  | none => exact h
  | some setup =>
    simp only []
    cases hep : setup.ep.bind w.ep with
    | none => exact h
    | some ep =>
      simp only []
      generalize hst : (match setup.stream with
        | some st => some st
        | none => env.bt_bap_stream_new ep.lpac ep.rpac setup) = stream
      generalize hid : (match stream with
        | none => 0
        | some st => env.bt_bap_stream_config st { setup with stream := stream }) = id
      generalize hev : ((if setup.stream.isNone = true then [Event.bt_bap_stream_new stream]
        else []) ++ [Event.bt_bap_stream_config stream setup.caps]) = ev
      have k0 := inv_emit w ev h
      obtain ⟨k1, _⟩ := put_setup_ok (World.emit w ev) p setup
        { setup with stream := stream, id := id } hs (mem_of_setup w p setup hs).2 rfl k0
      split_ifs
      · exact inv_setup_free _ _ k1
      · exact inv_emit _ _ k1

theorem inv_bap_config (env : Env) (w : World) (ep : Nat) (h : w.inv) :
    (bap_config env w ep).inv := by
  unfold bap_config
  cases w.ep ep with
  | none => exact h
  | some e => exact inv_foldl _ (fun w a hw => inv_setup_config env w a hw) _ w h

theorem inv_select_cb (env : Env) (w : World) (err : Int) (caps metadata : Option (List Nat))
    (qos : bt_bap_qos) (ep : Nat) (hf : w.fresh) (h : w.inv) :
    (select_cb env w err caps metadata qos ep).inv := by
  unfold select_cb
  cases hep : w.ep ep with
  | none => exact h
  | some e =>
    simp only []
    generalize hw1 : (if err ≠ 0 then w
      else World.put_setup (setup_new w (some ep)).2
        { (setup_new w (some ep)).1 with caps := caps, metadata := metadata, qos := qos }) = w1
    have h1 : w1.inv := by
      rw [← hw1]
      split_ifs
      · exact h
      · obtain ⟨i1, i2, _, _⟩ := inv_setup_new_some w ep e hep hf h
        exact (put_setup_ok _ _ _
          { (setup_new w (some ep)).1 with caps := caps, metadata := metadata, qos := qos }
          i2 rfl rfl i1).1
    cases hd : w1.data e.data with
    | none => exact h1
    | some d =>
      simp only []
      have h2 : (w1.put_data { d with selecting := d.selecting - 1 }).inv :=
        inv_put_data w1 d _ (by rw [← data_ptr w1 _ d hd] at hd; exact hd) rfl h1
      split_ifs
      · exact h2
      · exact inv_foldl _ (inv_bap_config env) _ _
          (inv_foldl _ (inv_bap_config env) _ _ (inv_foldl _ (inv_bap_config env) _ _ h2))

theorem owned_at_put_data (w : World) (d d' : bap_data) (p : Nat) (par : Option Nat)
    (hn : (w.sessions.map (fun d => d.ptr)).Nodup) (hd : w.data d'.ptr = some d)
    (hc : (d'.bcast_snks.getD []).count p = (d.bcast_snks.getD []).count p)
    (h : owned_at w p par) : owned_at (w.put_data d') p par := by
  have hin : in_bcast_snks (w.put_data d') p = in_bcast_snks w p :=
    in_bcast_snks_put_data w d d' p hn hd hc
  unfold owned_at at h ⊢
  cases par with
  | none =>
    simp only [] at h ⊢
    rw [hin]
    exact h
  | some ep =>
    simp only [] at h ⊢
    rw [hin]
    exact h

theorem setup_new_none (w : World) :
    setup_new w none = (setup_new_init w none,
      { w with next := w.next + 1, setups := w.setups ++ [setup_new_init w none] }) := rfl

theorem inv_alloc_bcast_snk (w : World) (n : bap_setup) (d : bap_data) (l : List Nat)
    (hp : n.ptr = w.next) (hep : n.ep = none) (hd : w.data d.ptr = some d)
    (hq : d.bcast_snks = some l) (hf : w.fresh) (h : w.inv) :
    (World.put_data { w with next := w.next + 1, setups := w.setups ++ [n] }
      { d with bcast_snks := some (l ++ [w.next]) }).inv ∧
    (World.put_data { w with next := w.next + 1, setups := w.setups ++ [n] }
      { d with bcast_snks := some (l ++ [w.next]) }).setup n.ptr = some n := by
  obtain ⟨⟨n1, n2, n3⟩, hown⟩ := h
  obtain ⟨f1, f2, f3⟩ := hf
  have hdmem : d ∈ w.sessions := List.mem_of_find?_eq_some hd
  have hd1 : World.data { w with next := w.next + 1, setups := w.setups ++ [n] }
      ({ d with bcast_snks := some (l ++ [w.next]) } : bap_data).ptr = some d := hd
  refine ⟨⟨⟨?_, n2, ?_⟩, ?_⟩, ?_⟩
  · show ((w.setups ++ [n]).map _).Nodup
    rw [List.map_append, List.nodup_append]
    refine ⟨n1, by simp, ?_⟩
    intro a ha hb
    simp only [List.map_cons, List.map_nil, List.mem_singleton] at hb
    obtain ⟨s, hs, rfl⟩ := List.mem_map.mp ha
    exact f1 s hs (by rw [hb, hp])
  · show ((w.sessions.map _).map _).Nodup
    rw [map_put_keys (fun d : bap_data => d.ptr) w.sessions _]
    exact n3
  · intro s hs
    rcases List.mem_append.mp hs with hs | hs
    · have hne : s.ptr ≠ w.next := f1 s hs
      have h0 : owned_at { w with next := w.next + 1, setups := w.setups ++ [n] } s.ptr s.ep :=
        (owned_at_congr w _ _ _ rfl rfl).mpr (hown s hs)
      refine owned_at_put_data _ d _ s.ptr s.ep n3 hd1 ?_ h0
      rw [hq]
      simp only [Option.getD_some, List.count_append]
      simp [hne]
    · simp only [List.mem_singleton] at hs
      subst hs
      rw [hp, hep]
      have hc0 : (d.bcast_snks.getD []).count w.next = 0 :=
        List.count_eq_zero.mpr (f3 d hdmem)
      have hsum := sum_map_put_add (fun d : bap_data => d.ptr)
        (fun d => (d.bcast_snks.getD []).count w.next) w.sessions d
        { d with bcast_snks := some (l ++ [w.next]) } n3 hd
      have hfresh : (w.sessions.map (fun d => (d.bcast_snks.getD []).count w.next)).sum = 0 :=
        sum_count_fresh (fun d : bap_data => d.bcast_snks.getD []) w.sessions w.next f3
      have hfresh2 : in_eps w w.next = 0 :=
        sum_count_fresh (fun e : bap_ep => e.setups) w.eps w.next f2
      have hl : l.count w.next = 0 := by rw [hq] at hc0; simpa using hc0
      simp only [Option.getD_some, List.count_append, hc0, hfresh, hl] at hsum
      refine ⟨hfresh2, ?_⟩
      show ((w.sessions.map _).map _).sum = 1
      simpa using hsum
  · exact find_append_new w.setups n (by rw [hp]; exact f1)

theorem inv_create_stream_for_bis (env : Env) (w : World) (data : Nat) (lpac : Nat)
    (qos : bt_iso_qos) (caps meta : List Nat) (path : String) (d : bap_data) (l : List Nat)
    (hd : w.data data = some d) (hq : d.bcast_snks = some l) (hf : w.fresh) (h : w.inv) :
    (create_stream_for_bis env w data lpac qos caps meta path).inv := by
  obtain ⟨i1, i2, _⟩ := setup_new_init_fields w none
  have hdp : d.ptr = data := data_ptr w _ d hd
  obtain ⟨a1, a2⟩ := inv_alloc_bcast_snk w (setup_new_init w none) d l i1 i2
    (by rw [hdp]; exact hd) hq hf h
  have key : ∀ (s1 : bap_setup) (st : Option Nat) (ev : List Event),
      s1.ptr = (setup_new_init w none).ptr → s1.ep = (setup_new_init w none).ep →
      (World.emit (World.put_setup (World.put_data (World.put_setup
        { w with next := w.next + 1, setups := w.setups ++ [setup_new_init w none] } s1)
        { d with bcast_snks := some (l ++ [w.next]) }) { s1 with stream := st }) ev).inv := by
    intro s1 st ev hs1p hs1e
    obtain ⟨b1, b2⟩ := put_setup_ok _ (setup_new_init w none).ptr (setup_new_init w none) s1
      a2 hs1p hs1e a1
    obtain ⟨c1, _⟩ := put_setup_ok _ (setup_new_init w none).ptr s1
      { s1 with stream := st } b2 hs1p rfl b1
    exact inv_emit _ ev c1
  unfold create_stream_for_bis
  rw [setup_new_none]
  have hd2 : ∀ s1, World.data (World.put_setup
      { w with next := w.next + 1, setups := w.setups ++ [setup_new_init w none] } s1) data
      = some d := fun _ => hd
  simp only [hd2, hq, Option.map_some']
  exact key _ _ _ rfl rfl

theorem mem_le_sum (l : List Nat) (a : Nat) (h : a ∈ l) : a ≤ l.sum := by
  induction l with
  | nil => simp at h
  | cons x xs ih =>
    rcases List.mem_cons.mp h with rfl | h'
    · simp
    · have := ih h'
      simp only [List.sum_cons]
      omega

theorem sum_filter_zero {α : Type} (P : α → Bool) (f : α → Nat) (l : List α)
    (h : ∀ a ∈ l, P a = false → f a = 0) : ((l.filter P).map f).sum = (l.map f).sum := by
  induction l with
  | nil => rfl
  | cons x xs ih =>
    have ih' := ih (fun a ha => h a (List.mem_cons_of_mem _ ha))
    cases hx : P x with
    | true => simp [List.filter_cons, hx, ih']
    | false =>
      have := h x (List.mem_cons_self _ _) hx
      simp [List.filter_cons, hx, ih', this]

theorem find_filter_ne_ep (l : List bap_ep) (p q : Nat) (h : q ≠ p) :
    (l.filter (fun s => s.ptr != p)).find? (fun s => s.ptr == q)
      = l.find? (fun s => s.ptr == q) := by
  induction l with
  | nil => rfl
  | cons x xs ih =>
    by_cases hx : x.ptr = p
    · have h1 : (x.ptr != p) = false := by simp [hx]
      have h2 : (x.ptr == q) = false := by simp [hx]; exact fun h' => h h'.symm
      rw [List.filter_cons, h1, List.find?_cons, h2]
      simpa using ih
    · have h1 : (x.ptr != p) = true := by simp [hx]
      rw [List.filter_cons, h1]
      simp only [if_true, List.find?_cons]
      cases x.ptr == q
      · simpa using ih
      · rfl

theorem count_zero_of_other_parent (w : World) (ep : Nat) (e : bap_ep) (x : Nat)
    (par : Option Nat) (hn : (w.eps.map (fun e => e.ptr)).Nodup) (he : w.ep ep = some e)
    (hpar : par ≠ some ep) (h : owned_at w x par) : e.setups.count x = 0 := by
  have hemem : e ∈ w.eps := List.mem_of_find?_eq_some he
  have hptr : e.ptr = ep := find_ptr_eq (fun x : bap_ep => x.ptr) _ _ _ he
  unfold owned_at at h
  cases par with
  | none =>
    simp only [] at h
    have hle : e.setups.count x ≤ (w.eps.map (fun e => e.setups.count x)).sum :=
      mem_le_sum _ _ (List.mem_map_of_mem (fun e : bap_ep => e.setups.count x) hemem)
    have h1 : (w.eps.map (fun e => e.setups.count x)).sum = 0 := h.1
    omega
  | some ep2 =>
    simp only [] at h
    obtain ⟨h1, h2, _⟩ := h
    have hne : ep2 ≠ ep := fun hc => hpar (by rw [hc])
    have hsum := sum_map_put_add (fun e : bap_ep => e.ptr) (fun e => e.setups.count x) w.eps e
      { e with setups := [] } hn (by rw [← hptr] at he; exact he)
    simp only [List.count_nil, add_zero] at hsum
    cases he2 : w.ep ep2 with
    | none => rw [he2] at h1; simp at h1
    | some e2 =>
      rw [he2] at h1
      simp only [Option.map_some', Option.some.injEq] at h1
      have hlook : (w.put_ep { e with setups := [] }).ep ep2 = some e2 := by
        rw [ep_put_ep w e _ ep2 (by rw [← hptr] at he; exact he)]
        simp only [hptr, hne, if_false]
        exact he2
      have hmem2 : e2 ∈ (w.put_ep { e with setups := [] }).eps :=
        List.mem_of_find?_eq_some hlook
      have hle := mem_le_sum _ _
        (List.mem_map_of_mem (fun e : bap_ep => e.setups.count x) hmem2)
      unfold in_eps at h2
      have hle' : List.count x e2.setups ≤
          ((w.eps.map (fun y => if y.ptr = e.ptr then { e with setups := [] } else y)).map
            (fun e => e.setups.count x)).sum := hle
      omega

theorem setup_free_none (w : World) (p q : Nat) (h : q = p ∨ w.setup q = none) :
    (setup_free w p).setup q = none := by
  cases hs : w.setup p with
  | none =>
    have : setup_free w p = w := by unfold setup_free; simp [hs]
    rw [this]
    rcases h with rfl | h
    · exact hs
    · exact h
  | some s =>
    obtain ⟨_, f2, f3⟩ := setup_free_frame w p s hs
    by_cases hq : q = p
    · rw [hq]; exact f2
    · rw [f3 q hq]
      rcases h with h | h
      · exact absurd h hq
      · exact h

theorem foldl_setup_free_none (ps : List Nat) (w : World) (q : Nat)
    (h : q ∈ ps ∨ w.setup q = none) : (ps.foldl setup_free w).setup q = none := by
  induction ps generalizing w with
  | nil =>
    rcases h with h | h
    · simp at h
    · exact h
  | cons p ps ih =>
    simp only [List.foldl_cons]
    rcases h with h | h
    · rcases List.mem_cons.mp h with rfl | h'
      · exact ih _ (Or.inr (setup_free_none w q q (Or.inl rfl)))
      · exact ih _ (Or.inl h')
    · exact ih _ (Or.inr (setup_free_none w p q (Or.inr h)))

theorem setup_free_empty_queue (w : World) (p ep : Nat)
    (h : ∃ x, w.ep ep = some x ∧ x.setups = []) :
    ∃ x, (setup_free w p).ep ep = some x ∧ x.setups = [] := by
  obtain ⟨x, hx, hx0⟩ := h
  unfold setup_free
  cases hs : w.setup p with
  | none => exact ⟨x, hx, hx0⟩
  | some s =>
    simp only []
    show ∃ x, (setup_unlink w s.ep p).ep ep = some x ∧ x.setups = []
    unfold setup_unlink
    cases s.ep with
    | none => exact ⟨x, hx, hx0⟩
    | some par =>
      simp only []
      cases hpar : w.ep par with
      | none => exact ⟨x, hx, hx0⟩
      | some e' =>
        simp only []
        have hptr : e'.ptr = par := find_ptr_eq (fun x : bap_ep => x.ptr) _ _ _ hpar
        rw [ep_put_ep w e' _ ep (by rw [← hptr] at hpar; exact hpar)]
        by_cases hc : ep = par
        · subst hc
          rw [hx] at hpar
          simp only [Option.some.injEq] at hpar
          subst hpar
          refine ⟨{ x with setups := x.setups.erase p }, by simp [hptr], ?_⟩
          simp [hx0]
        · simp only [hptr, hc, if_false]
          exact ⟨x, hx, hx0⟩

theorem foldl_setup_free_empty_queue (ps : List Nat) (w : World) (ep : Nat)
    (h : ∃ x, w.ep ep = some x ∧ x.setups = []) :
    ∃ x, (ps.foldl setup_free w).ep ep = some x ∧ x.setups = [] := by
  induction ps generalizing w with
  | nil => exact h
  | cons p ps ih => exact ih _ (setup_free_empty_queue w p ep h)

theorem inv_ep_free (w : World) (ep : Nat) (h : w.inv) : (ep_free w ep).inv := by
  unfold ep_free
  cases he : w.ep ep with
  | none => exact h
  | some e =>
    simp only []
    obtain ⟨⟨n1, n2, n3⟩, hown⟩ := h
    have hptr : e.ptr = ep := find_ptr_eq (fun x : bap_ep => x.ptr) _ _ _ he
    have he' : w.ep e.ptr = some e := by rw [hptr]; exact he
    have hemem : e ∈ w.eps := List.mem_of_find?_eq_some he
    generalize hw1 : World.put_ep (ep_cancel_select w ep) { e with setups := [] } = w1
    have hw1s : w1.setups = w.setups := by rw [← hw1]; rfl
    have hw1n : w1.next = w.next := by rw [← hw1]; rfl
    have hw1d : w1.sessions = w.sessions := by rw [← hw1]; rfl
    have hw1e : w1.eps = w.eps.map (fun y => if y.ptr = e.ptr then { e with setups := [] } else y) := by
      rw [← hw1]; rfl
    have wf1 : w1.wf := by
      refine ⟨by rw [hw1s]; exact n1, ?_, by rw [hw1d]; exact n3⟩
      rw [hw1e]
      have hk := map_put_keys (fun e : bap_ep => e.ptr) w.eps { e with setups := [] }
      exact (congrArg List.Nodup hk).mpr n2
    have own1 : ∀ s ∈ w.setups, s.ep ≠ some ep → owned_at w1 s.ptr s.ep := by
      intro s hs hpar
      have hz := count_zero_of_other_parent w ep e s.ptr s.ep n2 he hpar (hown s hs)
      have := owned_at_put_ep w e { e with setups := [] } s.ptr s.ep n2 he'
        (by simp [hz]) (hown s hs)
      rw [← hw1]
      exact (owned_at_congr (w.put_ep { e with setups := [] }) _ _ _ rfl rfl).mpr this
    have hq1 : ∃ x, w1.ep ep = some x ∧ x.setups = [] := by
      refine ⟨{ e with setups := [] }, ?_, rfl⟩
      rw [← hw1]
      have := ep_put_ep (ep_cancel_select w ep) e { e with setups := [] } ep he'
      rw [this]
      simp [hptr]
    obtain ⟨g1, g2, g3, g4⟩ := foldl_setup_free_owned e.setups w1 wf1
    obtain ⟨x, hx, hx0⟩ := foldl_setup_free_empty_queue e.setups w1 ep hq1
    have gnone : ∀ p ∈ e.setups, (e.setups.foldl setup_free w1).setup p = none :=
      fun p hp => foldl_setup_free_none e.setups w1 p (Or.inl hp)
    generalize e.setups.foldl setup_free w1 = wf at *
    obtain ⟨m1, m2, m3⟩ := g1
    have hpar : ∀ s ∈ wf.setups, s.ep ≠ some ep := by
      intro s hs hc
      have hsw : s ∈ w.setups := by rw [← hw1s]; exact (g4 s hs).1
      have ho := hown s hsw
      rw [hc] at ho
      unfold owned_at at ho
      simp only [he, Option.map_some', Option.some.injEq] at ho
      have hmem : s.ptr ∈ e.setups := List.count_pos_iff.mp (by omega)
      have hn := gnone s.ptr hmem
      unfold World.setup at hn
      rw [List.find?_eq_none] at hn
      have := hn s hs
      simp at this
    have hxptr : x.ptr = ep := find_ptr_eq (fun x : bap_ep => x.ptr) _ _ _ hx
    refine ⟨⟨m1, ?_, m3⟩, ?_⟩
    · exact m2.sublist ((List.filter_sublist _).map _)
    · intro s hs
      have hs' : s ∈ wf.setups := hs
      have hsw : s ∈ w.setups := by rw [← hw1s]; exact (g4 s hs').1
      have ho := (g4 s hs').2 (own1 s hsw (hpar s hs'))
      have hsum : ((wf.eps.filter (fun y => y.ptr != ep)).map
          (fun e => e.setups.count s.ptr)).sum = in_eps wf s.ptr := by
        apply sum_filter_zero
        intro a ha hP
        have hap : a.ptr = ep := by simpa using hP
        have hfind : wf.eps.find? (fun y => y.ptr == a.ptr) = some x := by rw [hap]; exact hx
        rw [eq_of_find_nodup (fun y : bap_ep => y.ptr) wf.eps x a m2 hfind ha, hx0]
        rfl
      unfold owned_at at ho ⊢
      cases hp : s.ep with
      | none =>
        rw [hp] at ho
        exact ⟨hsum.trans ho.1, ho.2⟩
      | some ep2 =>
        rw [hp] at ho
        have hne : ep2 ≠ ep := fun hc => hpar s hs' (by rw [hp, hc])
        refine ⟨?_, hsum.trans ho.2.1, ho.2.2⟩
        have : World.ep { wf with eps := wf.eps.filter (fun x => x.ptr != ep),
                                  log := wf.log ++ [Event.free ep] } ep2 = wf.ep ep2 :=
          find_filter_ne_ep wf.eps ep ep2 hne
        rw [this]
        exact ho.1

/-- C5 (amended): the registry invariant (no two objects of a kind share an
address, and every live setup is contained exactly once in its parent
endpoint's setup queue and in no other queue, or, when it has no parent
endpoint, exactly once in a `bcast_snks` queue and in no endpoint queue) is
preserved by `setup_new` called with an allocated parent endpoint, by
`select_cb`, by `set_configuration`, by `create_stream_for_bis` on a session
whose `bcast_snks` queue exists, by `setup_free` and by `ep_free`.  For the
four operations that allocate a setup this holds for every address `a` that
`new0` may return, also one used before, provided no queue still holds `a`. -/
theorem setup_ownership_preserved (env : Env) (w : World) (h : w.inv) :
    (∀ a ep e, ({ w with next := a } : World).fresh → w.ep ep = some e →
      (setup_new { w with next := a } (some ep)).2.inv) ∧
    (∀ a err caps metadata qos ep, ({ w with next := a } : World).fresh →
      (select_cb env { w with next := a } err caps metadata qos ep).inv) ∧
    (∀ a ep msg, ({ w with next := a } : World).fresh →
      (set_configuration env { w with next := a } ep msg).2.inv) ∧
    (∀ a data lpac qos caps meta path d l, ({ w with next := a } : World).fresh →
      w.data data = some d → d.bcast_snks = some l →
      (create_stream_for_bis env { w with next := a } data lpac qos caps meta path).inv) ∧
    (∀ p, (setup_free w p).inv) ∧
    (∀ ep, (ep_free w ep).inv) :=
  ⟨fun a ep e hf he => (inv_setup_new_some { w with next := a } ep e he hf
     (inv_with_next w a h)).1,
   fun a err caps metadata qos ep hf =>
     inv_select_cb env _ err caps metadata qos ep hf (inv_with_next w a h),
   fun a ep msg hf => inv_set_configuration env _ ep msg hf (inv_with_next w a h),
   fun a data lpac qos caps meta path d l hf hd hq =>
     inv_create_stream_for_bis env _ data lpac qos caps meta path d l hd hq hf
       (inv_with_next w a h),
   fun p => inv_setup_free w p h,
   fun ep => inv_ep_free w ep h⟩

/-- The invariant holds in `world_freed`, in which address 3 has been freed
and is held by no queue; `new0` may return 3 again or the unused address 4,
and the invariant holds after each of the six operations there. -/
theorem setup_ownership_preserved_witness :
    world_freed.inv ∧ ({ world_freed with next := 3 } : World).fresh ∧
    ({ world_freed with next := 4 } : World).fresh ∧
    (world_freed.ep 2).map (fun e => e.setups) = some [] ∧
    world_freed.sessions.map (fun d => d.bcast_snks) = [some []] ∧
    (setup_new { world_freed with next := 3 } (some 2)).2.inv ∧
    (create_stream_for_bis env0 { world_freed with next := 3 } 1 10 {} [] []
      "/org/bluez/hci0/dev_00/bis1").inv ∧
    (∀ a err caps metadata qos ep, ({ world_freed with next := a } : World).fresh →
      (select_cb env0 { world_freed with next := a } err caps metadata qos ep).inv) ∧
    (∀ a ep msg, ({ world_freed with next := a } : World).fresh →
      (set_configuration env0 { world_freed with next := a } ep msg).2.inv) ∧
    (∀ p, (setup_free world_freed p).inv) ∧
    (∀ ep, (ep_free world_freed ep).inv) :=
  ⟨by decide, by decide, by decide, by decide, by decide,
   (setup_ownership_preserved env0 world_freed (by decide)).1 3 2 _ (by decide) rfl,
   (setup_ownership_preserved env0 world_freed (by decide)).2.2.2.1 3 1 10 {} [] []
     "/org/bluez/hci0/dev_00/bis1" _ [] (by decide) rfl rfl,
   (setup_ownership_preserved env0 world_freed (by decide)).2.1,
   (setup_ownership_preserved env0 world_freed (by decide)).2.2.1,
   (setup_ownership_preserved env0 world_freed (by decide)).2.2.2.2.1,
   (setup_ownership_preserved env0 world_freed (by decide)).2.2.2.2.2⟩

theorem lv_iovec_bytes (l : List Nat) : (lv_iovec l).bytes = l := by
  unfold lv_iovec iovec.bytes
  split_ifs with h
  · simp [List.length_eq_zero.mp h]
  · rfl

theorem pull_lv_encode (l rest : List Nat) :
    pull_lv (l.length :: (l ++ rest)) = some (lv_iovec l, rest) := by
  unfold pull_lv util_iov_pull_u8 util_iov_pull_mem util_iov_memcpy lv_iovec
  simp only [List.length_append]
  have h1 : ¬ (l.length + rest.length < l.length) := by omega
  simp only [h1, if_false, Option.map_some', Option.getD_some, List.take_left', List.drop_left']
  split_ifs with h
  · simp [h]
  · simp

theorem create_streams_append (env : Env) (data : bap_data) (qos : bt_iso_qos)
    (a b : List matched_bis) (w : World) :
    create_streams env data qos (a ++ b) w
      = create_streams env data qos b (create_streams env data qos a w) := by
  unfold create_streams
  rw [List.foldl_append]

theorem parse_base_bises_encode (env : Env) (data : bap_data) (qos : bt_iso_qos)
    (codec caps meta : List Nat) (bs : List spec_bis) (rest : List Nat) (w : World) :
    parse_base_bises env data qos codec (lv_iovec caps) (lv_iovec meta) bs.length
        (bs.flatMap spec_bis.encode ++ rest) w
      = (true, rest,
         create_streams env data qos (matched_bises env data.bap codec caps meta bs) w) := by
  induction bs generalizing w with
  | nil => rfl
  | cons b bs ih =>
    have henc : (b :: bs).flatMap spec_bis.encode ++ rest
        = b.index :: b.caps.length :: (b.caps ++ (bs.flatMap spec_bis.encode ++ rest)) := by
      simp [List.flatMap_cons, spec_bis.encode]
    rw [henc, List.length_cons, parse_base_bises]
    simp only [util_iov_pull_u8, pull_lv_encode]
    have hcons : ∀ m, create_streams env data qos
        (m :: matched_bises env data.bap codec caps meta bs) w
        = create_streams env data qos (matched_bises env data.bap codec caps meta bs)
          (create_stream_for_bis env w data.ptr m.lpac qos m.caps m.meta
            (bis_path env data m.index)) := fun m => rfl
    have hm : matched_bises env data.bap codec caps meta (b :: bs)
        = (match env.bt_bap_verify_bis data.bap b.index codec (lv_iovec caps)
              (lv_iovec b.caps) with
            | (some lpac, some merged) => some (matched_bis.mk lpac merged meta b.index)
            | _ => none).toList ++ matched_bises env data.bap codec caps meta bs := by
      unfold matched_bises
      rw [List.filterMap_cons]
      split <;> simp_all
    rw [hm]
    cases env.bt_bap_verify_bis data.bap b.index codec (lv_iovec caps) (lv_iovec b.caps) with
    | mk lp mc =>
      cases lp with
      | none => simp only []; rw [ih]; rfl
      | some lpac =>
        cases mc with
        | none => simp only []; rw [ih]; rfl
        | some merged =>
          simp only []
          rw [ih, lv_iovec_bytes]
          exact congrArg (fun x => (true, rest, x)) (hcons (matched_bis.mk lpac merged meta b.index)).symm


theorem pull_mem_codec (codec rest : List Nat) (h : codec.length = 5) :
    util_iov_pull_mem (codec ++ rest) 5 = some (codec, rest) := by
  unfold util_iov_pull_mem
  have h1 : ¬ ((codec ++ rest).length < 5) := by rw [List.length_append]; omega
  rw [if_neg h1, List.take_left' h, List.drop_left' h]

theorem parse_base_subgroups_encode (env : Env) (data : bap_data) (qos : bt_iso_qos)
    (ss : List spec_subgroup) (rest : List Nat) (w : World) (hv : ∀ s ∈ ss, s.valid) :
    parse_base_subgroups env data qos ss.length (ss.flatMap spec_subgroup.encode ++ rest) w
      = some (true, create_streams env data qos
          (ss.flatMap (spec_subgroup.matched env data.bap)) w) := by
  induction ss generalizing w with
  | nil => rfl
  | cons s ss ih =>
    have henc : (s :: ss).flatMap spec_subgroup.encode ++ rest
        = s.bises.length :: (s.codec ++ (s.caps.length :: (s.caps ++ (s.meta.length ::
            (s.meta ++ (s.bises.flatMap spec_bis.encode ++
              (ss.flatMap spec_subgroup.encode ++ rest))))))) := by
      simp [List.flatMap_cons, spec_subgroup.encode]
    rw [henc, List.length_cons, parse_base_subgroups]
    simp only [util_iov_pull_u8, pull_mem_codec _ _ (hv s (List.mem_cons_self _ _)).1,
      pull_lv_encode, parse_base_bises_encode, if_true]
    rw [ih _ (fun x hx => hv x (List.mem_cons_of_mem _ hx)), List.flatMap_cons,
      create_streams_append]
    rfl

theorem parse_base_encode (env : Env) (w : World) (p : Nat) (data : bap_data) (b : spec_base)
    (rest : List Nat) (qos : bt_iso_qos) (hd : w.data p = some data) (hv : b.valid) :
    parse_base env w p (b.encode ++ rest) qos
      = some (true, create_streams env data qos (b.matched env data.bap) w) := by
  unfold parse_base
  rw [hd]
  simp only [spec_base.encode, List.cons_append, util_iov_pull_le24, util_iov_pull_u8]
  exact parse_base_subgroups_encode env data qos b.subgroups rest w hv.2.2


theorem create_stream_for_bis_log (env : Env) (w : World) (p lpac : Nat) (qos : bt_iso_qos)
    (caps meta : List Nat) (path : String) :
    ∃ st, (create_stream_for_bis env w p lpac qos caps meta path).log
      = w.log ++ [Event.bt_bap_stream_new st, Event.bt_bap_stream_set_user_data st path,
                  Event.bt_bap_stream_config st (some caps),
                  Event.bt_bap_stream_metadata st (some meta)] := by
  unfold create_stream_for_bis
  simp only [World.emit]
  refine ⟨_, congrArg₂ (fun a b => a ++ b) ?_ rfl⟩
  split <;> rfl

theorem create_streams_log (env : Env) (data : bap_data) (qos : bt_iso_qos)
    (ms : List matched_bis) (w : World) :
    stream_calls (create_streams env data qos ms w).log
      = stream_calls w.log ++ ms.flatMap (fun m =>
          [stream_call.user_data (bis_path env data m.index), stream_call.config (some m.caps),
           stream_call.metadata (some m.meta)]) ∧
    bis_paths (create_streams env data qos ms w).log
      = bis_paths w.log ++ ms.map (fun m => bis_path env data m.index) ∧
    io_calls (create_streams env data qos ms w).log = io_calls w.log := by
  induction ms generalizing w with
  | nil => simp [create_streams]
  | cons m ms ih =>
    obtain ⟨st, hst⟩ := create_stream_for_bis_log env w data.ptr m.lpac qos m.caps m.meta
      (bis_path env data m.index)
    obtain ⟨i1, i2, i3⟩ := ih (create_stream_for_bis env w data.ptr m.lpac qos m.caps m.meta
      (bis_path env data m.index))
    have hc : create_streams env data qos (m :: ms) w = create_streams env data qos ms
      (create_stream_for_bis env w data.ptr m.lpac qos m.caps m.meta
        (bis_path env data m.index)) := rfl
    rw [hc, i1, i2, i3, hst]
    refine ⟨?_, ?_, ?_⟩
    · simp [stream_calls, List.filterMap_append]
    · simp [bis_paths, List.filterMap_append]
    · simp [io_calls, List.filter_append]

theorem map_put_fresh (l : List bap_setup) (n a : bap_setup) (hl : ∀ s ∈ l, s.ptr ≠ a.ptr)
    (hn : n.ptr = a.ptr) :
    (l ++ [n]).map (fun x => if x.ptr = a.ptr then a else x) = l ++ [a] := by
  rw [List.map_append]
  congr 1
  · conv_rhs => rw [← List.map_id l]
    apply List.map_congr_left
    intro s hs
    simp [hl s hs]
  · simp [hn]

theorem match_data_setups (w : World) (p : Nat) (f : bap_data → bap_data) :
    (match w.data p with
      | none => w
      | some d => w.put_data (f d)).setups = w.setups := by
  split <;> rfl

theorem put_setup_fresh (w : World) (l : List bap_setup) (a b : bap_setup)
    (hs : w.setups = l ++ [a]) (hl : ∀ s ∈ l, s.ptr ≠ a.ptr) (hb : b.ptr = a.ptr) :
    (w.put_setup b).setups = l ++ [b] := by
  show w.setups.map _ = _
  rw [hs]
  exact map_put_fresh l a b (by rw [hb]; exact hl) hb.symm

theorem put_put_setup_fresh (w : World) (l : List bap_setup) (a b c : bap_setup) (p : Nat)
    (f : bap_data → bap_data) (hs : w.setups = l ++ [a]) (hl : ∀ s ∈ l, s.ptr ≠ a.ptr)
    (hb : b.ptr = a.ptr) (hc : c.ptr = a.ptr) :
    (World.put_setup (match (w.put_setup b).data p with
      | none => w.put_setup b
      | some d => (w.put_setup b).put_data (f d)) c).setups = l ++ [c] := by
  refine put_setup_fresh _ l b c ?_ (by rw [hb]; exact hl) (hc.trans hb.symm)
  exact (match_data_setups _ p f).trans (put_setup_fresh w l a b hs hl hb)

theorem create_stream_for_bis_setups (env : Env) (w : World) (p lpac : Nat) (qos : bt_iso_qos)
    (caps meta : List Nat) (path : String) (hf : ∀ s ∈ w.setups, s.ptr < w.next) :
    ∃ n, (create_stream_for_bis env w p lpac qos caps meta path).setups = w.setups ++ [n] ∧
      n.ptr = w.next ∧ n.ep = none ∧ n.io = none ∧
      (create_stream_for_bis env w p lpac qos caps meta path).next = w.next + 1 := by
  obtain ⟨i1, i2, _, _, i5, _⟩ := setup_new_init_fields w none
  have hl : ∀ s ∈ w.setups, s.ptr ≠ (setup_new_init w none).ptr := by
    intro s hs
    rw [i1]
    exact Nat.ne_of_lt (hf s hs)
  unfold create_stream_for_bis
  simp only [setup_new_none, World.emit]
  refine ⟨_, put_put_setup_fresh (World.mk (w.setups ++ [setup_new_init w none])
      w.eps w.sessions w.adapters w.interfaces (w.next + 1) w.log) w.setups
      (setup_new_init w none) _ _ p _ rfl hl ?_ ?_, i1, i2, i5, ?_⟩
  · rfl
  · rfl
  · split <;> rfl

theorem create_streams_setups (env : Env) (data : bap_data) (qos : bt_iso_qos)
    (ms : List matched_bis) (w : World) (hf : ∀ s ∈ w.setups, s.ptr < w.next) :
    ∃ news, (create_streams env data qos ms w).setups = w.setups ++ news ∧
      news.length = ms.length ∧ ∀ n ∈ news, n.ep = none ∧ n.io = none := by
  induction ms generalizing w with
  | nil => exact ⟨[], by simp [create_streams], rfl, by simp⟩
  | cons m ms ih =>
    obtain ⟨n, h1, h2, h3, h4, h5⟩ := create_stream_for_bis_setups env w data.ptr m.lpac qos
      m.caps m.meta (bis_path env data m.index) hf
    have hf2 : ∀ s ∈ (create_stream_for_bis env w data.ptr m.lpac qos m.caps m.meta
        (bis_path env data m.index)).setups, s.ptr < (create_stream_for_bis env w data.ptr
          m.lpac qos m.caps m.meta (bis_path env data m.index)).next := by
      rw [h1, h5]
      intro s hs
      rcases List.mem_append.mp hs with hs | hs
      · exact Nat.lt_succ_of_lt (hf s hs)
      · rw [List.mem_singleton.mp hs, h2]; exact Nat.lt_succ_self _
    obtain ⟨news, k1, k2, k3⟩ := ih _ hf2
    refine ⟨n :: news, ?_, by simp [k2], ?_⟩
    · show (create_streams env data qos ms _).setups = _
      rw [k1, h1]
      simp
    · intro x hx
      rcases List.mem_cons.mp hx with rfl | hx
      · exact ⟨h3, h4⟩
      · exact k3 x hx


/-- C7 (counterexample): the valid BASE blob `base_21` lists BIS 2 before
BIS 1 and both are matched; `parse_base` returns true and gives the
identifiers in the order `bis2`, `bis1`, not in ascending BIS index order. -/
theorem parse_base_not_ascending :
    base_21.valid ∧ (base_21.matched env_sink 9).length = 2 ∧
    (parse_base env_sink world_sink 1 base_21.encode {}).map
      (fun r => (r.1, bis_paths r.2.log)) = some (true, ["/dev_7/bis2", "/dev_7/bis1"]) ∧
    (parse_base env_sink world_sink 1 base_21.encode {}).map (fun r => bis_paths r.2.log) ≠
      some (spec_parse_base_paths env_sink
        { ptr := 1, device := some 7, bap := 9, bcast_snks := some [] } base_21) := by
  decide

/-- C7 (amended): on a syntactically valid BASE blob (followed by any bytes)
`parse_base` returns true and runs `create_stream_for_bis` once per BIS
matched by `bt_bap_verify_bis`, in the order of the blob: as many setups as
matched BISes are appended to the heap, each without endpoint and without
I/O channel; the streams get the identifiers `<peer-path>/bis<index>`, the
merged capabilities of the BIS and the metadata of its subgroup, in that
order; and no call opens a channel. -/
theorem parse_base_creates_matched (env : Env) (w : World) (p : Nat) (data : bap_data)
    (b : spec_base) (rest : List Nat) (qos : bt_iso_qos) (hd : w.data p = some data)
    (hv : b.valid) (hf : ∀ s ∈ w.setups, s.ptr < w.next) :
    parse_base env w p (b.encode ++ rest) qos
      = some (true, create_streams env data qos (b.matched env data.bap) w) ∧
    (∃ news, (create_streams env data qos (b.matched env data.bap) w).setups
        = w.setups ++ news ∧
      news.length = (b.matched env data.bap).length ∧ ∀ n ∈ news, n.ep = none ∧ n.io = none) ∧
    bis_paths (create_streams env data qos (b.matched env data.bap) w).log
      = bis_paths w.log ++ (b.matched env data.bap).map (fun m => bis_path env data m.index) ∧
    stream_calls (create_streams env data qos (b.matched env data.bap) w).log
      = stream_calls w.log ++ (b.matched env data.bap).flatMap (fun m =>
          [stream_call.user_data (bis_path env data m.index), stream_call.config (some m.caps),
           stream_call.metadata (some m.meta)]) ∧
    io_calls (create_streams env data qos (b.matched env data.bap) w).log = io_calls w.log := by
  obtain ⟨h1, h2, h3⟩ := create_streams_log env data qos (b.matched env data.bap) w
  exact ⟨parse_base_encode env w p data b rest qos hd hv,
    create_streams_setups env data qos (b.matched env data.bap) w hf, h2, h1, h3⟩

/-- The blob `base_21` in `world_sink`: two setups are created, for BIS 2
and then for BIS 1. -/
theorem parse_base_creates_matched_witness :
    world_sink.data 1 = some { ptr := 1, device := some 7, bap := 9, bcast_snks := some [] } ∧
    base_21.valid ∧ (∀ s ∈ world_sink.setups, s.ptr < world_sink.next) ∧
    (base_21.matched env_sink 9).map (fun m => m.index) = [2, 1] ∧
    parse_base env_sink world_sink 1 (base_21.encode ++ []) {}
      = some (true, create_streams env_sink
          { ptr := 1, device := some 7, bap := 9, bcast_snks := some [] } {}
          (base_21.matched env_sink 9) world_sink) :=
  ⟨by decide, by decide, by decide, by decide,
   (parse_base_creates_matched env_sink world_sink 1
      { ptr := 1, device := some 7, bap := 9, bcast_snks := some [] } base_21 [] {}
      (by decide) (by decide) (by decide)).1⟩

theorem setup_free_adapters (w : World) (p : Nat) : (setup_free w p).adapters = w.adapters := by
  unfold setup_free setup_unlink
  cases w.setup p with
  | none => rfl
  | some s =>
    simp only []
    cases s.ep with
    | none => rfl
    | some ep =>
      simp only []
      cases w.ep ep <;> rfl

theorem foldl_adapters {α : Type} (f : World → α → World)
    (hf : ∀ w a, (f w a).adapters = w.adapters) (l : List α) (w : World) :
    (l.foldl f w).adapters = w.adapters := by
  induction l generalizing w with
  | nil => rfl
  | cons x xs ih => exact (ih (f w x)).trans (hf w x)

theorem ep_free_adapters (w : World) (ep : Nat) : (ep_free w ep).adapters = w.adapters := by
  unfold ep_free
  cases w.ep ep with
  | none => rfl
  | some e => exact foldl_adapters setup_free setup_free_adapters _ _

theorem ep_unregister_adapters (w : World) (ep : Nat) :
    (ep_unregister w ep).adapters = w.adapters := by
  unfold ep_unregister
  cases w.ep ep with
  | none => rfl
  | some e =>
    simp only []
    split_ifs
    · exact ep_free_adapters _ ep
    · rfl

theorem bap_data_free_adapters (w : World) (data : bap_data) :
    (bap_data_free w data).adapters = w.adapters := by
  unfold bap_data_free
  simp only [World.emit]
  rw [foldl_adapters setup_free setup_free_adapters,
    foldl_adapters ep_unregister ep_unregister_adapters,
    foldl_adapters ep_unregister ep_unregister_adapters,
    foldl_adapters ep_unregister ep_unregister_adapters]
  cases data.listen_io <;> rfl

theorem bap_data_remove_adapters (w : World) (data : bap_data) :
    (bap_data_remove w data).adapters = w.adapters := by
  unfold bap_data_remove
  split_ifs
  · exact bap_data_free_adapters _ data
  · rfl

theorem create_stream_for_bis_adapters (env : Env) (w : World) (p lpac : Nat)
    (qos : bt_iso_qos) (caps meta : List Nat) (path : String) :
    (create_stream_for_bis env w p lpac qos caps meta path).adapters = w.adapters := by
  unfold create_stream_for_bis
  simp only [setup_new_none, World.emit]
  split <;> rfl

theorem parse_base_bises_adapters (env : Env) (data : bap_data) (qos : bt_iso_qos)
    (codec : List Nat) (l2_caps meta : iovec) (n : Nat) (iov : List Nat) (w : World) :
    (parse_base_bises env data qos codec l2_caps meta n iov w).2.2.adapters = w.adapters := by
  induction n generalizing iov w with
  | zero => rfl
  | succ n ih =>
    rw [parse_base_bises]
    cases util_iov_pull_u8 iov with
    | none => rfl
    | some r =>
      simp only []
      cases pull_lv r.2 with
      | none => rfl
      | some r2 =>
        simp only []
        split
        · rw [ih]
          exact create_stream_for_bis_adapters _ _ _ _ _ _ _ _
        · rw [ih]

theorem parse_base_subgroups_adapters (env : Env) (data : bap_data) (qos : bt_iso_qos)
    (n : Nat) (iov : List Nat) (w : World) (r : Bool × World)
    (h : parse_base_subgroups env data qos n iov w = some r) : r.2.adapters = w.adapters := by
  induction n generalizing iov w with
  | zero =>
    rw [parse_base_subgroups] at h
    cases h
    rfl
  | succ n ih =>
    rw [parse_base_subgroups] at h
    cases h1 : util_iov_pull_u8 iov with
    | none => rw [h1] at h; cases h; rfl
    | some r1 =>
      rw [h1] at h
      simp only [] at h
      cases h2 : util_iov_pull_mem r1.2 5 with
      | none => rw [h2] at h; cases h
      | some r2 =>
        rw [h2] at h
        simp only [] at h
        cases h3 : pull_lv r2.2 with
        | none => rw [h3] at h; cases h; rfl
        | some r3 =>
          rw [h3] at h
          simp only [] at h
          cases h4 : pull_lv r3.2 with
          | none => rw [h4] at h; cases h; rfl
          | some r4 =>
            rw [h4] at h
            simp only [] at h
            have hb := parse_base_bises_adapters env data qos r2.1 r3.1 r4.1 r1.1 r4.2 w
            split_ifs at h
            · exact (ih _ _ h).trans hb
            · cases h
              exact hb

theorem parse_base_adapters (env : Env) (w : World) (p : Nat) (base : List Nat)
    (qos : bt_iso_qos) (r : Bool × World) (h : parse_base env w p base qos = some r) :
    r.2.adapters = w.adapters := by
  unfold parse_base at h
  cases hd : w.data p with
  | none => rw [hd] at h; cases h
  | some d =>
    rw [hd] at h
    simp only [] at h
    cases h1 : util_iov_pull_le24 base with
    | none => rw [h1] at h; cases h; rfl
    | some r1 =>
      rw [h1] at h
      simp only [] at h
      cases h2 : util_iov_pull_u8 r1.2 with
      | none => rw [h2] at h; cases h; rfl
      | some r2 =>
        rw [h2] at h
        exact parse_base_subgroups_adapters env d qos _ _ w r h


theorem count_push_idle (a : bap_adapter) (req : bap_bcast_pa_req) (h : req.in_progress = false) :
    in_progress_count { a with bcast_pa_requests := a.bcast_pa_requests ++ [req] }
      = in_progress_count a := by
  unfold in_progress_count
  simp [List.filter_append, h]

theorem count_eraseP (a : bap_adapter) (f : bap_bcast_pa_req → Bool) :
    in_progress_count { a with bcast_pa_requests := a.bcast_pa_requests.eraseP f }
      ≤ in_progress_count a := by
  unfold in_progress_count
  exact ((List.eraseP_sublist a.bcast_pa_requests).filter _).length_le

theorem count_head (a : bap_adapter) (req : bap_bcast_pa_req) (rest : List bap_bcast_pa_req)
    (h : rest.any (fun r => r.in_progress) = false) :
    in_progress_count { a with bcast_pa_requests := req :: rest } ≤ 1 := by
  unfold in_progress_count
  have h0 : rest.filter (fun r => r.in_progress) = [] := by
    rw [List.filter_eq_nil_iff]
    intro x hx hp
    have : rest.any (fun r => r.in_progress) = true := List.any_eq_true.mpr ⟨x, hx, hp⟩
    rw [h] at this
    cases this
  show ((req :: rest).filter _).length ≤ 1
  rw [List.filter_cons]
  split_ifs <;> simp [h0]

theorem count_timer (a : bap_adapter) (t : Nat) :
    in_progress_count { a with pa_timer_id := t } = in_progress_count a := rfl

theorem pa_exclusive_congr (w w' : World) (h : w'.adapters = w.adapters)
    (hw : pa_exclusive w) : pa_exclusive w' := by
  unfold pa_exclusive
  rw [h]
  exact hw

theorem pa_exclusive_put_adapter (w : World) (a : bap_adapter) (ha : in_progress_count a ≤ 1)
    (hw : pa_exclusive w) : pa_exclusive (w.put_adapter a) := by
  intro x hx
  obtain ⟨y, hy, rfl⟩ := List.mem_map.mp hx
  split_ifs
  · exact ha
  · exact hw y hy

theorem adapter_mem (w : World) (p : Nat) (a : bap_adapter) (h : w.adapter p = some a) :
    a ∈ w.adapters := List.mem_of_find?_eq_some h

theorem bind_adapter_mem (w : World) (p : Option Nat) (a : bap_adapter)
    (h : p.bind w.adapter = some a) : a ∈ w.adapters := by
  cases p with
  | none => cases h
  | some q => exact adapter_mem w q a h

theorem pa_exclusive_remove_pa_req (w w' : World) (adapter : Option Nat) (req : Nat)
    (h : remove_pa_req w adapter req = some w') (hw : pa_exclusive w) : pa_exclusive w' := by
  unfold remove_pa_req at h
  cases ha : adapter.bind w.adapter with
  | none => rw [ha] at h; cases h
  | some a =>
    rw [ha] at h
    cases h
    refine pa_exclusive_congr (w.put_adapter _) _ rfl (pa_exclusive_put_adapter w _ ?_ hw)
    exact (count_eraseP a _).trans (hw a (bind_adapter_mem w adapter a ha))

theorem pa_exclusive_accept (env : Env) (w : World) (data setup : Nat) (hw : pa_exclusive w) :
    pa_exclusive (setup_accept_io_broadcast env w data setup) := by
  unfold setup_accept_io_broadcast
  simp only []
  have hw1 : pa_exclusive { w with next := w.next + 1 } := hw
  generalize ({ w with next := w.next + 1 } : World) = w1 at hw1 ⊢
  cases (w1.data data).bind (fun d => d.adapter) with
  | none => exact hw1
  | some a =>
    simp only []
    cases ha : w1.adapter a with
    | none => exact hw1
    | some ad =>
      simp only []
      refine pa_exclusive_put_adapter w1 _ ?_ hw1
      rw [count_push_idle _ _ rfl]
      split_ifs
      · exact hw1 ad (adapter_mem w1 a ad ha)
      · exact hw1 ad (adapter_mem w1 a ad ha)


theorem pa_exclusive_probe (env : Env) (w w' : World) (service : Nat) (r : Int)
    (h : bap_bcast_probe env w service = some (r, w')) (hw : pa_exclusive w) :
    pa_exclusive w' := by
  unfold bap_bcast_probe at h
  simp only [] at h
  split_ifs at h with h1
  · cases h; exact hw
  · cases hb : env.bt_bap_new (env.device_get_adapter (env.btd_service_get_device service)) with
    | none => rw [hb] at h; cases h; exact hw
    | some bap =>
      rw [hb] at h
      simp only [] at h
      split_ifs at h with h2
      · cases h; exact hw
      · generalize hw1 : bap_data_add { w with next := w.next + 1 } _ = w1 at h
        have ha1 : w1.adapters = w.adapters := by
          rw [← hw1]
          unfold bap_data_add
          split_ifs <;> rfl
        have hx1 : pa_exclusive w1 := pa_exclusive_congr w w1 ha1 hw
        generalize (Option.map (fun a => a.ptr)
          (List.find? (fun a => some a.adapter ==
            env.device_get_adapter (env.btd_service_get_device service)) w.adapters)) = ap at h
        cases ha : ap.bind w1.adapter with
        | none => simp only [ha] at h; cases h
        | some a =>
          simp only [ha] at h
          cases h
          have hx2 : pa_exclusive { w1 with next := w1.next + 1 } := hx1
          refine pa_exclusive_put_adapter _ _ ?_ hx2
          rw [count_push_idle _ _ rfl]
          split_ifs
          · exact hx1 a (bind_adapter_mem w1 ap a ha)
          · exact hx1 a (bind_adapter_mem w1 ap a ha)

theorem short_lived_pa_sync_adapters (env : Env) (w : World) (req : bap_bcast_pa_req)
    (r : Int × bap_bcast_pa_req × World) (h : short_lived_pa_sync env w req = some r) :
    r.2.2.adapters = w.adapters := by
  unfold short_lived_pa_sync at h
  cases hd : w.service_data req.data with
  | none => rw [hd] at h; cases h
  | some d =>
    rw [hd] at h
    simp only [] at h
    split_ifs at h
    · cases h; rfl
    · cases hl : env.bt_io_listen d.ptr bap_sink_pa_qos with
      | none => rw [hl] at h; cases h; rfl
      | some io => rw [hl] at h; cases h; rfl

theorem pa_and_big_sync_adapters (env : Env) (w : World) (req : bap_bcast_pa_req)
    (r : bap_bcast_pa_req × World) (h : pa_and_big_sync env w req = some r) :
    r.2.adapters = w.adapters := by
  unfold pa_and_big_sync at h
  cases hs : w.setup req.data with
  | none => rw [hs] at h; cases h
  | some s =>
    rw [hs] at h
    simp only [] at h
    cases hd : (env.bt_bap_get_user_data (env.bt_bap_stream_get_session s.stream)).bind
        w.service_data with
    | none => rw [hd] at h; cases h
    | some d =>
      rw [hd] at h
      simp only [] at h
      split_ifs at h
      cases hl : env.bt_io_listen d.ptr bap_sink_pa_qos with
      | none => rw [hl] at h; cases h; rfl
      | some io => rw [hl] at h; cases h; rfl

theorem pa_exclusive_tick (env : Env) (w w' : World) (adapter : Nat) (r : Bool)
    (h : pa_idle_timer env w adapter = some (r, w')) (hw : pa_exclusive w) :
    pa_exclusive w' := by
  unfold pa_idle_timer at h
  cases ha : w.adapter adapter with
  | none => rw [ha] at h; cases h
  | some a =>
    rw [ha] at h
    simp only [] at h
    split_ifs at h with hany
    · cases h; exact hw
    · have hany' : a.bcast_pa_requests.any (fun r => r.in_progress) = false := by
        simpa using hany
      cases hq : a.bcast_pa_requests with
      | nil =>
        rw [hq] at h
        cases h
        exact pa_exclusive_put_adapter w _ (by simp [in_progress_count]) hw
      | cons req rest =>
        rw [hq] at h hany'
        have hrest : rest.any (fun r => r.in_progress) = false := by
          rw [List.any_cons, Bool.or_eq_false_iff] at hany'
          exact hany'.2
        simp only [] at h
        split_ifs at h with ht1 ht2
        · cases hs : short_lived_pa_sync env w req with
          | none => rw [hs] at h; cases h
          | some x =>
            rw [hs] at h
            cases h
            exact pa_exclusive_put_adapter _ _ (count_head a _ rest hrest)
              (pa_exclusive_congr w _ (short_lived_pa_sync_adapters env w req x hs) hw)
        · cases hs : pa_and_big_sync env w req with
          | none => rw [hs] at h; cases h
          | some x =>
            rw [hs] at h
            cases h
            exact pa_exclusive_put_adapter _ _ (count_head a _ rest hrest)
              (pa_exclusive_congr w _ (pa_and_big_sync_adapters env w req x hs) hw)
        · cases h; exact hw


theorem pa_exclusive_pa_confirm (env : Env) (w w' : World) (io : Nat) (req : bap_bcast_pa_req)
    (h : iso_pa_sync_confirm_cb env w io req = some w') (hw : pa_exclusive w) :
    pa_exclusive w' := by
  unfold iso_pa_sync_confirm_cb at h
  cases hg : env.bt_io_get io with
  | none => rw [hg] at h; cases h; exact hw
  | some bq =>
    rw [hg] at h
    simp only [] at h
    cases hd : w.service_data req.data with
    | none => rw [hd] at h; cases h
    | some d =>
      rw [hd] at h
      simp only [] at h
      generalize hw1 : World.emit (w.put_data { d with listen_io := none }) _ = w1 at h
      have ha1 : w1.adapters = w.adapters := by rw [← hw1]; rfl
      cases hp : parse_base env w1 d.ptr bq.1 bq.2 with
      | none => rw [hp] at h; cases h
      | some r =>
        rw [hp] at h
        simp only [] at h
        refine pa_exclusive_remove_pa_req _ w' d.adapter req.ptr h ?_
        refine pa_exclusive_congr w _ ?_ hw
        exact (parse_base_adapters env w1 d.ptr bq.1 bq.2 r hp).trans ha1

theorem pa_exclusive_bcast_confirm (env : Env) (w w' : World) (io : Nat)
    (req : bap_bcast_pa_req) (h : iso_bcast_confirm_cb env w io req = some w')
    (hw : pa_exclusive w) : pa_exclusive w' := by
  unfold iso_bcast_confirm_cb at h
  cases hs : w.setup req.data with
  | none => rw [hs] at h; cases h
  | some s =>
    rw [hs] at h
    simp only [] at h
    cases hd : (env.bt_bap_get_user_data (env.bt_bap_stream_get_session s.stream)).bind
        w.service_data with
    | none => rw [hd] at h; cases h
    | some d =>
      rw [hd] at h
      simp only [] at h
      generalize hw1 : World.emit (w.put_setup { s with io := none }) _ = w1 at h
      have hx1 : pa_exclusive w1 := pa_exclusive_congr w w1 (by rw [← hw1]; rfl) hw
      cases hr : remove_pa_req w1 d.adapter req.ptr with
      | none => rw [hr] at h; cases h
      | some w2 =>
        rw [hr] at h
        simp only [] at h
        have hx2 := pa_exclusive_remove_pa_req w1 w2 d.adapter req.ptr hr hx1
        split_ifs at h
        · cases h; exact hx2
        · cases h; exact hx2

theorem pa_exclusive_remove (w w' : World) (service : Nat)
    (h : bap_bcast_remove w service = some w') (hw : pa_exclusive w) : pa_exclusive w' := by
  unfold bap_bcast_remove at h
  cases hd : w.service_data service with
  | none => rw [hd] at h; cases h; exact hw
  | some d =>
    rw [hd] at h
    simp only [] at h
    cases ha : d.adapter.bind w.adapter with
    | none => rw [ha] at h; cases h
    | some a =>
      rw [ha] at h
      cases h
      refine pa_exclusive_congr (w.put_adapter _) _ (bap_data_remove_adapters _ d)
        (pa_exclusive_put_adapter w _ ?_ hw)
      exact (count_eraseP a _).trans (hw a (bind_adapter_mem w d.adapter a ha))

theorem pa_exclusive_step (env : Env) (w w' : World) (h : pa_step env w w')
    (hw : pa_exclusive w) : pa_exclusive w' := by
  cases h with
  | probe service r _ h => exact pa_exclusive_probe env w w' service r h hw
  | accept data setup => exact pa_exclusive_accept env w data setup hw
  | tick adapter r _ h => exact pa_exclusive_tick env w w' adapter r h hw
  | pa_confirm io req _ h => exact pa_exclusive_pa_confirm env w w' io req h hw
  | bcast_confirm io req _ h => exact pa_exclusive_bcast_confirm env w w' io req h hw
  | remove service _ h => exact pa_exclusive_remove w w' service h hw

theorem pa_exclusive_empty (w : World) (h : ∀ a ∈ w.adapters, a.bcast_pa_requests = []) :
    pa_exclusive w := by
  intro a ha
  unfold in_progress_count
  rw [h a ha]
  exact Nat.zero_le _


/-- C6: in every state reachable from a state in which the request queue of
every adapter is empty, by `bap_bcast_probe`, `setup_accept_io_broadcast`,
ticks of `pa_idle_timer`, the confirm callbacks `iso_pa_sync_confirm_cb` and
`iso_bcast_confirm_cb`, and `bap_bcast_remove`, at most one request in the
queue of each adapter has `in_progress` set. -/
theorem pa_queue_exclusion (env : Env) (w0 w : World)
    (h0 : ∀ a ∈ w0.adapters, a.bcast_pa_requests = []) (hr : pa_reachable env w0 w) :
    ∀ a ∈ w.adapters, in_progress_count a ≤ 1 := by
  induction hr with
  | start => exact pa_exclusive_empty w0 h0
  | step w1 w2 _ hs ih => exact pa_exclusive_step env w1 w2 hs ih

/-- A probe and a tick from `world_pa`: the queue of the adapter holds one
request, and it is in progress. -/
theorem pa_queue_exclusion_witness :
    (∀ a ∈ world_pa.adapters, a.bcast_pa_requests = []) ∧
    pa_reachable env_pa world_pa world_pa_ticked ∧
    world_pa_ticked.adapters.map in_progress_count = [1] ∧
    ∀ a ∈ world_pa_ticked.adapters, in_progress_count a ≤ 1 :=
  have hr : pa_reachable env_pa world_pa world_pa_ticked :=
    pa_reachable.step world_pa_probed world_pa_ticked
      (pa_reachable.step world_pa world_pa_probed pa_reachable.start
        (pa_step.probe world_pa 30 0 world_pa_probed (by decide)))
      (pa_step.tick world_pa_probed 40 true world_pa_ticked (by decide))
  ⟨by decide, hr, by decide, pa_queue_exclusion env_pa world_pa world_pa_ticked (by decide) hr⟩

theorem ep_update_properties_frame (env : Env) (w : World) (ep : bap_ep) :
    (ep_update_properties env w ep).eps = w.eps ∧
    (ep_update_properties env w ep).sessions = w.sessions ∧
    (ep_update_properties env w ep).adapters = w.adapters ∧
    (ep_update_properties env w ep).interfaces = w.interfaces ∧
    registrations (ep_update_properties env w ep).log = registrations w.log := by
  unfold ep_update_properties
  cases ep.rpac with
  | none => exact ⟨rfl, rfl, rfl, rfl, rfl⟩
  | some rpac =>
    simp only []
    split_ifs <;>
      exact ⟨rfl, rfl, rfl, rfl, by simp [World.emit, registrations, List.filter_append]⟩

theorem find_ep_congr (w w' : World) (h : w'.eps = w.eps) (q : List Nat) (lpac : Nat)
    (rpac : Option Nat) : find_ep w' q lpac rpac = find_ep w q lpac rpac := by
  unfold find_ep World.ep
  rw [h]

theorem service_data_congr (w w' : World) (h : w'.sessions = w.sessions) (s : Nat) :
    w'.service_data s = w.service_data s := by
  unfold World.service_data
  rw [h]

theorem service_data_put_data (w : World) (s : Nat) (d d' : bap_data)
    (h : w.service_data s = some d) (hp : d'.ptr = d.ptr) (hs : d'.service = d.service) :
    (w.put_data d').service_data s = some d' := by
  have hds : d.service = some s := by
    have := List.find?_some h
    simpa using this
  unfold World.service_data World.put_data at *
  simp only []
  generalize w.sessions = l at h
  induction l with
  | nil => simp at h
  | cons x xs ih =>
    rw [List.map_cons, List.find?_cons]
    by_cases hx : x.ptr = d'.ptr
    · simp [hx, hs, hds]
    · rw [if_neg hx]
      rw [List.find?_cons] at h
      by_cases hxs : x.service = some s
      · simp only [hxs, beq_self_eq_true] at h
        cases h
        exact absurd hp.symm hx
      · have hb : (x.service == some s) = false := by simpa using hxs
        rw [hb] at h ⊢
        exact ih h

theorem find_ep_fresh (w w1 : World) (new : bap_ep) (q : List Nat) (lpac : Nat)
    (rpac : Option Nat) (he : w1.eps = w.eps ++ [new]) (hf : ∀ e ∈ w.eps, e.ptr ≠ new.ptr)
    (hm : match_ep new lpac rpac = true) (hq : find_ep w q lpac rpac = none) :
    find_ep w1 (q ++ [new.ptr]) lpac rpac = some new := by
  have hnone : w.ep new.ptr = none := by
    unfold World.ep
    rw [List.find?_eq_none]
    intro x hx
    simpa using hf x hx
  have hlook : ∀ p, w1.ep p = (w.ep p).or (if new.ptr = p then some new else none) := by
    intro p
    unfold World.ep
    rw [he, List.find?_append]
    congr 1
    by_cases hp : new.ptr = p <;> simp [List.find?_cons, hp]
  have hself : (w1.ep new.ptr).filter (fun e => match_ep e lpac rpac) = some new := by
    rw [hlook, hnone]
    simp [hm]
  unfold find_ep at hq ⊢
  rw [List.findSome?_append]
  rw [List.findSome?_eq_none_iff] at hq
  have hq1 : ∀ p ∈ q, (w1.ep p).filter (fun e => match_ep e lpac rpac) = none ∨
      (w1.ep p).filter (fun e => match_ep e lpac rpac) = some new := by
    intro p hp
    have h0 := hq p hp
    rw [hlook]
    cases hw : w.ep p with
    | some e =>
      rw [hw] at h0
      left
      simpa using h0
    | none =>
      by_cases hpn : new.ptr = p
      · right; simp [hpn, hm]
      · left; simp [hpn]
  have hres : q.findSome? (fun p => (w1.ep p).filter (fun e => match_ep e lpac rpac)) = none ∨
      q.findSome? (fun p => (w1.ep p).filter (fun e => match_ep e lpac rpac)) = some new := by
    clear hq
    induction q with
    | nil => left; rfl
    | cons p ps ih =>
      rw [List.findSome?_cons]
      rcases hq1 p (List.mem_cons_self _ _) with h | h
      · rw [h]
        exact ih (fun x hx => hq1 x (List.mem_cons_of_mem _ hx))
      · rw [h]; right; rfl
  rcases hres with h | h
  · rw [h]
    simp [List.findSome?_cons, hself]
  · rw [h]
    rfl


theorem ep_of_find_ep (w : World) (q : List Nat) (lpac : Nat) (rpac : Option Nat) (e : bap_ep)
    (h : find_ep w q lpac rpac = some e) : w.ep e.ptr = some e := by
  unfold find_ep at h
  obtain ⟨p, _, hp⟩ := List.exists_of_findSome?_eq_some h
  cases hw : w.ep p with
  | none => rw [hw] at hp; cases hp
  | some x =>
    rw [hw] at hp
    have hx : x = e := by
      simp only [Option.filter] at hp
      split_ifs at hp
      exact Option.some.inj hp
    rw [← hx, find_ptr_eq (fun y : bap_ep => y.ptr) _ _ _ hw]
    exact hw

theorem ep_alloc_lookup (w w1 : World) (new : bap_ep) (he : w1.eps = w.eps ++ [new])
    (hf : ∀ e ∈ w.eps, e.ptr ≠ new.ptr) : w1.ep new.ptr = some new := by
  unfold World.ep
  rw [he, List.find?_append]
  have : w.eps.find? (fun e => e.ptr == new.ptr) = none := by
    rw [List.find?_eq_none]
    intro x hx
    simpa using hf x hx
  rw [this]
  simp [List.find?_cons]

/-- What a second registration does in the world left by a first one that
found the endpoint `e` in the queue. -/
theorem ep_register_found (env : Env) (w : World) (service lpac rpac : Nat) (suffix : String)
    (hsuf : (match env.bt_bap_pac_get_type rpac with
      | .BT_BAP_SINK => some "sink"
      | .BT_BAP_SOURCE => some "source"
      | _ => none) = some suffix)
    (data : bap_data) (hd : w.service_data service = some data) (e : bap_ep)
    (hfind : find_ep w (if suffix = "sink" then data.snks else data.srcs) lpac (some rpac)
      = some e) :
    ep_register env w service lpac rpac = some (some e.ptr, ep_update_properties env w e) := by
  unfold ep_register
  simp only [hsuf, hd, hfind]


theorem g_dbus_register_interface_frame (env : Env) (w : World) (path : String) :
    (g_dbus_register_interface env w path).2.eps = w.eps ∧
    (g_dbus_register_interface env w path).2.sessions = w.sessions := by
  unfold g_dbus_register_interface
  split_ifs <;> exact ⟨rfl, rfl⟩

theorem ep_register_again (env : Env) (w w1 : World) (service lpac rpac ep1 : Nat)
    (hf : ∀ e ∈ w.eps, e.ptr < w.next)
    (h1 : ep_register env w service lpac rpac = some (some ep1, w1)) :
    ∃ e, w1.ep ep1 = some e ∧
      ep_register env w1 service lpac rpac = some (some ep1, ep_update_properties env w1 e) := by
  unfold ep_register at h1
  simp only [] at h1
  cases hsuf : (match env.bt_bap_pac_get_type rpac with
      | .BT_BAP_SINK => some "sink"
      | .BT_BAP_SOURCE => some "source"
      | _ => none) with
  | none => rw [hsuf] at h1; cases h1
  | some suffix =>
    rw [hsuf] at h1
    simp only [] at h1
    cases hd : w.service_data service with
    | none => rw [hd] at h1; cases h1
    | some data =>
      rw [hd] at h1
      simp only [] at h1
      cases hfind : find_ep w (if suffix = "sink" then data.snks else data.srcs) lpac
          (some rpac) with
      | some e =>
        rw [hfind] at h1
        simp only [Option.some.injEq, Prod.mk.injEq] at h1
        obtain ⟨h1a, h1b⟩ := h1
        subst h1a h1b
        obtain ⟨f1, f2, _, _, _⟩ := ep_update_properties_frame env w e
        refine ⟨e, ?_, ?_⟩
        · unfold World.ep
          rw [f1]
          exact ep_of_find_ep w _ lpac (some rpac) e hfind
        · apply ep_register_found env _ service lpac rpac suffix hsuf data
          · rw [service_data_congr w _ f2]; exact hd
          · rw [find_ep_congr w _ f1]; exact hfind
      | none =>
        rw [hfind] at h1
        simp only [] at h1
        generalize (env.device_get_path (env.btd_service_get_device service) ++ "/pac_" ++ suffix
          ++ toString (if suffix = "sink" then data.snks else data.srcs).length) = path at h1
        generalize hnew : bap_ep.mk w.next path data.ptr lpac (some rpac) 0 0 0 [] = new at h1
        have hnp : new.ptr = w.next := by rw [← hnew]
        have hm : match_ep new lpac (some rpac) = true := by
          rw [← hnew]; simp [match_ep]
        have hfresh : ∀ e ∈ w.eps, e.ptr ≠ new.ptr := by
          intro e he
          rw [hnp]
          exact Nat.ne_of_lt (hf e he)
        generalize hd' : (if suffix = "sink" then
            ({ data with snks := data.snks ++ [w.next] } : bap_data)
          else { data with srcs := data.srcs ++ [w.next] }) = d' at h1
        have hdp : d'.ptr = data.ptr := by rw [← hd']; split_ifs <;> rfl
        have hds : d'.service = data.service := by rw [← hd']; split_ifs <;> rfl
        have hdq : (if suffix = "sink" then d'.snks else d'.srcs)
            = (if suffix = "sink" then data.snks else data.srcs) ++ [new.ptr] := by
          rw [← hd', hnp]
          by_cases hs : suffix = "sink" <;> simp [hs]
        split_ifs at h1 with hreg
        · simp at h1
        simp only [Option.some.injEq, Prod.mk.injEq] at h1
        obtain ⟨h1a, h1b⟩ := h1
        subst h1a
        obtain ⟨g1, g2⟩ := g_dbus_register_interface_frame env
          { w with next := w.next + 1, eps := w.eps ++ [new] } path
        have he1 : w1.eps = w.eps ++ [new] := by rw [← h1b]; exact g1
        have hlook : w1.ep w.next = some new := by
          rw [← hnp]
          exact ep_alloc_lookup w w1 new he1 hfresh
        refine ⟨new, hlook, ?_⟩
        have hres := ep_register_found env w1 service lpac rpac suffix hsuf d' ?_ new ?_
        · rw [hnp] at hres
          exact hres
        · rw [← h1b]
          refine service_data_put_data _ service data _ ?_ hdp hds
          rw [← hd]
          exact service_data_congr w _ g2 service
        · rw [hdq]
          exact find_ep_fresh w w1 new _ lpac (some rpac) he1 hfresh hm hfind


theorem ep_register_bcast_found (env : Env) (w : World) (data lpac : Nat) (rpac : Option Nat)
    (d : bap_data) (a : bap_adapter) (e : bap_ep) (hd : w.data data = some d)
    (ha : d.adapter.bind w.adapter = some a)
    (ht : ¬ (env.bt_bap_pac_get_type lpac ≠ .BT_BAP_BCAST_SOURCE ∧
      env.bt_bap_pac_get_type lpac ≠ .BT_BAP_BCAST_SINK))
    (hfind : find_ep w d.bcast lpac rpac = some e) :
    ep_register_bcast env w data lpac rpac = some (some e.ptr, w) := by
  unfold ep_register_bcast
  simp only [hd, ha, hfind, if_neg ht]

theorem ep_register_bcast_again (env : Env) (w w1 : World) (data lpac ep1 : Nat)
    (rpac : Option Nat) (hf : ∀ e ∈ w.eps, e.ptr < w.next)
    (h1 : ep_register_bcast env w data lpac rpac = some (some ep1, w1)) :
    (∃ e, w1.ep ep1 = some e) ∧
      ep_register_bcast env w1 data lpac rpac = some (some ep1, w1) := by
  unfold ep_register_bcast at h1
  cases hd : w.data data with
  | none => rw [hd] at h1; cases h1
  | some d =>
    rw [hd] at h1
    simp only [] at h1
    cases ha : d.adapter.bind w.adapter with
    | none => rw [ha] at h1; cases h1
    | some a =>
      rw [ha] at h1
      simp only [] at h1
      by_cases ht : (env.bt_bap_pac_get_type lpac ≠ .BT_BAP_BCAST_SOURCE ∧
          env.bt_bap_pac_get_type lpac ≠ .BT_BAP_BCAST_SINK)
      · rw [if_pos ht] at h1
        simp at h1
      rw [if_neg ht] at h1
      cases hfind : find_ep w d.bcast lpac rpac with
      | some e =>
        rw [hfind] at h1
        simp only [Option.some.injEq, Prod.mk.injEq] at h1
        obtain ⟨h1a, h1b⟩ := h1
        subst h1a h1b
        exact ⟨⟨e, ep_of_find_ep w _ lpac rpac e hfind⟩,
          ep_register_bcast_found env w data lpac rpac d a e hd ha ht hfind⟩
      | none =>
        rw [hfind] at h1
        simp only [] at h1
        generalize (if env.bt_bap_pac_get_type lpac = pac_type.BT_BAP_BCAST_SOURCE then
            env.adapter_get_path (some a.adapter) ++ "/pac_" ++ "bcast" ++ toString d.bcast.length
          else env.device_get_path d.device ++ "/pac_" ++ "bcast" ++ toString d.bcast.length)
          = path at h1
        generalize hnew : bap_ep.mk w.next path d.ptr lpac rpac 0 0 0 [] = new at h1
        have hnp : new.ptr = w.next := by rw [← hnew]
        have hm : match_ep new lpac rpac = true := by
          rw [← hnew]; simp [match_ep]
        have hfresh : ∀ e ∈ w.eps, e.ptr ≠ new.ptr := by
          intro e he
          rw [hnp]
          exact Nat.ne_of_lt (hf e he)
        obtain ⟨g1, g2⟩ := g_dbus_register_interface_frame env
          { w with next := w.next + 1, eps := w.eps ++ [new] } path
        have g3 : (g_dbus_register_interface env
            { w with next := w.next + 1, eps := w.eps ++ [new] } path).2.adapters = w.adapters := by
          unfold g_dbus_register_interface
          split_ifs <;> rfl
        generalize hw0 : (match rpac with
          | some rp => World.emit (g_dbus_register_interface env
              { w with next := w.next + 1, eps := w.eps ++ [new] } path).2
                [Event.bt_bap_pac_set_user_data rp path]
          | none => (g_dbus_register_interface env
              { w with next := w.next + 1, eps := w.eps ++ [new] } path).2) = w0 at h1
        have k1 : w0.eps = w.eps ++ [new] := by rw [← hw0]; cases rpac <;> exact g1
        have k2 : w0.sessions = w.sessions := by rw [← hw0]; cases rpac <;> exact g2
        have k3 : w0.adapters = w.adapters := by rw [← hw0]; cases rpac <;> exact g3
        split_ifs at h1 with hreg
        · simp at h1
        simp only [Option.some.injEq, Prod.mk.injEq] at h1
        obtain ⟨h1a, h1b⟩ := h1
        subst h1a
        have he1 : w1.eps = w.eps ++ [new] := by rw [← h1b]; exact k1
        have hlook : w1.ep w.next = some new := by
          rw [← hnp]
          exact ep_alloc_lookup w w1 new he1 hfresh
        have hdp : d.ptr = data := data_ptr w data d hd
        refine ⟨⟨new, hlook⟩, ?_⟩
        have hres := ep_register_bcast_found env w1 data lpac rpac
          { d with bcast := d.bcast ++ [w.next] } a new ?_ ?_ ht ?_
        · rw [hnp] at hres
          exact hres
        · rw [← h1b]
          have hd0 : w0.data data = some d := by
            unfold World.data
            rw [k2]
            exact hd
          exact find_map_put (fun x : bap_data => x.ptr) w0.sessions data d _ hd0 hdp
        · have : w1.adapters = w.adapters := by rw [← h1b]; exact k3
          cases hda : d.adapter with
          | none => rw [hda] at ha; cases ha
          | some ap =>
            rw [hda] at ha
            show (some ap).bind w1.adapter = some a
            simp only [Option.some_bind] at ha ⊢
            unfold World.adapter at ha ⊢
            rw [this]
            exact ha
        · show find_ep w1 (d.bcast ++ [w.next]) lpac rpac = some new
          rw [← hnp]
          exact find_ep_fresh w w1 new _ lpac rpac he1 hfresh hm hfind


/-- C8: in a heap whose endpoint addresses were handed out before, when
`ep_register` (or `ep_register_bcast`) returns an endpoint for a local and a
remote PAC, the same call in the resulting world returns the same endpoint,
which is the same object with the same path; the second call leaves the
sessions and so every endpoint queue unchanged, allocates no endpoint,
leaves the registered paths unchanged and calls
`g_dbus_register_interface` no further time (`ep_register_bcast` changes
nothing at all). -/
theorem ep_register_idempotent (env : Env) (w : World)
    (hf : ∀ e ∈ w.eps, e.ptr < w.next) :
    (∀ service lpac rpac ep1 w1,
      ep_register env w service lpac rpac = some (some ep1, w1) →
      ∃ w2 e, ep_register env w1 service lpac rpac = some (some ep1, w2) ∧
        w1.ep ep1 = some e ∧ w2.ep ep1 = some e ∧ w2.sessions = w1.sessions ∧
        w2.eps = w1.eps ∧ w2.interfaces = w1.interfaces ∧
        registrations w2.log = registrations w1.log) ∧
    (∀ data lpac rpac ep1 w1,
      ep_register_bcast env w data lpac rpac = some (some ep1, w1) →
      (∃ e, w1.ep ep1 = some e) ∧
        ep_register_bcast env w1 data lpac rpac = some (some ep1, w1)) := by
  refine ⟨?_, ?_⟩
  · intro service lpac rpac ep1 w1 h1
    obtain ⟨e, he, h2⟩ := ep_register_again env w w1 service lpac rpac ep1 hf h1
    obtain ⟨f1, f2, _, f4, f5⟩ := ep_update_properties_frame env w1 e
    refine ⟨_, e, h2, he, ?_, f2, f1, f4, f5⟩
    unfold World.ep
    rw [f1]
    exact he
  · intro data lpac rpac ep1 w1 h1
    exact ep_register_bcast_again env w w1 data lpac ep1 rpac hf h1

/-- Registering the sink PAC pair (9, 12) and the broadcast source PAC 11 in
`world_reg`: each first call creates the endpoint 41. -/
theorem ep_register_idempotent_witness :
    (∀ e ∈ world_reg.eps, e.ptr < world_reg.next) ∧
    ep_register env_reg world_reg 30 9 12 = some (some 41, world_reg_sink) ∧
    (world_reg_sink.ep 41).map (fun e => e.path) = some "/dev_7/pac_sink0" ∧
    ep_register_bcast env_reg world_reg 1 11 none = some (some 41, world_reg_bcast) ∧
    (∃ w2 e, ep_register env_reg world_reg_sink 30 9 12 = some (some 41, w2) ∧
        world_reg_sink.ep 41 = some e ∧ w2.ep 41 = some e ∧
        w2.sessions = world_reg_sink.sessions ∧ w2.eps = world_reg_sink.eps ∧
        w2.interfaces = world_reg_sink.interfaces ∧
        registrations w2.log = registrations world_reg_sink.log) ∧
    ep_register_bcast env_reg world_reg_bcast 1 11 none = some (some 41, world_reg_bcast) :=
  ⟨by decide, by decide, by decide, by decide,
   (ep_register_idempotent env_reg world_reg (by decide)).1 30 9 12 41 world_reg_sink
     (by decide),
   ((ep_register_idempotent env_reg world_reg (by decide)).2 1 11 none 41 world_reg_bcast
     (by decide)).2⟩

/-- C11 (counterexample): in `world_big` the setup 3 of the stream 101 has no
pending operation and its I/O creation would succeed, yet the callback
CONFIG -> CONFIG of `bap_state_bcast_src` changes nothing: no QoS request is
issued and no operation id is stored. -/
theorem bap_state_bcast_src_config_ignored :
    (world_big.data 1).map (fun d => bap_find_setup_by_stream env0 world_big d 101)
      = some (some 3) ∧
    (world_big.setup 3).map (fun s => s.id) = some 0 ∧
    (((setup_create_io env0 world_big 1 (some 3) 101 true).setup 3).bind
      (fun s => s.io)).isSome = true ∧
    bap_state_bcast_src env0 world_big 101 BT_BAP_STREAM_STATE_CONFIG
      BT_BAP_STREAM_STATE_CONFIG 1 = world_big ∧
    qos_requests (bap_state_bcast_src env0 world_big 101 BT_BAP_STREAM_STATE_CONFIG
      BT_BAP_STREAM_STATE_CONFIG 1).log = [] := by
  decide

/-- C11 (amended): a callback with `new_state = old_state` other than CONFIG
changes nothing in `bap_state` and `bap_state_bcast_sink`, and a callback
with `new_state = old_state` changes nothing in `bap_state_bcast_src`, also
for CONFIG.  In `bap_state` a CONFIG -> CONFIG callback for a setup with no
pending operation whose I/O creation succeeds issues `bt_bap_stream_qos` and
stores its operation id (and releases the stream when the id is 0).  In
`bap_state_bcast_sink` a CONFIG -> CONFIG callback for a setup does
`setup_create_io` with `defer = false` and nothing else. -/
theorem state_handlers_same_state (env : Env) (w : World) (stream data : Nat) :
    (∀ st, st ≠ BT_BAP_STREAM_STATE_CONFIG →
      bap_state env w stream st st data = w ∧
      bap_state_bcast_sink env w stream st st data = w) ∧
    (∀ st, bap_state_bcast_src env w stream st st data = w) ∧
    (∀ d p s s1, w.data data = some d → bap_find_setup_by_stream env w d stream = some p →
      w.setup p = some s → s.id = 0 →
      (setup_create_io env w data (some p) stream true).setup p = some s1 →
      s1.io.isSome = true →
      bap_state env w stream BT_BAP_STREAM_STATE_CONFIG BT_BAP_STREAM_STATE_CONFIG data
        = (if env.bt_bap_stream_qos stream s1 = 0 then
            (((setup_create_io env w data (some p) stream true).put_setup
              { s1 with id := env.bt_bap_stream_qos stream s1 }).emit
                [Event.bt_bap_stream_qos stream]).emit [Event.bt_bap_stream_release stream]
          else
            ((setup_create_io env w data (some p) stream true).put_setup
              { s1 with id := env.bt_bap_stream_qos stream s1 }).emit
                [Event.bt_bap_stream_qos stream])) ∧
    (∀ d p, w.data data = some d → bap_find_setup_by_stream env w d stream = some p →
      bap_state_bcast_sink env w stream BT_BAP_STREAM_STATE_CONFIG
        BT_BAP_STREAM_STATE_CONFIG data
        = setup_create_io env w data (some p) stream false) := by
  refine ⟨?_, ?_, ?_, ?_⟩
  · intro st hst
    constructor
    · unfold bap_state
      rw [if_pos ⟨rfl, hst⟩]
    · unfold bap_state_bcast_sink
      rw [if_pos ⟨rfl, hst⟩]
  · intro st
    unfold bap_state_bcast_src
    rw [if_pos rfl]
  · intro d p s s1 hd hf hs hid h1 hio
    have hp : s.ptr = p := find_ptr_eq (fun x : bap_setup => x.ptr) _ _ _ hs
    unfold bap_state
    have hne : ¬ (BT_BAP_STREAM_STATE_CONFIG = BT_BAP_STREAM_STATE_CONFIG ∧
        BT_BAP_STREAM_STATE_CONFIG ≠ BT_BAP_STREAM_STATE_CONFIG) := fun h => h.2 rfl
    have hc : BT_BAP_STREAM_STATE_CONFIG ≠ BT_BAP_STREAM_STATE_IDLE := by decide
    have hio' : ¬ (s1.io.isNone = true) := by
      cases hx : s1.io with
      | none => rw [hx] at hio; cases hio
      | some _ => simp
    simp only [if_neg hne, hd, hf, if_neg hc, if_true, Option.some_bind, hs, hid, hp, h1,
      ne_eq, not_true_eq_false, if_false, hio', and_false, Bool.false_eq_true]
  · intro d p hd hf
    unfold bap_state_bcast_sink
    have hne : ¬ (BT_BAP_STREAM_STATE_CONFIG = BT_BAP_STREAM_STATE_CONFIG ∧
        BT_BAP_STREAM_STATE_CONFIG ≠ BT_BAP_STREAM_STATE_CONFIG) := fun h => h.2 rfl
    have hc : BT_BAP_STREAM_STATE_CONFIG ≠ BT_BAP_STREAM_STATE_IDLE := by decide
    have hs : BT_BAP_STREAM_STATE_CONFIG ≠ BT_BAP_STREAM_STATE_STREAMING := by decide
    simp only [if_neg hne, hd, hf, if_neg hc, if_true, if_neg hs, ne_eq, not_true_eq_false,
      and_false, if_false]

/-- In `world_pending` the stream 102 belongs to the setup 4, which has no
pending operation; the CONFIG -> CONFIG callback of `bap_state` opens its
channel, issues the QoS request and stores the operation id 2. -/
theorem state_handlers_same_state_witness :
    world_pending.data 1 = some { ptr := 1, device := some 7, snks := [2] } ∧
    bap_find_setup_by_stream env0 world_pending { ptr := 1, device := some 7, snks := [2] } 102
      = some 4 ∧
    ((bap_state env0 world_pending 102 BT_BAP_STREAM_STATE_CONFIG BT_BAP_STREAM_STATE_CONFIG
      1).setup 4).map (fun s => (s.id, s.io)) = some (2, some 1004) ∧
    qos_requests (bap_state env0 world_pending 102 BT_BAP_STREAM_STATE_CONFIG
      BT_BAP_STREAM_STATE_CONFIG 1).log = [102] ∧
    bap_state env0 world_pending 102 BT_BAP_STREAM_STATE_QOS BT_BAP_STREAM_STATE_QOS 1
      = world_pending ∧
    bap_state_bcast_src env0 world_pending 102 BT_BAP_STREAM_STATE_CONFIG
      BT_BAP_STREAM_STATE_CONFIG 1 = world_pending :=
  ⟨by decide, by decide, by decide, by decide,
   ((state_handlers_same_state env0 world_pending 102 1).1 BT_BAP_STREAM_STATE_QOS
     (by decide)).1,
   (state_handlers_same_state env0 world_pending 102 1).2.1 BT_BAP_STREAM_STATE_CONFIG⟩

theorem sweep_nil (w : World) (f : bap_setup → bap_setup) : w.sweep f [] = w := by
  unfold World.sweep
  simp

theorem sweep_sweep (w : World) (f : bap_setup → bap_setup) (hp : ∀ x, (f x).ptr = x.ptr)
    (hi : ∀ x, f (f x) = f x) (P1 P2 : List Nat) :
    (w.sweep f P1).sweep f P2 = w.sweep f (P1 ++ P2) := by
  unfold World.sweep
  simp only [List.map_map, World.mk.injEq, true_and, and_true]
  apply List.map_congr_left
  intro x _
  simp only [Function.comp, List.mem_append]
  by_cases h1 : x.ptr ∈ P1
  · simp [h1, hp, hi]
  · simp [h1]

theorem sweep_keys (w : World) (f : bap_setup → bap_setup) (hp : ∀ x, (f x).ptr = x.ptr)
    (P : List Nat) : (w.sweep f P).setups.map (fun s => s.ptr) = w.setups.map (fun s => s.ptr) := by
  unfold World.sweep
  simp only [List.map_map]
  apply List.map_congr_left
  intro x _
  simp only [Function.comp]
  split_ifs
  · exact hp x
  · rfl

theorem with_setup_eq_sweep (w : World) (p : Nat) (f : bap_setup → bap_setup × List Event)
    (hn : (w.setups.map (fun s => s.ptr)).Nodup) (hp : ∀ x, (f x).1.ptr = x.ptr)
    (he : ∀ x, (f x).2 = []) :
    w.with_setup p f = w.sweep (fun x => (f x).1) [p] := by
  unfold World.with_setup World.sweep
  cases hs : w.setup p with
  | none =>
    have hnone : ∀ x ∈ w.setups, x.ptr ≠ p := by
      intro x hx
      have := List.find?_eq_none.mp hs x hx
      simpa using this
    have : w.setups.map (fun x => if x.ptr ∈ [p] then (f x).1 else x) = w.setups := by
      conv_rhs => rw [← List.map_id w.setups]
      apply List.map_congr_left
      intro x hx
      simp [hnone x hx]
    rw [this]
  | some s =>
    have hsp : s.ptr = p := find_ptr_eq (fun x : bap_setup => x.ptr) _ _ _ hs
    simp only [World.emit, World.put_setup, he, List.append_nil, World.mk.injEq, true_and,
      and_true]
    apply List.map_congr_left
    intro x hx
    by_cases hxp : x.ptr = p
    · have hxs : x = s := by
        have hf : w.setups.find? (fun y => y.ptr == x.ptr) = some s := by rw [hxp]; exact hs
        exact eq_of_find_nodup (fun y : bap_setup => y.ptr) w.setups s x hn hf hx
      simp [hxp, hp, hsp, hxs]
    · simp [hxp, hp, hsp]

theorem foldl_with_setup_sweep (w0 : World) (f : bap_setup → bap_setup × List Event)
    (hn : (w0.setups.map (fun s => s.ptr)).Nodup) (hp : ∀ x, (f x).1.ptr = x.ptr)
    (he : ∀ x, (f x).2 = []) (hi : ∀ x, (f (f x).1).1 = (f x).1) (ps P : List Nat) :
    ps.foldl (fun w p => w.with_setup p f) (w0.sweep (fun x => (f x).1) P)
      = w0.sweep (fun x => (f x).1) (P ++ ps) := by
  induction ps generalizing P with
  | nil => simp
  | cons p ps ih =>
    rw [List.foldl_cons, with_setup_eq_sweep _ p f _ hp he, sweep_sweep _ _ hp hi, ih]
    · simp
    · rw [sweep_keys _ _ hp]
      exact hn

theorem setup_recreate_props (env : Env) (info : cig_busy_data) :
    (∀ x, (setup_recreate env info x).1.ptr = x.ptr) ∧
    (∀ x, (setup_recreate env info x).2 = []) ∧
    (∀ x, (setup_recreate env info (setup_recreate env info x).1).1
      = (setup_recreate env info x).1) := by
  refine ⟨?_, ?_, ?_⟩
  · intro x
    unfold setup_recreate
    split_ifs <;> rfl
  · intro x
    unfold setup_recreate
    split_ifs <;> rfl
  · intro x
    by_cases h : x.qos.ucast.cig_id ≠ info.cig ∨ x.recreate = false ∨ x.io_id ≠ 0
    · have : setup_recreate env info x = (x, []) := by
        unfold setup_recreate
        rw [if_pos h]
      rw [this, this]
    · have h1 : setup_recreate env info x
          = ({ x with recreate := false, io_id := env.g_idle_add x.ptr }, []) := by
        unfold setup_recreate
        rw [if_neg h]
      rw [h1]
      unfold setup_recreate
      simp

theorem recreate_cig_ep_sweep (env : Env) (w0 : World) (info : cig_busy_data) (ep : Nat)
    (hn : (w0.setups.map (fun s => s.ptr)).Nodup) (P : List Nat) :
    recreate_cig_ep env (w0.sweep (fun x => (setup_recreate env info x).1) P) ep info
      = w0.sweep (fun x => (setup_recreate env info x).1) (P ++ swept_ep w0 ep) := by
  obtain ⟨hp, he, hi⟩ := setup_recreate_props env info
  unfold recreate_cig_ep swept_ep
  have : (w0.sweep (fun x => (setup_recreate env info x).1) P).ep ep = w0.ep ep := rfl
  rw [this]
  cases w0.ep ep with
  | none => simp
  | some e => exact foldl_with_setup_sweep w0 _ hn hp he hi e.setups P

theorem foldl_sweep {α : Type} (w0 : World) (f : bap_setup → bap_setup)
    (step : World → α → World) (h : α → List Nat)
    (hstep : ∀ P a, step (w0.sweep f P) a = w0.sweep f (P ++ h a)) (l : List α) (P : List Nat) :
    l.foldl step (w0.sweep f P) = w0.sweep f (P ++ l.flatMap h) := by
  induction l generalizing P with
  | nil => simp
  | cons a l ih =>
    rw [List.foldl_cons, hstep, ih]
    simp

theorem recreate_cig_session_sweep (env : Env) (w0 : World) (info : cig_busy_data)
    (session : bap_data) (hn : (w0.setups.map (fun s => s.ptr)).Nodup) (P : List Nat) :
    recreate_cig_session env (w0.sweep (fun x => (setup_recreate env info x).1) P) session info
      = w0.sweep (fun x => (setup_recreate env info x).1)
          (P ++ swept_session env w0 info session) := by
  unfold recreate_cig_session swept_session
  split_ifs
  · simp
  · simp only []
    rw [foldl_sweep w0 _ (fun w ep => recreate_cig_ep env w ep info) (swept_ep w0)
        (fun P a => recreate_cig_ep_sweep env w0 info a hn P),
      foldl_sweep w0 _ (fun w ep => recreate_cig_ep env w ep info) (swept_ep w0)
        (fun P a => recreate_cig_ep_sweep env w0 info a hn P)]
    simp

theorem recreate_cig_sweep (env : Env) (w : World) (setup : bap_setup) (data : bap_data)
    (hn : (w.setups.map (fun s => s.ptr)).Nodup) :
    recreate_cig env w setup data
      = w.sweep (fun x => (setup_recreate env
          { adapter := env.device_get_adapter data.device, cig := setup.qos.ucast.cig_id } x).1)
          (swept env w setup data) := by
  unfold recreate_cig swept
  simp only []
  split_ifs
  · cases setup.ep with
    | none => simp only []; rw [sweep_nil]
    | some ep =>
      simp only []
      have := recreate_cig_ep_sweep env w
        { adapter := env.device_get_adapter data.device, cig := setup.qos.ucast.cig_id } ep hn []
      rw [sweep_nil] at this
      simpa using this
  · have := foldl_sweep w (fun x => (setup_recreate env
        { adapter := env.device_get_adapter data.device, cig := setup.qos.ucast.cig_id } x).1)
      (fun w session => recreate_cig_session env w session
        { adapter := env.device_get_adapter data.device, cig := setup.qos.ucast.cig_id })
      (swept_session env w
        { adapter := env.device_get_adapter data.device, cig := setup.qos.ucast.cig_id })
      (fun P a => recreate_cig_session_sweep env w _ a hn P) w.sessions []
    rw [sweep_nil] at this
    simpa using this


theorem with_setup_keys (w : World) (p : Nat) (f : bap_setup → bap_setup × List Event) :
    (w.with_setup p f).setups.map (fun s => s.ptr) = w.setups.map (fun s => s.ptr) := by
  unfold World.with_setup
  cases hs : w.setup p with
  | none => rfl
  | some s => exact (put_setup_frame w (f s).1).2.2.2.2

theorem sweep_recreate_map (env : Env) (w : World) (setup : bap_setup) (data : bap_data)
    (l : List bap_setup) :
    l.map (fun x => if x.ptr ∈ swept env w setup data then (setup_recreate env
        { adapter := env.device_get_adapter data.device, cig := setup.qos.ucast.cig_id } x).1
      else x)
    = l.map (fun x => if sweep_target env w setup data x then
        { x with recreate := false, io_id := env.g_idle_add x.ptr } else x) := by
  apply List.map_congr_left
  intro x _
  unfold sweep_target setup_recreate
  by_cases h1 : x.ptr ∈ swept env w setup data
  · by_cases h2 : x.qos.ucast.cig_id = setup.qos.ucast.cig_id
    · by_cases h3 : x.recreate = true
      · by_cases h4 : x.io_id = 0
        · simp [h1, h2, h3, h4]
        · simp [h1, h2, h3, h4]
      · simp [h1, h2, h3]
    · simp [h1, h2]
  · simp [h1]

/-- C12 (counterexample): in `world_recreate` the channel of setup 3 closes
and CIG 3 is then not busy; setup 5 is rescheduled, but setup 6, which lies
in a sink endpoint of the same session, has CIG 3 and `recreate = true`,
keeps `recreate = true` because its `io_id` is not 0. -/
theorem setup_recreate_skips_pending_source :
    (world_recreate.setup 6).map (fun s => (s.recreate, s.qos.ucast.cig_id, s.io_id))
      = some (true, 3, 12) ∧
    is_cig_busy env0 (setup_io_disconnected_close world_recreate 3)
      { ptr := 1, device := some 7, snks := [2, 4] } 3 = false ∧
    (setup_io_disconnected env0 world_recreate 3).setups.map
      (fun s => (s.ptr, s.recreate, s.io_id)) = [(3, false, 0), (5, false, 5005), (6, true, 12)] := by
  decide

/-- C12 (amended): when the channel of the setup at `p` closes through
`setup_io_disconnected` and its CIG is then not busy, every setup the sweep
visits (the setups of the sink and source endpoints of the sessions on the
same adapter or, when the CIG id of the closed setup is unset, the setups of
its endpoint) that has the CIG id of the closed setup, `recreate = true` and
`io_id = 0` ends with `recreate = false` and the source id of `g_idle_add`
in `io_id`, which is not 0; every other setup is unchanged, and nothing is
added to the log of calls, so no socket is created. -/
theorem setup_io_disconnected_sweep (env : Env) (w : World) (p : Nat) (s : bap_setup)
    (data : bap_data) (hn : (w.setups.map (fun s => s.ptr)).Nodup)
    (hs : (setup_io_disconnected_close w p).setup p = some s)
    (hd : (s.ep.bind (setup_io_disconnected_close w p).ep).bind
      (fun e => (setup_io_disconnected_close w p).data e.data) = some data)
    (hb : is_cig_busy env (setup_io_disconnected_close w p) data s.qos.ucast.cig_id = false)
    (hidle : ∀ q, env.g_idle_add q ≠ 0) :
    (setup_io_disconnected env w p).setups
      = (setup_io_disconnected_close w p).setups.map (fun x =>
          if sweep_target env (setup_io_disconnected_close w p) s data x then
            { x with recreate := false, io_id := env.g_idle_add x.ptr } else x) ∧
    (setup_io_disconnected env w p).log = (setup_io_disconnected_close w p).log ∧
    (setup_io_disconnected env w p).eps = (setup_io_disconnected_close w p).eps ∧
    (setup_io_disconnected env w p).sessions = (setup_io_disconnected_close w p).sessions ∧
    (∀ x ∈ (setup_io_disconnected_close w p).setups,
      sweep_target env (setup_io_disconnected_close w p) s data x →
      ∃ y ∈ (setup_io_disconnected env w p).setups,
        y.ptr = x.ptr ∧ y.recreate = false ∧ y.io_id ≠ 0) := by
  have hn1 : ((setup_io_disconnected_close w p).setups.map (fun s => s.ptr)).Nodup := by
    unfold setup_io_disconnected_close
    rw [with_setup_keys w p]
    exact hn
  have hres : setup_io_disconnected env w p
      = (setup_io_disconnected_close w p).sweep (fun x => (setup_recreate env
          { adapter := env.device_get_adapter data.device, cig := s.qos.ucast.cig_id } x).1)
          (swept env (setup_io_disconnected_close w p) s data) := by
    unfold setup_io_disconnected
    simp only [hs, hd, hb]
    exact recreate_cig_sweep env _ s data hn1
  have hset : (setup_io_disconnected env w p).setups
      = (setup_io_disconnected_close w p).setups.map (fun x =>
          if sweep_target env (setup_io_disconnected_close w p) s data x then
            { x with recreate := false, io_id := env.g_idle_add x.ptr } else x) := by
    rw [hres]
    exact sweep_recreate_map env _ s data _
  refine ⟨hset, by rw [hres]; rfl, by rw [hres]; rfl, by rw [hres]; rfl, ?_⟩
  intro x hx ht
  refine ⟨{ x with recreate := false, io_id := env.g_idle_add x.ptr }, ?_, rfl, rfl, hidle _⟩
  rw [hset]
  exact List.mem_map.mpr ⟨x, hx, by rw [if_pos ht]⟩

/-- In `world_recreate`, where the channel of setup 3 closes, setup 5 is
rescheduled with the source id 5005. -/
theorem setup_io_disconnected_sweep_witness :
    (world_recreate.setups.map (fun s => s.ptr)).Nodup ∧
    is_cig_busy env0 (setup_io_disconnected_close world_recreate 3)
      { ptr := 1, device := some 7, snks := [2, 4] } 3 = false ∧
    (∀ q, env0.g_idle_add q ≠ 0) ∧
    (setup_io_disconnected env0 world_recreate 3).setups.map
      (fun s => (s.ptr, s.recreate, s.io_id)) = [(3, false, 0), (5, false, 5005), (6, true, 12)] ∧
    (setup_io_disconnected env0 world_recreate 3).log
      = (setup_io_disconnected_close world_recreate 3).log :=
  ⟨by decide, by decide, fun q => Nat.ne_of_gt (Nat.lt_of_lt_of_le (by decide) (Nat.le_add_right 5000 q)),
   by decide,
   (setup_io_disconnected_sweep env0 world_recreate 3
      { ptr := 3, ep := some 2, stream := some 100, qos := { ucast := { cig_id := 3, cis_id := 1 } } }
      { ptr := 1, device := some 7, snks := [2, 4] } (by decide) (by decide) (by decide)
      (by decide)
      (fun q => Nat.ne_of_gt (Nat.lt_of_lt_of_le (by decide) (Nat.le_add_right 5000 q)))).2.1⟩

theorem big_others_cons_self (env : Env) (w : World) (S : bap_setup) (rest : List Nat) :
    big_others env w S (S.ptr :: rest) = big_others env w S rest := by
  unfold big_others
  rw [List.filter_cons]
  simp

theorem big_others_cons_other (env : Env) (w : World) (S sp : bap_setup) (p : Nat)
    (rest : List Nat) (hp : p ≠ S.ptr) (hs : w.setup p = some sp) :
    big_others env w S (p :: rest)
      = if stream_big env sp = stream_big env S then p :: big_others env w S rest
        else big_others env w S rest := by
  unfold big_others
  rw [List.filter_cons]
  simp only [hs, hp, ne_eq, not_false_eq_true, decide_True, Bool.true_and]
  by_cases h : stream_big env sp = stream_big env S
  · simp [h]
  · simp [h]

theorem get_streams_nb_loop_wait (env : Env) (w : World) (S : bap_setup) (st : Nat)
    (hst : S.stream = some st) (l : List Nat) :
    ∀ n, (∀ p ∈ l, p ≠ S.ptr → ∃ sp strm, w.setup p = some sp ∧ sp.stream = some strm) →
      (∃ p ∈ big_others env w S l, setup_state env w p ≠ some BT_BAP_STREAM_STATE_CONFIG) →
      (∀ p ∈ big_others env w S l, setup_state env w p ≠ some BT_BAP_STREAM_STATE_STREAMING) →
      get_streams_nb_loop env w S l n = some 0 := by
  induction l with
  | nil =>
    intro n _ h
    obtain ⟨p, hp, _⟩ := h
    simp [big_others] at hp
  | cons p rest ih =>
    intro n hlive hex hns
    rw [get_streams_nb_loop]
    by_cases hp : p = S.ptr
    · rw [if_pos hp]
      subst hp
      rw [big_others_cons_self] at hex hns
      exact ih _ (fun q hq => hlive q (List.mem_cons_of_mem _ hq)) hex hns
    · rw [if_neg hp]
      obtain ⟨sp, strm, hsp, hstrm⟩ := hlive p (List.mem_cons_self _ _) hp
      rw [hsp]
      simp only [hstrm, hst]
      rw [big_others_cons_other env w S sp p rest hp hsp] at hex hns
      have hbig : stream_big env sp = stream_big env S ↔
          (env.stream strm).qos.bcast.big = (env.stream st).qos.bcast.big := by
        simp [stream_big, hstrm, hst]
      have hstate : setup_state env w p = some (env.stream strm).state := by
        simp [setup_state, hsp, hstrm]
      by_cases hb : (env.stream strm).qos.bcast.big = (env.stream st).qos.bcast.big
      · rw [if_pos (hbig.mpr hb)] at hex hns
        have h1 : ¬ ((env.stream strm).qos.bcast.big ≠ (env.stream st).qos.bcast.big) :=
          fun h => h hb
        rw [if_neg h1]
        have h2 : (env.stream strm).state ≠ BT_BAP_STREAM_STATE_STREAMING := by
          have := hns p (List.mem_cons_self _ _)
          rw [hstate] at this
          exact fun h => this (congrArg some h)
        rw [if_neg h2]
        by_cases h3 : (env.stream strm).state = BT_BAP_STREAM_STATE_CONFIG
        · have h3' : ¬ ((env.stream strm).state ≠ BT_BAP_STREAM_STATE_CONFIG) := fun h => h h3
          rw [if_neg h3']
          apply ih _ (fun q hq => hlive q (List.mem_cons_of_mem _ hq))
          · obtain ⟨q, hq, hqs⟩ := hex
            rcases List.mem_cons.mp hq with rfl | hq
            · rw [hstate, h3] at hqs
              exact absurd rfl hqs
            · exact ⟨q, hq, hqs⟩
          · exact fun q hq => hns q (List.mem_cons_of_mem _ hq)
        · rw [if_pos h3]
      · have hb' : ¬ (stream_big env sp = stream_big env S) := fun h => hb (hbig.mp h)
        rw [if_neg hb'] at hex hns
        rw [if_pos hb]
        exact ih _ (fun q hq => hlive q (List.mem_cons_of_mem _ hq)) hex hns

theorem get_streams_nb_loop_count (env : Env) (w : World) (S : bap_setup) (st : Nat)
    (hst : S.stream = some st) (l : List Nat) :
    ∀ n, n < 256 → (∀ p ∈ l, p ≠ S.ptr → ∃ sp strm, w.setup p = some sp ∧ sp.stream = some strm) →
      (∀ p ∈ big_others env w S l, setup_state env w p = some BT_BAP_STREAM_STATE_CONFIG) →
      get_streams_nb_loop env w S l n
        = some ((n + (l.count S.ptr + (big_others env w S l).length)) % 256) := by
  induction l with
  | nil =>
    intro n hn _ _
    simp only [get_streams_nb_loop, big_others, List.filter_nil, List.count_nil,
      List.length_nil, Nat.add_zero]
    rw [Nat.mod_eq_of_lt hn]
  | cons p rest ih =>
    intro n hn hlive hall
    rw [get_streams_nb_loop]
    by_cases hp : p = S.ptr
    · rw [if_pos hp]
      subst hp
      rw [big_others_cons_self] at hall ⊢
      rw [ih _ (Nat.mod_lt _ (by decide)) (fun q hq => hlive q (List.mem_cons_of_mem _ hq)) hall]
      congr 1
      rw [List.count_cons_self]
      omega
    · rw [if_neg hp]
      obtain ⟨sp, strm, hsp, hstrm⟩ := hlive p (List.mem_cons_self _ _) hp
      rw [hsp]
      simp only [hstrm, hst]
      rw [big_others_cons_other env w S sp p rest hp hsp] at hall ⊢
      have hbig : stream_big env sp = stream_big env S ↔
          (env.stream strm).qos.bcast.big = (env.stream st).qos.bcast.big := by
        simp [stream_big, hstrm, hst]
      have hstate : setup_state env w p = some (env.stream strm).state := by
        simp [setup_state, hsp, hstrm]
      have hcount : (p :: rest).count S.ptr = rest.count S.ptr :=
        List.count_cons_of_ne (fun h => hp h.symm) _
      rw [hcount]
      by_cases hb : (env.stream strm).qos.bcast.big = (env.stream st).qos.bcast.big
      · rw [if_pos (hbig.mpr hb)] at hall ⊢
        have h1 : ¬ ((env.stream strm).qos.bcast.big ≠ (env.stream st).qos.bcast.big) :=
          fun h => h hb
        rw [if_neg h1]
        have h3 : (env.stream strm).state = BT_BAP_STREAM_STATE_CONFIG := by
          have := hall p (List.mem_cons_self _ _)
          rw [hstate] at this
          exact Option.some.inj this
        have h2 : (env.stream strm).state ≠ BT_BAP_STREAM_STATE_STREAMING := by
          rw [h3]
          decide
        have h3' : ¬ ((env.stream strm).state ≠ BT_BAP_STREAM_STATE_CONFIG) := fun h => h h3
        rw [if_neg h2, if_neg h3',
          ih _ (Nat.mod_lt _ (by decide)) (fun q hq => hlive q (List.mem_cons_of_mem _ hq))
            (fun q hq => hall q (List.mem_cons_of_mem _ hq))]
        congr 1
        rw [List.length_cons]
        omega
      · have hb' : ¬ (stream_big env sp = stream_big env S) := fun h => hb (hbig.mp h)
        rw [if_neg hb'] at hall ⊢
        rw [if_pos hb]
        exact ih _ hn (fun q hq => hlive q (List.mem_cons_of_mem _ hq)) hall


theorem put_setup_lookup (w : World) (s s' : bap_setup) (hs : w.setup s'.ptr = some s)
    (hb : s'.without_base = s.without_base) (q : Nat) :
    ((w.put_setup s').setup q).map bap_setup.without_base
      = (w.setup q).map bap_setup.without_base := by
  unfold World.put_setup World.setup
  by_cases hq : s'.ptr = q
  · subst hq
    rw [find_map_put (fun x : bap_setup => x.ptr) w.setups s'.ptr s s' hs rfl]
    unfold World.setup at hs
    rw [hs]
    simp [hb]
  · exact congrArg _ (find_map_put_ne (fun x : bap_setup => x.ptr) w.setups q s' hq)

theorem with_setup_lookup (w : World) (p : Nat) (f : bap_setup → bap_setup × List Event)
    (hp : ∀ x, (f x).1.ptr = x.ptr) (hb : ∀ x, (f x).1.without_base = x.without_base)
    (he : ∀ x, (f x).2 = []) :
    (w.with_setup p f).eps = w.eps ∧ (w.with_setup p f).log = w.log ∧
    (w.with_setup p f).adapters = w.adapters ∧
    ∀ q, ((w.with_setup p f).setup q).map bap_setup.without_base
      = (w.setup q).map bap_setup.without_base := by
  unfold World.with_setup
  cases hs : w.setup p with
  | none => exact ⟨rfl, rfl, rfl, fun _ => rfl⟩
  | some s =>
    have hsp : s.ptr = p := find_ptr_eq (fun x : bap_setup => x.ptr) _ _ _ hs
    refine ⟨rfl, ?_, rfl, ?_⟩
    · simp [World.emit, World.put_setup, he]
    · intro q
      have h1 : ((w.put_setup (f s).1).emit (f s).2).setup q = (w.put_setup (f s).1).setup q :=
        rfl
      rw [h1]
      exact put_setup_lookup w s (f s).1 (by rw [hp, hsp]; exact hs) (hb s) q

theorem foldl_with_setup_lookup (f : bap_setup → bap_setup × List Event)
    (hp : ∀ x, (f x).1.ptr = x.ptr) (hb : ∀ x, (f x).1.without_base = x.without_base)
    (he : ∀ x, (f x).2 = []) (ps : List Nat) :
    ∀ w : World,
      (ps.foldl (fun w p => w.with_setup p f) w).eps = w.eps ∧
      (ps.foldl (fun w p => w.with_setup p f) w).log = w.log ∧
      (ps.foldl (fun w p => w.with_setup p f) w).adapters = w.adapters ∧
      ∀ q, ((ps.foldl (fun w p => w.with_setup p f) w).setup q).map bap_setup.without_base
        = (w.setup q).map bap_setup.without_base := by
  induction ps with
  | nil => exact fun w => ⟨rfl, rfl, rfl, fun _ => rfl⟩
  | cons p ps ih =>
    intro w
    rw [List.foldl_cons]
    obtain ⟨a1, a2, a3, a4⟩ := ih (w.with_setup p f)
    obtain ⟨b1, b2, b3, b4⟩ := with_setup_lookup w p f hp hb he
    exact ⟨a1.trans b1, a2.trans b2, a3.trans b3, fun q => (a4 q).trans (b4 q)⟩

theorem generate_base_lookup (env : Env) (w : World) (s : bap_setup)
    (hs : w.setup s.ptr = some s) :
    (generate_base env w s).eps = w.eps ∧ (generate_base env w s).log = w.log ∧
    (generate_base env w s).adapters = w.adapters ∧
    ∀ q, ((generate_base env w s).setup q).map bap_setup.without_base
      = (w.setup q).map bap_setup.without_base := by
  unfold generate_base
  simp only []
  have h0 := put_setup_lookup w s { s with base := env.bt_bap_stream_get_base s.stream } hs rfl
  cases he : Option.bind s.ep (w.put_setup
      { s with base := env.bt_bap_stream_get_base s.stream }).ep with
  | none => exact ⟨rfl, rfl, rfl, h0⟩
  | some e =>
    simp only []
    obtain ⟨a1, a2, a3, a4⟩ := foldl_with_setup_lookup
      (fun x => (iterate_setup_update_base x
        { s with base := env.bt_bap_stream_get_base s.stream }, []))
      (fun x => by
        show (iterate_setup_update_base x _).ptr = x.ptr
        unfold iterate_setup_update_base
        split_ifs <;> rfl)
      (fun x => by
        show (iterate_setup_update_base x _).without_base = x.without_base
        unfold iterate_setup_update_base
        split_ifs <;> rfl)
      (fun _ => rfl) e.setups
      (w.put_setup { s with base := env.bt_bap_stream_get_base s.stream })
    exact ⟨a1, a2, a3, fun q => (a4 q).trans (h0 q)⟩

theorem lookup_stream (w w' : World)
    (h : ∀ q, (w'.setup q).map bap_setup.without_base = (w.setup q).map bap_setup.without_base)
    (q : Nat) : (w'.setup q).map (fun s => s.stream) = (w.setup q).map (fun s => s.stream) := by
  have := congrArg (Option.map (fun s : bap_setup => s.stream)) (h q)
  simpa [Option.map_map, Function.comp, bap_setup.without_base] using this

theorem get_streams_nb_loop_congr (env : Env) (w w' : World) (S S' : bap_setup)
    (h : ∀ q, (w'.setup q).map (fun s => s.stream) = (w.setup q).map (fun s => s.stream))
    (hp : S'.ptr = S.ptr) (hst : S'.stream = S.stream) (l : List Nat) :
    ∀ n, get_streams_nb_loop env w' S' l n = get_streams_nb_loop env w S l n := by
  induction l with
  | nil => intro n; rfl
  | cons p rest ih =>
    intro n
    rw [get_streams_nb_loop, get_streams_nb_loop, hp, hst]
    by_cases hq : p = S.ptr
    · rw [if_pos hq, if_pos hq, ih]
    · rw [if_neg hq, if_neg hq]
      have hq' := h p
      cases h1 : w.setup p with
      | none =>
        rw [h1] at hq'
        cases h2 : w'.setup p with
        | none => rfl
        | some x => rw [h2] at hq'; simp at hq'
      | some y =>
        rw [h1] at hq'
        cases h2 : w'.setup p with
        | none => rw [h2] at hq'; simp at hq'
        | some x =>
          rw [h2] at hq'
          simp only [Option.map_some', Option.some.injEq] at hq'
          simp only [hq', ih]

theorem get_streams_nb_by_state_congr (env : Env) (w w' : World) (S S' : bap_setup)
    (h : ∀ q, (w'.setup q).map bap_setup.without_base = (w.setup q).map bap_setup.without_base)
    (he : w'.eps = w.eps) (hS : S'.without_base = S.without_base) :
    get_streams_nb_by_state env w' S' = get_streams_nb_by_state env w S := by
  have hp : S'.ptr = S.ptr := by
    have := congrArg (fun s : bap_setup => s.ptr) hS
    exact this
  have hst : S'.stream = S.stream := by
    have := congrArg (fun s : bap_setup => s.stream) hS
    exact this
  have hq : S'.qos = S.qos := by
    have := congrArg (fun s : bap_setup => s.qos) hS
    exact this
  have hep : S'.ep = S.ep := by
    have := congrArg (fun s : bap_setup => s.ep) hS
    exact this
  have hw : w'.ep = w.ep := by
    funext p
    unfold World.ep
    rw [he]
  unfold get_streams_nb_by_state
  rw [hq, hep, hw]
  by_cases hb : S.qos.bcast.big = BT_ISO_QOS_BIG_UNSET
  · rw [if_pos hb, if_pos hb]
  · rw [if_neg hb, if_neg hb]
    cases Option.bind S.ep w.ep with
    | none => rfl
    | some e => exact get_streams_nb_loop_congr env w w' S S' (lookup_stream w w' h) hp hst _ 0

theorem bap_state_bcast_src_waits (env : Env) (w : World) (S : bap_setup) (d : bap_data)
    (stream data old_state : Nat) (hold : old_state ≠ BT_BAP_STREAM_STATE_CONFIG)
    (hd : w.data data = some d)
    (hf : bap_find_setup_by_stream env w d stream = some S.ptr)
    (hs : w.setup S.ptr = some S)
    (h0 : get_streams_nb_by_state env w S = some 0) :
    (bap_state_bcast_src env w stream old_state BT_BAP_STREAM_STATE_CONFIG data).log = w.log ∧
    (bap_state_bcast_src env w stream old_state BT_BAP_STREAM_STATE_CONFIG data).adapters
      = w.adapters := by
  unfold bap_state_bcast_src
  have hne : ¬ (BT_BAP_STREAM_STATE_CONFIG = old_state) := fun h => hold h.symm
  have hc : BT_BAP_STREAM_STATE_CONFIG ≠ BT_BAP_STREAM_STATE_IDLE := by decide
  simp only [if_neg hne, hd, hf, if_neg hc, if_true, Option.some_bind, hs]
  by_cases hid : S.id ≠ 0
  · rw [if_pos hid]
    exact ⟨rfl, rfl⟩
  · rw [if_neg hid]
    have key : ∀ w1 : World, w1.eps = w.eps → w1.log = w.log → w1.adapters = w.adapters →
        (∀ q, (w1.setup q).map bap_setup.without_base
          = (w.setup q).map bap_setup.without_base) →
        (match (w1.setup S.ptr).bind (get_streams_nb_by_state env w1) with
          | none => w1
          | some nb_bises =>
            if nb_bises = 1 then
              match ((setup_create_io env w1 data (some S.ptr) stream false).setup S.ptr).bind
                  (fun x => x.io) with
              | none => release_unless_releasing
                  (setup_create_io env w1 data (some S.ptr) stream false) stream old_state
              | some _ => setup_create_io env w1 data (some S.ptr) stream false
            else if nb_bises = 0 then w1
            else
              if !(create_io_bises env w1 S.ptr nb_bises data).1 then
                release_unless_releasing (create_io_bises env w1 S.ptr nb_bises data).2
                  stream old_state
              else (create_io_bises env w1 S.ptr nb_bises data).2).log = w.log ∧
        (match (w1.setup S.ptr).bind (get_streams_nb_by_state env w1) with
          | none => w1
          | some nb_bises =>
            if nb_bises = 1 then
              match ((setup_create_io env w1 data (some S.ptr) stream false).setup S.ptr).bind
                  (fun x => x.io) with
              | none => release_unless_releasing
                  (setup_create_io env w1 data (some S.ptr) stream false) stream old_state
              | some _ => setup_create_io env w1 data (some S.ptr) stream false
            else if nb_bises = 0 then w1
            else
              if !(create_io_bises env w1 S.ptr nb_bises data).1 then
                release_unless_releasing (create_io_bises env w1 S.ptr nb_bises data).2
                  stream old_state
              else (create_io_bises env w1 S.ptr nb_bises data).2).adapters = w.adapters := by
      intro w1 e1 e2 e3 e4
      have hl := e4 S.ptr
      rw [hs] at hl
      cases h1 : w1.setup S.ptr with
      | none => rw [h1] at hl; simp at hl
      | some S1 =>
        rw [h1] at hl
        simp only [Option.map_some', Option.some.injEq] at hl
        have hg := get_streams_nb_by_state_congr env w w1 S S1 e4 e1 hl
        simp only [Option.some_bind, hg, h0]
        simp only [Nat.zero_ne_one, if_false, if_true]
        exact ⟨e2, e3⟩
    by_cases hb : S.base.isNone = true
    · rw [if_pos hb]
      obtain ⟨a1, a2, a3, a4⟩ := generate_base_lookup env w S hs
      exact key _ a1 a2 a3 a4
    · rw [if_neg hb]
      exact key w rfl rfl rfl (fun _ => rfl)


/-- C19: for a setup `S` with a set BIG id, a stream and an endpoint whose
queue entries are live setups with streams: when some other entry of the BIG
of `S` is in a state other than CONFIG and none is STREAMING,
`get_streams_nb_by_state` returns 0 and the CONFIG callback of
`bap_state_bcast_src` for the stream of `S` makes no call and queues no
request, so no socket is opened; when all other entries of the BIG are in
CONFIG and there are fewer than 256 of them with `S`, it returns their
number, `S` counted as often as it is in the queue (once). -/
theorem get_streams_nb_by_state_waits (env : Env) (w : World) (S : bap_setup) (e : bap_ep)
    (st : Nat) (hbig : S.qos.bcast.big ≠ BT_ISO_QOS_BIG_UNSET)
    (hep : S.ep.bind w.ep = some e) (hst : S.stream = some st)
    (hlive : ∀ p ∈ e.setups, p ≠ S.ptr → ((w.setup p).bind (fun s => s.stream)).isSome = true) :
    ((∃ p ∈ big_others env w S e.setups,
        setup_state env w p ≠ some BT_BAP_STREAM_STATE_CONFIG) →
      (∀ p ∈ big_others env w S e.setups,
        setup_state env w p ≠ some BT_BAP_STREAM_STATE_STREAMING) →
      get_streams_nb_by_state env w S = some 0 ∧
      ∀ d data old_state, old_state ≠ BT_BAP_STREAM_STATE_CONFIG → w.data data = some d →
        bap_find_setup_by_stream env w d st = some S.ptr → w.setup S.ptr = some S →
        (bap_state_bcast_src env w st old_state BT_BAP_STREAM_STATE_CONFIG data).log = w.log ∧
        (bap_state_bcast_src env w st old_state BT_BAP_STREAM_STATE_CONFIG data).adapters
          = w.adapters) ∧
    ((∀ p ∈ big_others env w S e.setups,
        setup_state env w p = some BT_BAP_STREAM_STATE_CONFIG) →
      e.setups.count S.ptr + (big_others env w S e.setups).length < 256 →
      get_streams_nb_by_state env w S
        = some (e.setups.count S.ptr + (big_others env w S e.setups).length)) := by
  have hlive' : ∀ p ∈ e.setups, p ≠ S.ptr →
      ∃ sp strm, w.setup p = some sp ∧ sp.stream = some strm := by
    intro p hp hne
    have h := hlive p hp hne
    cases h1 : w.setup p with
    | none => rw [h1] at h; cases h
    | some sp =>
      rw [h1] at h
      cases h2 : sp.stream with
      | none => simp [h2] at h
      | some strm => exact ⟨sp, strm, rfl, h2⟩
  have hget : get_streams_nb_by_state env w S = get_streams_nb_loop env w S e.setups 0 := by
    unfold get_streams_nb_by_state
    rw [if_neg hbig, hep]
  constructor
  · intro hex hns
    have h0 : get_streams_nb_by_state env w S = some 0 := by
      rw [hget]
      exact get_streams_nb_loop_wait env w S st hst e.setups 0 hlive' hex hns
    refine ⟨h0, ?_⟩
    intro d data old_state hold hd hf hs
    exact bap_state_bcast_src_waits env w S d st data old_state hold hd hf hs h0
  · intro hall hlt
    rw [hget, get_streams_nb_loop_count env w S st hst e.setups 0 (by decide) hlive' hall,
      Nat.zero_add, Nat.mod_eq_of_lt hlt]

/-- In `world_wait` the setup 3 of BIG 1 is RELEASING, so the CONFIG callback
for the stream 101 of setup 5 gets the count 0 and makes no call; in
`world_big` both setups of BIG 1 are in CONFIG and the count is 2. -/
theorem get_streams_nb_by_state_waits_witness :
    big_others env_states world_wait (new_big_setup 5 101) [3, 5] = [3] ∧
    setup_state env_states world_wait 3 = some BT_BAP_STREAM_STATE_RELEASING ∧
    (get_streams_nb_by_state env_states world_wait (new_big_setup 5 101) = some 0 ∧
      ∀ d data old_state, old_state ≠ BT_BAP_STREAM_STATE_CONFIG →
        world_wait.data data = some d →
        bap_find_setup_by_stream env_states world_wait d 101 = some 5 →
        world_wait.setup 5 = some (new_big_setup 5 101) →
        (bap_state_bcast_src env_states world_wait 101 old_state BT_BAP_STREAM_STATE_CONFIG
          data).log = world_wait.log ∧
        (bap_state_bcast_src env_states world_wait 101 old_state BT_BAP_STREAM_STATE_CONFIG
          data).adapters = world_wait.adapters) ∧
    (bap_state_bcast_src env_states world_wait 101 BT_BAP_STREAM_STATE_IDLE
      BT_BAP_STREAM_STATE_CONFIG 1).log = [] ∧
    get_streams_nb_by_state env0 world_big (big_setup 3 101) = some 2 :=
  ⟨by decide, by decide,
    (get_streams_nb_by_state_waits env_states world_wait (new_big_setup 5 101)
      { ptr := 2, data := 1, lpac := 11, path := "/org/bluez/hci0/pac_bcast0",
        setups := [3, 5] } 101 (by decide) (by decide) rfl (by decide)).1
      ⟨3, by decide, by decide⟩ (by decide),
    by decide,
    (get_streams_nb_by_state_waits env0 world_big (big_setup 3 101)
      { ptr := 2, data := 1, lpac := 11, path := "/org/bluez/hci0/pac_bcast0",
        setups := [3, 4] } 101 (by decide) (by decide) rfl (by decide)).2
      (by decide) (by decide)⟩


/-- C20: in `world_streaming` the setups 3 (RELEASING), 4 (STREAMING) and 5
(CONFIG) of BIG 1 are queued in this order; for setup 5,
`get_streams_nb_by_state` meets the RELEASING setup first and returns 0,
although setup 4 of the BIG is STREAMING, and the CONFIG callback opens no
socket.  With the streaming setup first in the queue it returns 1 and the
callback opens the socket of setup 5 alone with `defer = false`. -/
theorem get_streams_nb_by_state_streaming_order :
    big_others env_states world_streaming (big_setup 5 101) [3, 4, 5] = [3, 4] ∧
    setup_state env_states world_streaming 4 = some BT_BAP_STREAM_STATE_STREAMING ∧
    setup_state env_states world_streaming 3 = some BT_BAP_STREAM_STATE_RELEASING ∧
    get_streams_nb_by_state env_states world_streaming (big_setup 5 101) = some 0 ∧
    (bap_state_bcast_src env_states world_streaming 101 BT_BAP_STREAM_STATE_IDLE
      BT_BAP_STREAM_STATE_CONFIG 1).log = [] ∧
    get_streams_nb_by_state env_states world_streaming_first (big_setup 5 101) = some 1 ∧
    io_connect_requests (bap_state_bcast_src env_states world_streaming_first 101
      BT_BAP_STREAM_STATE_IDLE BT_BAP_STREAM_STATE_CONFIG 1).log = [(5, false)] := by
  decide

/-- C21: `config_cb` leaves the operation id at the id of the QoS request it
issues when the result code is 0 and the stream is in the CONFIG state, and
at 0 in every other case; it issues a QoS request exactly in that case; and
with the code 0 and the stream in another state it makes no call at all and
changes nothing but the operation id, so the pending message is kept. -/
theorem config_cb_chains_qos (env : Env) (stream code : Nat) (setup : bap_setup) :
    (qos_requests (config_cb env stream code setup).2 ≠ [] ↔
      (code = 0 ∧ (env.stream stream).state = BT_BAP_STREAM_STATE_CONFIG)) ∧
    (code = 0 ∧ (env.stream stream).state = BT_BAP_STREAM_STATE_CONFIG →
      qos_requests (config_cb env stream code setup).2 = [stream] ∧
      (config_cb env stream code setup).1.id
        = env.bt_bap_stream_qos stream { setup with id := 0 } ∧
      replies (config_cb env stream code setup).2 = [] ∧
      (config_cb env stream code setup).1.msg = setup.msg) ∧
    (¬ (code = 0 ∧ (env.stream stream).state = BT_BAP_STREAM_STATE_CONFIG) →
      (config_cb env stream code setup).1.id = 0) ∧
    (code = 0 → (env.stream stream).state ≠ BT_BAP_STREAM_STATE_CONFIG →
      (config_cb env stream code setup).2 = [] ∧
      (config_cb env stream code setup).1 = { setup with id := 0 } ∧
      (config_cb env stream code setup).1.msg = setup.msg) := by
  unfold config_cb
  by_cases hc : code = 0
  · by_cases hs : (env.stream stream).state = BT_BAP_STREAM_STATE_CONFIG
    · simp only [hc, hs, if_true, true_and, and_self, not_true_eq_false, false_implies,
        ne_eq, implies_true, and_true]
      by_cases hid : env.bt_bap_stream_qos stream { setup with id := 0 } = 0
      · simp [hid, qos_requests, replies]
      · simp [hid, qos_requests, replies]
    · simp [hc, hs, qos_requests]
  · cases hm : setup.msg with
    | none => simp [hc, hm, qos_requests]
    | some msg => simp [hc, hm, qos_requests]

/-- C22 (as stated, refuted): `config_cb` and `qos_cb` with the code 1 for a
setup with the pending message 60 answer it but call no
`bt_bap_stream_release`. -/
theorem config_cb_error_no_release :
    (config_cb env0 100 1 { ptr := 3, stream := some 100, id := 9, msg := some 60 }).2
      = [Event.g_dbus_send_message 60 (Reply.failed "Unable to configure")] ∧
    releases (config_cb env0 100 1 { ptr := 3, stream := some 100, id := 9, msg := some 60 }).2
      = [] ∧
    releases (qos_cb 1 { ptr := 3, stream := some 100, id := 9, msg := some 60 }).2 = [] := by
  decide

/-- C22 (amended): `config_cb` and `qos_cb` with a non-zero code for a setup
with a pending message answer that message exactly once, with the failed
error "Unable to configure", clear the pending message and the operation id,
and make no other call: no release is issued on the stream. -/
theorem callbacks_error_reply (env : Env) (stream code : Nat) (setup : bap_setup) (msg : Nat)
    (hc : code ≠ 0) (hm : setup.msg = some msg) :
    (config_cb env stream code setup).2
      = [Event.g_dbus_send_message msg (Reply.failed "Unable to configure")] ∧
    replies (config_cb env stream code setup).2
      = [(msg, Reply.failed "Unable to configure")] ∧
    (config_cb env stream code setup).1 = { setup with id := 0, msg := none } ∧
    releases (config_cb env stream code setup).2 = [] ∧
    (qos_cb code setup).2
      = [Event.g_dbus_send_message msg (Reply.failed "Unable to configure")] ∧
    replies (qos_cb code setup).2 = [(msg, Reply.failed "Unable to configure")] ∧
    (qos_cb code setup).1 = { setup with id := 0, msg := none } ∧
    releases (qos_cb code setup).2 = [] := by
  unfold config_cb qos_cb
  simp [hc, hm, replies, releases]

theorem callbacks_error_reply_witness :
    (config_cb env0 100 1 { ptr := 3, stream := some 100, id := 9, msg := some 60 }).2
      = [Event.g_dbus_send_message 60 (Reply.failed "Unable to configure")] ∧
    (qos_cb 1 { ptr := 3, stream := some 100, id := 9, msg := some 60 }).1
      = { ptr := 3, stream := some 100, id := 0, msg := none } :=
  ⟨(callbacks_error_reply env0 100 1 { ptr := 3, stream := some 100, id := 9, msg := some 60 }
      60 (by decide) rfl).1,
   (callbacks_error_reply env0 100 1 { ptr := 3, stream := some 100, id := 9, msg := some 60 }
      60 (by decide) rfl).2.2.2.2.2.2.1⟩

theorem adapter_put_adapter (w : World) (p : Nat) (a a' : bap_adapter)
    (h : w.adapter p = some a) (hp : a'.ptr = p) : (w.put_adapter a').adapter p = some a' :=
  find_map_put (fun x : bap_adapter => x.ptr) w.adapters p a a' h hp

theorem short_lived_pa_sync_cases (env : Env) (w : World) (req : bap_bcast_pa_req)
    (x : Int × bap_bcast_pa_req × World) (h : short_lived_pa_sync env w req = some x) :
    (((w.service_data req.data).bind (fun d => d.listen_io)).isSome = true →
      x.2.1 = req ∧ x.2.2 = w) ∧
    (((w.service_data req.data).bind (fun d => d.listen_io)).isSome = false →
      x.2.1 = { req with in_progress := true }) := by
  unfold short_lived_pa_sync at h
  cases hd : w.service_data req.data with
  | none => rw [hd] at h; cases h
  | some d =>
    rw [hd] at h
    simp only [] at h
    simp only [Option.some_bind]
    by_cases hl : d.listen_io.isSome = true
    · rw [if_pos hl] at h
      cases h
      exact ⟨fun _ => ⟨rfl, rfl⟩, fun hc => by rw [hl] at hc; cases hc⟩
    · rw [if_neg hl] at h
      refine ⟨fun hc => absurd hc hl, fun _ => ?_⟩
      split_ifs at h
      cases hio : env.bt_io_listen d.ptr bap_sink_pa_qos with
      | none => rw [hio] at h; cases h; rfl
      | some io => rw [hio] at h; cases h; rfl

theorem pa_and_big_sync_req (env : Env) (w : World) (req : bap_bcast_pa_req)
    (x : bap_bcast_pa_req × World) (h : pa_and_big_sync env w req = some x) :
    x.1 = { req with in_progress := true } := by
  unfold pa_and_big_sync at h
  cases hs : w.setup req.data with
  | none => rw [hs] at h; cases h
  | some s =>
    rw [hs] at h
    simp only [] at h
    cases hd : (env.bt_bap_get_user_data (env.bt_bap_stream_get_session s.stream)).bind
        w.service_data with
    | none => rw [hd] at h; cases h
    | some d =>
      rw [hd] at h
      simp only [] at h
      split_ifs at h
      cases hl : env.bt_io_listen d.ptr bap_sink_pa_qos with
      | none => rw [hl] at h; cases h; rfl
      | some io => rw [hl] at h; cases h; rfl

/-- C23 (as stated, refuted): in `world_pa_listening` no request is in
progress and the head of the queue is a short-sync request of a session that
has a listen channel already; the tick dispatches it, `short_lived_pa_sync`
returns at "Already probed", and the head request is not in progress after
the tick. -/
theorem pa_idle_timer_already_probed :
    (pa_idle_timer env_pa world_pa_listening 40).map
      (fun r => (r.1, r.2.adapters.map (fun a => a.bcast_pa_requests)))
      = some (true, [[{ ptr := 50, type := BAP_PA_SHORT_REQ, in_progress := false,
                        data := 30 }]]) ∧
    (pa_idle_timer env_pa world_pa_listening 40).map (fun r => r.2.log) = some [] := by
  decide

/-- C23 (amended): a tick of `pa_idle_timer` that returns does one of: with a
request in progress, nothing, and the timer is kept; with none in progress
and an empty queue, it sets `pa_timer_id` to 0 and returns FALSE; otherwise
it dispatches the head request, the rest of the queue staying as it is and
not in progress, and the head request is in progress afterwards, unless it is
a short-sync request of a session that has a listen channel already, in which
case the request is left as it is and no call is made. -/
theorem pa_idle_timer_tick (env : Env) (w w' : World) (adapter : Nat) (a : bap_adapter)
    (r : Bool) (ha : w.adapter adapter = some a)
    (ht : ∀ q ∈ a.bcast_pa_requests, q.type = BAP_PA_SHORT_REQ ∨ q.type = BAP_PA_BIG_SYNC_REQ)
    (h : pa_idle_timer env w adapter = some (r, w')) :
    (a.bcast_pa_requests.any (fun q => q.in_progress) = true → r = true ∧ w' = w) ∧
    (a.bcast_pa_requests = [] →
      r = false ∧ w' = w.put_adapter { a with pa_timer_id := 0 }) ∧
    (∀ req rest, a.bcast_pa_requests.any (fun q => q.in_progress) = false →
      a.bcast_pa_requests = req :: rest →
      r = true ∧ (∀ q ∈ rest, q.in_progress = false) ∧
      ∃ req', w'.adapter adapter = some { a with bcast_pa_requests := req' :: rest } ∧
        (already_probed w req → req' = req ∧ w'.log = w.log) ∧
        (¬ already_probed w req → req' = { req with in_progress := true })) := by
  have hp : a.ptr = adapter := find_ptr_eq (fun x : bap_adapter => x.ptr) _ _ _ ha
  unfold pa_idle_timer at h
  rw [ha] at h
  simp only [] at h
  refine ⟨?_, ?_, ?_⟩
  · intro hany
    rw [if_pos hany] at h
    cases h
    exact ⟨rfl, rfl⟩
  · intro hq
    rw [hq] at h
    simp only [List.any_nil, Bool.false_eq_true, if_false, Option.some.injEq,
      Prod.mk.injEq] at h
    have e : ({ a with pa_timer_id := 0 } : bap_adapter)
        = { ptr := a.ptr, adapter := a.adapter, pa_timer_id := 0, bcast_pa_requests := [] } := by
      rw [← hq]
    rw [e]
    exact ⟨h.1.symm, h.2.symm⟩
  · intro req rest hany hq
    have hany' : ¬ (a.bcast_pa_requests.any (fun q => q.in_progress) = true) := by
      rw [hany]
      exact Bool.false_ne_true
    rw [if_neg hany'] at h
    rw [hq] at h hany
    have hrest : ∀ q ∈ rest, q.in_progress = false := by
      intro q hq'
      rw [List.any_cons, Bool.or_eq_false_iff] at hany
      have h2 := hany.2
      rw [List.any_eq_false] at h2
      simpa using h2 q hq'
    simp only [] at h
    by_cases ht1 : req.type = BAP_PA_SHORT_REQ
    · rw [if_pos ht1] at h
      cases hs : short_lived_pa_sync env w req with
      | none => rw [hs] at h; cases h
      | some x =>
        rw [hs] at h
        simp only [Option.map_some', Option.some.injEq, Prod.mk.injEq] at h
        obtain ⟨h1, h2⟩ := h
        have had := short_lived_pa_sync_adapters env w req x hs
        have hx : x.2.2.adapter adapter = some a := by
          unfold World.adapter
          rw [had]
          exact ha
        obtain ⟨c1, c2⟩ := short_lived_pa_sync_cases env w req x hs
        refine ⟨h1.symm, hrest, x.2.1, ?_, ?_, ?_⟩
        · rw [← h2]
          exact adapter_put_adapter _ _ a _ hx hp
        · rintro ⟨_, hl⟩
          obtain ⟨e1, e2⟩ := c1 hl
          refine ⟨e1, ?_⟩
          rw [← h2, e2]
          rfl
        · intro hna
          apply c2
          cases hl : ((w.service_data req.data).bind (fun d => d.listen_io)).isSome with
          | false => rfl
          | true => exact absurd ⟨ht1, hl⟩ hna
    · rw [if_neg ht1] at h
      have ht2 : req.type = BAP_PA_BIG_SYNC_REQ := by
        rcases ht req (by rw [hq]; exact List.mem_cons_self _ _) with h1 | h1
        · exact absurd h1 ht1
        · exact h1
      rw [if_pos ht2] at h
      cases hs : pa_and_big_sync env w req with
      | none => rw [hs] at h; cases h
      | some x =>
        rw [hs] at h
        simp only [Option.map_some', Option.some.injEq, Prod.mk.injEq] at h
        obtain ⟨h1, h2⟩ := h
        have had := pa_and_big_sync_adapters env w req x hs
        have hx : x.2.adapter adapter = some a := by
          unfold World.adapter
          rw [had]
          exact ha
        refine ⟨h1.symm, hrest, x.1, ?_, ?_, ?_⟩
        · rw [← h2]
          exact adapter_put_adapter _ _ a _ hx hp
        · rintro ⟨hc, _⟩
          exact absurd hc ht1
        · intro _
          exact pa_and_big_sync_req env w req x hs

/-- The tick of `world_pa_probed`, in which the probe queued a short-sync
request for a session without listen channel: the request is dispatched and
is in progress afterwards. -/
theorem pa_idle_timer_tick_witness :
    world_pa_probed.adapter 40
      = some { ptr := 40, adapter := 1, pa_timer_id := 6040,
               bcast_pa_requests := [{ ptr := 42, type := BAP_PA_SHORT_REQ, data := 30 }] } ∧
    pa_idle_timer env_pa world_pa_probed 40 = some (true, world_pa_ticked) ∧
    ¬ already_probed world_pa_probed { ptr := 42, type := BAP_PA_SHORT_REQ, data := 30 } ∧
    ∃ req', world_pa_ticked.adapter 40
        = some { ptr := 40, adapter := 1, pa_timer_id := 6040,
                 bcast_pa_requests := [req'] } ∧
      req' = { ptr := 42, type := BAP_PA_SHORT_REQ, in_progress := true, data := 30 } :=
  ⟨by decide, by decide, by decide,
    Exists.elim
      ((pa_idle_timer_tick env_pa world_pa_probed world_pa_ticked 40
        { ptr := 40, adapter := 1, pa_timer_id := 6040,
          bcast_pa_requests := [{ ptr := 42, type := BAP_PA_SHORT_REQ, data := 30 }] }
        true (by decide) (by decide) (by decide)).2.2
        { ptr := 42, type := BAP_PA_SHORT_REQ, data := 30 } [] (by decide) rfl).2.2
      (fun req' hh => ⟨req', hh.1, hh.2.2 (by decide)⟩)⟩

/-- C24: when `bt_io_get` fails, `iso_pa_sync_confirm_cb` shuts the channel
down and returns, and the request stays in the queue of the adapter.  In
`world_pa_ticked` the short-sync request 42 is in progress; after the
callback with a failing `bt_io_get` it is still queued and in progress, and
the next tick of the timer finds it in progress and dispatches nothing.  With
a `bt_io_get` that succeeds the callback removes the request. -/
theorem iso_pa_sync_confirm_cb_error_keeps_request :
    (∀ env w io req, env.bt_io_get io = none →
      iso_pa_sync_confirm_cb env w io req = some (w.emit [Event.g_io_channel_shutdown io])) ∧
    world_pa_ticked.adapters.map (fun a => a.bcast_pa_requests)
      = [[{ ptr := 42, type := BAP_PA_SHORT_REQ, in_progress := true, data := 30 }]] ∧
    (iso_pa_sync_confirm_cb env_pa world_pa_ticked 90
        { ptr := 42, type := BAP_PA_SHORT_REQ, in_progress := true, data := 30 }).map
      (fun w => w.adapters.map (fun a => a.bcast_pa_requests))
      = some [[{ ptr := 42, type := BAP_PA_SHORT_REQ, in_progress := true, data := 30 }]] ∧
    ((iso_pa_sync_confirm_cb env_pa world_pa_ticked 90
        { ptr := 42, type := BAP_PA_SHORT_REQ, in_progress := true, data := 30 }).bind
      (fun w => (pa_idle_timer env_pa w 40).map (fun r => (r.1, decide (r.2 = w)))))
      = some (true, true) ∧
    (iso_pa_sync_confirm_cb env_pa_base world_pa_ticked 90
        { ptr := 42, type := BAP_PA_SHORT_REQ, in_progress := true, data := 30 }).map
      (fun w => w.adapters.map (fun a => a.bcast_pa_requests)) = some [[]] := by
  refine ⟨?_, by decide, by decide, by decide, by decide⟩
  intro env w io req h
  unfold iso_pa_sync_confirm_cb
  rw [h]

theorem parse_base_bises_more (env : Env) (data : bap_data) (qos : bt_iso_qos)
    (codec caps meta : List Nat) (bs : List spec_bis) (m : Nat) (rest : List Nat) (w : World) :
    parse_base_bises env data qos codec (lv_iovec caps) (lv_iovec meta) (bs.length + m)
        (bs.flatMap spec_bis.encode ++ rest) w
      = parse_base_bises env data qos codec (lv_iovec caps) (lv_iovec meta) m rest
          (create_streams env data qos (matched_bises env data.bap codec caps meta bs) w) := by
  induction bs generalizing w with
  | nil => simp [create_streams, matched_bises]
  | cons b bs ih =>
    have henc : (b :: bs).flatMap spec_bis.encode ++ rest
        = b.index :: b.caps.length :: (b.caps ++ (bs.flatMap spec_bis.encode ++ rest)) := by
      simp [List.flatMap_cons, spec_bis.encode]
    have hlen : (b :: bs).length + m = (bs.length + m) + 1 := by
      rw [List.length_cons]
      omega
    rw [henc, hlen, parse_base_bises]
    simp only [util_iov_pull_u8, pull_lv_encode]
    have hcons : ∀ x, create_streams env data qos
        (x :: matched_bises env data.bap codec caps meta bs) w
        = create_streams env data qos (matched_bises env data.bap codec caps meta bs)
          (create_stream_for_bis env w data.ptr x.lpac qos x.caps x.meta
            (bis_path env data x.index)) := fun x => rfl
    have hm : matched_bises env data.bap codec caps meta (b :: bs)
        = (match env.bt_bap_verify_bis data.bap b.index codec (lv_iovec caps)
              (lv_iovec b.caps) with
            | (some lpac, some merged) => some (matched_bis.mk lpac merged meta b.index)
            | _ => none).toList ++ matched_bises env data.bap codec caps meta bs := by
      unfold matched_bises
      rw [List.filterMap_cons]
      split <;> simp_all
    rw [hm]
    cases env.bt_bap_verify_bis data.bap b.index codec (lv_iovec caps) (lv_iovec b.caps) with
    | mk lp mc =>
      cases lp with
      | none => simp only []; rw [ih]; rfl
      | some lpac =>
        cases mc with
        | none => simp only []; rw [ih]; rfl
        | some merged =>
          simp only [lv_iovec_bytes]
          rw [ih]
          exact congrArg _ (hcons (matched_bis.mk lpac merged meta b.index)).symm

theorem parse_base_subgroups_more (env : Env) (data : bap_data) (qos : bt_iso_qos)
    (ss : List spec_subgroup) (m : Nat) (rest : List Nat) (w : World)
    (hv : ∀ s ∈ ss, s.valid) :
    parse_base_subgroups env data qos (ss.length + m)
        (ss.flatMap spec_subgroup.encode ++ rest) w
      = parse_base_subgroups env data qos m rest (create_streams env data qos
          (ss.flatMap (spec_subgroup.matched env data.bap)) w) := by
  induction ss generalizing w with
  | nil => simp [create_streams]
  | cons s ss ih =>
    have henc : (s :: ss).flatMap spec_subgroup.encode ++ rest
        = s.bises.length :: (s.codec ++ (s.caps.length :: (s.caps ++ (s.meta.length ::
            (s.meta ++ (s.bises.flatMap spec_bis.encode ++
              (ss.flatMap spec_subgroup.encode ++ rest))))))) := by
      simp [List.flatMap_cons, spec_subgroup.encode]
    have hlen : (s :: ss).length + m = (ss.length + m) + 1 := by
      rw [List.length_cons]
      omega
    rw [henc, hlen, parse_base_subgroups]
    simp only [util_iov_pull_u8, pull_mem_codec _ _ (hv s (List.mem_cons_self _ _)).1,
      pull_lv_encode, parse_base_bises_encode, if_true]
    rw [ih _ (fun x hx => hv x (List.mem_cons_of_mem _ hx)), List.flatMap_cons,
      create_streams_append]
    rfl

theorem parse_base_bises_empty (env : Env) (data : bap_data) (qos : bt_iso_qos)
    (codec : List Nat) (l2 meta : iovec) (m : Nat) (w : World) (hm : 0 < m) :
    parse_base_bises env data qos codec l2 meta m [] w = (false, [], w) := by
  cases m with
  | zero => cases hm
  | succ k => rfl

theorem parse_base_cut_at (env : Env) (w : World) (p : Nat) (data : bap_data) (b : spec_base)
    (more : Nat) (c : subgroup_cut) (qos : bt_iso_qos) (hd : w.data p = some data)
    (hv : b.valid) (hc : c.valid) :
    parse_base env w p (b.encode_cut_at more c) qos
      = some (false, create_streams env data qos
          (b.matched env data.bap ++
            c.present.flatMap (spec_subgroup.matched env data.bap)) w) := by
  unfold parse_base
  rw [hd]
  simp only [spec_base.encode_cut_at, util_iov_pull_le24, util_iov_pull_u8]
  rw [parse_base_subgroups_more env data qos b.subgroups (more + 1) _ w hv.2.2]
  cases c with
  | count =>
    simp [subgroup_cut.encode, subgroup_cut.present, parse_base_subgroups, util_iov_pull_u8,
      spec_base.matched]
  | caps_length n codec =>
    have hcod : codec.length = 5 := hc
    have henc : subgroup_cut.encode (.caps_length n codec) = n :: (codec ++ []) := by
      simp [subgroup_cut.encode]
    rw [henc, parse_base_subgroups]
    simp only [util_iov_pull_u8, pull_mem_codec _ _ hcod, pull_lv]
    simp [subgroup_cut.present, spec_base.matched]
  | meta_length n codec caps =>
    have hcod : codec.length = 5 := hc.1
    have henc : subgroup_cut.encode (.meta_length n codec caps)
        = n :: (codec ++ (caps.length :: (caps ++ []))) := by
      simp [subgroup_cut.encode]
    rw [henc, parse_base_subgroups]
    simp only [util_iov_pull_u8, pull_mem_codec _ _ hcod, pull_lv_encode]
    simp [pull_lv, util_iov_pull_u8, subgroup_cut.present, spec_base.matched]
  | bis_index s missing =>
    have hs : s.valid := hc.1
    have hm : 0 < missing := hc.2
    have henc : subgroup_cut.encode (.bis_index s missing)
        = (s.bises.length + missing) :: (s.codec ++ (s.caps.length :: (s.caps ++
            (s.meta.length :: (s.meta ++ (s.bises.flatMap spec_bis.encode ++ [])))))) := by
      simp [subgroup_cut.encode]
    rw [henc, parse_base_subgroups]
    simp only [util_iov_pull_u8, pull_mem_codec _ _ hs.1, pull_lv_encode,
      parse_base_bises_more, parse_base_bises_empty _ _ _ _ _ _ _ _ hm]
    rw [create_streams_append]
    simp [subgroup_cut.present, spec_base.matched, spec_subgroup.matched]
  | bis_caps_length s missing index =>
    have hs : s.valid := hc.1
    have hm : 0 < missing := hc.2
    have henc : subgroup_cut.encode (.bis_caps_length s missing index)
        = (s.bises.length + missing) :: (s.codec ++ (s.caps.length :: (s.caps ++
            (s.meta.length :: (s.meta ++ (s.bises.flatMap spec_bis.encode ++ [index])))))) := by
      simp [subgroup_cut.encode]
    have hlast : ∀ w', parse_base_bises env data qos s.codec (lv_iovec s.caps)
        (lv_iovec s.meta) missing [index] w' = (false, [], w') := by
      intro w'
      cases missing with
      | zero => cases hm
      | succ k => rfl
    rw [henc, parse_base_subgroups]
    simp only [util_iov_pull_u8, pull_mem_codec _ _ hs.1, pull_lv_encode,
      parse_base_bises_more, hlast]
    rw [create_streams_append]
    simp [subgroup_cut.present, spec_base.matched, spec_subgroup.matched]

/-- C25 (as stated, refuted), in two ways.  (1) A count field: the blob holds
one subgroup that announces two BISes and ends after the first; `parse_base`
returns false, but the setup of BIS 1 of this subgroup has been created, with
the identifier "/dev_7/bis1".  (2) A length field: the blob holds one
subgroup whose metadata length, 9, runs past the end of the blob, where 5
bytes are left; `util_iov_pull_mem` returns `NULL`, which is not tested, and
`parse_base` reads the BIS list at the unmoved cursor, creates the setup
"/dev_7/bis1" and returns true. -/
theorem parse_base_keeps_earlier_bis :
    ((spec_base.mk 40000 []).encode_cut_at 0 (.bis_index subgroup_1 1)
       = [64, 156, 0, 1, 2, 6, 0, 0, 0, 0, 3, 2, 1, 3, 4, 3, 2, 4, 0, 1, 3, 2, 3, 1] ∧
     (parse_base env_sink world_sink 1
         ((spec_base.mk 40000 []).encode_cut_at 0 (.bis_index subgroup_1 1)) {}).map
       (fun r => (r.1, bis_paths r.2.log, r.2.setups.length))
       = some (false, ["/dev_7/bis1"], 1)) ∧
    (util_iov_pull_mem [1, 3, 2, 3, 1] 9 = none ∧
     pull_lv [9, 1, 3, 2, 3, 1] = some ({ iov_base := none, iov_len := 9 }, [1, 3, 2, 3, 1]) ∧
     (parse_base env_sink world_sink 1
         [64, 156, 0, 1, 1, 6, 0, 0, 0, 0, 3, 2, 1, 3, 9, 1, 3, 2, 3, 1] {}).map
       (fun r => (r.1, bis_paths r.2.log, r.2.setups.length))
       = some (true, ["/dev_7/bis1"], 1)) := by
  decide

/-- C25 (amended): on a BASE blob that ends where a one-byte field of a
subgroup is expected (its BIS count, the length of its level 2 capabilities
or of its metadata, the index of a BIS that its count announces or the length
of the capabilities of that BIS), `parse_base` returns false and stops: the
setups of the earlier subgroups and of the BISes of this subgroup that
precede the fault have been created, exactly as for the blob that holds the
earlier subgroups and these BISes without a fault, and no other setup is
created. -/
theorem parse_base_stops_at_overrun (env : Env) (w : World) (p : Nat) (data : bap_data)
    (b : spec_base) (more : Nat) (c : subgroup_cut) (qos : bt_iso_qos)
    (hd : w.data p = some data) (hv : b.valid) (hc : c.valid)
    (hl : b.subgroups.length + c.present.length < 256) :
    parse_base env w p (b.encode_cut_at more c) qos
      = some (false, create_streams env data qos
          (b.matched env data.bap ++
            c.present.flatMap (spec_subgroup.matched env data.bap)) w) ∧
    parse_base env w p (spec_base.mk b.pres_delay (b.subgroups ++ c.present)).encode qos
      = some (true, create_streams env data qos
          (b.matched env data.bap ++
            c.present.flatMap (spec_subgroup.matched env data.bap)) w) ∧
    bis_paths (create_streams env data qos
        (b.matched env data.bap ++
          c.present.flatMap (spec_subgroup.matched env data.bap)) w).log
      = bis_paths w.log ++ (b.matched env data.bap ++
          c.present.flatMap (spec_subgroup.matched env data.bap)).map
          (fun x => bis_path env data x.index) := by
  refine ⟨parse_base_cut_at env w p data b more c qos hd hv hc, ?_,
    (create_streams_log env data qos _ w).2.1⟩
  have hpres : ∀ x ∈ c.present, x.valid := by
    intro x hx
    cases c with
    | count => simp [subgroup_cut.present] at hx
    | caps_length n codec => simp [subgroup_cut.present] at hx
    | meta_length n codec caps => simp [subgroup_cut.present] at hx
    | bis_index s missing =>
      simp only [subgroup_cut.present, List.mem_singleton] at hx
      rw [hx]
      exact hc.1
    | bis_caps_length s missing index =>
      simp only [subgroup_cut.present, List.mem_singleton] at hx
      rw [hx]
      exact hc.1
  have hv2 : (spec_base.mk b.pres_delay (b.subgroups ++ c.present)).valid := by
    refine ⟨hv.1, ?_, ?_⟩
    · simpa using hl
    · intro x hx
      rcases List.mem_append.mp hx with h | h
      · exact hv.2.2 x h
      · exact hpres x h
  have h := parse_base_encode env w p data (spec_base.mk b.pres_delay (b.subgroups ++ c.present))
    [] qos hd hv2
  rw [List.append_nil] at h
  rw [h]
  simp [spec_base.matched, List.flatMap_append]

/-- In `world_sink`, after a BASE without subgroups: the blob that ends after
the first of two announced BISes of `subgroup_1` (the blob of
`parse_base_keeps_earlier_bis`), and the blob that ends where the metadata
length is expected. -/
theorem parse_base_stops_at_overrun_witness :
    world_sink.data 1 = some { ptr := 1, device := some 7, bap := 9, bcast_snks := some [] } ∧
    (spec_base.mk 40000 []).valid ∧
    subgroup_cut.valid (.bis_index subgroup_1 1) ∧
    subgroup_cut.valid (.meta_length 1 [6, 0, 0, 0, 0] [2, 1, 3]) ∧
    (spec_base.mk 40000 []).encode_cut_at 0 (.meta_length 1 [6, 0, 0, 0, 0] [2, 1, 3])
      = [64, 156, 0, 1, 1, 6, 0, 0, 0, 0, 3, 2, 1, 3] ∧
    parse_base env_sink world_sink 1
        ((spec_base.mk 40000 []).encode_cut_at 0 (.bis_index subgroup_1 1)) {}
      = some (false, create_streams env_sink
          { ptr := 1, device := some 7, bap := 9, bcast_snks := some [] } {}
          ((spec_base.mk 40000 []).matched env_sink 9 ++ subgroup_1.matched env_sink 9)
          world_sink) ∧
    parse_base env_sink world_sink 1
        ((spec_base.mk 40000 []).encode_cut_at 0 (.meta_length 1 [6, 0, 0, 0, 0] [2, 1, 3])) {}
      = some (false, world_sink) :=
  ⟨by decide, by decide, by decide, by decide, by decide,
   (parse_base_stops_at_overrun env_sink world_sink 1
      { ptr := 1, device := some 7, bap := 9, bcast_snks := some [] } (spec_base.mk 40000 []) 0
      (.bis_index subgroup_1 1) {} (by decide) (by decide) (by decide) (by decide)).1,
   (parse_base_stops_at_overrun env_sink world_sink 1
      { ptr := 1, device := some 7, bap := 9, bcast_snks := some [] } (spec_base.mk 40000 []) 0
      (.meta_length 1 [6, 0, 0, 0, 0] [2, 1, 3]) {} (by decide) (by decide) (by decide)
      (by decide)).1⟩

set_option maxRecDepth 100000 in
theorem scan_int_toString : ∀ i, i < 256 →
    scan_int (toString i).toList = scan_result.value (Int.ofNat i) := by
  decide


theorem strstr_bis (p d : List Char) (h : ¬ ("/bis".toList <:+: p)) :
    strstr (p ++ ("/bis".toList ++ d)) "/bis".toList = some ("/bis".toList ++ d) := by
  induction p with
  | nil =>
    show strstr ('/' :: 'b' :: 'i' :: 's' :: d) ['/', 'b', 'i', 's'] = _
    rw [strstr]
    simp
  | cons c cs ih =>
    have hcs : ¬ ("/bis".toList <:+: cs) := fun hc => h (List.infix_cons hc)
    have hnp : ¬ (("/bis".toList).isPrefixOf (c :: (cs ++ ("/bis".toList ++ d))) = true) := by
      intro hp
      rw [List.isPrefixOf_iff_prefix] at hp
      apply h
      match cs, hp with
      | [], hp =>
        have : ['/', 'b', 'i', 's'] <+: c :: '/' :: 'b' :: 'i' :: 's' :: d := hp
        obtain ⟨t, ht⟩ := this
        simp at ht
      | [c2], hp =>
        have : ['/', 'b', 'i', 's'] <+: c :: c2 :: '/' :: 'b' :: 'i' :: 's' :: d := hp
        obtain ⟨t, ht⟩ := this
        simp at ht
      | [c2, c3], hp =>
        have : ['/', 'b', 'i', 's'] <+: c :: c2 :: c3 :: '/' :: 'b' :: 'i' :: 's' :: d := hp
        obtain ⟨t, ht⟩ := this
        simp at ht
      | c2 :: c3 :: c4 :: rest, hp =>
        have : ['/', 'b', 'i', 's'] <+: c :: c2 :: c3 :: c4 :: (rest ++ ("/bis".toList ++ d)) := hp
        obtain ⟨t, ht⟩ := this
        simp at ht
        obtain ⟨h1, h2, h3, h4, _⟩ := ht
        subst h1 h2 h3 h4
        exact ⟨[], rest, rfl⟩
    show strstr (c :: (cs ++ ("/bis".toList ++ d))) "/bis".toList = _
    rw [strstr]
    rw [if_neg hnp]
    exact ih hcs

/-- C26 (as stated, refuted): for the peer path "/bisect/dev_7", which
contains the text "/bis", the identifier written for the BIS index 3 is
"/bisect/dev_7/bis3"; `strstr` stops at the first "/bis", `sscanf` stores
nothing and the index used is the initial value 1.  For the peer path
"/bis9" the index taken from "/bis9/bis3" is 9. -/
theorem bis_index_first_occurrence :
    "/bisect/dev_7" ++ "/bis" ++ toString 3 = "/bisect/dev_7/bis3" ∧
    iso_do_big_sync_bis_index ("/bisect/dev_7" ++ "/bis" ++ toString 3) = some 1 ∧
    iso_do_big_sync_bis_index ("/bis9" ++ "/bis" ++ toString 3) = some 9 := by
  decide

/-- C26 (amended): for every peer path `p` that does not contain the text
"/bis" and every BIS index `i` in 0..255, the BIS index that
`iso_do_big_sync` takes from the identifier `p + "/bis" + decimal(i)` is
`i`. -/
theorem bis_index_round_trip (p : String) (i : Nat) (hi : i < 256)
    (hp : ¬ ("/bis".toList <:+: p.toList)) :
    iso_do_big_sync_bis_index (p ++ "/bis" ++ toString i) = some (Int.ofNat i) := by
  unfold iso_do_big_sync_bis_index
  have hl : (p ++ "/bis" ++ toString i).toList
      = p.toList ++ ("/bis".toList ++ (toString i).toList) := by
    simp [String.toList, String.data_append]
  rw [hl, strstr_bis p.toList (toString i).toList hp]
  have hs : sscanf_bis ("/bis".toList ++ (toString i).toList)
      = scan_result.value (Int.ofNat i) := by
    unfold sscanf_bis
    have h1 : ("/bis".toList).isPrefixOf ("/bis".toList ++ (toString i).toList) = true := by
      rw [List.isPrefixOf_iff_prefix]
      exact List.prefix_append _ _
    rw [if_pos h1]
    have h2 : ("/bis".toList ++ (toString i).toList).drop 4 = (toString i).toList :=
      List.drop_left' rfl
    rw [h2]
    exact scan_int_toString i hi
  simp only [hs]

/-- The identifier of BIS 200 of the peer "/org/bluez/hci0/dev_7". -/
theorem bis_index_round_trip_witness :
    ¬ ("/bis".toList <:+: "/org/bluez/hci0/dev_7".toList) ∧
    "/org/bluez/hci0/dev_7" ++ "/bis" ++ toString 200 = "/org/bluez/hci0/dev_7/bis200" ∧
    iso_do_big_sync_bis_index ("/org/bluez/hci0/dev_7" ++ "/bis" ++ toString 200)
      = some (Int.ofNat 200) :=
  ⟨by decide, by decide,
    bis_index_round_trip "/org/bluez/hci0/dev_7" 200 (by decide) (by decide)⟩

/-- C28: in `world_sink_parsed` the broadcast sink setup 2, made by
`parse_base`, has no endpoint and is in the queue `bcast_snks` of session 1.
When its stream reaches IDLE, `bap_state_bcast_sink` finds it through
`bcast_snks` and frees it; afterwards the setup is gone but its address is
still in `bcast_snks`.  `setup_free` never changes a session, so it never
removes anything from `bcast_snks`; for a setup of an endpoint (setup 3 of
endpoint 2 in `world_big`) it does remove the setup from the queue of the
endpoint. -/
theorem setup_free_leaves_bcast_snks :
    (world_sink_parsed.setup 2).map (fun s => (s.ep, s.stream)) = some (none, some 100) ∧
    (world_sink_parsed.data 1).map (fun d => d.bcast_snks) = some (some [2]) ∧
    (world_sink_parsed.data 1).map
      (fun d => bap_find_setup_by_stream env_bsink world_sink_parsed d 100) = some (some 2) ∧
    (bap_state_bcast_sink env_bsink world_sink_parsed 100 BT_BAP_STREAM_STATE_CONFIG
      BT_BAP_STREAM_STATE_IDLE 1).setup 2 = none ∧
    ((bap_state_bcast_sink env_bsink world_sink_parsed 100 BT_BAP_STREAM_STATE_CONFIG
      BT_BAP_STREAM_STATE_IDLE 1).data 1).map (fun d => d.bcast_snks) = some (some [2]) ∧
    (∀ w p, w.wf → (setup_free w p).sessions = w.sessions) ∧
    ((setup_free world_big 3).ep 2).map (fun e => e.setups) = some [4] := by
  refine ⟨by decide, by decide, by decide, by decide, by decide, ?_, by decide⟩
  intro w p h
  exact (setup_free_owned w p h).2.2.1

/-- C29: two sink endpoints are registered for the peer 7, with the paths
"/dev_7/pac_sink0" and "/dev_7/pac_sink1"; the removal of the local PAC 13
takes the first one away.  The next `ep_register`, for the remote sink PAC
16, computes its path from the length of the list, which is 1 again:
"/dev_7/pac_sink1", the path of the endpoint that is still in the list.  The
registration of the interface fails, `ep_register` returns `NULL` and the
remote PAC 16 gets no endpoint. -/
theorem ep_register_path_reused :
    (world_two_sinks.service_data 30).map (fun d => ep_paths world_two_sinks d.snks)
      = some ["/dev_7/pac_sink0", "/dev_7/pac_sink1"] ∧
    (world_one_sink.service_data 30).map (fun d => ep_paths world_one_sink d.snks)
      = some ["/dev_7/pac_sink1"] ∧
    world_one_sink.interfaces = ["/dev_7/pac_sink1"] ∧
    (ep_register env_pacs world_one_sink 30 15 16).map (fun r => r.1) = some none ∧
    (ep_register env_pacs world_one_sink 30 15 16).map (fun r => registrations r.2.log)
      = some [Event.g_dbus_register_interface "/dev_7/pac_sink0" true,
              Event.g_dbus_register_interface "/dev_7/pac_sink1" true,
              Event.g_dbus_register_interface "/dev_7/pac_sink1" false] ∧
    (ep_register env_pacs world_one_sink 30 15 16).map
      (fun r => (r.2.service_data 30).map (fun d => ep_paths r.2 d.snks))
      = some (some ["/dev_7/pac_sink1"]) := by
  decide

end Bap

namespace Blacklist

theorem memrchr_append (a b : List Char) (hb : '/' ∉ b) (m : Nat) (hm : m ≤ b.length) :
    memrchr (a ++ '/' :: b) '/' (a.length + 1 + m) = some a.length := by
  induction m with
  | zero =>
    show memrchr (a ++ '/' :: b) '/' (a.length + 1) = some a.length
    rw [memrchr]
    have hget : (a ++ '/' :: b).get? a.length = some '/' := by
      rw [List.get?_eq_getElem?, List.getElem?_append_right (Nat.le_refl _)]
      simp
    rw [hget, if_pos rfl]
  | succ m ih =>
    show memrchr (a ++ '/' :: b) '/' (a.length + 1 + m + 1) = some a.length
    rw [memrchr]
    have hlt : m < b.length := hm
    have hget : (a ++ '/' :: b).get? (a.length + 1 + m) = some (b.get ⟨m, hlt⟩) := by
      rw [List.get?_eq_getElem?, List.getElem?_append_right (by omega)]
      have : a.length + 1 + m - a.length = m + 1 := by omega
      rw [this, List.getElem?_cons_succ, List.getElem?_eq_getElem hlt]
      rfl
    have hne : b.get ⟨m, hlt⟩ ≠ '/' := fun h => hb (h ▸ List.get_mem b m hlt)
    rw [hget, if_neg (by simpa using hne)]
    exact ih (Nat.le_of_lt hlt)

theorem render_append (kept : List (List Char)) (c : List Char) :
    render (kept ++ [c]) = render kept ++ '/' :: c := by
  unfold render
  simp [List.flatMap_append]

theorem render_pop (kept : List (List Char)) (hg : ∀ c ∈ kept, '/' ∉ c) :
    (match memrchr (render kept) G_DIR_SEPARATOR (render kept).length with
      | some s => if s > 0 then (render kept).take s else []
      | none => []) = render kept.dropLast := by
  rcases List.eq_nil_or_concat kept with h | ⟨init, l, h⟩
  · subst h
    rfl
  · subst h
    rw [List.concat_eq_append] at hg ⊢
    have hl : '/' ∉ l := hg l (by simp)
    have hlen : (render (init ++ [l])).length = (render init).length + 1 + l.length := by
      rw [render_append]
      simp
      omega
    have hm : memrchr (render (init ++ [l])) G_DIR_SEPARATOR (render (init ++ [l])).length
        = some (render init).length := by
      rw [hlen, render_append]
      exact memrchr_append (render init) l hl l.length (Nat.le_refl _)
    rw [hm, List.dropLast_append_of_ne_nil _ (by simp)]
    simp only [List.dropLast_single, List.append_nil]
    split_ifs with hpos
    · rw [render_append, List.take_left']
      rfl
    · have : (render init).length = 0 := by omega
      exact (List.length_eq_zero.mp this).symm

theorem spec_split_ne_nil (p : List Char) : spec_split p ≠ [] := by
  induction p with
  | nil => simp [spec_split]
  | cons c cs ih =>
    rw [spec_split]
    split_ifs
    · simp
    · cases h : spec_split cs with
      | nil => exact absurd h ih
      | cons a b => simp

theorem spec_split_cons_ne (c : Char) (cs : List Char) (hc : c ≠ '/') :
    ∃ h t, spec_split cs = h :: t ∧ spec_split (c :: cs) = (c :: h) :: t := by
  cases h : spec_split cs with
  | nil => exact absurd h (spec_split_ne_nil cs)
  | cons a b =>
    refine ⟨a, b, rfl, ?_⟩
    rw [spec_split, if_neg hc, h]

theorem spec_split_take (p : List Char) :
    spec_split p = p.takeWhile (fun c => c != G_DIR_SEPARATOR) ::
      (match p.dropWhile (fun c => c != G_DIR_SEPARATOR) with
        | [] => []
        | _ :: rest => spec_split rest) := by
  induction p with
  | nil => rfl
  | cons c cs ih =>
    by_cases hc : c = '/'
    · subst hc
      simp [spec_split, G_DIR_SEPARATOR]
    · obtain ⟨h, t, h1, h2⟩ := spec_split_cons_ne c cs hc
      rw [h2]
      rw [h1] at ih
      have hb : (c != G_DIR_SEPARATOR) = true := by simpa [G_DIR_SEPARATOR] using hc
      rw [List.takeWhile_cons, List.dropWhile_cons, hb]
      simp only [if_true]
      injection ih with ih1 ih2
      rw [ih1, ih2]

theorem takeWhile_no_sep (p : List Char) :
    '/' ∉ p.takeWhile (fun c => c != G_DIR_SEPARATOR) := by
  intro h
  have := List.mem_takeWhile_imp h
  simp [G_DIR_SEPARATOR] at this

theorem scan_dropWhile (p : List Char) (kept : List (List Char)) :
    (spec_split p).foldl spec_scan_step kept
      = (spec_split (p.dropWhile (fun c => c == G_DIR_SEPARATOR))).foldl spec_scan_step kept := by
  induction p with
  | nil => rfl
  | cons c cs ih =>
    by_cases hc : c = '/'
    · subst hc
      have : ('/' == G_DIR_SEPARATOR) = true := by decide
      rw [List.dropWhile_cons, this]
      simp only [if_true]
      rw [← ih]
      simp [spec_split, spec_scan_step]
    · have : (c == G_DIR_SEPARATOR) = false := by simpa [G_DIR_SEPARATOR] using hc
      rw [List.dropWhile_cons, this]
      simp

theorem dropWhile_head (p : List Char) (c : Char) (cs : List Char)
    (h : p.dropWhile (fun c => c == G_DIR_SEPARATOR) = c :: cs) : c ≠ '/' := by
  induction p with
  | nil => simp at h
  | cons x xs ih =>
    rw [List.dropWhile_cons] at h
    by_cases hx : (x == G_DIR_SEPARATOR) = true
    · rw [hx] at h
      exact ih h
    · simp only [hx] at h
      injection h with h1 _
      subst h1
      simpa [G_DIR_SEPARATOR] using hx


theorem scan_step_no_sep (kept : List (List Char)) (c : List Char)
    (hk : ∀ x ∈ kept, '/' ∉ x) (hc : '/' ∉ c) : ∀ x ∈ spec_scan_step kept c, '/' ∉ x := by
  unfold spec_scan_step
  intro x hx
  split_ifs at hx
  · exact hk x hx
  · exact hk x (List.dropLast_subset _ hx)
  · rcases List.mem_append.mp hx with h | h
    · exact hk x h
    · rw [List.mem_singleton.mp h]; exact hc

theorem render_scan_step (kept : List (List Char)) (comp : List Char)
    (hk : ∀ x ∈ kept, '/' ∉ x) (hne : comp ≠ []) :
    (if comp = ['.'] then render kept
      else if comp = ['.', '.'] then
        match memrchr (render kept) G_DIR_SEPARATOR (render kept).length with
        | some s => if s > 0 then (render kept).take s else []
        | none => []
      else render kept ++ G_DIR_SEPARATOR :: comp)
    = render (spec_scan_step kept comp) := by
  unfold spec_scan_step
  by_cases h1 : comp = ['.']
  · simp [h1]
  · by_cases h2 : comp = ['.', '.']
    · rw [if_neg h1, if_pos h2, if_neg (by simp [h2]), if_pos h2]
      exact render_pop kept hk
    · rw [if_neg h1, if_neg h2, if_neg (by simp [hne, h1]), if_neg h2, render_append]
      rfl

theorem normalized_path_loop_spec (fuel : Nat) (p : List Char) (kept : List (List Char))
    (hk : ∀ x ∈ kept, '/' ∉ x) (hf : p.length < fuel) :
    normalized_path_loop fuel (render kept) p
      = render ((spec_split p).foldl spec_scan_step kept) := by
  induction fuel generalizing p kept with
  | zero => omega
  | succ fuel ih =>
    rw [normalized_path_loop, scan_dropWhile p kept]
    have hlen : (p.dropWhile (fun c => c == G_DIR_SEPARATOR)).length ≤ p.length :=
      (List.dropWhile_sublist _).length_le
    have hhead := dropWhile_head p
    generalize p.dropWhile (fun c => c == G_DIR_SEPARATOR) = p' at hlen hhead ⊢
    simp only []
    rw [spec_split_take p']
    have hsep := takeWhile_no_sep p'
    have hq : (p'.dropWhile (fun c => c != G_DIR_SEPARATOR)).length ≤ p'.length :=
      (List.dropWhile_sublist _).length_le
    by_cases hcomp : p'.takeWhile (fun c => c != G_DIR_SEPARATOR) = []
    · rw [if_pos hcomp, hcomp]
      have hp' : p' = [] := by
        cases p' with
        | nil => rfl
        | cons c cs =>
          have hc := hhead c cs rfl
          have hb : (c != G_DIR_SEPARATOR) = true := by simpa [G_DIR_SEPARATOR] using hc
          rw [List.takeWhile_cons, hb] at hcomp
          simp at hcomp
      subst hp'
      simp [spec_scan_step]
    · rw [if_neg hcomp, render_scan_step kept _ hk hcomp]
      have hk' := scan_step_no_sep kept _ hk hsep
      generalize p'.takeWhile (fun c => c != G_DIR_SEPARATOR) = comp at hk' ⊢
      cases hqq : p'.dropWhile (fun c => c != G_DIR_SEPARATOR) with
      | nil => simp
      | cons x rest =>
        rw [hqq] at hq
        simp only [List.foldl_cons]
        apply ih rest _ hk'
        simp only [List.length_cons] at hq
        omega

theorem render_eq_nil (kept : List (List Char)) : render kept = [] ↔ kept = [] := by
  cases kept with
  | nil => simp [render]
  | cons c cs => simp [render]

theorem render_intercalate (c : List Char) (cs : List (List Char)) :
    render (c :: cs) = '/' :: List.intercalate ['/'] (c :: cs) := by
  induction cs generalizing c with
  | nil => simp [render, List.intercalate]
  | cons d ds ih =>
    have h1 : render (c :: d :: ds) = '/' :: c ++ render (d :: ds) := by simp [render]
    rw [h1, ih d]
    simp [List.intercalate, List.intersperse]

theorem normalized_path_eq (p : List Char) (h : p.head? = some '/') :
    normalized_path (some p) = some (spec_normalized_path p) := by
  unfold normalized_path spec_normalized_path spec_components
  have hh : ¬ (p.head? ≠ some G_DIR_SEPARATOR) := fun hc => hc h
  simp only [if_neg hh]
  have hl := normalized_path_loop_spec (p.length + 1) p [] (by simp) (Nat.lt_succ_self _)
  have hr : render [] = [] := rfl
  rw [hr] at hl
  rw [hl]
  cases hk : (spec_split p).foldl spec_scan_step [] with
  | nil => simp [render, G_DIR_SEPARATOR, List.intercalate]
  | cons c cs =>
    rw [if_neg (by rw [render_eq_nil]; simp), render_intercalate]


theorem spec_split_no_sep (p : List Char) : ∀ c ∈ spec_split p, '/' ∉ c := by
  induction p with
  | nil => simp [spec_split]
  | cons x xs ih =>
    by_cases hx : x = '/'
    · subst hx
      intro c hc
      simp only [spec_split, if_true, List.mem_cons] at hc
      rcases hc with rfl | hc
      · simp
      · exact ih c hc
    · obtain ⟨h, t, h1, h2⟩ := spec_split_cons_ne x xs hx
      rw [h2]
      rw [h1] at ih
      intro c hc
      rcases List.mem_cons.mp hc with rfl | hc
      · intro hm
        rcases List.mem_cons.mp hm with hm | hm
        · exact hx hm.symm
        · exact ih h (List.mem_cons_self _ _) hm
      · exact ih c (List.mem_cons_of_mem _ hc)

theorem scan_step_kept (kept : List (List Char)) (c : List Char)
    (hk : ∀ x ∈ kept, kept_component x) (hc : '/' ∉ c) :
    ∀ x ∈ spec_scan_step kept c, kept_component x := by
  unfold spec_scan_step
  intro x hx
  split_ifs at hx with h1 h2
  · exact hk x hx
  · exact hk x (List.dropLast_subset _ hx)
  · rcases List.mem_append.mp hx with h | h
    · exact hk x h
    · rw [List.mem_singleton.mp h]
      exact ⟨fun h0 => h1 (Or.inl h0), fun h0 => h1 (Or.inr h0), h2, hc⟩

theorem scan_kept (comps kept : List (List Char)) (hk : ∀ x ∈ kept, kept_component x)
    (hc : ∀ c ∈ comps, '/' ∉ c) : ∀ x ∈ comps.foldl spec_scan_step kept, kept_component x := by
  induction comps generalizing kept with
  | nil => exact hk
  | cons c cs ih =>
    exact ih _ (scan_step_kept kept c hk (hc c (List.mem_cons_self _ _)))
      (fun x hx => hc x (List.mem_cons_of_mem _ hx))

theorem spec_components_kept (p : List Char) : ∀ c ∈ spec_components p, kept_component c :=
  scan_kept (spec_split p) [] (by simp) (spec_split_no_sep p)

theorem render_length_cons (c : List Char) (cs : List (List Char)) :
    (render (c :: cs)).length = 1 + c.length + (render cs).length := by
  simp [render]
  omega

theorem render_length_dropLast (kept : List (List Char)) :
    (render kept.dropLast).length ≤ (render kept).length := by
  rcases List.eq_nil_or_concat kept with h | ⟨init, l, h⟩
  · subst h; simp
  · subst h
    rw [List.concat_eq_append, List.dropLast_append_of_ne_nil _ (by simp), render_append]
    simp

theorem scan_length (comps kept : List (List Char)) :
    (render (comps.foldl spec_scan_step kept)).length
      ≤ (render kept).length + (render comps).length := by
  induction comps generalizing kept with
  | nil => simp [render]
  | cons c cs ih =>
    rw [List.foldl_cons, render_length_cons]
    have h1 := ih (spec_scan_step kept c)
    have h2 : (render (spec_scan_step kept c)).length ≤ (render kept).length + 1 + c.length := by
      unfold spec_scan_step
      split_ifs
      · omega
      · have := render_length_dropLast kept
        omega
      · rw [render_append]
        simp
        omega
    omega

theorem render_split_length (p : List Char) : (render (spec_split p)).length = p.length + 1 := by
  induction p with
  | nil => rfl
  | cons x xs ih =>
    by_cases hx : x = '/'
    · subst hx
      simp only [spec_split, if_true]
      rw [render_length_cons, ih]
      simp
      omega
    · obtain ⟨h, t, h1, h2⟩ := spec_split_cons_ne x xs hx
      rw [h2, render_length_cons]
      rw [h1, render_length_cons] at ih
      simp only [List.length_cons] at ih ⊢
      omega

theorem spec_normalized_path_length (p : List Char) (h : p.head? = some '/') :
    (spec_normalized_path p).length ≤ p.length := by
  cases p with
  | nil => simp at h
  | cons x xs =>
    have hx : x = '/' := by simpa using h
    subst hx
    unfold spec_normalized_path spec_components
    have hs : spec_split ('/' :: xs) = [] :: spec_split xs := by simp [spec_split]
    rw [hs, List.foldl_cons]
    have h0 : spec_scan_step [] [] = [] := by simp [spec_scan_step]
    rw [h0]
    have hl := scan_length (spec_split xs) []
    rw [render_split_length] at hl
    cases hk : (spec_split xs).foldl spec_scan_step [] with
    | nil => simp [List.intercalate]
    | cons c cs =>
      rw [hk] at hl
      rw [← render_intercalate]
      simp only [render, List.flatMap_nil, List.length_nil, List.length_cons] at hl ⊢
      omega

theorem render_getLast (kept : List (List Char)) (hk : ∀ x ∈ kept, kept_component x)
    (hne : kept ≠ []) : (render kept).getLast? ≠ some '/' := by
  rcases List.eq_nil_or_concat kept with h | ⟨init, l, h⟩
  · exact absurd h hne
  · subst h
    rw [List.concat_eq_append] at hk ⊢
    obtain ⟨hl1, _, _, hl4⟩ := hk l (by simp)
    rw [render_append]
    obtain ⟨a, b, hab⟩ := List.exists_cons_of_ne_nil hl1
    intro hc
    rw [hab] at hc hl4
    have : (render init ++ '/' :: a :: b).getLast? = (a :: b).getLast? := by
      rw [show render init ++ '/' :: a :: b = (render init ++ ['/']) ++ (a :: b) by simp]
      exact List.getLast?_append_of_ne_nil _ (by simp)
    rw [this] at hc
    have hmem := List.mem_of_getLast?_eq_some hc
    exact hl4 hmem


theorem spec_split_append (c r : List Char) (hc : '/' ∉ c) :
    ∃ h t, spec_split r = h :: t ∧ spec_split (c ++ r) = (c ++ h) :: t := by
  induction c with
  | nil =>
    cases h : spec_split r with
    | nil => exact absurd h (spec_split_ne_nil r)
    | cons a b => exact ⟨a, b, rfl, by simpa using h⟩
  | cons x xs ih =>
    have hx : x ≠ '/' := fun h => hc (by simp [h])
    obtain ⟨h, t, h1, h2⟩ := ih (fun h => hc (List.mem_cons_of_mem _ h))
    obtain ⟨h', t', h3, h4⟩ := spec_split_cons_ne x (xs ++ r) hx
    rw [h2] at h3
    injection h3 with h5 h6
    refine ⟨h, t, h1, ?_⟩
    rw [List.cons_append, h4, ← h5, ← h6]
    rfl

theorem spec_split_render (kept : List (List Char)) (hk : ∀ x ∈ kept, '/' ∉ x)
    (hne : kept ≠ []) : spec_split (render kept) = [] :: kept := by
  induction kept with
  | nil => exact absurd rfl hne
  | cons c cs ih =>
    have hr : render (c :: cs) = '/' :: (c ++ render cs) := by simp [render]
    rw [hr]
    simp only [spec_split, if_true]
    obtain ⟨h, t, h1, h2⟩ := spec_split_append c (render cs) (hk c (List.mem_cons_self _ _))
    rw [h2]
    cases cs with
    | nil =>
      have : spec_split (render []) = [[]] := rfl
      rw [this] at h1
      injection h1 with h3 h4
      rw [← h3, ← h4]
      simp
    | cons d ds =>
      rw [ih (fun x hx => hk x (List.mem_cons_of_mem _ hx)) (by simp)] at h1
      injection h1 with h3 h4
      rw [← h3, ← h4]
      simp

theorem scan_kept_id (kept acc : List (List Char)) (hk : ∀ x ∈ kept, kept_component x) :
    kept.foldl spec_scan_step acc = acc ++ kept := by
  induction kept generalizing acc with
  | nil => simp
  | cons c cs ih =>
    obtain ⟨h1, h2, h3, _⟩ := hk c (List.mem_cons_self _ _)
    rw [List.foldl_cons, ih _ (fun x hx => hk x (List.mem_cons_of_mem _ hx))]
    unfold spec_scan_step
    rw [if_neg (by simp [h1, h2]), if_neg h3]
    simp

theorem spec_components_idem (p : List Char) :
    spec_components (spec_normalized_path p) = spec_components p := by
  have hk := spec_components_kept p
  unfold spec_normalized_path
  generalize spec_components p = kept at hk ⊢
  cases kept with
  | nil => decide
  | cons c cs =>
    rw [← render_intercalate]
    unfold spec_components
    rw [spec_split_render _ (fun x hx => (hk x hx).2.2.2) (by simp), List.foldl_cons]
    have h0 : spec_scan_step [] [] = [] := by simp [spec_scan_step]
    rw [h0, scan_kept_id _ [] hk]
    rfl

theorem spec_normalized_path_idem (p : List Char) :
    spec_normalized_path (spec_normalized_path p) = spec_normalized_path p := by
  show '/' :: List.intercalate ['/'] (spec_components (spec_normalized_path p)) = _
  rw [spec_components_idem]
  rfl


/-- C13: `normalized_path` returns `NULL` for `NULL` and for a path that
does not start with '/'; for every other path it returns '/' followed by the
'/'-joined list of the components kept by the scan (empty and "."
components dropped, ".." removing the most recently kept component); every
kept component is non-empty, is not "." or ".." and has no separator; the
result ends in '/' only when it is "/"; and it is not longer than the
path. -/
theorem normalized_path_spec :
    normalized_path none = none ∧
    (∀ p : List Char, p.head? ≠ some '/' → normalized_path (some p) = none) ∧
    (∀ p : List Char, p.head? = some '/' →
      normalized_path (some p) = some ('/' :: List.intercalate ['/'] (spec_components p)) ∧
      (∀ c ∈ spec_components p, kept_component c) ∧
      ((spec_normalized_path p).getLast? = some '/' → spec_normalized_path p = ['/']) ∧
      (spec_normalized_path p).length ≤ p.length) := by
  refine ⟨rfl, ?_, ?_⟩
  · intro p hp
    unfold normalized_path
    simp only []
    exact if_pos hp
  · intro p hp
    refine ⟨normalized_path_eq p hp, spec_components_kept p, ?_, spec_normalized_path_length p hp⟩
    intro hl
    unfold spec_normalized_path at hl ⊢
    have hk := spec_components_kept p
    generalize spec_components p = kept at hk hl ⊢
    cases kept with
    | nil => rfl
    | cons c cs =>
      rw [← render_intercalate] at hl
      exact absurd hl (render_getLast _ hk (by simp))

/-- The path "/dir1/dir2/dir3/../../../../../dir4/" of the unit test
normalises to "/dir4", and "not/absolute" has no result. -/
theorem normalized_path_spec_witness :
    "/dir1/dir2/dir3/../../../../../dir4/".toList.head? = some '/' ∧
    "not/absolute".toList.head? ≠ some '/' ∧
    spec_components "/dir1/dir2/dir3/../../../../../dir4/".toList = ["dir4".toList] ∧
    normalized_path (some "/dir1/dir2/dir3/../../../../../dir4/".toList)
      = some ('/' :: List.intercalate ['/']
          (spec_components "/dir1/dir2/dir3/../../../../../dir4/".toList)) ∧
    normalized_path (some "not/absolute".toList) = none :=
  ⟨by decide, by decide, by decide,
   (normalized_path_spec.2.2 "/dir1/dir2/dir3/../../../../../dir4/".toList (by decide)).1,
   normalized_path_spec.2.1 "not/absolute".toList (by decide)⟩

theorem prefix_sep_iff (root path : List Char) :
    (root.isPrefixOf path && (path.get? root.length == some G_DIR_SEPARATOR)) = true
      ↔ root ++ ['/'] <+: path := by
  rw [Bool.and_eq_true, List.isPrefixOf_iff_prefix]
  constructor
  · rintro ⟨⟨t, rfl⟩, h2⟩
    have : (root ++ t).get? root.length = t.head? := by
      rw [List.get?_eq_getElem?, List.getElem?_append_right (Nat.le_refl _)]
      simp [List.head?_eq_getElem?]
    rw [this] at h2
    cases t with
    | nil => simp at h2
    | cons c cs =>
      have hc : c = '/' := by simpa [G_DIR_SEPARATOR] using h2
      subst hc
      exact ⟨cs, by simp⟩
  · rintro ⟨t, rfl⟩
    refine ⟨⟨'/' :: t, by simp⟩, ?_⟩
    have : (root ++ ['/'] ++ t).get? root.length = some '/' := by
      rw [List.get?_eq_getElem?, List.append_assoc,
        List.getElem?_append_right (Nat.le_refl _)]
      simp
    rw [this]
    rfl

theorem covered_iff (e s : List Char) :
    (e.isPrefixOf s && ends_or_separator s e.length) = true ↔ spec_covered e s := by
  unfold spec_covered ends_or_separator
  rw [Bool.and_eq_true, List.isPrefixOf_iff_prefix]
  constructor
  · rintro ⟨⟨t, rfl⟩, h2⟩
    have : (e ++ t).get? e.length = t.head? := by
      rw [List.get?_eq_getElem?, List.getElem?_append_right (Nat.le_refl _)]
      simp [List.head?_eq_getElem?]
    rw [this] at h2
    cases t with
    | nil => left; simp
    | cons c cs =>
      have hc : c = '/' := by simpa [G_DIR_SEPARATOR] using h2
      subst hc
      right
      exact ⟨cs, by simp⟩
  · rintro (rfl | ⟨t, rfl⟩)
    · refine ⟨List.prefix_refl _, ?_⟩
      have : s.get? s.length = none := by simp
      rw [this]
    · refine ⟨⟨'/' :: t, by simp⟩, ?_⟩
      have : (e ++ ['/'] ++ t).get? e.length = some '/' := by
        rw [List.get?_eq_getElem?, List.append_assoc,
          List.getElem?_append_right (Nat.le_refl _)]
        simp
      rw [this]
      rfl

theorem under_iff (s : List Char) (data : blacklist_data) :
    blacklist_match_under s data = true ↔ ∃ e ∈ data.elem, spec_covered e s := by
  unfold blacklist_match_under
  rw [List.any_eq_true]
  constructor
  · rintro ⟨e, he, h⟩
    exact ⟨e, he, (covered_iff e s).mp h⟩
  · rintro ⟨e, he, h⟩
    exact ⟨e, he, (covered_iff e s).mpr h⟩

theorem blacklist_match_loop_spec (bl : List blacklist_data) (n : List Char)
    (hr : ∀ b ∈ bl, b.path ≠ none) :
    ∃ r, blacklist_match_loop bl n = some r ∧ (r = true ↔ ∃ b ∈ bl, spec_blacklisted b n) := by
  induction bl with
  | nil => exact ⟨false, rfl, by simp⟩
  | cons b rest ih =>
    obtain ⟨r, h1, h2⟩ := ih (fun x hx => hr x (List.mem_cons_of_mem _ hx))
    rw [blacklist_match_loop]
    cases hp : b.path with
    | none => exact absurd hp (hr b (List.mem_cons_self _ _))
    | some root =>
      simp only []
      have hb : spec_blacklisted b n ↔ (root ++ ['/'] <+: n ∧
          ∃ e ∈ b.elem, spec_covered e (n.drop (root.length + 1))) := by
        unfold spec_blacklisted
        constructor
        · rintro ⟨r', s, hr', hn, h⟩
          rw [hp] at hr'
          cases hr'
          subst hn
          refine ⟨⟨s, by simp⟩, ?_⟩
          have hd : (root ++ '/' :: s).drop (root.length + 1) = s := by
            rw [show root ++ '/' :: s = (root ++ ['/']) ++ s by simp]
            exact List.drop_left' (by simp)
          rw [hd]
          exact h
        · rintro ⟨⟨t, rfl⟩, h⟩
          have hd : (root ++ ['/'] ++ t).drop (root.length + 1) = t :=
            List.drop_left' (by simp)
          rw [hd] at h
          exact ⟨root, t, hp, by simp, h⟩
      by_cases hc : (root.isPrefixOf n && (n.get? root.length == some G_DIR_SEPARATOR)) = true
      · rw [if_pos hc]
        by_cases hu : blacklist_match_under (n.drop (root.length + 1)) b = true
        · rw [if_pos hu]
          refine ⟨true, rfl, ?_⟩
          simp only [true_iff]
          exact ⟨b, List.mem_cons_self _ _,
            hb.mpr ⟨(prefix_sep_iff root n).mp hc, (under_iff _ b).mp hu⟩⟩
        · rw [if_neg hu]
          refine ⟨r, h1, h2.trans ?_⟩
          constructor
          · rintro ⟨x, hx, h⟩
            exact ⟨x, List.mem_cons_of_mem _ hx, h⟩
          · rintro ⟨x, hx, h⟩
            rcases List.mem_cons.mp hx with rfl | hx
            · exact absurd ((under_iff _ x).mpr (hb.mp h).2) hu
            · exact ⟨x, hx, h⟩
      · rw [if_neg hc]
        refine ⟨r, h1, h2.trans ?_⟩
        constructor
        · rintro ⟨x, hx, h⟩
          exact ⟨x, List.mem_cons_of_mem _ hx, h⟩
        · rintro ⟨x, hx, h⟩
          rcases List.mem_cons.mp hx with rfl | hx
          · exact absurd ((prefix_sep_iff root n).mpr (hb.mp h).1) hc
          · exact ⟨x, hx, h⟩

theorem blacklist_match_total (bl : List blacklist_data) (p : Option (List Char))
    (hr : ∀ b ∈ bl, b.path ≠ none) :
    ∃ r, blacklist_match bl p = some r ∧ (r = true ↔ spec_match bl p) := by
  unfold blacklist_match spec_match
  cases p with
  | none => exact ⟨false, rfl, by simp⟩
  | some q =>
    by_cases hq : q.head? = some '/'
    · rw [normalized_path_eq q hq]
      obtain ⟨r, h1, h2⟩ := blacklist_match_loop_spec bl (spec_normalized_path q) hr
      refine ⟨r, h1, h2.trans ?_⟩
      constructor
      · intro h
        exact ⟨q, rfl, hq, h⟩
      · rintro ⟨q', hq', _, h⟩
        cases hq'
        exact h
    · have hn : normalized_path (some q) = none := by
        unfold normalized_path
        exact if_pos hq
      rw [hn]
      refine ⟨false, rfl, ?_⟩
      constructor
      · intro h
        cases h
      · rintro ⟨q', hq', hh, _⟩
        cases hq'
        exact absurd hh hq

theorem blacklist_match_normalized (bl : List blacklist_data) (p : Option (List Char)) :
    blacklist_match bl (normalized_path p) = blacklist_match bl p := by
  cases p with
  | none => rfl
  | some q =>
    by_cases hq : q.head? = some '/'
    · have h1 := normalized_path_eq q hq
      have h2 : (spec_normalized_path q).head? = some '/' := rfl
      unfold blacklist_match
      rw [h1, normalized_path_eq _ h2, spec_normalized_path_idem]
    · have hn : normalized_path (some q) = none := by
        unfold normalized_path
        exact if_pos hq
      unfold blacklist_match
      rw [hn]
      rfl

/-- C14: for a registry whose roots are all set, `blacklist_match` returns,
and returns true exactly when the path is absolute and its normalisation is
`r + "/" + s` for the root `r` of a registered blacklist and a name `s` that
equals an element `e` of that blacklist or starts with `e + "/"`.  Hence null
and relative paths never match, a path and its normalisation get the same
answer, the root of a blacklist is not matched by that blacklist, and a name
that extends an element without a '/' boundary is not matched by it. -/
theorem blacklist_match_iff (bl : List blacklist_data)
    (hr : ∀ b ∈ bl, b.path ≠ none) :
    (∀ p, ∃ r, blacklist_match bl p = some r ∧ (r = true ↔ spec_match bl p)) ∧
    blacklist_match bl none = some false ∧
    (∀ q : List Char, q.head? ≠ some '/' → blacklist_match bl (some q) = some false) ∧
    (∀ p, blacklist_match bl (normalized_path p) = blacklist_match bl p) ∧
    (∀ r E (q : List Char), q.head? = some '/' → spec_normalized_path q = r →
      blacklist_match [blacklist_data.mk (some r) E] (some q) = some false) ∧
    (∀ r e c x (q : List Char), q.head? = some '/' → c ≠ '/' →
      spec_normalized_path q = r ++ '/' :: (e ++ c :: x) →
      blacklist_match [blacklist_data.mk (some r) [e]] (some q) = some false) := by
  refine ⟨fun p => blacklist_match_total bl p hr, rfl, ?_,
    fun p => blacklist_match_normalized bl p, ?_, ?_⟩
  · intro q hq
    have hn : normalized_path (some q) = none := by
      unfold normalized_path
      exact if_pos hq
    unfold blacklist_match
    rw [hn]
  · intro r E q hq hn
    obtain ⟨res, h1, h2⟩ := blacklist_match_total [blacklist_data.mk (some r) E] (some q)
      (by simp)
    rw [h1]
    cases res with
    | false => rfl
    | true =>
      exfalso
      obtain ⟨q', hq', _, b, hb, r', s, hr', hs, _⟩ := h2.mp rfl
      cases hq'
      simp only [List.mem_singleton] at hb
      subst hb
      cases hr'
      rw [hn] at hs
      have := congrArg List.length hs
      simp at this
  · intro r e c x q hq hc hn
    obtain ⟨res, h1, h2⟩ := blacklist_match_total [blacklist_data.mk (some r) [e]] (some q)
      (by simp)
    rw [h1]
    cases res with
    | false => rfl
    | true =>
      exfalso
      obtain ⟨q', hq', _, b, hb, r', s, hr', hs, e', he', hcov⟩ := h2.mp rfl
      cases hq'
      simp only [List.mem_singleton] at hb
      subst hb
      cases hr'
      simp only [List.mem_singleton] at he'
      subst he'
      rw [hn] at hs
      have hs2 : e' ++ c :: x = s := by
        have := List.append_cancel_left hs
        simpa using this
      subst hs2
      rcases hcov with h | ⟨t, ht⟩
      · have := congrArg List.length h
        simp at this
      · rw [List.append_assoc] at ht
        have := List.append_cancel_left ht
        simp at this
        exact hc this.1.symm

theorem blacklist_match_iff_witness :
    (∀ b ∈ test_blacklists, b.path ≠ none) ∧
    blacklist_match test_blacklists (some "/home/nemo/../nemo/.ssh".toList) = some true ∧
    blacklist_match test_blacklists (some "/home/nemo/Music/DRM/BoringArtist".toList)
      = some true ∧
    blacklist_match test_blacklists (some "/home/nemo/.invisible_file2".toList) = some false ∧
    blacklist_match test_blacklists (some "/home/nemo".toList) = some false ∧
    spec_match test_blacklists (some "/home/nemo/.ssh/./".toList) ∧
    ((∀ p, ∃ r, blacklist_match test_blacklists p = some r ∧
        (r = true ↔ spec_match test_blacklists p)) ∧
      blacklist_match test_blacklists none = some false) :=
  ⟨by decide, by decide, by decide, by decide, by decide,
    ((blacklist_match_iff test_blacklists (by decide)).1
      (some "/home/nemo/.ssh/./".toList)).elim
      (fun r h => h.2.mp (Option.some.inj (h.1.symm.trans (by decide)))),
    (blacklist_match_iff test_blacklists (by decide)).1,
    (blacklist_match_iff test_blacklists (by decide)).2.1⟩

theorem spec_normalized_path_second (q : List Char) :
    (spec_normalized_path q).get? 1 ≠ some '/' := by
  unfold spec_normalized_path
  have hk := spec_components_kept q
  cases hc : spec_components q with
  | nil => simp [List.intercalate]
  | cons c cs =>
    rw [hc] at hk
    obtain ⟨h1, _, _, h4⟩ := hk c (List.mem_cons_self _ _)
    cases c with
    | nil => exact absurd rfl h1
    | cons x xs =>
      have hx : x ≠ '/' := fun h => h4 (by simp [h])
      cases cs with
      | nil => simpa [List.intercalate] using hx
      | cons d ds => simpa [List.intercalate] using hx

theorem blacklist_match_root_none (E : List (List Char)) (p : Option (List Char)) :
    blacklist_match [blacklist_data.mk (some ['/']) E] p = some false := by
  unfold blacklist_match
  cases p with
  | none => rfl
  | some q =>
    by_cases hq : q.head? = some '/'
    · rw [normalized_path_eq q hq]
      simp only [blacklist_match_loop]
      have h := spec_normalized_path_second q
      have hf : (['/'].isPrefixOf (spec_normalized_path q) &&
          ((spec_normalized_path q).get? ['/'].length == some G_DIR_SEPARATOR)) = false := by
        have : ((spec_normalized_path q).get? ['/'].length == some G_DIR_SEPARATOR) = false := by
          simpa [G_DIR_SEPARATOR] using h
        rw [this]
        simp
      rw [hf]
      rfl
    · have hn : normalized_path (some q) = none := by
        unfold normalized_path
        exact if_pos hq
      rw [hn]

/-- C15: a blacklist registered through `blacklist_add` for the storage path
"/" is stored with the root "/" and then matches no path at all: neither
"/" + "/" + ".ssh" nor "/.ssh" nor a file below it is matched, whereas the
same blacklist file registered for "/home" matches "/home/.ssh" and the
files below it. -/
theorem blacklist_match_root_storage :
    blacklist_add test_files [] (some "/".toList) (some "/etc/root.conf".toList)
      = (0, [blacklist_data.mk (some "/".toList) [".ssh".toList, "Music/DRM".toList]]) ∧
    blacklist_match
      (blacklist_add test_files [] (some "/".toList) (some "/etc/root.conf".toList)).2
      (some "//.ssh".toList) = some false ∧
    blacklist_match
      (blacklist_add test_files [] (some "/".toList) (some "/etc/root.conf".toList)).2
      (some "//.ssh/id_rsa".toList) = some false ∧
    blacklist_match
      (blacklist_add test_files [] (some "/home".toList) (some "/etc/root.conf".toList)).2
      (some "/home/.ssh".toList) = some true ∧
    blacklist_match
      (blacklist_add test_files [] (some "/home".toList) (some "/etc/root.conf".toList)).2
      (some "/home/.ssh/id_rsa".toList) = some true ∧
    (∀ E p, blacklist_match [blacklist_data.mk (some "/".toList) E] p = some false) :=
  ⟨by decide, by decide, by decide, by decide, by decide,
    fun E p => blacklist_match_root_none E p⟩

theorem blacklist_add_shape (fs : Files) (bl : List blacklist_data) (c : blacklist_config) :
    (∃ d, loaded fs c = some d ∧
      blacklist_add fs bl c.storage_path c.blacklist_file = (0, bl ++ [d])) ∨
    (∃ r, r < 0 ∧ loaded fs c = none ∧
      blacklist_add fs bl c.storage_path c.blacklist_file = (r, bl)) := by
  unfold loaded blacklist_add
  cases c.storage_path with
  | none => right; exact ⟨-EINVAL, by decide, rfl, rfl⟩
  | some sp =>
    cases c.blacklist_file with
    | none => right; exact ⟨-EINVAL, by decide, rfl, rfl⟩
    | some bf =>
      simp only []
      cases fs.g_io_channel_new_file bf with
      | none => right; exact ⟨- EIO, by decide, rfl, rfl⟩
      | some chan =>
        simp only []
        cases blacklist_add_loop chan [] with
        | none => right; exact ⟨- EIO, by decide, rfl, rfl⟩
        | some elem => left; exact ⟨_, rfl, rfl⟩

theorem add_configs_shape (fs : Files) (cs : List blacklist_config) :
    ∀ (bl : List blacklist_data) (r : Int) (bl' : List blacklist_data),
      add_configs fs bl cs = (r, bl') →
      (r = 0 ∧ ∃ added, bl' = bl ++ added ∧ cs.map (loaded fs) = added.map some) ∨
      (r < 0 ∧ ∃ k added c, k < cs.length ∧ bl' = bl ++ added ∧
        (cs.take k).map (loaded fs) = added.map some ∧ cs.get? k = some c ∧
        blacklist_add fs bl' c.storage_path c.blacklist_file = (r, bl')) := by
  induction cs with
  | nil =>
    intro bl r bl' h
    simp only [add_configs, Prod.mk.injEq] at h
    left
    exact ⟨h.1.symm, [], by simp [h.2], rfl⟩
  | cons c rest ih =>
    intro bl r bl' h
    rw [add_configs] at h
    rcases blacklist_add_shape fs bl c with ⟨d, hd, ha⟩ | ⟨r0, hr0, hd, ha⟩
    · rw [ha] at h
      simp only [lt_self_iff_false, if_false] at h
      rcases ih _ _ _ h with ⟨h0, added, hb, hm⟩ | ⟨hlt, k, added, c', hk, hb, hm, hg, hf⟩
      · left
        refine ⟨h0, d :: added, by simp [hb], ?_⟩
        simp [hd, hm]
      · right
        refine ⟨hlt, k + 1, d :: added, c', by simp [hk], by simp [hb], ?_, by simpa using hg, hf⟩
        simp [hd, hm]
    · rw [ha] at h
      simp only [hr0, if_true, Prod.mk.injEq] at h
      obtain ⟨h1, h2⟩ := h
      subst h1 h2
      right
      exact ⟨hr0, 0, [], c, by simp, by simp, rfl, rfl, ha⟩

/-- C17 (as stated, refuted): the configuration "/etc/two.xml" names two
blacklist files of which the second cannot be opened; `append_config` returns
`-EIO` and the blacklist of the first file stays in the list. -/
theorem append_config_partial_add :
    append_config test_files [] "/etc/two.xml".toList
      = some (- EIO, [blacklist_data.mk (some "/home/nemo".toList)
          [".ssh".toList, "Music/DRM".toList]]) ∧
    (∃ r bl, append_config test_files [] "/etc/two.xml".toList = some (r, bl) ∧ r ≠ 0 ∧
      bl ≠ []) :=
  ⟨by decide, - EIO, [blacklist_data.mk (some "/home/nemo".toList)
    [".ssh".toList, "Music/DRM".toList]], by decide, by decide, by decide⟩

/-- C17 (amended): when `append_config` returns a non-zero result and the
configuration file could not be read or parsed, the list of blacklists is the
same as before the call; when the file was parsed, the result is that of the
first `blacklist_add` that fails, and the list is the one before the call
followed by the blacklists of the configurations before the failing one. -/
theorem append_config_failure (fs : Files) (bl : List blacklist_data)
    (config_file : List Char) (r : Int) (bl' : List blacklist_data)
    (h : append_config fs bl config_file = some (r, bl')) (hr : r ≠ 0) :
    r < 0 ∧
    (parsed_configs fs config_file = none → bl' = bl) ∧
    (∀ cs, parsed_configs fs config_file = some cs →
      ∃ k added c, k < cs.length ∧ bl' = bl ++ added ∧
        (cs.take k).map (loaded fs) = added.map some ∧ cs.get? k = some c ∧
        blacklist_add fs bl' c.storage_path c.blacklist_file = (r, bl')) := by
  unfold append_config at h
  unfold parsed_configs
  cases hc : fs.g_file_get_contents config_file with
  | none =>
    rw [hc] at h
    simp only [Option.some.injEq, Prod.mk.injEq] at h
    refine ⟨by rw [← h.1]; decide, fun _ => h.2.symm, fun cs hcs => by simp at hcs⟩
  | some buf =>
    rw [hc] at h
    simp only [] at h ⊢
    by_cases hn : (!fs.g_markup_parse_context_new) = true
    · rw [if_pos hn] at h ⊢
      simp only [Option.some.injEq, Prod.mk.injEq] at h
      refine ⟨by rw [← h.1]; decide, fun _ => h.2.symm, fun cs hcs => by simp at hcs⟩
    · rw [if_neg hn] at h ⊢
      cases hrun : run_callbacks (fs.g_markup buf).1
          (parser_state.mk [config_elem.CONFIG_ELEM_ROOT] none none []) with
      | fault =>
        rw [hrun] at h
        simp at h
      | error =>
        rw [hrun] at h
        simp only [Option.some.injEq, Prod.mk.injEq] at h
        refine ⟨by rw [← h.1]; decide, fun _ => h.2.symm, fun cs hcs => by simp at hcs⟩
      | ok state =>
        rw [hrun] at h
        simp only [] at h ⊢
        by_cases hw : (!(fs.g_markup buf).2) = true
        · rw [if_pos hw] at h ⊢
          simp only [Option.some.injEq, Prod.mk.injEq] at h
          refine ⟨by rw [← h.1]; decide, fun _ => h.2.symm, fun cs hcs => by simp at hcs⟩
        · rw [if_neg hw] at h ⊢
          simp only [Option.some.injEq] at h
          rcases add_configs_shape fs state.configs bl r bl' h with
            ⟨h0, _⟩ | ⟨hlt, k, added, c, hk, hb, hm, hg, hf⟩
          · exact absurd h0 hr
          · refine ⟨hlt, fun hcs => by simp at hcs, fun cs hcs => ?_⟩
            simp only [Option.some.injEq] at hcs
            subst hcs
            exact ⟨k, added, c, hk, hb, hm, hg, hf⟩

theorem append_config_failure_witness :
    append_config test_files [] "/etc/two.xml".toList
      = some (-5, [blacklist_data.mk (some "/home/nemo".toList)
          [".ssh".toList, "Music/DRM".toList]]) ∧
    (-5 : Int) ≠ 0 ∧
    (parsed_configs test_files "/etc/two.xml".toList).isSome = true ∧
    ((-5 : Int) < 0 ∧
    (parsed_configs test_files "/etc/two.xml".toList = none →
      [blacklist_data.mk (some "/home/nemo".toList) [".ssh".toList, "Music/DRM".toList]] = []) ∧
    (∀ cs, parsed_configs test_files "/etc/two.xml".toList = some cs →
      ∃ k added c, k < cs.length ∧
        [blacklist_data.mk (some "/home/nemo".toList) [".ssh".toList, "Music/DRM".toList]]
          = [] ++ added ∧
        (cs.take k).map (loaded test_files) = added.map some ∧ cs.get? k = some c ∧
        blacklist_add test_files
          [blacklist_data.mk (some "/home/nemo".toList) [".ssh".toList, "Music/DRM".toList]]
          c.storage_path c.blacklist_file
          = (-5, [blacklist_data.mk (some "/home/nemo".toList)
              [".ssh".toList, "Music/DRM".toList]]))) :=
  ⟨by decide, by decide, by decide,
    append_config_failure test_files [] "/etc/two.xml".toList (-5) _ (by decide) (by decide)⟩

end Blacklist

namespace Access

theorem register_spec (reg : Registry) (name : Option (List Char))
    (plugin : Option access_plugin) (user_data : Option Nat) :
    ((access_plugin_register reg name plugin user_data).1 = 0 ↔
      (name ≠ none ∧ (∃ p, plugin = some p ∧ p.check ≠ none ∧ p.check_at ≠ none) ∧
        ¬ reg.registered)) ∧
    ((access_plugin_register reg name plugin user_data).1 = 0 →
      (access_plugin_register reg name plugin user_data).2
        = Registry.mk name plugin user_data) ∧
    ((access_plugin_register reg name plugin user_data).1 ≠ 0 →
      (access_plugin_register reg name plugin user_data).1 < 0 ∧
      (access_plugin_register reg name plugin user_data).2 = reg) := by
  unfold access_plugin_register Registry.registered
  cases name with
  | none => simp [EINVAL]
  | some n =>
    cases plugin with
    | none => simp [EINVAL]
    | some p =>
      obtain ⟨c, ca⟩ := p
      cases c <;> cases ca <;> cases hn : reg.plugin_name <;> simp [EINVAL, EALREADY, hn]

theorem unregister_spec (reg : Registry) (name : Option (List Char)) :
    ((access_plugin_unregister reg name).1 = 0 ↔
      ∃ n, name = some n ∧ reg.plugin_name = some n) ∧
    ((access_plugin_unregister reg name).1 = 0 →
      (access_plugin_unregister reg name).2 = Registry.mk none none none) ∧
    ((access_plugin_unregister reg name).1 ≠ 0 →
      (access_plugin_unregister reg name).1 < 0 ∧
      (access_plugin_unregister reg name).2 = reg) := by
  unfold access_plugin_unregister
  cases name with
  | none => simp [ENOENT]
  | some n =>
    cases hn : reg.plugin_name with
    | none => simp [ENOENT]
    | some m =>
      by_cases h : n = m
      · simp [h]
      · have h' : ¬ m = n := fun hc => h hc.symm
        simp [h, h', ENOENT]

/-- C16: `access_plugin_register` returns 0 exactly when the name, the
plugin and both of its callbacks are set and no plugin is registered, and
then the registry holds the new plugin; `access_plugin_unregister` returns 0
exactly when a plugin is registered under the given name, and then no plugin
is registered; every other call returns a negative result and leaves the
registry unchanged.  In every registry reached from the start the name and
the plugin pointer are set together, so at most one plugin is registered. -/
theorem access_plugin_registry :
    (∀ reg name plugin user_data,
      ((access_plugin_register reg name plugin user_data).1 = 0 ↔
        (name ≠ none ∧ (∃ p, plugin = some p ∧ p.check ≠ none ∧ p.check_at ≠ none) ∧
          ¬ reg.registered)) ∧
      ((access_plugin_register reg name plugin user_data).1 = 0 →
        (access_plugin_register reg name plugin user_data).2
          = Registry.mk name plugin user_data) ∧
      ((access_plugin_register reg name plugin user_data).1 ≠ 0 →
        (access_plugin_register reg name plugin user_data).1 < 0 ∧
        (access_plugin_register reg name plugin user_data).2 = reg)) ∧
    (∀ reg name,
      ((access_plugin_unregister reg name).1 = 0 ↔
        ∃ n, name = some n ∧ reg.plugin_name = some n) ∧
      ((access_plugin_unregister reg name).1 = 0 →
        ¬ (access_plugin_unregister reg name).2.registered ∧
        (access_plugin_unregister reg name).2 = Registry.empty) ∧
      ((access_plugin_unregister reg name).1 ≠ 0 →
        (access_plugin_unregister reg name).1 < 0 ∧
        (access_plugin_unregister reg name).2 = reg)) ∧
    (∀ reg, Registry.reachable reg →
      (reg.plugin_name = none ↔ reg.plugin_ptr = none) ∧
      (∀ p, reg.plugin_ptr = some p → p.check ≠ none ∧ p.check_at ≠ none)) ∧
    (access_plugin_register (access_plugin_register Registry.empty (some "dummy".toList)
        (some (access_plugin.mk (some 1) (some 2))) none).2 (some "dummy2".toList)
        (some (access_plugin.mk (some 1) (some 2))) none).1 = -EALREADY := by
  refine ⟨register_spec, ?_, ?_, by decide⟩
  · intro reg name
    obtain ⟨h1, h2, h3⟩ := unregister_spec reg name
    refine ⟨h1, fun h => ?_, h3⟩
    rw [h2 h]
    exact ⟨fun hc => hc rfl, rfl⟩
  · intro reg hr
    induction hr with
    | start => exact ⟨by simp [Registry.empty], by simp [Registry.empty]⟩
    | register reg name plugin user_data _ ih =>
      obtain ⟨h1, h2, h3⟩ := register_spec reg name plugin user_data
      by_cases h : (access_plugin_register reg name plugin user_data).1 = 0
      · rw [h2 h]
        obtain ⟨hn, ⟨p, hp, hc, hca⟩, _⟩ := h1.mp h
        subst hp
        refine ⟨by simp [hn], ?_⟩
        intro q hq
        simp only [Option.some.injEq] at hq
        subst hq
        exact ⟨hc, hca⟩
      · rw [(h3 h).2]
        exact ih
    | unregister reg name _ ih =>
      obtain ⟨h1, h2, h3⟩ := unregister_spec reg name
      by_cases h : (access_plugin_unregister reg name).1 = 0
      · rw [h2 h]
        simp
      · rw [(h3 h).2]
        exact ih

end Access

namespace Exclude

/-- C18: with the rules "with A exclude B" and "with C exclude D", a device
without tracked state and the probed services 1 (remote UUID "A") and 2
(remote UUID "D"), `filter_cb` removes service 2 although no service with
remote UUID "C" is in the list; the pairs the rules name, [1, 3] and [4, 2],
are filtered as the specification expects. -/
theorem filter_cb_mixes_rules :
    (filter_cb test_env test_exclusives [] 7 [1, 2]).1 = [1] ∧
    spec_filter test_env test_exclusives [1, 2] = [1, 2] ∧
    (filter_cb test_env test_exclusives [] 7 [1, 2]).2.2
      = [Event.device_remove_profile 7 2] ∧
    (filter_cb test_env test_exclusives [] 7 [1, 3]).1 = [1] ∧
    spec_filter test_env test_exclusives [1, 3] = [1] ∧
    (filter_cb test_env test_exclusives [] 7 [4, 2]).1 = [4] ∧
    spec_filter test_env test_exclusives [4, 2] = [4] := by
  decide

end Exclude

namespace Blacklist

theorem init_loop_negative (fs : Files) (path : List Char) (names : List (List Char)) :
    ∀ (bl bl' : List blacklist_data) (r : Int),
      init_loop fs path names bl = some (some r, bl') → r < 0 := by
  induction names with
  | nil =>
    intro bl bl' r h
    simp [init_loop] at h
  | cons name rest ih =>
    intro bl bl' r h
    rw [init_loop] at h
    split_ifs at h with hc
    · cases ha : append_config fs bl (g_build_filename path name) with
      | none => rw [ha] at h; cases h
      | some x =>
        obtain ⟨r0, b0⟩ := x
        rw [ha] at h
        simp only [] at h
        by_cases hr : r0 < 0
        · rw [if_pos hr] at h
          simp only [Option.some.injEq, Prod.mk.injEq] at h
          rw [← h.1]
          exact hr
        · rw [if_neg hr] at h
          exact ih _ _ _ h
    · exact ih _ _ _ h

theorem register_registered (reg : Access.Registry) (hreg : reg.registered) :
    Access.access_plugin_register reg (some "jolla_blacklist".toList)
      (some jolla_blacklist_plugin) none = (-Access.EALREADY, reg) := by
  unfold Access.access_plugin_register jolla_blacklist_plugin
  unfold Access.Registry.registered at hreg
  cases hn : reg.plugin_name with
  | none => exact absurd hn hreg
  | some n => simp

theorem jolla_blacklist_init_registered (fs : Files) (config_dir : Option (List Char))
    (bl bl' : List blacklist_data) (reg reg' : Access.Registry) (r : Int)
    (hreg : reg.registered)
    (h : jolla_blacklist_init fs config_dir bl reg = some (r, bl', reg')) :
    r < 0 ∧ bl' = [] ∧ reg' = reg := by
  unfold jolla_blacklist_init at h
  simp only [] at h
  by_cases hd : (!fs.g_file_test_is_dir (config_dir.getD CONFIG_DIR)) = true
  · rw [if_pos hd] at h
    simp only [Option.some.injEq, Prod.mk.injEq] at h
    exact ⟨by rw [← h.1]; decide, h.2.1.symm, h.2.2.symm⟩
  · rw [if_neg hd] at h
    cases hn : fs.g_dir_read (config_dir.getD CONFIG_DIR) with
    | none =>
      rw [hn] at h
      simp only [Option.some.injEq, Prod.mk.injEq] at h
      exact ⟨by rw [← h.1]; decide, h.2.1.symm, h.2.2.symm⟩
    | some names =>
      rw [hn] at h
      simp only [] at h
      cases hl : init_loop fs (config_dir.getD CONFIG_DIR) names bl with
      | none => rw [hl] at h; cases h
      | some x =>
        obtain ⟨x1, x2⟩ := x
        rw [hl] at h
        cases x1 with
        | some r0 =>
          simp only [Option.some.injEq, Prod.mk.injEq] at h
          refine ⟨?_, h.2.1.symm, h.2.2.symm⟩
          rw [← h.1]
          exact init_loop_negative fs _ names bl x2 r0 hl
        | none =>
          simp only [] at h
          rw [register_registered reg hreg] at h
          have hneg : -Access.EALREADY < 0 := by decide
          rw [if_pos hneg] at h
          simp only [Option.some.injEq, Prod.mk.injEq] at h
          exact ⟨by rw [← h.1]; exact hneg, h.2.1.symm, h.2.2.symm⟩

/-- C27: the first `jolla_blacklist_init` on the configuration of
`test_files_init` loads the blacklist of "/home/nemo" and registers the
plugin, and "/home/nemo/.ssh" is matched; the second call loads the
configuration again, fails in `access_plugin_register` with `-EALREADY` and
clears the whole list, so the path is no longer matched although the plugin
of the first call is still registered.  In general a call made while a plugin
is registered returns a negative result with an empty list. -/
theorem jolla_blacklist_init_double :
    jolla_blacklist_init test_files_init none [] Access.Registry.empty
      = some (0, [nemo_blacklist], jolla_registry) ∧
    blacklist_match [nemo_blacklist] (some "/home/nemo/.ssh".toList) = some true ∧
    jolla_blacklist_check [nemo_blacklist] (some "/home/nemo/.ssh".toList) = some (-1) ∧
    jolla_blacklist_init test_files_init none [nemo_blacklist] jolla_registry
      = some (-Access.EALREADY, [], jolla_registry) ∧
    blacklist_match [] (some "/home/nemo/.ssh".toList) = some false ∧
    jolla_blacklist_check [] (some "/home/nemo/.ssh".toList) = some 0 ∧
    jolla_registry.registered ∧
    (∀ fs config_dir bl bl' reg reg' r, Access.Registry.registered reg →
      jolla_blacklist_init fs config_dir bl reg = some (r, bl', reg') →
      r < 0 ∧ bl' = [] ∧ reg' = reg) :=
  ⟨by decide, by decide, by decide, by decide, by decide, by decide,
    (by unfold Access.Registry.registered; decide),
    fun fs config_dir bl bl' reg reg' r hreg h =>
      jolla_blacklist_init_registered fs config_dir bl bl' reg reg' r hreg h⟩

end Blacklist
